import Mathlib

/-!
# mcwm: a verification development

A shallow embedding of the window, workspace and monitor bookkeeping of
`mcwm.c`, of its geometry fitting, of moving, resizing and snapping, of its
handling of configure requests, of maximizing, of the mouse buttons and of
changing the screen of a window, with theorems about them.

Conventions of the embedding.

* C integers are `Int`.  An assignment to an `int16_t` lvalue goes through
  `toInt16`, one to a `uint16_t` lvalue through `toUInt16`; comparisons and
  arithmetic happen on the promoted `int` values, as in C.
* A pointer is a `Nat` address handed out by a counter (`State.nextptr`);
  `NULL` is `none`.
* `winlist` and `monlist` are the lists of the records their items point to,
  head first; every record carries its own address.  A workspace list is a
  list of `Item`s, each with its own address and the address of its client.
* Requests sent to the X server are appended to `State.out`.
* `MOVE_STEP` of `config.h` is a parameter of the functions that use it.
* The functions whose name ends in `Alloc` take the outcome of each allocation
  as an argument; the others are the case in which every allocation succeeds.
-/

namespace Mcwm

/-! ## Machine integers -/

/-- Conversion of an `int` value to `int16_t` (two's complement wrap). -/
def toInt16 (v : Int) : Int := (v + 32768) % 65536 - 32768

/-- Conversion of an `int` value to `uint16_t`. -/
def toUInt16 (v : Int) : Int := v % 65536

/-- Conversion to `uint32_t`. -/
def toUInt32 (v : Int) : Int := v % 4294967296

/-- Conversion to `int32_t`. -/
def toInt32 (v : Int) : Int := (v + 2147483648) % 4294967296 - 2147483648

/-- Range of an `int16_t`. -/
def isInt16 (v : Int) : Prop := -32768 ≤ v ∧ v ≤ 32767

/-- Range of a `uint16_t`. -/
def isUInt16 (v : Int) : Prop := 0 ≤ v ∧ v ≤ 65535

instance (v : Int) : Decidable (isInt16 v) := by unfold isInt16; infer_instance
instance (v : Int) : Decidable (isUInt16 v) := by unfold isUInt16; infer_instance

/-! ## Constants -/

def MCWM_MOVE : Nat := 2
def MCWM_RESIZE : Nat := 3
def MCWM_TABBING : Nat := 4
def WORKSPACES : Nat := 10
def NET_WM_FIXED : Nat := 0xffffffff
def MCWM_NOWS : Nat := 0xfffffffe

/-! ## Types -/

/-- The `struct monitor`; `ptr` is the address of the record. -/
structure Monitor where
  ptr : Nat
  id : Nat
  x : Int
  y : Int
  width : Int
  height : Int
deriving DecidableEq, Repr

/-- The `struct sizepos`. -/
structure Sizepos where
  x : Int
  y : Int
  width : Int
  height : Int
deriving DecidableEq, Repr

/-- The `struct client`; `ptr` is the address of the record, `monitor` the
address of its monitor and `wsitem ws` the address of its item in workspace
list `ws`. -/
structure Client where
  ptr : Nat
  id : Nat
  usercoord : Bool
  x : Int
  y : Int
  width : Int
  height : Int
  origsize : Sizepos
  min_width : Int
  min_height : Int
  max_width : Int
  max_height : Int
  width_inc : Int
  height_inc : Int
  base_width : Int
  base_height : Int
  vertmaxed : Bool
  maxed : Bool
  fixed : Bool
  monitor : Option Nat
  wsitem : Nat → Option Nat

/-- The `struct conf` (the terminal path is left out). -/
structure Conf where
  borderwidth : Int
  snapmargin : Int
  focuscol : Nat
  unfocuscol : Nat
  fixedcol : Nat
  allowicons : Bool
deriving DecidableEq, Repr

/-- The fields of `xcb_screen_t` that are read. -/
structure Screen where
  root : Nat
  width_in_pixels : Int
  height_in_pixels : Int
deriving DecidableEq, Repr

/-- Requests to the X server. -/
inductive Request where
  | changeDesktop (win : Nat) (ws : Nat)
  | unmapWindow (win : Nat)
  | mapWindow (win : Nat)
  | borderPixel (win : Nat) (col : Nat)
  | borderWidth (win : Nat) (width : Int)
  | eventMask (win : Nat)
  | saveSet (win : Nat)
  | stackAbove (win : Nat)
  | stackTopIf (win : Nat)
  | moveTo (win : Nat) (x : Int) (y : Int)
  | resizeTo (win : Nat) (width : Int) (height : Int)
  | inputFocus (win : Option Nat)
  | warpPointer (win : Nat) (x : Int) (y : Int)
  | wmStateNormal (win : Nat)
  | flush
  | configureWindow (win : Nat) (mask : Nat) (values : List Int)
  | grabPointer
  | ungrabPointer
deriving DecidableEq, Repr

/-! ## Geometry: `fitonscreen` -/

/-- The governing rectangle `(mon_x, mon_y, mon_width, mon_height)` computed at
the head of `fitonscreen`: the root window when the client has no monitor. -/
def monrect (screen : Screen) (mon : Option Monitor) : Sizepos :=
  match mon with
  | none => ⟨0, 0, screen.width_in_pixels, screen.height_in_pixels⟩
  | some m => ⟨m.x, m.y, m.width, m.height⟩

/-- The result of the geometry part of `fitonscreen`: the client and the
flags `willmove` and `willresize`. -/
structure FitResult where
  client : Client
  willmove : Bool
  willresize : Bool

/-- The statement `if (client->x > mon_x + mon_width)`: the client is to the right
of the rectangle. -/
def fitOutsideX (mon_x mon_width : Int) (r : FitResult) : FitResult :=
  if r.client.x > mon_x + mon_width then
    { r with client := { r.client with x := toInt16 (mon_x + mon_width - r.client.width) },
             willmove := true }
  else r

/-- The statement `if (client->y > mon_y + mon_height)`: the client is below the
rectangle. -/
def fitOutsideY (mon_y mon_height : Int) (r : FitResult) : FitResult :=
  if r.client.y > mon_y + mon_height then
    { r with client := { r.client with y := toInt16 (mon_y + mon_height - r.client.height) },
             willmove := true }
  else r

/-- The statement `if (client->x < mon_x)`. -/
def fitBeforeX (mon_x : Int) (r : FitResult) : FitResult :=
  if r.client.x < mon_x then
    { r with client := { r.client with x := mon_x }, willmove := true }
  else r

/-- The statement `if (client->y < mon_y)`. -/
def fitBeforeY (mon_y : Int) (r : FitResult) : FitResult :=
  if r.client.y < mon_y then
    { r with client := { r.client with y := mon_y }, willmove := true }
  else r

/-- The statement `if (0 != client->min_height && client->height <
client->min_height)`. -/
def fitMinHeight (r : FitResult) : FitResult :=
  if 0 ≠ r.client.min_height ∧ r.client.height < r.client.min_height then
    { r with client := { r.client with height := r.client.min_height }, willresize := true }
  else r

/-- The statement `if (0 != client->min_width && client->width <
client->min_width)`. -/
def fitMinWidth (r : FitResult) : FitResult :=
  if 0 ≠ r.client.min_width ∧ r.client.width < r.client.min_width then
    { r with client := { r.client with width := r.client.min_width }, willresize := true }
  else r

/-- The statement `if (client->width + conf.borderwidth * 2 > mon_width) ... else if
...`: a client wider than the rectangle goes to the corner and is resized. -/
def fitLargerX (bw mon_x mon_width : Int) (r : FitResult) : FitResult :=
  if r.client.width + bw * 2 > mon_width then
    { client := { r.client with x := mon_x, width := toUInt16 (mon_width - bw * 2) },
      willmove := true, willresize := true }
  else if r.client.x + r.client.width + bw * 2 > mon_x + mon_width then
    { r with client :=
               { r.client with x := toInt16 (mon_x + mon_width - (r.client.width + bw * 2)) },
             willmove := true }
  else r

/-- The statement `if (client->height + conf.borderwidth * 2 > mon_height) ... else if
...`. -/
def fitLargerY (bw mon_y mon_height : Int) (r : FitResult) : FitResult :=
  if r.client.height + bw * 2 > mon_height then
    { client := { r.client with y := mon_y, height := toUInt16 (mon_height - bw * 2) },
      willmove := true, willresize := true }
  else if r.client.y + r.client.height + bw * 2 > mon_y + mon_height then
    { r with client :=
               { r.client with y := toInt16 (mon_y + mon_height - (r.client.height + bw * 2)) },
             willmove := true }
  else r

/-- The body of `fitonscreen` from the comparison with the monitor on, for the
rectangle `(mon_x, mon_y, mon_width, mon_height)` and border width `bw`: the
statements of the source in their order, starting with `willmove` and
`willresize` both false. -/
def fitgeom (bw mon_x mon_y mon_width mon_height : Int) (client : Client) : FitResult :=
  let r : FitResult := { client := client, willmove := false, willresize := false }
  let r := fitOutsideX mon_x mon_width r
  let r := fitOutsideY mon_y mon_height r
  let r := fitBeforeX mon_x r
  let r := fitBeforeY mon_y r
  let r := fitMinHeight r
  let r := fitMinWidth r
  let r := fitLargerX bw mon_x mon_width r
  fitLargerY bw mon_y mon_height r

/-- The requests of `movewindow`: nothing for the root window or window 0. -/
def movewindow (screen : Screen) (win : Nat) (x y : Int) : List Request :=
  if screen.root = win ∨ 0 = win then []
  else [Request.moveTo win (toUInt16 x) (toUInt16 y), Request.flush]

/-- The requests of `resize`. -/
def resize (screen : Screen) (win : Nat) (width height : Int) : List Request :=
  if screen.root = win ∨ 0 = win then []
  else [Request.resizeTo win (toUInt16 width) (toUInt16 height), Request.flush]

/-- The requests of `setborders`. -/
def setborders (client : Client) (width : Int) : List Request :=
  [Request.borderWidth client.id (toUInt32 width), Request.flush]

/-- The function `fitonscreen` on a client whose monitor pointer has been
resolved to `mon`: the fitted client and the requests sent. -/
def fitonscreen (conf : Conf) (screen : Screen) (mon : Option Monitor) (client : Client) :
    Client × List Request :=
  let wasmaxed := client.maxed
  let reqs0 := if wasmaxed then setborders client conf.borderwidth else []
  let client := { client with vertmaxed := false, maxed := false }
  let r := monrect screen mon
  let res := fitgeom conf.borderwidth r.x r.y r.width r.height client
  let reqs1 := if res.willmove then movewindow screen res.client.id res.client.x res.client.y
    else []
  let reqs2 := if res.willresize then
      resize screen res.client.id res.client.width res.client.height
    else []
  (res.client, reqs0 ++ reqs1 ++ reqs2)

/-- Well-formedness of the geometry fields of a client: each lies in the range
of its C type. -/
def Client.geomOk (c : Client) : Prop :=
  isInt16 c.x ∧ isInt16 c.y ∧ isUInt16 c.width ∧ isUInt16 c.height ∧
  isUInt16 c.min_width ∧ isUInt16 c.min_height

/-- Well-formedness of a rectangle: origin in `int16_t`, extents in `uint16_t`. -/
def rectOk (r : Sizepos) : Prop :=
  isInt16 r.x ∧ isInt16 r.y ∧ isUInt16 r.width ∧ isUInt16 r.height

instance (c : Client) : Decidable c.geomOk := by unfold Client.geomOk; infer_instance
instance (r : Sizepos) : Decidable (rectOk r) := by unfold rectOk; infer_instance

/-- One axis of `fitgeom`: the position and the extent after the statements
that concern this axis, in their order. -/
def fitaxis (bw mpos msize pos size min : Int) : Int × Int :=
  let pos := if pos > mpos + msize then toInt16 (mpos + msize - size) else pos
  let pos := if pos < mpos then mpos else pos
  let size := if 0 ≠ min ∧ size < min then min else size
  if size + bw * 2 > msize then (mpos, toUInt16 (msize - bw * 2))
  else if pos + size + bw * 2 > mpos + msize then
    (toInt16 (mpos + msize - (size + bw * 2)), size)
  else (pos, size)

/-- A configuration with border width `bw` and no snap margin. -/
def exConf (bw : Int) : Conf :=
  { borderwidth := bw, snapmargin := 0, focuscol := 1, unfocuscol := 2, fixedcol := 3,
    allowicons := false }

/-- A screen of the given size whose root window is window 100. -/
def exScreen (width height : Int) : Screen :=
  { root := 100, width_in_pixels := width, height_in_pixels := height }

/-- A client record with the given geometry and everything else at the values
`setupwin` initialises it to. -/
def mkClient (ptr id : Nat) (x y width height min_width min_height : Int) : Client :=
  { ptr := ptr, id := id, usercoord := false, x := x, y := y, width := width,
    height := height, origsize := ⟨0, 0, 0, 0⟩, min_width := min_width,
    min_height := min_height, max_width := 0, max_height := 0, width_inc := 1,
    height_inc := 1, base_width := 0, base_height := 0, vertmaxed := false,
    maxed := false, fixed := false, monitor := none, wsitem := fun _ => none }

/-! ## The lists of `list.h` -/

/-- The `struct item` of a workspace list: its own address and, as `data`, the
address of the client it stands for. -/
structure Item where
  ptr : Nat
  data : Nat
deriving DecidableEq, Repr

/-- Modelled from the spec: `additem` of `list.h`/`list.c`, which are not under
`src/`.  A new entry is inserted into the list ("`assign` inserts into that
workspace's list", "create a Monitor and insert at the tail of the ring");
the entry is handed over already holding its data, which the callers store
right after the call. -/
def additem {α : Type} (list : List α) (item : α) : List α := list ++ [item]

/-- Modelled from the spec: `delitem` of `list.h`/`list.c`, which are not under
`src/`: the entry at address `item` is taken out of the list and the others
keep their order ("removes it from all lists", "removal ... given the
index"); a `NULL` item changes nothing. -/
def delitem (list : List Item) (item : Option Nat) : List Item :=
  match item with
  | none => list
  | some p => list.filter (fun it => it.ptr ≠ p)

/-- Modelled from the spec: `movetohead` of `list.h`/`list.c`, which are not
under `src/`: "moving the ... window to the list head", the other entries
keeping their order; a `NULL` item, or one that is not in the list, changes
nothing. -/
def movetohead (list : List Item) (item : Option Nat) : List Item :=
  match item with
  | none => list
  | some p =>
    match list.find? (fun it => it.ptr = p) with
    | none => list
    | some it => it :: list.filter (fun it => it.ptr ≠ p)

/-- Replace the value of a C array or table at index `i`. -/
def upd {α : Type} (f : Nat → α) (i : Nat) (v : α) : Nat → α :=
  fun j => if j = i then v else f j

/-! ## The global state -/

/-- The globals of `mcwm.c` together with the pointer counter and the requests
sent so far. -/
structure State where
  conf : Conf
  screen : Screen
  randrbase : Int
  curws : Nat
  focuswin : Option Nat
  lastfocuswin : Option Nat
  winlist : List Client
  monlist : List Monitor
  mode : Nat
  wslist : Nat → List Item
  modkeys : List Nat
  nextptr : Nat
  out : List Request

/-- The state at program start: no client, no monitor, workspace 0. -/
def State.init (conf : Conf) (screen : Screen) (randrbase : Int) (modkeys : List Nat) : State :=
  { conf := conf, screen := screen, randrbase := randrbase, curws := 0, focuswin := none,
    lastfocuswin := none, winlist := [], monlist := [], mode := 0, wslist := fun _ => [],
    modkeys := modkeys, nextptr := 1, out := [] }

/-- Dereference a client pointer; `none` when no live client is at `p`. -/
def State.client? (s : State) (p : Nat) : Option Client :=
  s.winlist.find? (fun c => c.ptr = p)

/-- Dereference a monitor pointer. -/
def State.monitor? (s : State) (p : Nat) : Option Monitor :=
  s.monlist.find? (fun m => m.ptr = p)

/-- Store the record `c` at its address. -/
def State.setClient (s : State) (c : Client) : State :=
  { s with winlist := s.winlist.map (fun d => if d.ptr = c.ptr then c else d) }

/-- Send requests to the server. -/
def State.send (s : State) (rs : List Request) : State :=
  { s with out := s.out ++ rs }

/-- The number of entries of workspace list `ws` that stand for the client at `p`. -/
def State.memberCount (s : State) (p : Nat) (ws : Nat) : Nat :=
  ((s.wslist ws).filter (fun it => it.data = p)).length

/-- The monitor a client pointer field resolves to; `none` inside the result
stands for `NULL`, an outer `none` for a pointer to a freed monitor. -/
def State.resolveMonitor (s : State) (m : Option Nat) : Option (Option Monitor) :=
  match m with
  | none => some none
  | some p => (s.monitor? p).map some

/-- The function `fitonscreen` on the client at address `p`. -/
def fitonscreenAt (s : State) (p : Nat) : Option State := do
  let client ← s.client? p
  let mon ← s.resolveMonitor client.monitor
  let r := fitonscreen s.conf s.screen mon client
  pure ((s.setClient r.1).send r.2)

/-! ## Workspaces -/

/-- The function `setwmdesktop`. -/
def setwmdesktop (s : State) (win : Nat) (ws : Nat) : State :=
  s.send [Request.changeDesktop win ws]

/-- The function `addtoworkspace` (allocation succeeding). -/
def addtoworkspace (s : State) (p : Nat) (ws : Nat) : Option State := do
  let client ← s.client? p
  let item := s.nextptr
  let s := { s with wslist := upd s.wslist ws (additem (s.wslist ws) ⟨item, p⟩),
                    nextptr := s.nextptr + 1 }
  let client := { client with wsitem := upd client.wsitem ws (some item) }
  let s := s.setClient client
  pure (if !client.fixed then setwmdesktop s client.id ws else s)

/-- The function `delfromworkspace`. -/
def delfromworkspace (s : State) (p : Nat) (ws : Nat) : Option State := do
  let client ← s.client? p
  let s := { s with wslist := upd s.wslist ws (delitem (s.wslist ws) (client.wsitem ws)) }
  pure (s.setClient { client with wsitem := upd client.wsitem ws none })

/-- The function `setunfocus`. -/
def setunfocus (s : State) (win : Nat) : Option State :=
  match s.focuswin with
  | none => some s
  | some f => do
    let fc ← s.client? f
    if fc.id = s.screen.root then pure s
    else pure (s.send [Request.borderPixel win s.conf.unfocuscol, Request.flush])

/-- The requests of one of the two loops of `changeworkspace` over a workspace
list: `req` for every client that is not fixed. -/
def wsRequests (s : State) (req : Nat → Request) : List Item → Option (List Request)
  | [] => some []
  | item :: rest => do
    let client ← s.client? item.data
    let rs ← wsRequests s req rest
    pure (if !client.fixed then req client.id :: rs else rs)

/-- The windows of the clients of a workspace list that are not fixed, in the
order of the list. -/
def nonFixedIds (s : State) (l : List Item) : List Nat :=
  ((l.filterMap (fun it => s.client? it.data)).filter (fun c => !c.fixed)).map (fun c => c.id)

/-- The first statement of `changeworkspace`: the focus is lost if the focused
window is not fixed. -/
def loseFocus (s : State) : Option State :=
  match s.focuswin with
  | none => some s
  | some f => do
    let fc ← s.client? f
    if !fc.fixed then
      let s ← setunfocus s fc.id
      pure { s with focuswin := none }
    else pure s

/-- The function `changeworkspace`. -/
def changeworkspace (s : State) (ws : Nat) : Option State :=
  if ws = s.curws then some s
  else do
    let s ← loseFocus s
    -- Go through list of current ws. Unmap everything that is not fixed.
    let unmaps ← wsRequests s Request.unmapWindow (s.wslist s.curws)
    -- Go through list of new ws. Map everything that is not fixed.
    let maps ← wsRequests s Request.mapWindow (s.wslist ws)
    let s := s.send (unmaps ++ maps ++ [Request.flush])
    pure { s with curws := ws }

/-- A `for (ws = ...; ...; ws ++)` loop over the workspaces in `wss`. -/
def wsloop (body : State → Nat → Option State) (s : State) : List Nat → Option State
  | [] => some s
  | ws :: rest => (body s ws).bind (fun s1 => wsloop body s1 rest)

/-- The requests of `raisewindow`. -/
def raisewindow (s : State) (win : Nat) : State :=
  if s.screen.root = win ∨ 0 = win then s
  else s.send [Request.stackAbove win, Request.flush]

/-- The function `fixwindow`; `client` is the pointer argument. -/
def fixwindow (s : State) (client : Option Nat) (setcolour : Bool) : Option State :=
  match client with
  | none => some s
  | some p => do
    let c ← s.client? p
    if c.fixed then
      let s := s.setClient { c with fixed := false }
      let s := setwmdesktop s c.id s.curws
      let s := if setcolour then s.send [Request.borderPixel c.id s.conf.focuscol] else s
      -- Delete from all workspace lists except current.
      let s ← wsloop (fun s ws => if ws ≠ s.curws then delfromworkspace s p ws else some s) s
        (List.range WORKSPACES)
      pure (s.send [Request.flush])
    else
      let s := raisewindow s c.id
      let s := s.setClient { c with fixed := true }
      let s := setwmdesktop s c.id NET_WM_FIXED
      -- Add window to all workspace lists.
      let s ← wsloop (fun s ws => if ws ≠ s.curws then addtoworkspace s p ws else some s) s
        (List.range WORKSPACES)
      let s := if setcolour then s.send [Request.borderPixel c.id s.conf.fixedcol] else s
      pure (s.send [Request.flush])

/-- The function `forgetclient`. -/
def forgetclient (s : State) (client : Option Nat) : Option State :=
  match client with
  | none => some s
  | some p => do
    let s ← wsloop (fun s ws => do
        let c ← s.client? p
        if (c.wsitem ws).isSome then delfromworkspace s p ws else pure s) s
      (List.range WORKSPACES)
    let _ ← s.client? p
    -- Remove from global window list.
    pure { s with winlist := s.winlist.filter (fun c => c.ptr ≠ p) }

/-- The function `findclient`: the first client of `winlist` with that window. -/
def findclient (s : State) (win : Nat) : Option Client :=
  s.winlist.find? (fun c => c.id = win)

/-- The function `forgetwin`. -/
def forgetwin (s : State) (win : Nat) : Option State :=
  match findclient s win with
  | none => some s
  | some client => do
    let s ← wsloop (fun s ws => do
        let c ← s.client? client.ptr
        if (c.wsitem ws).isSome then delfromworkspace s client.ptr ws else pure s) s
      (List.range WORKSPACES)
    pure { s with winlist := s.winlist.filter (fun c => c.ptr ≠ client.ptr) }

/-! ## Focus -/

/-- The function `setfocus`; `client` is the pointer argument. -/
def setfocus (s : State) (client : Option Nat) : Option State :=
  match client with
  | none => some ({ s with focuswin := none }.send [Request.inputFocus none, Request.flush])
  | some p => do
    let c ← s.client? p
    if c.id = s.screen.root ∨ some p = s.focuswin then pure s
    else
      let s := s.send [Request.borderPixel c.id (if c.fixed then s.conf.fixedcol
        else s.conf.focuscol)]
      -- Unset last focus.
      let s ← (match s.focuswin with
        | none => some s
        | some f => do
          let fc ← s.client? f
          setunfocus s fc.id)
      let s := s.send [Request.inputFocus (some c.id), Request.flush]
      pure { s with focuswin := some p }

/-- The entry before the one at address `p` in a list (`item->prev`). -/
def prevItem (p : Nat) : List Item → Option Item
  | [] => none
  | [_] => none
  | a :: b :: rest => if b.ptr = p then some a else prevItem p (b :: rest)

/-- The entry after the one at address `p` in a list (`item->next`). -/
def nextItem (p : Nat) : List Item → Option Item
  | [] => none
  | a :: rest => if a.ptr = p then rest.head? else nextItem p rest

/-- The statement of `focusnext` that starts tabbing: outside the tabbing mode
the focused window is remembered as the last focused one. -/
def beginTabbing (s : State) : State :=
  if MCWM_TABBING ≠ s.mode then
    { s with lastfocuswin := s.focuswin, mode := MCWM_TABBING }
  else s

/-- The choice of `client` in `focusnext` for the non-empty list `head :: tail`
of the current workspace; the inner `none` is `client == NULL`.  In
`focuswin->wsitem[curws] != last->data` and `focuswin->wsitem[curws] !=
wslist[curws]->data` the source compares the address of an item with the
address of a client, which is what `item ≠ last.data` and `item ≠ head.data`
do. -/
def focusCandidate (s : State) (reverse : Bool) (head : Item) (tail : List Item) :
    Option (Option Nat) := do
  let fitem ← (match s.focuswin with
    | none => some none
    | some f => (s.client? f).map (fun fc => fc.wsitem s.curws))
  match fitem with
  | none => some (some head.data)
  | some item =>
    if (head :: tail).any (fun it => it.ptr = item) then
      if reverse then
        match prevItem item (head :: tail) with
        | none =>
          let last := (head :: tail).getLast (List.cons_ne_nil head tail)
          some (if item ≠ last.data then some last.data else none)
        | some prev => some (some prev.data)
      else
        match nextItem item (head :: tail) with
        | none => some (if item ≠ head.data then some head.data else none)
        | some next => some (some next.data)
    else none

/-- The function `focusnext`. -/
def focusnext (s : State) (reverse : Bool) : Option State :=
  match s.wslist s.curws with
  | [] => some s
  | head :: tail => do
    let s := beginTabbing s
    let client ← focusCandidate s reverse head tail
    match client with
    | none => pure s
    | some p => do
      let c ← s.client? p
      let s := s.send [Request.stackTopIf c.id,
        Request.warpPointer c.id (c.width / 2) (c.height / 2)]
      setfocus s (some p)

/-- The function `finishtabbing`. -/
def finishtabbing (s : State) : Option State := do
  let s := { s with mode := 0 }
  let s ← (match s.lastfocuswin with
    | none => some s
    | some l => do
      let lc ← s.client? l
      pure { s with wslist := upd s.wslist s.curws
                       (movetohead (s.wslist s.curws) (lc.wsitem s.curws)),
                    lastfocuswin := none })
  let f ← s.focuswin
  let fc ← s.client? f
  pure { s with wslist := upd s.wslist s.curws
                   (movetohead (s.wslist s.curws) (fc.wsitem s.curws)) }

/-! ## Monitors -/

/-- The function `findmonitor`. -/
def findmonitor (s : State) (id : Nat) : Option Monitor :=
  s.monlist.find? (fun m => id = m.id)

/-- The function `findclones`. -/
def findclones (s : State) (id : Nat) (x y : Int) : Option Monitor :=
  s.monlist.find? (fun clonemon => id ≠ clonemon.id ∧ clonemon.x = x ∧ clonemon.y = y)

/-- The function `findmonbycoord`. -/
def findmonbycoord (s : State) (x y : Int) : Option Monitor :=
  s.monlist.find? (fun mon => x ≥ mon.x ∧ x ≤ mon.x + mon.width ∧ y ≥ mon.y ∧
    y ≤ mon.y + mon.height)

/-- Modelled from the spec: `freeitem` of `list.h`/`list.c`, which are not under
`src/`, as `delmonitor` uses it: "then remove the monitor from the ring"; the
other monitors keep their order. -/
def freeitem (list : List Monitor) (p : Nat) : List Monitor :=
  list.filter (fun m => m.ptr ≠ p)

/-- The function `delmonitor`. -/
def delmonitor (s : State) (mon : Monitor) : State :=
  { s with monlist := freeitem s.monlist mon.ptr }

/-- The function `addmonitor` (allocation succeeding): `x` and `y` arrive as
`uint32_t` and are stored in `int16_t` fields. -/
def addmonitor (s : State) (id : Nat) (x y width height : Int) : State :=
  let mon : Monitor :=
    { ptr := s.nextptr, id := id, x := toInt16 (toUInt32 x), y := toInt16 (toUInt32 y),
      width := toUInt16 width, height := toUInt16 height }
  { s with monlist := additem s.monlist mon, nextptr := s.nextptr + 1 }

/-- The monitor after the one at address `p` in the monitor list
(`mon->item->next`). -/
def nextMonitor (p : Nat) : List Monitor → Option Monitor
  | [] => none
  | a :: rest => if a.ptr = p then rest.head? else nextMonitor p rest

/-- The function `arrbymon`: `fitonscreen` for every client on the monitor. -/
def arrbymon (s : State) (mon : Nat) : Option State :=
  let rec go (s : State) : List Client → Option State
    | [] => some s
    | c :: rest =>
      if c.monitor = some mon then (fitonscreenAt s c.ptr).bind (fun s1 => go s1 rest)
      else go s rest
  go s s.winlist

/-- The monitor that `getoutputs` gives to a client of the monitor `mon` that is
not used any more: the next monitor in the list or, if there is no next one,
the first monitor of the list (`NULL` for an empty list). -/
def moveTarget (mon : Monitor) (monlist : List Monitor) : Option Nat :=
  match nextMonitor mon.ptr monlist with
  | none =>
    match monlist with
    | [] => none
    | first :: _ => some first.ptr
  | some next => some next.ptr

/-- The loop of `getoutputs` over `winlist` for an output that is not used any
more: every client on `mon` goes to the next monitor, or to the first one, and
is fitted. -/
def moveClients (mon : Monitor) (s : State) : List Client → Option State
  | [] => some s
  | item :: rest => do
    let client ← s.client? item.ptr
    if client.monitor = some mon.ptr then
      let s := s.setClient { client with monitor := moveTarget mon s.monlist }
      let s ← fitonscreenAt s item.ptr
      moveClients mon s rest
    else moveClients mon s rest

/-- The reply to `xcb_randr_get_crtc_info`. -/
structure CrtcInfo where
  x : Int
  y : Int
  width : Int
  height : Int
deriving DecidableEq, Repr

/-- What the server tells about one output: `info = none` when there is no
output-info reply; otherwise the CRTC of the output (`0` is `XCB_NONE`) and the
reply to the CRTC query. -/
structure OutputReply where
  id : Nat
  info : Option (Nat × Option CrtcInfo)
deriving DecidableEq, Repr

/-- One round of the loop of `getoutputs`.  The result is the state and whether
the loop goes on (`false` after the `return` on a missing CRTC reply). -/
def getoutputsStep (s : State) (o : OutputReply) : Option (State × Bool) :=
  match o.info with
  | none => some (s, true)
  | some (crtc, crtcinfo) =>
    if 0 ≠ crtc then
      match crtcinfo with
      | none => some (s, false)
      | some ci =>
        -- Check if it is a clone.
        match findclones s o.id (toInt16 ci.x) (toInt16 ci.y) with
        | some _ => some (s, true)
        | none =>
          -- Do we know this monitor already?
          match findmonitor s o.id with
          | none => some (addmonitor s o.id ci.x ci.y ci.width ci.height, true)
          | some mon =>
            let mon1 := if ci.x ≠ mon.x then { mon with x := toInt16 ci.x } else mon
            let mon2 := if ci.y ≠ mon1.y then { mon1 with y := toInt16 ci.y } else mon1
            let mon3 := if ci.width ≠ mon2.width then { mon2 with width := toUInt16 ci.width }
              else mon2
            let mon4 := if ci.height ≠ mon3.height then
              { mon3 with height := toUInt16 ci.height } else mon3
            let changed : Bool := ci.x ≠ mon.x ∨ ci.y ≠ mon.y ∨ ci.width ≠ mon.width ∨
              ci.height ≠ mon.height
            let monlist := s.monlist.map (fun m => if m.ptr = mon.ptr then mon4 else m)
            let s := { s with monlist := monlist }
            if changed then (arrbymon s mon.ptr).map (fun s1 => (s1, true))
            else some (s, true)
    else
      -- Check if it was used before. If it was, do something.
      match findmonitor s o.id with
      | none => some (s, true)
      | some mon => do
        let s ← moveClients mon s s.winlist
        -- It is not active anymore. Forget about it.
        pure (delmonitor s mon, true)

/-- The function `getoutputs` on the replies for the outputs. -/
def getoutputs (s : State) : List OutputReply → Option State
  | [] => some s
  | o :: rest => do
    let r ← getoutputsStep s o
    if r.2 then getoutputs r.1 rest else pure r.1

/-! ## New windows -/

/-- The fields of `xcb_size_hints_t` that `setupwin` reads, the flags as
booleans. -/
structure Hints where
  us_position : Bool
  p_min_size : Bool
  p_max_size : Bool
  p_resize_inc : Bool
  base_size : Bool
  min_width : Int
  min_height : Int
  max_width : Int
  max_height : Int
  width_inc : Int
  height_inc : Int
  base_width : Int
  base_height : Int
deriving DecidableEq, Repr

/-- Size hints with no flag set. -/
def Hints.none : Hints :=
  { us_position := false, p_min_size := false, p_max_size := false, p_resize_inc := false,
    base_size := false, min_width := 0, min_height := 0, max_width := 0, max_height := 0,
    width_inc := 0, height_inc := 0, base_width := 0, base_height := 0 }

/-- What the server answers while a window is set up: the geometry (`none` when
`getgeom` fails), the size hints as found in `hints` after the query, and the
pointer position on the root window (`none` when `getpointer` fails). -/
structure WinReply where
  geom : Option Sizepos
  hints : Hints
  pointer : Option (Int × Int)
deriving DecidableEq, Repr

/-- The call of `getgeom` in `setupwin`: the geometry of the reply, if any, is
stored in the client. -/
def storeGeom (geom : Option Sizepos) (client : Client) : Client :=
  match geom with
  | none => client
  | some g => { client with x := g.x, y := g.y, width := g.width, height := g.height }

/-- The statement `if (hints.flags & XCB_ICCCM_SIZE_HINT_US_POSITION)`. -/
def hintUserPosition (hints : Hints) (client : Client) : Client :=
  if hints.us_position then { client with usercoord := true } else client

/-- The statement `if (hints.flags & XCB_ICCCM_SIZE_HINT_P_MIN_SIZE)`. -/
def hintMinSize (hints : Hints) (client : Client) : Client :=
  if hints.p_min_size then
    { client with min_width := toUInt16 hints.min_width,
                  min_height := toUInt16 hints.min_height }
  else client

/-- The statement `if (hints.flags & XCB_ICCCM_SIZE_HINT_P_MAX_SIZE)`. -/
def hintMaxSize (hints : Hints) (client : Client) : Client :=
  if hints.p_max_size then
    { client with max_width := toUInt16 hints.max_width,
                  max_height := toUInt16 hints.max_height }
  else client

/-- The statement `if (hints.flags & XCB_ICCCM_SIZE_HINT_P_RESIZE_INC)`. -/
def hintResizeInc (hints : Hints) (client : Client) : Client :=
  if hints.p_resize_inc then
    { client with width_inc := hints.width_inc, height_inc := hints.height_inc }
  else client

/-- The statement `if (hints.flags & XCB_ICCCM_SIZE_HINT_BASE_SIZE)`. -/
def hintBaseSize (hints : Hints) (client : Client) : Client :=
  if hints.base_size then
    { client with base_width := hints.base_width, base_height := hints.base_height }
  else client

/-- The client record as `setupwin` initialises it at address `p`. -/
def initClient (screen : Screen) (p win : Nat) : Client :=
  { ptr := p, id := win, usercoord := false, x := 0, y := 0, width := 0, height := 0,
    origsize := ⟨0, 0, 0, 0⟩, min_width := 0, min_height := 0,
    max_width := screen.width_in_pixels, max_height := screen.height_in_pixels,
    width_inc := 1, height_inc := 1, base_width := 0, base_height := 0,
    vertmaxed := false, maxed := false, fixed := false, monitor := none,
    wsitem := fun _ => none }

/-- The function `setupwin` (allocation succeeding): the new state and the
address of the new client, which is entered into `winlist`. -/
def setupwin (s : State) (win : Nat) (geom : Option Sizepos) (hints : Hints) : State × Nat :=
  let s := s.send [Request.borderPixel win s.conf.unfocuscol, Request.eventMask win,
    Request.saveSet win, Request.flush]
  let p := s.nextptr
  let client := initClient s.screen p win
  let s := s.send (setborders client s.conf.borderwidth)
  -- Get window geometry.
  let client := storeGeom geom client
  -- The size hints.
  let client := hintUserPosition hints client
  let client := hintMinSize hints client
  let client := hintMaxSize hints client
  let client := hintResizeInc hints client
  let client := hintBaseSize hints client
  ({ s with winlist := additem s.winlist client, nextptr := s.nextptr + 1 }, p)

/-- The function `newwin`. -/
def newwin (s : State) (win : Nat) (reply : WinReply) : Option State :=
  match findclient s win with
  | some _ => some s
  | none => do
    let (s, p) := setupwin s win reply.geom reply.hints
    -- Add this window to the current workspace.
    let s ← addtoworkspace s p s.curws
    let client ← s.client? p
    let s := if !client.usercoord then
        let point := reply.pointer.getD (0, 0)
        let client := { client with x := point.1, y := point.2 }
        (s.setClient client).send (movewindow s.screen client.id client.x client.y)
      else s
    let client ← s.client? p
    -- Find the physical output this window will be on if RANDR is active.
    let s := if -1 ≠ s.randrbase then
        match findmonbycoord s client.x client.y with
        | some mon => s.setClient { client with monitor := some mon.ptr }
        | none =>
          match s.monlist with
          | [] => s.setClient { client with monitor := none }
          | first :: _ => s.setClient { client with monitor := some first.ptr }
      else s
    let s ← fitonscreenAt s p
    let client ← s.client? p
    pure (s.send [Request.mapWindow client.id, Request.wmStateNormal client.id,
      Request.warpPointer win (client.width / 2) (client.height / 2), Request.flush])

/-- The reply to the `_NET_WM_DESKTOP` property query: the length of the value
and its first 32 bits. -/
structure PropReply where
  length : Nat
  value : Nat
deriving DecidableEq, Repr

/-- The function `getwmdesktop`: the `uint32_t` value is returned as `int32_t`. -/
def getwmdesktop (reply : Option PropReply) : Int :=
  match reply with
  | none => toInt32 MCWM_NOWS
  | some r => if 0 = r.length then toInt32 MCWM_NOWS else toInt32 (toUInt32 r.value)

/-- What the server tells about one child of the root during `setupscreen`:
its attributes (`none` when there is no reply) as the pair of
`override_redirect` and "the map state is viewable", and the replies used by
`setupwin` and `getwmdesktop`. -/
structure ChildReply where
  win : Nat
  attr : Option (Bool × Bool)
  geom : Option Sizepos
  hints : Hints
  desktop : Option PropReply
deriving DecidableEq, Repr

/-- Whether `setupscreen` sets the child up: it has attributes, is not in
override redirect mode and is viewable. -/
def ChildReply.managed (c : ChildReply) : Bool :=
  match c.attr with
  | none => false
  | some (override_redirect, viewable) => !override_redirect && viewable

/-- The part of the loop of `setupscreen` that reads the desktop hint of the
child and enters the new client at `p` into the workspace lists. -/
def setupscreenWorkspace (s : State) (p : Nat) (child : ChildReply) : Option State :=
  let ws : Int := toUInt32 (getwmdesktop child.desktop)
  if ws = NET_WM_FIXED then do
    -- Add to current workspace, then to all other workspaces.
    let s ← addtoworkspace s p s.curws
    fixwindow s (some p) false
  else if (MCWM_NOWS : Int) ≠ ws ∧ ws < WORKSPACES then do
    let s ← addtoworkspace s p ws.toNat
    -- If it is not our current workspace, hide it.
    pure (if ws.toNat ≠ s.curws then s.send [Request.unmapWindow child.win] else s)
  else
    -- No workspace hint at all. Just add it to our current workspace.
    addtoworkspace s p s.curws

/-- The assignment `client->monitor = findmonbycoord(client->x, client->y)` of
`setupscreen`, made when RANDR is active. -/
def assignMonitor (s : State) (client : Client) : State :=
  if -1 ≠ s.randrbase then
    s.setClient { client with
      monitor := (findmonbycoord s client.x client.y).map (fun m => m.ptr) }
  else s

/-- One round of the loop of `setupscreen` over the children of the root. -/
def setupscreenStep (s : State) (child : ChildReply) : Option State :=
  if child.managed then do
    let (s, p) := setupwin s child.win child.geom child.hints
    let client ← s.client? p
    let s := assignMonitor s client
    -- Fit window on physical screen.
    let s ← fitonscreenAt s p
    setupscreenWorkspace s p child
  else some s

/-- The loop of `setupscreen` over the children of the root. -/
def setupscreenLoop (s : State) : List ChildReply → Option State
  | [] => some s
  | child :: rest => (setupscreenStep s child).bind (fun s1 => setupscreenLoop s1 rest)

/-- The function `setupscreen` from the reply to the tree query on: the loop
over the children, `changeworkspace(0)`, and the focus on the window under the
pointer (`pointer = none` when the pointer query has no reply, otherwise the
child window the pointer is in). -/
def setupscreen (s : State) (children : List ChildReply) (pointer : Option Nat) :
    Option State := do
  let s ← setupscreenLoop s children
  let s ← changeworkspace s 0
  let s ← (match pointer with
    | none => some { s with focuswin := none }
    | some child => setfocus s ((findclient s child).map (fun c => c.ptr)))
  pure (s.send [Request.flush])

/-! ## Events -/

/-- The keys of `handle_keypress` that act on focus cycling, on the fixed state
and on the current workspace. -/
inductive Key where
  | KEY_F
  | KEY_TAB
  | KEY_BACKTAB
  | KEY_WS (n : Nat)
  | KEY_PREVWS
  | KEY_NEXTWS
deriving DecidableEq, Repr

/-- The function `handle_keypress` for a key that was found in the table and is
one of `Key`; `KEY_WS n` is the key that calls `changeworkspace(n)` (`KEY_1`
for `n = 0` up to `KEY_0` for `n = 9`); `shift` tells whether the state of the
event has `SHIFTMOD`. -/
def handle_keypress (s : State) (key : Key) (shift : Bool) : Option State := do
  let s ← (if MCWM_TABBING = s.mode ∧ key ≠ Key.KEY_TAB ∧ key ≠ Key.KEY_BACKTAB then
      -- First finish tabbing around. Then deal with the next key.
      finishtabbing s
    else some s)
  if shift then
    match key with
    | Key.KEY_TAB => focusnext s true
    | _ => pure s
  else
    match key with
    | Key.KEY_F => fixwindow s s.focuswin true
    | Key.KEY_TAB => focusnext s false
    | Key.KEY_BACKTAB => focusnext s true
    | Key.KEY_WS n => changeworkspace s n
    | Key.KEY_PREVWS =>
      if s.curws > 0 then changeworkspace s (s.curws - 1)
      else changeworkspace s (WORKSPACES - 1)
    | Key.KEY_NEXTWS => changeworkspace s ((s.curws + 1) % WORKSPACES)

/-- The case `XCB_KEY_RELEASE` of `events`. -/
def keyRelease (s : State) (detail : Nat) : Option State :=
  if MCWM_TABBING = s.mode then
    if s.modkeys.any (fun k => detail = k) then finishtabbing s else some s
  else some s

/-- The case `XCB_ENTER_NOTIFY` of `events`; `normal` tells whether the mode of
the event is `XCB_NOTIFY_MODE_NORMAL` or `XCB_NOTIFY_MODE_UNGRAB`. -/
def enterNotify (s : State) (normal : Bool) (event : Nat) : Option State :=
  if normal then do
    let fid ← (match s.focuswin with
      | none => some none
      | some f => (s.client? f).map (fun fc => some fc.id))
    if fid = none ∨ some event ≠ fid then
      match findclient s event with
      | none => pure s
      | some client =>
        let s ← (if MCWM_TABBING ≠ s.mode then do
            let s ← (match s.focuswin with
              | none => some s
              | some f => do
                let fc ← s.client? f
                pure { s with wslist := upd s.wslist s.curws
                                 (movetohead (s.wslist s.curws) (fc.wsitem s.curws)),
                              lastfocuswin := none })
            pure { s with wslist := upd s.wslist s.curws
                             (movetohead (s.wslist s.curws) (client.wsitem s.curws)) }
          else some s)
        setfocus s (some client.ptr)
    else pure s
  else some s

/-- The case `XCB_DESTROY_NOTIFY` of `events`. -/
def destroyNotify (s : State) (window : Nat) : Option State := do
  let s ← (match s.focuswin with
    | none => some s
    | some f => do
      let fc ← s.client? f
      pure (if fc.id = window then { s with focuswin := none } else s))
  let s ← (match s.lastfocuswin with
    | none => some s
    | some l => do
      let lc ← s.client? l
      pure (if lc.id = window then { s with lastfocuswin := none } else s))
  forgetwin s window

/-- The loop of the case `XCB_UNMAP_NOTIFY` of `events` over the current
workspace list. -/
def unmapLoop (s : State) (window : Nat) : List Item → Option State
  | [] => some s
  | item :: rest => do
    let client ← s.client? item.data
    if client.id = window then
      let s := if s.focuswin = some item.data then { s with focuswin := none } else s
      forgetclient s (some item.data)
    else unmapLoop s window rest

/-- The case `XCB_UNMAP_NOTIFY` of `events`. -/
def unmapNotify (s : State) (window : Nat) : Option State :=
  unmapLoop s window (s.wslist s.curws)

/-- The events that change the window registry, the workspace lists and the
focus. -/
inductive Event where
  | mapRequest (window : Nat) (reply : WinReply)
  | destroyNotify (window : Nat)
  | keyPress (key : Key) (shift : Bool)
  | keyRelease (detail : Nat)
  | enterNotify (normal : Bool) (event : Nat)
  | unmapNotify (window : Nat)

/-- One round of the loop of `events`; `none` stands for a step whose behaviour
the C standard leaves undefined (a null or dangling pointer is dereferenced). -/
def dispatch (s : State) : Event → Option State
  | Event.mapRequest window reply => newwin s window reply
  | Event.destroyNotify window => destroyNotify s window
  | Event.keyPress key shift => handle_keypress s key shift
  | Event.keyRelease detail => keyRelease s detail
  | Event.enterNotify normal event => enterNotify s normal event
  | Event.unmapNotify window => unmapNotify s window

/-- The loop of `events` on a sequence of events. -/
def run (s : State) : List Event → Option State
  | [] => some s
  | e :: rest => (dispatch s e).bind (fun s1 => run s1 rest)

/-! ## Predicates used in the statements -/

/-- The globals that the workspace bookkeeping leaves alone are the same in
both states. -/
def State.sameEnv (s s1 : State) : Prop :=
  s1.conf = s.conf ∧ s1.screen = s.screen ∧ s1.randrbase = s.randrbase ∧
  s1.curws = s.curws ∧ s1.focuswin = s.focuswin ∧ s1.lastfocuswin = s.lastfocuswin ∧
  s1.monlist = s.monlist ∧ s1.mode = s.mode ∧ s1.modkeys = s.modkeys

/-- The entry of the client in workspace list `l` (the list of workspace `ws`) is
the one `wsitem[ws]` points to: the field is not `NULL`, and the entries of the
list that stand for the client are those at that address. -/
def Client.linked (c : Client) (l : List Item) (ws : Nat) : Prop :=
  match c.wsitem ws with
  | none => False
  | some ip => ∀ it ∈ l, (it.ptr = ip ↔ it.data = c.ptr)

instance (c : Client) (l : List Item) (ws : Nat) : Decidable (c.linked l ws) := by
  unfold Client.linked
  split <;> infer_instance

/-- The record that the loop of `getoutputs` leaves for a client `d`: a client on
`mon` gets the monitor `t` and is fitted to the resolved monitor `r`. -/
def movedClient (s : State) (mon : Monitor) (t : Option Nat) (r : Option Monitor)
    (d : Client) : Client :=
  if d.monitor = some mon.ptr then
    (fitonscreen s.conf s.screen r { d with monitor := t }).1
  else d

/-- The persisted desktop hint of a child window: `none` when the property query
has no reply or the value has length 0, otherwise the 32-bit value. -/
def ChildReply.hint (c : ChildReply) : Option Nat :=
  match c.desktop with
  | none => none
  | some r => if r.length = 0 then none else some (r.value % 4294967296)

/-- The addresses from `nextptr` on are unused: no client record lives there and
no entry of a workspace list stands for such a client. -/
def State.fresh (s : State) : Prop :=
  (∀ q, s.nextptr ≤ q → s.client? q = none) ∧
  (∀ q, s.nextptr ≤ q → ∀ ws, s.memberCount q ws = 0)

/-- The fields that a statement of `setupwin` or `fitonscreen` leaves alone are
the same in both records. -/
def Client.sameLinks (c d : Client) : Prop :=
  d.ptr = c.ptr ∧ d.id = c.id ∧ d.fixed = c.fixed ∧ d.monitor = c.monitor ∧ d.wsitem = c.wsitem

/-- What the hint of a child says about the client set up for it: whether it is
fixed and how many entries (`count ws`) it has in each workspace list, `curws`
being the current workspace. -/
def hintMembership (curws : Nat) (hint : Option Nat) (fixed : Bool) (count : Nat → Nat) :
    Prop :=
  (hint = some NET_WM_FIXED → fixed = true ∧ ∀ ws, ws < WORKSPACES → count ws = 1) ∧
  (∀ v, hint = some v → v < WORKSPACES →
    fixed = false ∧ ∀ ws, count ws = if ws = v then 1 else 0) ∧
  ((hint = none ∨ ∃ v, hint = some v ∧ WORKSPACES ≤ v ∧ v ≠ NET_WM_FIXED) →
    fixed = false ∧ ∀ ws, count ws = if ws = curws then 1 else 0)

/-- For every client of the registry: its window, whether it is fixed, and the
number of its entries in each of the 10 workspace lists. -/
def membership (s : State) : List (Nat × Bool × List Nat) :=
  s.winlist.map (fun c => (c.id, c.fixed, (List.range WORKSPACES).map (s.memberCount c.ptr)))

/-! ## Example states -/

/-- The replies for a window of 100 x 100 pixels at the origin, without size
hints, while the pointer is at the origin of the root window. -/
def exReply : WinReply :=
  { geom := some ⟨0, 0, 100, 100⟩, hints := Hints.none, pointer := some (0, 0) }

/-- The state at program start on a screen of 1920 x 1080 pixels, without RANDR,
with border width 1 and key code 64 for the modifier. -/
def exInit : State := State.init (exConf 1) (exScreen 1920 1080) (-1) [64]

/-- The state after a map request of window 7 at program start. -/
def exOne : State := (newwin exInit 7 exReply).getD exInit

/-- The state after `fixwindow` on window 7 in `exOne`. -/
def exFixed : State := (fixwindow exOne (some 1) true).getD exOne

/-- The state after map requests of windows 7, 8 and 9, the pointer entering
window 7 and one press of the tab key: the focus is on window 8, the last focus
on window 7, and the mode is tabbing. -/
def exTabbing : State :=
  (run exInit [Event.mapRequest 7 exReply, Event.mapRequest 8 exReply,
    Event.mapRequest 9 exReply, Event.enterNotify true 7,
    Event.keyPress Key.KEY_TAB false]).getD exInit

/-- The state after map requests of windows 7, 8 and 9 and the pointer entering
window 7: the list of workspace 0 holds the entries of 7, 8 and 9 in this
order and the focus is on window 7. -/
def exThree : State :=
  (run exInit [Event.mapRequest 7 exReply, Event.mapRequest 8 exReply,
    Event.mapRequest 9 exReply, Event.enterNotify true 7]).getD exInit

/-- The state at program start with RANDR (event base 89). -/
def exInitRandr : State := State.init (exConf 1) (exScreen 3200 1080) 89 [64]

/-- One monitor (output 1 at (0, 0), 1920 x 1080) and window 7 on it. -/
def exOneMonitor : State :=
  ((getoutputs exInitRandr [⟨1, some (11, some ⟨0, 0, 1920, 1080⟩)⟩]).bind
    (fun s => newwin s 7 exReply)).getD exInitRandr

/-- Two monitors (output 1 at (0, 0), 1920 x 1080, and output 2 at (1920, 0),
1280 x 1024) and window 7 on the first. -/
def exTwoMonitors : State :=
  ((getoutputs exInitRandr [⟨1, some (11, some ⟨0, 0, 1920, 1080⟩)⟩,
      ⟨2, some (12, some ⟨1920, 0, 1280, 1024⟩)⟩]).bind
    (fun s => newwin s 7 exReply)).getD exInitRandr

/-- Children of the root for the examples: window 7 with hint 3, window 8 with
the hint 0xffffffff, window 9 without hint, window 10 with the hint 12, and the
override-redirect window 11. -/
def exChildren : List ChildReply :=
  [⟨7, some (false, true), some ⟨0, 0, 100, 100⟩, Hints.none, some ⟨4, 3⟩⟩,
   ⟨8, some (false, true), some ⟨0, 0, 100, 100⟩, Hints.none, some ⟨4, 0xffffffff⟩⟩,
   ⟨9, some (false, true), some ⟨0, 0, 100, 100⟩, Hints.none, none⟩,
   ⟨10, some (false, true), some ⟨0, 0, 100, 100⟩, Hints.none, some ⟨4, 12⟩⟩,
   ⟨11, some (true, true), some ⟨0, 0, 100, 100⟩, Hints.none, none⟩]

/-! ## Moving and resizing -/

/-- Range of an `int32_t`. -/
def isInt32 (v : Int) : Prop := -2147483648 ≤ v ∧ v ≤ 2147483647

instance (v : Int) : Decidable (isInt32 v) := by unfold isInt32; infer_instance

/-- The function `abs` of the C library on `int` values. -/
def absInt (v : Int) : Int := if v < 0 then -v else v

/-- The statement `if (client->x < mon_x)` of `movelim`. -/
def movelimLeft (mon_x : Int) (client : Client) : Client :=
  if client.x < mon_x then { client with x := mon_x } else client

/-- The statement `if (client->y < mon_y)` of `movelim`. -/
def movelimTop (mon_y : Int) (client : Client) : Client :=
  if client.y < mon_y then { client with y := mon_y } else client

/-- The statement `if (client->x + client->width > mon_x + mon_width -
conf.borderwidth * 2)` of `movelim`. -/
def movelimRight (bw mon_x mon_width : Int) (client : Client) : Client :=
  if client.x + client.width > mon_x + mon_width - bw * 2 then
    { client with x := toInt16 ((mon_x + mon_width - bw * 2) - client.width) }
  else client

/-- The statement `if (client->y + client->height > mon_y + mon_height -
conf.borderwidth * 2)` of `movelim`. -/
def movelimBottom (bw mon_y mon_height : Int) (client : Client) : Client :=
  if client.y + client.height > mon_y + mon_height - bw * 2 then
    { client with y := toInt16 ((mon_y + mon_height - bw * 2) - client.height) }
  else client

/-- The four limiting statements of `movelim` in their order, for the
rectangle `r` and border width `bw`. -/
def movelimGeom (bw : Int) (r : Sizepos) (client : Client) : Client :=
  movelimBottom bw r.y r.height
    (movelimRight bw r.x r.width (movelimTop r.y (movelimLeft r.x client)))

/-- The function `movelim` on the client at address `p`. -/
def movelim (s : State) (p : Nat) : Option State := do
  let client ← s.client? p
  let mon ← s.resolveMonitor client.monitor
  let client := movelimGeom s.conf.borderwidth (monrect s.screen mon) client
  pure ((s.setClient client).send (movewindow s.screen client.id client.x client.y))

/-- The statement `if (0 != client->min_height && client->height <
client->min_height)` of `resizelim`. -/
def resizelimMinHeight (client : Client) : Client :=
  if 0 ≠ client.min_height ∧ client.height < client.min_height then
    { client with height := client.min_height }
  else client

/-- The statement `if (0 != client->min_width && client->width <
client->min_width)` of `resizelim`. -/
def resizelimMinWidth (client : Client) : Client :=
  if 0 ≠ client.min_width ∧ client.width < client.min_width then
    { client with width := client.min_width }
  else client

/-- The statement `if (client->x + client->width + conf.borderwidth * 2 > mon_x +
mon_width)` of `resizelim`. -/
def resizelimWidth (bw mon_x mon_width : Int) (client : Client) : Client :=
  if client.x + client.width + bw * 2 > mon_x + mon_width then
    { client with width := toUInt16 (mon_width - ((client.x - mon_x) + bw * 2)) }
  else client

/-- The statement `if (client->y + client->height + conf.borderwidth * 2 > mon_y +
mon_height)` of `resizelim`. -/
def resizelimHeight (bw mon_y mon_height : Int) (client : Client) : Client :=
  if client.y + client.height + bw * 2 > mon_y + mon_height then
    { client with height := toUInt16 (mon_height - ((client.y - mon_y) + bw * 2)) }
  else client

/-- The four limiting statements of `resizelim` in their order. -/
def resizelimGeom (bw : Int) (r : Sizepos) (client : Client) : Client :=
  resizelimHeight bw r.y r.height
    (resizelimWidth bw r.x r.width (resizelimMinWidth (resizelimMinHeight client)))

/-- The function `resizelim` on the client at address `p`. -/
def resizelim (s : State) (p : Nat) : Option State := do
  let client ← s.client? p
  let mon ← s.resolveMonitor client.monitor
  let client := resizelimGeom s.conf.borderwidth (monrect s.screen mon) client
  pure ((s.setClient client).send (resize s.screen client.id client.width client.height))

/-- The switch of `resizestep` over the direction. -/
def resizestepSwitch (step_x step_y : Int) (direction : Char) (client : Client) : Client :=
  if direction = 'h' then { client with width := toUInt16 (client.width - step_x) }
  else if direction = 'j' then { client with height := toUInt16 (client.height + step_y) }
  else if direction = 'k' then { client with height := toUInt16 (client.height - step_y) }
  else if direction = 'l' then { client with width := toUInt16 (client.width + step_x) }
  else client

/-- The statement `if (client->vertmaxed)` at the end of `resizestep` and of
`mouseresize`. -/
def clearVertmaxed (s : State) (p : Nat) : Option State := do
  let client ← s.client? p
  pure (if client.vertmaxed then s.setClient { client with vertmaxed := false } else s)

/-- The function `resizestep`; `client` is the pointer argument and `MOVE_STEP`
the constant of `config.h`, which is not part of the sources at hand. -/
def resizestep (MOVE_STEP : Int) (s : State) (client : Option Nat) (direction : Char) :
    Option State :=
  match client with
  | none => some s
  | some p => do
    let c ← s.client? p
    if c.maxed then
      -- Cannot resize a fully maximized window.
      pure s
    else
      let s := raisewindow s c.id
      let step_x := if c.width_inc > 1 then c.width_inc else MOVE_STEP
      let step_y := if c.height_inc > 1 then c.height_inc else MOVE_STEP
      let s := s.setClient (resizestepSwitch step_x step_y direction c)
      let s ← resizelim s p
      let s ← clearVertmaxed s p
      let c ← s.client? p
      pure (s.send [Request.warpPointer c.id (c.width / 2) (c.height / 2), Request.flush])

/-- The switch of `movestep` over the direction. -/
def movestepSwitch (MOVE_STEP : Int) (direction : Char) (client : Client) : Client :=
  if direction = 'h' then { client with x := toInt16 (client.x - MOVE_STEP) }
  else if direction = 'j' then { client with y := toInt16 (client.y + MOVE_STEP) }
  else if direction = 'k' then { client with y := toInt16 (client.y - MOVE_STEP) }
  else if direction = 'l' then { client with x := toInt16 (client.x + MOVE_STEP) }
  else client

/-- The last statement of `movestep`: if the pointer was inside the window to
begin with, it is moved back to where it was, relative to the window. -/
def movestepWarp (s : State) (p : Nat) (start_x start_y : Int) : Option State := do
  let c ← s.client? p
  pure (if start_x > 0 - s.conf.borderwidth ∧ start_x < c.width + s.conf.borderwidth ∧
      start_y > 0 - s.conf.borderwidth ∧ start_y < c.height + s.conf.borderwidth then
    s.send [Request.warpPointer c.id start_x start_y, Request.flush]
  else s)

/-- The function `movestep`; `client` is the pointer argument, `MOVE_STEP` the
constant of `config.h`, and `pointer` the position `getpointer` finds inside
the window (`none` when it fails). -/
def movestep (MOVE_STEP : Int) (s : State) (client : Option Nat) (direction : Char)
    (pointer : Option (Int × Int)) : Option State :=
  match client with
  | none => some s
  | some p => do
    let c ← s.client? p
    if c.maxed then
      -- We cannot move a fully maximized window.
      pure s
    else
      match pointer with
      | none => pure s
      | some (start_x, start_y) =>
        let s := raisewindow s c.id
        let s := s.setClient (movestepSwitch MOVE_STEP direction c)
        let s ← movelim s p
        movestepWarp s p start_x start_y

/-! ## Snapping -/

/-- The first test of `snapwindow` in move mode: the left edge of the client is
near the right edge of `win`. -/
def snapMoveRightOf (conf : Conf) (win client : Client) : Client :=
  if absInt ((win.x + win.width) - client.x) < conf.snapmargin then
    if client.y + client.height > win.y ∧ client.y < win.y + win.height then
      { client with x := toInt16 ((win.x + win.width) + (2 * conf.borderwidth)) }
    else client
  else client

/-- The second test of `snapwindow` in move mode: the upper edge of the client is
near the lower edge of `win`. -/
def snapMoveBelow (conf : Conf) (win client : Client) : Client :=
  if absInt ((win.y + win.height) - client.y) < conf.snapmargin then
    if client.x + client.width > win.x ∧ client.x < win.x + win.width then
      { client with y := toInt16 ((win.y + win.height) + (2 * conf.borderwidth)) }
    else client
  else client

/-- The third test of `snapwindow` in move mode: the right edge of the client is
near the left edge of `win`. -/
def snapMoveLeftOf (conf : Conf) (win client : Client) : Client :=
  if absInt ((client.x + client.width) - win.x) < conf.snapmargin then
    if client.y + client.height > win.y ∧ client.y < win.y + win.height then
      { client with x := toInt16 ((win.x - client.width) - (2 * conf.borderwidth)) }
    else client
  else client

/-- The fourth test of `snapwindow` in move mode: the lower edge of the client is
near the upper edge of `win`. -/
def snapMoveAbove (conf : Conf) (win client : Client) : Client :=
  if absInt ((client.y + client.height) - win.y) < conf.snapmargin then
    if client.x + client.width > win.x ∧ client.x < win.x + win.width then
      { client with y := toInt16 ((win.y - client.height) - (2 * conf.borderwidth)) }
    else client
  else client

/-- The first test of `snapwindow` in resize mode. -/
def snapResizeWidth (conf : Conf) (win client : Client) : Client :=
  if absInt ((client.x + client.width) - win.x) < conf.snapmargin then
    if client.y + client.height > win.y ∧ client.y < win.y + win.height then
      { client with width := toUInt16 ((win.x - client.x) - (2 * conf.borderwidth)) }
    else client
  else client

/-- The second test of `snapwindow` in resize mode. -/
def snapResizeHeight (conf : Conf) (win client : Client) : Client :=
  if absInt ((client.y + client.height) - win.y) < conf.snapmargin then
    if client.x + client.width > win.x ∧ client.x < win.x + win.width then
      { client with height := toUInt16 ((win.y - client.y) - (2 * conf.borderwidth)) }
    else client
  else client

/-- The body of the loop of `snapwindow` for a window `win` other than the
client. -/
def snapWin (conf : Conf) (snap_mode : Nat) (win client : Client) : Client :=
  if snap_mode = MCWM_MOVE then
    snapMoveAbove conf win (snapMoveLeftOf conf win (snapMoveBelow conf win
      (snapMoveRightOf conf win client)))
  else if snap_mode = MCWM_RESIZE then
    snapResizeHeight conf win (snapResizeWidth conf win client)
  else client

/-- The loop of `snapwindow` over the list of the current workspace; `client` is
the record of the client at address `p` as changed so far. -/
def snapLoop (s : State) (p : Nat) (snap_mode : Nat) (client : Client) :
    List Item → Option Client
  | [] => some client
  | item :: rest =>
    if p = item.data then snapLoop s p snap_mode client rest
    else if snap_mode = MCWM_MOVE ∨ snap_mode = MCWM_RESIZE then do
      let win ← s.client? item.data
      snapLoop s p snap_mode (snapWin s.conf snap_mode win client) rest
    else snapLoop s p snap_mode client rest

/-- The test `if (abs(client->x - mon_x) < conf.snapmargin)`. -/
def snapMonLeft (conf : Conf) (mon_x : Int) (client : Client) : Client :=
  if absInt (client.x - mon_x) < conf.snapmargin then { client with x := mon_x } else client

/-- The test `if (abs(client->y - mon_y) < conf.snapmargin)`. -/
def snapMonTop (conf : Conf) (mon_y : Int) (client : Client) : Client :=
  if absInt (client.y - mon_y) < conf.snapmargin then { client with y := mon_y } else client

/-- The test `if (abs((client->x + client->width) - mon_width) <
conf.snapmargin)`. -/
def snapMonRight (conf : Conf) (mon_width : Int) (client : Client) : Client :=
  if absInt ((client.x + client.width) - mon_width) < conf.snapmargin then
    { client with x := toInt16 (mon_width - client.width) }
  else client

/-- The test `if (abs((client->y + client->height) - mon_height) <
conf.snapmargin)`. -/
def snapMonBottom (conf : Conf) (mon_height : Int) (client : Client) : Client :=
  if absInt ((client.y + client.height) - mon_height) < conf.snapmargin then
    { client with y := toInt16 (mon_height - client.height) }
  else client

/-- The test `if (abs((client->width + client->x) - mon_width) <
conf.snapmargin)` of the resize mode. -/
def snapMonWidth (conf : Conf) (mon_width : Int) (client : Client) : Client :=
  if absInt ((client.width + client.x) - mon_width) < conf.snapmargin then
    { client with width := mon_width }
  else client

/-- The test `if (abs((client->height + client->y) - mon_height) <
conf.snapmargin)` of the resize mode. -/
def snapMonHeight (conf : Conf) (mon_height : Int) (client : Client) : Client :=
  if absInt ((client.height + client.y) - mon_height) < conf.snapmargin then
    { client with height := mon_height }
  else client

/-- The part of `snapwindow` after the loop: the borders of the monitor. -/
def snapMonitor (conf : Conf) (snap_mode : Nat) (r : Sizepos) (client : Client) : Client :=
  if snap_mode = MCWM_MOVE then
    snapMonBottom conf r.height (snapMonRight conf r.width (snapMonTop conf r.y
      (snapMonLeft conf r.x client)))
  else if snap_mode = MCWM_RESIZE then
    snapMonHeight conf r.height (snapMonWidth conf r.width client)
  else client

/-- The function `snapwindow` on the client at address `p`. -/
def snapwindow (s : State) (p : Nat) (snap_mode : Nat) : Option State := do
  let client ← s.client? p
  let mon ← s.resolveMonitor client.monitor
  -- Go through all windows on current workspace.
  let client ← snapLoop s p snap_mode client (s.wslist s.curws)
  pure (s.setClient (snapMonitor s.conf snap_mode (monrect s.screen mon) client))

/-- The function `mousemove` on the client at address `p`. -/
def mousemove (s : State) (p : Nat) (rel_x rel_y : Int) : Option State := do
  let client ← s.client? p
  let s := s.setClient { client with x := toInt16 rel_x, y := toInt16 rel_y }
  let s ← (if s.conf.snapmargin > 0 then snapwindow s p MCWM_MOVE else some s)
  movelim s p

/-- The statement `client->width -= (client->width - client->base_width) %
client->width_inc`; it has no defined result when the increment is 0 or the
difference leaves the range of `int`. -/
def incWidth (client : Client) : Option Client :=
  if client.width_inc = 0 ∨ ¬ isInt32 (client.width - client.base_width) then none
  else some { client with
    width := toUInt16 (client.width -
      Int.tmod (client.width - client.base_width) client.width_inc) }

/-- The statement `client->height -= (client->height - client->base_height) %
client->height_inc`. -/
def incHeight (client : Client) : Option Client :=
  if client.height_inc = 0 ∨ ¬ isInt32 (client.height - client.base_height) then none
  else some { client with
    height := toUInt16 (client.height -
      Int.tmod (client.height - client.base_height) client.height_inc) }

/-- The size that `mouseresize` computes from the pointer position, before it
is snapped and limited. -/
def mouseresizeSize (client : Client) (rel_x rel_y : Int) : Option Client := do
  let client := { client with width := toUInt16 (absInt (rel_x - client.x)) }
  let client := { client with height := toUInt16 (absInt (rel_y - client.y)) }
  let client ← incWidth client
  incHeight client

/-- The function `mouseresize` on the client at address `p`. -/
def mouseresize (s : State) (p : Nat) (rel_x rel_y : Int) : Option State := do
  let client ← s.client? p
  let client ← mouseresizeSize client rel_x rel_y
  let s := s.setClient client
  let s ← (if s.conf.snapmargin > 0 then snapwindow s p MCWM_RESIZE else some s)
  let s ← resizelim s p
  clearVertmaxed s p

/-! ## Configure requests -/

def XCB_CONFIG_WINDOW_X : Nat := 1
def XCB_CONFIG_WINDOW_Y : Nat := 2
def XCB_CONFIG_WINDOW_WIDTH : Nat := 4
def XCB_CONFIG_WINDOW_HEIGHT : Nat := 8
def XCB_CONFIG_WINDOW_BORDER_WIDTH : Nat := 16
def XCB_CONFIG_WINDOW_SIBLING : Nat := 32
def XCB_CONFIG_WINDOW_STACK_MODE : Nat := 64

/-- The `struct winconf`. -/
structure Winconf where
  x : Int
  y : Int
  width : Int
  height : Int
  stackmode : Int
  sibling : Int
  borderwidth : Int
deriving DecidableEq, Repr

/-- The fields of `xcb_configure_request_event_t` with the values of the
request. -/
structure ConfigureRequest where
  window : Nat
  value_mask : Nat
  x : Int
  y : Int
  width : Int
  height : Int
  border_width : Int
  sibling : Int
  stack_mode : Int
deriving DecidableEq, Repr

/-- One of the six statements `if (mask & BIT) { mask |= BIT; i ++; values[i] =
value; }` of `configwin`, on the mask and the values stored so far. -/
def configwinValue (bit : Nat) (value : Int) (acc : Nat × List Int) : Nat × List Int :=
  if acc.1 &&& bit ≠ 0 then (acc.1 ||| bit, acc.2 ++ [toUInt32 value]) else acc

/-- The function `configwin`. -/
def configwin (s : State) (win : Nat) (mask : Nat) (wc : Winconf) : State :=
  let acc : Nat × List Int := (mask, [])
  let acc := configwinValue XCB_CONFIG_WINDOW_X wc.x acc
  let acc := configwinValue XCB_CONFIG_WINDOW_Y wc.y acc
  let acc := configwinValue XCB_CONFIG_WINDOW_WIDTH wc.width acc
  let acc := configwinValue XCB_CONFIG_WINDOW_HEIGHT wc.height acc
  let acc := configwinValue XCB_CONFIG_WINDOW_SIBLING wc.sibling acc
  let acc := configwinValue XCB_CONFIG_WINDOW_STACK_MODE wc.stackmode acc
  -- The index `i` is -1 as long as no value is stored.
  if acc.2 ≠ [] then s.send [Request.configureWindow win acc.1 acc.2, Request.flush] else s

/-- The requests of `moveresize`. -/
def moveresize (screen : Screen) (win : Nat) (x y width height : Int) : List Request :=
  if screen.root = win ∨ 0 = win then []
  else [Request.configureWindow win
      (XCB_CONFIG_WINDOW_X ||| XCB_CONFIG_WINDOW_Y ||| XCB_CONFIG_WINDOW_WIDTH |||
        XCB_CONFIG_WINDOW_HEIGHT)
      [toUInt16 x, toUInt16 y, toUInt16 width, toUInt16 height], Request.flush]

/-- The statement `if (e->value_mask & XCB_CONFIG_WINDOW_WIDTH)` of
`configurerequest`. -/
def configureWidth (e : ConfigureRequest) (client : Client) : Client :=
  if e.value_mask &&& XCB_CONFIG_WINDOW_WIDTH ≠ 0 then
    -- Do not resize if maximized.
    if !client.maxed then { client with width := toUInt16 e.width } else client
  else client

/-- The statement `if (e->value_mask & XCB_CONFIG_WINDOW_HEIGHT)` of
`configurerequest`. -/
def configureHeight (e : ConfigureRequest) (client : Client) : Client :=
  if e.value_mask &&& XCB_CONFIG_WINDOW_HEIGHT ≠ 0 then
    if !client.maxed ∧ !client.vertmaxed then { client with height := toUInt16 e.height }
    else client
  else client

/-- The requests that `configurerequest` passes on for the sibling and the
stack mode. -/
def configureStack (e : ConfigureRequest) : List Request :=
  (if e.value_mask &&& XCB_CONFIG_WINDOW_SIBLING ≠ 0 then
    [Request.configureWindow e.window XCB_CONFIG_WINDOW_SIBLING [toUInt32 e.sibling],
      Request.flush]
  else []) ++
  (if e.value_mask &&& XCB_CONFIG_WINDOW_STACK_MODE ≠ 0 then
    [Request.configureWindow e.window XCB_CONFIG_WINDOW_STACK_MODE [toUInt32 e.stack_mode],
      Request.flush]
  else [])

/-- The statement `if (client->x + client->width + 2 * conf.borderwidth > mon_x +
mon_width)` of `configurerequest`. -/
def configureFitX (bw mon_x mon_width : Int) (client : Client) : Client :=
  if client.x + client.width + 2 * bw > mon_x + mon_width then
    -- See if it fits if we move away the window from the right edge of the screen.
    let client := { client with x := toInt16 (mon_x + mon_width - (client.width + 2 * bw)) }
    -- If we moved over the left screen edge, move back and fit exactly on screen.
    if client.x < mon_x then
      { client with x := mon_x, width := toUInt16 (mon_width - 2 * bw) }
    else client
  else client

/-- The statement `if (client->y + client->height + 2 * conf.borderwidth > mon_y +
mon_height)` of `configurerequest`. -/
def configureFitY (bw mon_y mon_height : Int) (client : Client) : Client :=
  if client.y + client.height + 2 * bw > mon_y + mon_height then
    let client := { client with y := toInt16 (mon_y + mon_height - (client.height + 2 * bw)) }
    if client.y < mon_y then
      { client with y := mon_y, height := toUInt16 (mon_height - 2 * bw) }
    else client
  else client

/-- The function `configurerequest`. -/
def configurerequest (s : State) (e : ConfigureRequest) : Option State :=
  match findclient s e.window with
  | some client => do
    -- Find monitor position and size.
    let mon ← s.resolveMonitor client.monitor
    let r := monrect s.screen mon
    let client := configureHeight e (configureWidth e client)
    let s := (s.setClient client).send (configureStack e)
    -- Check if window fits on screen after resizing.
    let client := configureFitY s.conf.borderwidth r.y r.height
      (configureFitX s.conf.borderwidth r.x r.width client)
    pure ((s.setClient client).send
      (moveresize s.screen client.id client.x client.y client.width client.height))
  | none =>
    -- Unmapped window. Just pass all options except border width.
    let wc : Winconf :=
      { x := toInt16 e.x, y := toInt16 e.y, width := toUInt16 e.width,
        height := toUInt16 e.height, sibling := toUInt32 e.sibling,
        stackmode := e.stack_mode % 256, borderwidth := 0 }
    some (configwin s e.window (e.value_mask % 65536) wc)

/-! ## Example states for moving, resizing and snapping -/

/-- Outputs 1 (1920 x 1080) and 2 (1280 x 1024) both at (0, 0), and window 7
mapped afterwards. -/
def exClones : State :=
  ((getoutputs exInitRandr [⟨1, some (11, some ⟨0, 0, 1920, 1080⟩)⟩,
      ⟨2, some (12, some ⟨0, 0, 1280, 1024⟩)⟩]).bind
    (fun s => newwin s 7 exReply)).getD exInitRandr

/-- A configuration with border width `bw` and snap margin 10. -/
def exSnapConf (bw : Int) : Conf :=
  { borderwidth := bw, snapmargin := 10, focuscol := 1, unfocuscol := 2, fixedcol := 3,
    allowicons := false }

/-- The state after map requests of window 7, of size `a.width` x `a.height`
while the pointer is at `(a.x, a.y)`, and of window 8, of size `b.width` x
`b.height` while the pointer is at `(b.x, b.y)`: the clients are at the
addresses 1 and 3, both on workspace 0, without RANDR. -/
def exPair (conf : Conf) (screen : Screen) (a b : Sizepos) : State :=
  (run (State.init conf screen (-1) [64])
    [Event.mapRequest 7 ⟨some ⟨0, 0, a.width, a.height⟩, Hints.none, some (a.x, a.y)⟩,
     Event.mapRequest 8 ⟨some ⟨0, 0, b.width, b.height⟩, Hints.none, some (b.x, b.y)⟩]).getD
    (State.init conf screen (-1) [64])

/-- Snap margin 10, border width 1, root of 1920 x 1080: window 7 (100 x 100) at
(0, 200), its right edge at 100, and window 8 (100 x 100) at (105, 200). -/
def exSnap : State :=
  exPair (exSnapConf 1) (exScreen 1920 1080) ⟨0, 200, 100, 100⟩ ⟨105, 200, 100, 100⟩

/-- The geometry of the client at address `p`. -/
def geometry (s : State) (p : Nat) : Option Sizepos :=
  (s.client? p).map (fun c => ⟨c.x, c.y, c.width, c.height⟩)

/-- Two monitors (output 1 at (0, 0), 1920 x 1080, and output 2 at (1920, 0),
1280 x 1024), snap margin 10 and border width 1; window 7 (100 x 100) is
mapped while the pointer is at (2000, 100), on the second monitor, and window 8
(100 x 100) while the pointer is at (500, 600), on the first.  The clients are
at the addresses 3 and 5. -/
def exSnapMonitors : State :=
  ((getoutputs (State.init (exSnapConf 1) (exScreen 3200 1080) 89 [64])
      [⟨1, some (11, some ⟨0, 0, 1920, 1080⟩)⟩, ⟨2, some (12, some ⟨1920, 0, 1280, 1024⟩)⟩]).bind
    (fun s => (newwin s 7 ⟨some ⟨0, 0, 100, 100⟩, Hints.none, some (2000, 100)⟩).bind
      (fun s => newwin s 8 ⟨some ⟨0, 0, 100, 100⟩, Hints.none, some (500, 600)⟩))).getD
    (State.init (exSnapConf 1) (exScreen 3200 1080) 89 [64])

/-- The state after a map request, at program start on a root of `width` x 1080
with border width 1 and no snap margin, of window 7 (100 x 100, pointer at the
origin) whose size hints give the increment `inc` and the base size `base` for
both dimensions.  The client is at address 1. -/
def exInc (width inc base : Int) : State :=
  (newwin (State.init (exConf 1) (exScreen width 1080) (-1) [64]) 7
    { geom := some ⟨0, 0, 100, 100⟩,
      hints := { Hints.none with p_resize_inc := true, base_size := true, width_inc := inc,
                                 height_inc := inc, base_width := base, base_height := base },
      pointer := some (0, 0) }).getD (State.init (exConf 1) (exScreen width 1080) (-1) [64])

/-- The state after a map request of window 7, `width` wide and 100 high and
without size hints, while the pointer is at the origin, at program start on
`screen` with border width `bw` and without RANDR.  The client is at address
1. -/
def exWidth (bw : Int) (screen : Screen) (width : Int) : State :=
  (newwin (State.init (exConf bw) screen (-1) [64]) 7
    ⟨some ⟨0, 0, width, 100⟩, Hints.none, some (0, 0)⟩).getD
    (State.init (exConf bw) screen (-1) [64])

/-! ## Allocation failures in `setupwin` and `addtoworkspace` -/

/-- The items of `winlist` as the list functions see them: for each item the
address in its `data` field, `none` (`NULL`) for an item whose `data` has never
been set. -/
def State.winitems (s : State) : List (Option Nat) :=
  s.winlist.map (fun c => some c.ptr)

/-- The function `setupwin` with the outcome of its two allocations as
arguments: `itemAlloc` tells whether `additem(&winlist)` returns an item and
`clientAlloc` whether `malloc(sizeof (struct client))` returns memory.  The
result is the new state, the pointer returned (`none` is `NULL`) and the items
of `winlist`. -/
def setupwinAlloc (s : State) (win : Nat) (geom : Option Sizepos) (hints : Hints)
    (itemAlloc clientAlloc : Bool) : State × Option Nat × List (Option Nat) :=
  let s0 := s.send [Request.borderPixel win s.conf.unfocuscol, Request.eventMask win,
    Request.saveSet win, Request.flush]
  -- item = additem(&winlist); if (NULL == item) return NULL;
  if !itemAlloc then (s0, none, s0.winitems)
  else
    let items := additem s0.winitems none
    -- client = malloc(sizeof (struct client)); if (NULL == client) return NULL;
    if !clientAlloc then (s0, none, items)
    else
      -- item->data = client; and the initialisation of the client.
      let r := setupwin s win geom hints
      (r.1, some r.2, r.1.winitems)

/-- The function `addtoworkspace` with the outcome of `additem(&wslist[ws])` as
argument: without an item the function returns at once. -/
def addtoworkspaceAlloc (s : State) (p : Nat) (ws : Nat) (itemAlloc : Bool) : Option State :=
  if !itemAlloc then some s else addtoworkspace s p ws

/-- The statement `if (!client->usercoord)` of `newwin`: a window without a
position from the user is put where the pointer is. -/
def newwinPointer (s : State) (p : Nat) (reply : WinReply) : Option State := do
  let client ← s.client? p
  pure (if !client.usercoord then
      let point := reply.pointer.getD (0, 0)
      let client := { client with x := point.1, y := point.2 }
      (s.setClient client).send (movewindow s.screen client.id client.x client.y)
    else s)

/-- The statement `if (-1 != randrbase)` of `newwin`: the monitor of the new
window. -/
def newwinMonitor (s : State) (p : Nat) : Option State := do
  let client ← s.client? p
  -- Find the physical output this window will be on if RANDR is active.
  pure (if -1 ≠ s.randrbase then
      match findmonbycoord s client.x client.y with
      | some mon => s.setClient { client with monitor := some mon.ptr }
      | none =>
        match s.monlist with
        | [] => s.setClient { client with monitor := none }
        | first :: _ => s.setClient { client with monitor := some first.ptr }
    else s)

/-- The statements of `newwin` after the call of `addtoworkspace`. -/
def newwinPlace (s : State) (p win : Nat) (reply : WinReply) : Option State := do
  let s ← newwinPointer s p reply
  let s ← newwinMonitor s p
  let s ← fitonscreenAt s p
  let client ← s.client? p
  pure (s.send [Request.mapWindow client.id, Request.wmStateNormal client.id,
    Request.warpPointer win (client.width / 2) (client.height / 2), Request.flush])

/-- The function `newwin` with the outcomes of the allocations of `setupwin`
(`itemAlloc`, `clientAlloc`) and of `addtoworkspace` (`wsAlloc`) as arguments:
the new state and the items of `winlist`. -/
def newwinAlloc (s : State) (win : Nat) (reply : WinReply)
    (itemAlloc clientAlloc wsAlloc : Bool) : Option (State × List (Option Nat)) :=
  match findclient s win with
  | some _ => some (s, s.winitems)
  | none =>
    let r := setupwinAlloc s win reply.geom reply.hints itemAlloc clientAlloc
    match r.2.1 with
    | none =>
      -- if (NULL == client) return;
      some (r.1, r.2.2)
    | some p => do
      -- Add this window to the current workspace.
      let s ← addtoworkspaceAlloc r.1 p r.1.curws wsAlloc
      let s ← newwinPlace s p win reply
      pure (s, s.winitems)

/-! ## Changing the screen of a window -/

/-- The monitor before the one at address `p` in the monitor list
(`mon->item->prev`). -/
def prevMonitor (p : Nat) : List Monitor → Option Monitor
  | [] => none
  | [_] => none
  | a :: b :: rest => if b.ptr = p then some a else prevMonitor p (b :: rest)

/-- The statements that `prevscreen` and `nextscreen` share once the item of the
new monitor is found: the focused window, at address `f`, gets the monitor
`mon`. -/
def toscreen (s : State) (f : Nat) (mon : Monitor) : Option State := do
  let fc ← s.client? f
  let s := s.setClient { fc with monitor := some mon.ptr }
  let s := raisewindow s fc.id
  let s ← fitonscreenAt s f
  let s ← movelim s f
  pure (s.send [Request.warpPointer fc.id 0 0, Request.flush])

/-- The function `prevscreen`. -/
def prevscreen (s : State) : Option State :=
  match s.focuswin with
  | none => some s
  | some f => do
    let fc ← s.client? f
    match fc.monitor with
    | none => pure s
    | some m => do
      let _ ← s.monitor? m
      match prevMonitor m s.monlist with
      | none => pure s
      | some mon => toscreen s f mon

/-- The function `nextscreen`. -/
def nextscreen (s : State) : Option State :=
  match s.focuswin with
  | none => some s
  | some f => do
    let fc ← s.client? f
    match fc.monitor with
    | none => pure s
    | some m => do
      let _ ← s.monitor? m
      match nextMonitor m s.monlist with
      | none => pure s
      | some mon => toscreen s f mon

/-! ## Mouse buttons -/

def XCB_STACK_MODE_OPPOSITE : Int := 4

/-- The function `raiseorlower`; `client` is the pointer argument. -/
def raiseorlower (s : State) (client : Option Nat) : Option State :=
  match client with
  | none => some s
  | some p => do
    let c ← s.client? p
    pure (s.send [Request.configureWindow c.id XCB_CONFIG_WINDOW_STACK_MODE
      [XCB_STACK_MODE_OPPOSITE], Request.flush])

/-- The globals `mode_x` and `mode_y`: the position of the pointer inside the
window when a move or a resize began. -/
structure Pointerpos where
  mode_x : Int
  mode_y : Int
deriving DecidableEq, Repr

/-- The case `XCB_BUTTON_PRESS` of `events`: `detail` is the button, `child` the
window under the pointer and `pointer` the position `getpointer` finds inside
the focused window (`none` when it fails).  The programs that a press on the
root window starts are left out. -/
def buttonPress (s : State) (m : Pointerpos) (detail child : Nat)
    (pointer : Option (Int × Int)) : Option (State × Pointerpos) :=
  if 0 = child then
    -- Mouse click on root window.
    some (s, m)
  else
    match s.focuswin with
    | none => some (s, m)
    | some f => do
      let fc ← s.client? f
      if fc.id ≠ child then pure (s, m)
      else if 2 = detail then do
        let s ← raiseorlower s (some f)
        pure (s, m)
      else
        match pointer with
        | none => pure (s, m)
        | some (pointx, pointy) =>
          let m : Pointerpos := { mode_x := pointx, mode_y := pointy }
          let s := raisewindow s fc.id
          let s :=
            if 1 = detail then
              { s with mode := MCWM_MOVE }.send [Request.warpPointer fc.id 1 1]
            else
              { s with mode := MCWM_RESIZE }.send
                [Request.warpPointer fc.id fc.width fc.height]
          pure (s.send [Request.grabPointer, Request.flush], m)

/-- The statement `if (mode_x > focuswin->width)` of the case
`XCB_BUTTON_RELEASE`, which is the same for `mode_y` and the height: the
coordinate the pointer is warped to. -/
def releaseCoord (saved size : Int) : Int :=
  if saved > size then
    (if 0 = size / 2 then 1 else size / 2)
  else saved

/-- The case `XCB_BUTTON_RELEASE` of `events`. -/
def buttonRelease (s : State) (m : Pointerpos) : Option State :=
  if 0 = s.mode then some s
  else
    match s.focuswin with
    | none =>
      -- No focused window: just ungrab and reset the mode.
      some ({ s with mode := 0 }.send [Request.ungrabPointer, Request.flush])
    | some f => do
      let fc ← s.client? f
      let x := releaseCoord m.mode_x fc.width
      let y := releaseCoord m.mode_y fc.height
      pure ({ s with mode := 0 }.send
        [Request.warpPointer fc.id x y, Request.ungrabPointer, Request.flush])

/-- The pointer position of the last `xcb_warp_pointer` request sent. -/
def lastWarp : List Request → Option (Int × Int)
  | [] => none
  | Request.warpPointer _ x y :: rest =>
    (match lastWarp rest with
     | none => some (x, y)
     | some w => some w)
  | _ :: rest => lastWarp rest

/-! ## Maximizing -/

/-- The function `unmax` on the client at address `p`. -/
def unmax (s : State) (p : Nat) : Option State := do
  let c ← s.client? p
  let c := { c with x := c.origsize.x, y := c.origsize.y, width := c.origsize.width,
                    height := c.origsize.height }
  let s := s.setClient c
  -- Restore geometry.
  let req :=
    if c.maxed then
      Request.configureWindow c.id
        (XCB_CONFIG_WINDOW_X ||| XCB_CONFIG_WINDOW_Y ||| XCB_CONFIG_WINDOW_WIDTH |||
          XCB_CONFIG_WINDOW_HEIGHT ||| XCB_CONFIG_WINDOW_BORDER_WIDTH)
        [toUInt32 c.x, toUInt32 c.y, c.width, c.height, toUInt32 s.conf.borderwidth]
    else
      Request.configureWindow c.id
        (XCB_CONFIG_WINDOW_Y ||| XCB_CONFIG_WINDOW_WIDTH ||| XCB_CONFIG_WINDOW_HEIGHT)
        [toUInt32 c.y, c.width, c.height]
  pure (s.send [req, Request.warpPointer c.id (c.width / 2) (c.height / 2), Request.flush])

/-- The function `maximize`; `client` is the pointer argument. -/
def maximize (s : State) (client : Option Nat) : Option State :=
  match client with
  | none => some s
  | some p => do
    let c ← s.client? p
    let mon ← s.resolveMonitor c.monitor
    let r := monrect s.screen mon
    if c.maxed then
      -- Maximized already: revert to stored geometry.
      let s ← unmax s p
      let c ← s.client? p
      pure (s.setClient { c with maxed := false })
    else
      let s := raisewindow s c.id
      let c := { c with origsize := ⟨c.x, c.y, c.width, c.height⟩ }
      -- Remove borders.
      let s := s.send [Request.configureWindow c.id XCB_CONFIG_WINDOW_BORDER_WIDTH [0]]
      -- Move to top left and resize.
      let c := { c with x := r.x, y := r.y, width := r.width, height := r.height }
      let s := s.send [Request.configureWindow c.id
        (XCB_CONFIG_WINDOW_X ||| XCB_CONFIG_WINDOW_Y ||| XCB_CONFIG_WINDOW_WIDTH |||
          XCB_CONFIG_WINDOW_HEIGHT)
        [toUInt32 c.x, toUInt32 c.y, c.width, c.height], Request.flush]
      pure (s.setClient { c with maxed := true })

/-- The function `maxvert`; `client` is the pointer argument. -/
def maxvert (s : State) (client : Option Nat) : Option State :=
  match client with
  | none => some s
  | some p => do
    let c ← s.client? p
    let mon ← s.resolveMonitor c.monitor
    let r := monrect s.screen mon
    if c.vertmaxed then
      let s ← unmax s p
      let c ← s.client? p
      pure (s.setClient { c with vertmaxed := false })
    else
      let s := raisewindow s c.id
      let c := { c with origsize := ⟨c.x, c.y, c.width, c.height⟩ }
      let c := { c with y := r.y }
      -- Compute new height considering height increments and screen height.
      let c := { c with height := toUInt16 (r.height - s.conf.borderwidth * 2) }
      let c ← incHeight c
      -- Move to top of screen and resize.
      let s := s.send [Request.configureWindow c.id
        (XCB_CONFIG_WINDOW_Y ||| XCB_CONFIG_WINDOW_HEIGHT) [toUInt32 c.y, c.height],
        Request.flush]
      pure (s.setClient { c with vertmaxed := true })

/-! ## Predicates and example states for the registry and the mouse -/

/-- The entries of the list of workspace `ws` agree with the field `wsitem[ws]`
of the client: with `NULL` in the field no entry stands for the client, and
otherwise the entries that stand for it are those at the address in the
field. -/
def Client.tracked (c : Client) (l : List Item) (ws : Nat) : Prop :=
  match c.wsitem ws with
  | none => ∀ it ∈ l, it.data ≠ c.ptr
  | some ip => ∀ it ∈ l, (it.ptr = ip ↔ it.data = c.ptr)

instance (c : Client) (l : List Item) (ws : Nat) : Decidable (c.tracked l ws) := by
  unfold Client.tracked
  split <;> infer_instance

/-- The pointers that `focusnext` follows are live: the focused window and the
clients of the current workspace list are in the registry, and the entry of
the focused window for the current workspace, if it has one, is in that
list. -/
def State.tabOk (s : State) : Prop :=
  (∀ f ∈ s.focuswin, ∃ fc ∈ s.client? f,
    ∀ ip ∈ fc.wsitem s.curws, ∃ it ∈ s.wslist s.curws, it.ptr = ip) ∧
  (∀ it ∈ s.wslist s.curws, (s.client? it.data).isSome)

instance (s : State) : Decidable s.tabOk := by unfold State.tabOk; infer_instance

/-- The state after a map request of window 7 and the pointer entering it: the
window (100 x 100 at the origin of a root of 1920 x 1080, border width 1) has
the focus. -/
def exFocused : State :=
  (run exInit [Event.mapRequest 7 exReply, Event.enterNotify true 7]).getD exInit

/-- The state after `maximize` on the focused window of `exFocused`. -/
def exMaxed : State := (maximize exFocused (some 1)).getD exFocused

/-- The state after `maxvert` on the focused window of `exFocused`. -/
def exVertmaxed : State := (maxvert exFocused (some 1)).getD exFocused

/-- Two monitors (output 1 at (0, 0), 1920 x 1080, and output 2 at (1920, 0),
1280 x 1024) and window 7 on the first, with the focus. -/
def exTwoFocused : State :=
  (enterNotify exTwoMonitors true 7).getD exTwoMonitors

/-- The state `exOne` (a root of 1920 x 1080 without RANDR, border width 1,
window 7 of 100 x 100 pixels) with the window at `(x, y)`. -/
def exAt (x y : Int) : State :=
  match exOne.client? 1 with
  | some c => exOne.setClient { c with x := x, y := y }
  | none => exOne

/-- Two monitors (output 1 at (0, 0), 1920 x 1080, and output 2 at (1920, 0),
1 x 1) and window 7 on the first, with the focus. -/
def exTinyMonitor : State :=
  (((getoutputs exInitRandr [⟨1, some (11, some ⟨0, 0, 1920, 1080⟩)⟩,
      ⟨2, some (12, some ⟨1920, 0, 1, 1⟩)⟩]).bind
    (fun s => newwin s 7 exReply)).bind (fun s => enterNotify s true 7)).getD exInitRandr

/-! ## Predicates and example states for the workspace keys and small windows -/

/-- The pointers that a workspace key follows are live: the focused and the last
focused window, if set, and the clients of the 10 workspace lists are in the
registry, and in the tabbing mode there is a focused window (`finishtabbing`
uses it). -/
def State.wsOk (s : State) : Prop :=
  (∀ f ∈ s.focuswin, (s.client? f).isSome) ∧
  (∀ l ∈ s.lastfocuswin, (s.client? l).isSome) ∧
  (∀ ws, ws < WORKSPACES → ∀ it ∈ s.wslist ws, (s.client? it.data).isSome) ∧
  (MCWM_TABBING = s.mode → s.focuswin.isSome)

instance (s : State) : Decidable s.wsOk := by unfold State.wsOk; infer_instance

/-- The state after a map request, at program start (root of 1920 x 1080, border
width 1, no RANDR), of window 7 of 20 x 20 pixels without size hints while the
pointer is at the origin.  The client is at address 1. -/
def exSmall : State :=
  (newwin exInit 7 ⟨some ⟨0, 0, 20, 20⟩, Hints.none, some (0, 0)⟩).getD exInit

/-! # Theorems -/

/-! ## `fitonscreen` -/

theorem fitOutsideX_client (mx mw : Int) (r : FitResult) :
    (fitOutsideX mx mw r).client = { r.client with
      x := if r.client.x > mx + mw then toInt16 (mx + mw - r.client.width) else r.client.x } := by
  unfold fitOutsideX; split_ifs <;> rfl

theorem fitOutsideY_client (my mh : Int) (r : FitResult) :
    (fitOutsideY my mh r).client = { r.client with
      y := if r.client.y > my + mh then toInt16 (my + mh - r.client.height) else r.client.y } := by
  unfold fitOutsideY; split_ifs <;> rfl

theorem fitBeforeX_client (mx : Int) (r : FitResult) :
    (fitBeforeX mx r).client = { r.client with
      x := if r.client.x < mx then mx else r.client.x } := by
  unfold fitBeforeX; split_ifs <;> rfl

theorem fitBeforeY_client (my : Int) (r : FitResult) :
    (fitBeforeY my r).client = { r.client with
      y := if r.client.y < my then my else r.client.y } := by
  unfold fitBeforeY; split_ifs <;> rfl

theorem fitMinHeight_client (r : FitResult) :
    (fitMinHeight r).client = { r.client with
      height := if 0 ≠ r.client.min_height ∧ r.client.height < r.client.min_height
        then r.client.min_height else r.client.height } := by
  unfold fitMinHeight; split_ifs <;> rfl

theorem fitMinWidth_client (r : FitResult) :
    (fitMinWidth r).client = { r.client with
      width := if 0 ≠ r.client.min_width ∧ r.client.width < r.client.min_width
        then r.client.min_width else r.client.width } := by
  unfold fitMinWidth; split_ifs <;> rfl

theorem fitLargerX_client (bw mx mw : Int) (r : FitResult) :
    (fitLargerX bw mx mw r).client = { r.client with
      x := if r.client.width + bw * 2 > mw then mx
        else if r.client.x + r.client.width + bw * 2 > mx + mw then
          toInt16 (mx + mw - (r.client.width + bw * 2)) else r.client.x
      width := if r.client.width + bw * 2 > mw then toUInt16 (mw - bw * 2)
        else r.client.width } := by
  unfold fitLargerX; split_ifs <;> rfl

theorem fitLargerY_client (bw my mh : Int) (r : FitResult) :
    (fitLargerY bw my mh r).client = { r.client with
      y := if r.client.height + bw * 2 > mh then my
        else if r.client.y + r.client.height + bw * 2 > my + mh then
          toInt16 (my + mh - (r.client.height + bw * 2)) else r.client.y
      height := if r.client.height + bw * 2 > mh then toUInt16 (mh - bw * 2)
        else r.client.height } := by
  unfold fitLargerY; split_ifs <;> rfl

theorem fitgeom_client (bw mon_x mon_y mon_width mon_height : Int) (c : Client) :
    (fitgeom bw mon_x mon_y mon_width mon_height c).client =
      { c with
        x := (fitaxis bw mon_x mon_width c.x c.width c.min_width).1
        width := (fitaxis bw mon_x mon_width c.x c.width c.min_width).2
        y := (fitaxis bw mon_y mon_height c.y c.height c.min_height).1
        height := (fitaxis bw mon_y mon_height c.y c.height c.min_height).2 } := by
  unfold fitgeom
  simp only [fitLargerY_client, fitLargerX_client, fitMinWidth_client, fitMinHeight_client,
    fitBeforeY_client, fitBeforeX_client, fitOutsideY_client, fitOutsideX_client]
  unfold fitaxis
  simp only [Client.mk.injEq, true_and, and_true]
  refine ⟨?_, ?_, ?_, ?_⟩ <;> split_ifs <;> rfl

theorem fitaxis_inside (bw mpos msize pos size min : Int)
    (hpos : isInt16 pos) (hsize : isUInt16 size) (hmin : isUInt16 min)
    (hmpos : isInt16 mpos) (hmsize : isUInt16 msize) (hbw : 0 ≤ bw) (hfit : bw * 2 ≤ msize) :
    mpos ≤ (fitaxis bw mpos msize pos size min).1 ∧
    (fitaxis bw mpos msize pos size min).1 + (fitaxis bw mpos msize pos size min).2 + 2 * bw
      ≤ mpos + msize ∧
    0 ≤ (fitaxis bw mpos msize pos size min).2 := by
  unfold isInt16 at hpos hmpos
  unfold isUInt16 at hsize hmin hmsize
  unfold fitaxis toInt16 toUInt16
  simp only []
  split_ifs <;> simp only [] <;> omega

theorem fitaxis_pinned (bw mpos msize pos size min : Int)
    (hsize : isUInt16 size) (hbw : 0 ≤ bw) (hmin : msize < min) :
    (fitaxis bw mpos msize pos size min).1 = mpos := by
  unfold isUInt16 at hsize
  unfold fitaxis
  simp only []
  split_ifs <;> simp only [] <;> omega

theorem fitonscreen_client (conf : Conf) (screen : Screen) (mon : Option Monitor)
    (client : Client) :
    (fitonscreen conf screen mon client).1 =
      { client with
        vertmaxed := false
        maxed := false
        x := (fitaxis conf.borderwidth (monrect screen mon).x (monrect screen mon).width
          client.x client.width client.min_width).1
        width := (fitaxis conf.borderwidth (monrect screen mon).x (monrect screen mon).width
          client.x client.width client.min_width).2
        y := (fitaxis conf.borderwidth (monrect screen mon).y (monrect screen mon).height
          client.y client.height client.min_height).1
        height := (fitaxis conf.borderwidth (monrect screen mon).y (monrect screen mon).height
          client.y client.height client.min_height).2 } := by
  simp only [fitonscreen, fitgeom_client]

/-- C1 (as amended): for every client whose fields are in the range of their C
types, every governing rectangle and every border width `b ≥ 0` with
`2 * b` no larger than the width and the height of the rectangle, after
`fitonscreen` the rectangle of the client including its border lies inside the
governing rectangle, and on an axis where the declared minimum size exceeds the
rectangle the client is at the origin of the rectangle. -/
theorem fitonscreen_inside (conf : Conf) (screen : Screen) (mon : Option Monitor)
    (client : Client) (hc : client.geomOk) (hr : rectOk (monrect screen mon))
    (hb : 0 ≤ conf.borderwidth)
    (hw : 2 * conf.borderwidth ≤ (monrect screen mon).width)
    (hh : 2 * conf.borderwidth ≤ (monrect screen mon).height) :
    (monrect screen mon).x ≤ (fitonscreen conf screen mon client).1.x ∧
    (monrect screen mon).y ≤ (fitonscreen conf screen mon client).1.y ∧
    (fitonscreen conf screen mon client).1.x + (fitonscreen conf screen mon client).1.width
        + 2 * conf.borderwidth ≤ (monrect screen mon).x + (monrect screen mon).width ∧
    (fitonscreen conf screen mon client).1.y + (fitonscreen conf screen mon client).1.height
        + 2 * conf.borderwidth ≤ (monrect screen mon).y + (monrect screen mon).height ∧
    ((monrect screen mon).width < client.min_width →
      (fitonscreen conf screen mon client).1.x = (monrect screen mon).x) ∧
    ((monrect screen mon).height < client.min_height →
      (fitonscreen conf screen mon client).1.y = (monrect screen mon).y) := by
  obtain ⟨hx, hy, hwd, hht, hmw, hmh⟩ := hc
  obtain ⟨hrx, hry, hrw, hrh⟩ := hr
  rw [fitonscreen_client]
  have h1 := fitaxis_inside conf.borderwidth (monrect screen mon).x (monrect screen mon).width
    client.x client.width client.min_width hx hwd hmw hrx hrw hb (by omega)
  have h2 := fitaxis_inside conf.borderwidth (monrect screen mon).y (monrect screen mon).height
    client.y client.height client.min_height hy hht hmh hry hrh hb (by omega)
  refine ⟨h1.1, h2.1, h1.2.1, h2.2.1, ?_, ?_⟩
  · intro h
    exact fitaxis_pinned _ _ _ _ _ _ hwd hb h
  · intro h
    exact fitaxis_pinned _ _ _ _ _ _ hht hb h

theorem fitonscreen_inside_witness :
    (monrect (exScreen 1920 1080) none).x ≤
        (fitonscreen (exConf 1) (exScreen 1920 1080) none
          (mkClient 1 7 1900 (-5) 100 2000 0 0)).1.x ∧
    (monrect (exScreen 1920 1080) none).y ≤
        (fitonscreen (exConf 1) (exScreen 1920 1080) none
          (mkClient 1 7 1900 (-5) 100 2000 0 0)).1.y ∧
    (fitonscreen (exConf 1) (exScreen 1920 1080) none (mkClient 1 7 1900 (-5) 100 2000 0 0)).1.x
      + (fitonscreen (exConf 1) (exScreen 1920 1080) none
          (mkClient 1 7 1900 (-5) 100 2000 0 0)).1.width
      + 2 * (exConf 1).borderwidth
      ≤ (monrect (exScreen 1920 1080) none).x + (monrect (exScreen 1920 1080) none).width ∧
    (fitonscreen (exConf 1) (exScreen 1920 1080) none (mkClient 1 7 1900 (-5) 100 2000 0 0)).1.y
      + (fitonscreen (exConf 1) (exScreen 1920 1080) none
          (mkClient 1 7 1900 (-5) 100 2000 0 0)).1.height
      + 2 * (exConf 1).borderwidth
      ≤ (monrect (exScreen 1920 1080) none).y + (monrect (exScreen 1920 1080) none).height ∧
    ((monrect (exScreen 1920 1080) none).width < (mkClient 1 7 1900 (-5) 100 2000 0 0).min_width →
      (fitonscreen (exConf 1) (exScreen 1920 1080) none
        (mkClient 1 7 1900 (-5) 100 2000 0 0)).1.x = (monrect (exScreen 1920 1080) none).x) ∧
    ((monrect (exScreen 1920 1080) none).height
        < (mkClient 1 7 1900 (-5) 100 2000 0 0).min_height →
      (fitonscreen (exConf 1) (exScreen 1920 1080) none
        (mkClient 1 7 1900 (-5) 100 2000 0 0)).1.y = (monrect (exScreen 1920 1080) none).y) :=
  fitonscreen_inside (exConf 1) (exScreen 1920 1080) none (mkClient 1 7 1900 (-5) 100 2000 0 0)
    (by decide) (by decide) (by decide) (by decide) (by decide)

/-- C1 (counterexample): on a root window of 1 x 1 pixels with border width 1, a
client of 10 x 10 pixels at the origin is in range of the claim, and after
`fitonscreen` its width is 65535, so that its right edge with the border is
beyond the right edge of the rectangle. -/
theorem fitonscreen_inside_counterexample :
    (mkClient 1 7 0 0 10 10 0 0).geomOk ∧ rectOk (monrect (exScreen 1 1) none) ∧
    0 ≤ (exConf 1).borderwidth ∧
    (fitonscreen (exConf 1) (exScreen 1 1) none (mkClient 1 7 0 0 10 10 0 0)).1.width = 65535 ∧
    ¬ ((fitonscreen (exConf 1) (exScreen 1 1) none (mkClient 1 7 0 0 10 10 0 0)).1.x
        + (fitonscreen (exConf 1) (exScreen 1 1) none (mkClient 1 7 0 0 10 10 0 0)).1.width
        + 2 * (exConf 1).borderwidth
      ≤ (monrect (exScreen 1 1) none).x + (monrect (exScreen 1 1) none).width) := by
  refine ⟨by decide, by decide, by decide, by decide, by decide⟩

theorem find?_ptr_map (l : List Client) (f : Client → Client)
    (hf : ∀ d, (f d).ptr = d.ptr) (p : Nat) :
    (l.map f).find? (fun c => c.ptr = p) = (l.find? (fun c => c.ptr = p)).map f := by
  induction l with
  | nil => rfl
  | cons a l ih =>
    simp only [List.map_cons, List.find?_cons, hf]
    split
    · rfl
    · exact ih

theorem client?_ptr {s : State} {p : Nat} {c : Client} (h : s.client? p = some c) :
    c.ptr = p := by
  have := List.find?_some h
  simpa using this

theorem client?_mem {s : State} {p : Nat} {c : Client} (h : s.client? p = some c) :
    c ∈ s.winlist :=
  List.mem_of_find?_eq_some h

theorem client?_setClient (s : State) (c : Client) (p : Nat) :
    (s.setClient c).client? p =
      (s.client? p).map (fun d => if d.ptr = c.ptr then c else d) := by
  unfold State.client? State.setClient
  exact find?_ptr_map _ _ (fun d => by split <;> simp_all) p

/-! ## `changeworkspace` -/

theorem wsRequests_eq (s s1 : State) (req : Nat → Request) (hw : s1.winlist = s.winlist)
    (l : List Item) (hl : ∀ it ∈ l, (s.client? it.data).isSome) :
    wsRequests s1 req l = some ((nonFixedIds s l).map req) := by
  induction l with
  | nil => rfl
  | cons a l ih =>
    have ha := hl a (List.mem_cons_self a l)
    obtain ⟨c, hc⟩ := Option.isSome_iff_exists.mp ha
    have hc1 : s1.client? a.data = some c := by
      unfold State.client? at hc ⊢; rw [hw]; exact hc
    have ih1 := ih (fun it hit => hl it (List.mem_cons_of_mem a hit))
    unfold wsRequests
    simp only [hc1, ih1, Option.bind_eq_bind, Option.some_bind, Option.pure_def]
    unfold nonFixedIds
    simp only [List.filterMap_cons, hc]
    cases hfx : c.fixed <;> simp [hfx]

/-- C6: `changeworkspace(ws)` with `ws` the current workspace returns without any
change or request; otherwise the requests it sends are some requests that are
neither map nor unmap requests (the border of a window that loses the focus),
then an unmap request for exactly the clients of the old current list that are
not fixed, then a map request for exactly the clients of list `ws` that are not
fixed, then a flush; the current workspace becomes `ws`, and no client record
(so no geometry), no workspace list and no monitor changes. -/
theorem changeworkspace_spec (s : State) (ws : Nat)
    (hcur : ∀ it ∈ s.wslist s.curws, (s.client? it.data).isSome)
    (hnew : ∀ it ∈ s.wslist ws, (s.client? it.data).isSome)
    (hfocus : ∀ f, s.focuswin = some f → (s.client? f).isSome) :
    (ws = s.curws → changeworkspace s ws = some s) ∧
    (ws ≠ s.curws → ∃ s1 pre, changeworkspace s ws = some s1 ∧
      s1.out = s.out ++ (pre ++ (nonFixedIds s (s.wslist s.curws)).map Request.unmapWindow
        ++ (nonFixedIds s (s.wslist ws)).map Request.mapWindow ++ [Request.flush]) ∧
      (∀ r ∈ pre, ∀ w, r ≠ Request.unmapWindow w ∧ r ≠ Request.mapWindow w) ∧
      s1.curws = ws ∧ s1.winlist = s.winlist ∧ s1.wslist = s.wslist ∧
      s1.monlist = s.monlist) := by
  refine ⟨fun h => by unfold changeworkspace; rw [if_pos h], fun h => ?_⟩
  -- the focus part: a state with the same lists and some requests without map or unmap
  have hpre : ∃ s0 pre, loseFocus s = some s0 ∧ s0.out = s.out ++ pre ∧
      (∀ r ∈ pre, ∀ w, r ≠ Request.unmapWindow w ∧ r ≠ Request.mapWindow w) ∧
      s0.curws = s.curws ∧ s0.winlist = s.winlist ∧ s0.wslist = s.wslist ∧
      s0.monlist = s.monlist := by
    unfold loseFocus
    cases hf : s.focuswin with
    | none => exact ⟨s, [], rfl, by simp, by simp, rfl, rfl, rfl, rfl⟩
    | some f =>
      obtain ⟨fc, hfc⟩ := Option.isSome_iff_exists.mp (hfocus f hf)
      simp only [hfc, Option.bind_eq_bind, Option.some_bind, Option.pure_def]
      cases hfx : fc.fixed with
      | true => exact ⟨s, [], by simp, by simp, by simp, rfl, rfl, rfl, rfl⟩
      | false =>
        unfold setunfocus
        simp only [hf, hfc, Option.bind_eq_bind, Option.some_bind, Option.pure_def]
        by_cases hroot : fc.id = s.screen.root
        · exact ⟨{ s with focuswin := none }, [], by simp [hroot], by simp, by simp,
            rfl, rfl, rfl, rfl⟩
        · refine ⟨{ s.send [Request.borderPixel fc.id s.conf.unfocuscol, Request.flush] with
              focuswin := none }, [Request.borderPixel fc.id s.conf.unfocuscol, Request.flush],
            by simp [hroot], rfl, ?_, rfl, rfl, rfl, rfl⟩
          intro r hr w
          simp only [List.mem_cons, List.mem_singleton, List.not_mem_nil, or_false] at hr
          rcases hr with rfl | rfl <;> simp
  obtain ⟨s0, pre, h0, hout, hpreok, hcur0, hwin0, hws0, hmon0⟩ := hpre
  refine ⟨{ s0.send ((nonFixedIds s (s.wslist s.curws)).map Request.unmapWindow
      ++ (nonFixedIds s (s.wslist ws)).map Request.mapWindow ++ [Request.flush]) with
      curws := ws }, pre, ?_, ?_, hpreok, rfl, hwin0, hws0, hmon0⟩
  · unfold changeworkspace
    rw [if_neg h]
    simp only [h0, Option.bind_eq_bind, Option.some_bind]
    rw [hcur0, hws0, wsRequests_eq s s0 _ hwin0 _ hcur, wsRequests_eq s s0 _ hwin0 _ hnew]
    simp only [Option.some_bind, Option.pure_def]
  · show s0.out ++ _ = _
    rw [hout]
    simp only [List.append_assoc]

theorem changeworkspace_spec_witness :
    ∃ s1 pre, changeworkspace exOne 1 = some s1 ∧
      s1.out = exOne.out ++ (pre
        ++ (nonFixedIds exOne (exOne.wslist exOne.curws)).map Request.unmapWindow
        ++ (nonFixedIds exOne (exOne.wslist 1)).map Request.mapWindow ++ [Request.flush]) ∧
      (∀ r ∈ pre, ∀ w, r ≠ Request.unmapWindow w ∧ r ≠ Request.mapWindow w) ∧
      s1.curws = 1 ∧ s1.winlist = exOne.winlist ∧ s1.wslist = exOne.wslist ∧
      s1.monlist = exOne.monlist :=
  (changeworkspace_spec exOne 1 (by decide) (by decide) (by decide)).2 (by decide)

/-- The scenario of C6: window 7 at (0, 0, 100, 100), not fixed, is on workspace
0; `changeworkspace(1)` sends an unmap request for it, `changeworkspace(0)` then
a map request, and its geometry is the same afterwards. -/
theorem changeworkspace_roundtrip_example :
    exOne.winlist.map (fun c => (c.id, c.fixed, Sizepos.mk c.x c.y c.width c.height)) =
      [(7, false, ⟨0, 0, 100, 100⟩)] ∧
    (changeworkspace exOne 1).map (fun s1 => s1.out.drop exOne.out.length) =
      some [Request.unmapWindow 7, Request.flush] ∧
    (changeworkspace exOne 1).bind (fun s1 =>
      (changeworkspace s1 0).map (fun s2 => s2.out.drop s1.out.length)) =
      some [Request.mapWindow 7, Request.flush] ∧
    ((changeworkspace exOne 1).bind (fun s1 => changeworkspace s1 0)).map (fun s2 =>
      s2.winlist.map (fun c => (c.id, c.fixed, Sizepos.mk c.x c.y c.width c.height))) =
      some [(7, false, ⟨0, 0, 100, 100⟩)] := by
  refine ⟨by decide, by decide, by decide, by decide⟩

/-! ## Workspace lists and `fixwindow` -/

theorem sameEnv_refl (s : State) : s.sameEnv s :=
  ⟨rfl, rfl, rfl, rfl, rfl, rfl, rfl, rfl, rfl⟩

theorem sameEnv_trans {s s1 s2 : State} (h1 : s.sameEnv s1) (h2 : s1.sameEnv s2) :
    s.sameEnv s2 := by
  obtain ⟨a1, a2, a3, a4, a5, a6, a7, a8, a9⟩ := h1
  obtain ⟨b1, b2, b3, b4, b5, b6, b7, b8, b9⟩ := h2
  exact ⟨b1.trans a1, b2.trans a2, b3.trans a3, b4.trans a4, b5.trans a5, b6.trans a6,
    b7.trans a7, b8.trans a8, b9.trans a9⟩

theorem client?_of_winlist_map (s s1 : State) (f : Client → Client)
    (hf : ∀ d, (f d).ptr = d.ptr) (hw : s1.winlist = s.winlist.map f)
    (q : Nat) : s1.client? q = (s.client? q).map f := by
  unfold State.client?
  rw [hw]
  exact find?_ptr_map _ _ hf q

/-- A state whose client records are those of `s` except that the record at `p`
is `c1`: the other pointers resolve as before. -/
theorem client?_of_winlist_replace {s : State} (s1 : State) {p : Nat} {c : Client}
    (c1 : Client) (h : s.client? p = some c) (hc1 : c1.ptr = p)
    (hw : s1.winlist = s.winlist.map (fun d => if d.ptr = p then c1 else d)) :
    s1.client? p = some c1 ∧ ∀ q, q ≠ p → s1.client? q = s.client? q := by
  have hm := client?_of_winlist_map s s1
    (fun d => if d.ptr = p then c1 else d) (fun d => by beta_reduce; split <;> simp_all) hw
  refine ⟨by rw [hm, h]; simp [client?_ptr h], fun q hq => ?_⟩
  rw [hm]
  cases hq' : s.client? q with
  | none => rfl
  | some d => simp [client?_ptr hq', hq]

/-- What `addtoworkspace` does when the client pointer is live. -/
theorem addtoworkspace_spec {s : State} {p : Nat} {c : Client} (ws : Nat)
    (h : s.client? p = some c) :
    ∃ s1, addtoworkspace s p ws = some s1 ∧
      s1.wslist = upd s.wslist ws (s.wslist ws ++ [⟨s.nextptr, p⟩]) ∧
      s1.winlist = s.winlist.map (fun d =>
        if d.ptr = p then { c with wsitem := upd c.wsitem ws (some s.nextptr) } else d) ∧
      s1.nextptr = s.nextptr + 1 ∧ s.sameEnv s1 := by
  have hp := client?_ptr h
  unfold addtoworkspace
  simp only [h, Option.bind_eq_bind, Option.some_bind, Option.pure_def]
  refine ⟨_, rfl, ?_, ?_, ?_, ?_⟩
  · split <;> rfl
  · split <;> simp [State.setClient, setwmdesktop, State.send, hp]
  · split <;> rfl
  · split <;> exact ⟨rfl, rfl, rfl, rfl, rfl, rfl, rfl, rfl, rfl⟩

/-- What `delfromworkspace` does when the client pointer is live. -/
theorem delfromworkspace_spec {s : State} {p : Nat} {c : Client} (ws : Nat)
    (h : s.client? p = some c) :
    ∃ s1, delfromworkspace s p ws = some s1 ∧
      s1.wslist = upd s.wslist ws (delitem (s.wslist ws) (c.wsitem ws)) ∧
      s1.winlist = s.winlist.map (fun d =>
        if d.ptr = p then { c with wsitem := upd c.wsitem ws none } else d) ∧
      s1.nextptr = s.nextptr ∧ s1.out = s.out ∧ s.sameEnv s1 := by
  have hp := client?_ptr h
  unfold delfromworkspace
  simp only [h, Option.bind_eq_bind, Option.some_bind, Option.pure_def]
  refine ⟨_, rfl, rfl, ?_, rfl, rfl, ⟨rfl, rfl, rfl, rfl, rfl, rfl, rfl, rfl, rfl⟩⟩
  simp [State.setClient, hp]

theorem memberCount_of_wslist {s s1 : State} {ws : Nat} {l : List Item}
    (hw : s1.wslist = upd s.wslist ws l) (q k : Nat) :
    s1.memberCount q k =
      if k = ws then (l.filter (fun it => it.data = q)).length else s.memberCount q k := by
  unfold State.memberCount
  rw [hw]
  unfold upd
  split <;> rfl

/-- The loop of `fixwindow` that adds the client to the workspaces of `wss`
other than the current one. -/
theorem wsloop_add (p : Nat) (wss : List Nat) :
    ∀ (s : State) (c : Client), s.client? p = some c →
    ∃ s1 c1, wsloop (fun s ws => if ws ≠ s.curws then addtoworkspace s p ws else some s) s wss
        = some s1 ∧
      s1.client? p = some c1 ∧ c1 = { c with wsitem := c1.wsitem } ∧
      (∀ q, q ≠ p → s1.client? q = s.client? q) ∧
      (∀ q k, s1.memberCount q k =
        s.memberCount q k + if q = p ∧ k ≠ s.curws then wss.count k else 0) ∧
      s.sameEnv s1 ∧ s.nextptr ≤ s1.nextptr := by
  induction wss with
  | nil =>
    intro s c h
    exact ⟨s, c, rfl, h, rfl, fun _ _ => rfl, fun q k => by simp, sameEnv_refl s,
      Nat.le_refl _⟩
  | cons ws wss ih =>
    intro s c h
    unfold wsloop
    by_cases hws : ws ≠ s.curws
    · obtain ⟨s1, hs1, hwl, hwin, hnext, henv⟩ := addtoworkspace_spec ws h
      obtain ⟨hc1, hother⟩ := client?_of_winlist_replace s1
        { c with wsitem := upd c.wsitem ws (some s.nextptr) } h (client?_ptr h : c.ptr = p) hwin
      obtain ⟨s2, c2, hs2, hc2, hceq, hother2, hcount, henv2, hnext2⟩ := ih s1 _ hc1
      refine ⟨s2, c2, ?_, hc2, ?_, ?_, ?_, sameEnv_trans henv henv2, by omega⟩
      · simp only [if_pos hws, hs1, Option.some_bind]
        exact hs2
      · rw [hceq]
      · intro q hq
        rw [hother2 q hq, hother q hq]
      · intro q k
        rw [hcount q k, memberCount_of_wslist hwl q k, henv.2.2.2.1]
        by_cases hk : k = ws
        · subst hk
          by_cases hq : q = p
          · subst hq
            simp [hws, List.filter_append, State.memberCount]
            omega
          · simp [hq, List.filter_append, State.memberCount]
            intro h'; exact absurd h'.symm hq
        · have hk' : ws ≠ k := fun h' => hk h'.symm
          simp [hk, hk', List.count_cons]
    · have hws' : ws = s.curws := not_not.mp hws
      obtain ⟨s2, c2, hs2, hc2, hceq, hother2, hcount, henv2, hnext2⟩ := ih s c h
      refine ⟨s2, c2, ?_, hc2, hceq, hother2, ?_, henv2, hnext2⟩
      · simp only [hws, if_false, Option.some_bind]
        exact hs2
      · intro q k
        rw [hcount q k]
        by_cases hk : k = s.curws
        · simp [hk]
        · have : ws ≠ k := by rw [hws']; exact fun h' => hk h'.symm
          simp [List.count_cons, this]

theorem delitem_linked {c : Client} {l : List Item} {ws : Nat} (h : c.linked l ws) :
    delitem l (c.wsitem ws) = l.filter (fun it => it.data ≠ c.ptr) := by
  unfold Client.linked at h
  cases hw : c.wsitem ws with
  | none => rw [hw] at h; exact absurd h id
  | some ip =>
    rw [hw] at h
    unfold delitem
    apply List.filter_congr
    intro it hit
    have := h it hit
    by_cases hd : it.data = c.ptr <;> simp_all

theorem count_range_workspaces (k : Nat) (hk : k < WORKSPACES) :
    (List.range WORKSPACES).count k = 1 := by
  unfold WORKSPACES at hk ⊢
  interval_cases k <;> rfl

theorem raisewindow_lists (s : State) (win : Nat) :
    (raisewindow s win).winlist = s.winlist ∧ (raisewindow s win).wslist = s.wslist ∧
    (raisewindow s win).curws = s.curws := by
  unfold raisewindow
  split <;> exact ⟨rfl, rfl, rfl⟩

/-- What `fixwindow` does to a client that is not fixed and has one entry in the
list of the current workspace and none in the other lists. -/
theorem fixwindow_fix (s : State) (p : Nat) (c : Client) (setcolour : Bool)
    (hc : s.client? p = some c) (hfix : c.fixed = false)
    (hmem : ∀ ws, ws < WORKSPACES → s.memberCount p ws = if ws = s.curws then 1 else 0) :
    ∃ s1 c1, fixwindow s (some p) setcolour = some s1 ∧ s1.client? p = some c1 ∧
      c1.fixed = true ∧
      (∀ ws, ws < WORKSPACES → s1.memberCount p ws = 1) ∧
      (∀ q, q ≠ p → ∀ ws, s1.memberCount q ws = s.memberCount q ws) ∧
      (∀ q, q ≠ p → s1.client? q = s.client? q) ∧ s1.curws = s.curws ∧
      s.nextptr ≤ s1.nextptr ∧ c1.id = c.id := by
  have hp : c.ptr = p := client?_ptr hc
  obtain ⟨hrw, hrl, hrc⟩ := raisewindow_lists s c.id
  have hc0 : (raisewindow s c.id).client? p = some c := by
    unfold State.client?; rw [hrw]; exact hc
  obtain ⟨hc1, hother1⟩ := client?_of_winlist_replace
    (setwmdesktop ((raisewindow s c.id).setClient { c with fixed := true }) c.id
      NET_WM_FIXED)
    { c with fixed := true } hc0 hp
    (by simp [setwmdesktop, State.send, State.setClient, hp])
  obtain ⟨s2, c2, hs2, hc2, hceq, hother2, hcount, henv, hnext⟩ :=
    wsloop_add p (List.range WORKSPACES) _ _ hc1
  refine ⟨(if setcolour then s2.send [Request.borderPixel c.id s2.conf.fixedcol]
    else s2).send [Request.flush], c2, ?_, ?_, ?_, ?_, ?_, ?_, ?_, ?_, ?_⟩
  · unfold fixwindow
    simp only [hc, hfix, Option.bind_eq_bind, Option.some_bind, Option.pure_def,
      Bool.false_eq_true, if_false]
    rw [hs2]
    rfl
  · cases setcolour <;> exact hc2
  · rw [hceq]
  · intro ws hws
    have h1 := hcount p ws
    have h2 : ((if setcolour then s2.send [Request.borderPixel c.id s2.conf.fixedcol]
        else s2).send [Request.flush]).memberCount p ws = s2.memberCount p ws := by
      cases setcolour <;> rfl
    rw [h2, h1, count_range_workspaces ws hws]
    have h3 : (setwmdesktop ((raisewindow s c.id).setClient { c with fixed := true }) c.id
        NET_WM_FIXED).memberCount p ws = s.memberCount p ws := by
      unfold State.memberCount; simp only [setwmdesktop, State.send, State.setClient, hrl]
    have h4 : (setwmdesktop ((raisewindow s c.id).setClient { c with fixed := true }) c.id
        NET_WM_FIXED).curws = s.curws := hrc
    rw [h3, h4, hmem ws hws]
    by_cases hk : ws = s.curws <;> simp [hk]
  · intro q hq ws
    have h2 : ((if setcolour then s2.send [Request.borderPixel c.id s2.conf.fixedcol]
        else s2).send [Request.flush]).memberCount q ws = s2.memberCount q ws := by
      cases setcolour <;> rfl
    rw [h2, hcount q ws]
    simp only [hq, false_and, if_false, Nat.add_zero]
    unfold State.memberCount; simp only [setwmdesktop, State.send, State.setClient, hrl]
  · intro q hq
    have h2 : ((if setcolour then s2.send [Request.borderPixel c.id s2.conf.fixedcol]
        else s2).send [Request.flush]).client? q = s2.client? q := by
      cases setcolour <;> rfl
    rw [h2, hother2 q hq, hother1 q hq]
    unfold State.client?; rw [hrw]
  · have h2 : ((if setcolour then s2.send [Request.borderPixel c.id s2.conf.fixedcol]
        else s2).send [Request.flush]).curws = s2.curws := by
      cases setcolour <;> rfl
    rw [h2, henv.2.2.2.1]
    exact hrc
  · have h2 : ((if setcolour then s2.send [Request.borderPixel c.id s2.conf.fixedcol]
        else s2).send [Request.flush]).nextptr = s2.nextptr := by
      cases setcolour <;> rfl
    rw [h2]
    have h5 : (setwmdesktop ((raisewindow s c.id).setClient { c with fixed := true }) c.id
        NET_WM_FIXED).nextptr = s.nextptr := by
      show (raisewindow s c.id).nextptr = s.nextptr
      unfold raisewindow
      split <;> rfl
    omega
  · rw [hceq]

theorem setunfocus_spec (s : State) (win : Nat)
    (hflive : ∀ f, s.focuswin = some f → (s.client? f).isSome) :
    ∃ s1, setunfocus s win = some s1 ∧ s1.focuswin = s.focuswin ∧ s1.wslist = s.wslist ∧
      s1.curws = s.curws ∧ s1.mode = s.mode ∧ s1.lastfocuswin = s.lastfocuswin ∧
      s1.winlist = s.winlist := by
  unfold setunfocus
  cases hf : s.focuswin with
  | none => exact ⟨s, rfl, hf, rfl, rfl, rfl, rfl, rfl⟩
  | some f =>
    obtain ⟨fc, hfc⟩ := Option.isSome_iff_exists.mp (hflive f hf)
    simp only [hfc, Option.bind_eq_bind, Option.some_bind, Option.pure_def]
    split
    · exact ⟨s, rfl, hf, rfl, rfl, rfl, rfl, rfl⟩
    · exact ⟨_, rfl, hf, rfl, rfl, rfl, rfl, rfl⟩

theorem setfocus_spec (s : State) (p : Nat) (c : Client) (hc : s.client? p = some c)
    (hroot : c.id ≠ s.screen.root)
    (hflive : ∀ f, s.focuswin = some f → (s.client? f).isSome) :
    ∃ s1, setfocus s (some p) = some s1 ∧ s1.focuswin = some p ∧ s1.wslist = s.wslist ∧
      s1.curws = s.curws ∧ s1.mode = s.mode ∧ s1.lastfocuswin = s.lastfocuswin ∧
      s1.winlist = s.winlist := by
  unfold setfocus
  simp only [hc, Option.bind_eq_bind, Option.some_bind, Option.pure_def, hroot, false_or]
  by_cases hp : some p = s.focuswin
  · exact ⟨s, by simp [hp], hp.symm, rfl, rfl, rfl, rfl, rfl⟩
  · simp only [hp, if_false]
    cases hf : s.focuswin with
    | none =>
      refine ⟨{ (s.send [Request.borderPixel c.id
          (if c.fixed then s.conf.fixedcol else s.conf.focuscol)]).send
          [Request.inputFocus (some c.id), Request.flush] with focuswin := some p },
        ?_, rfl, rfl, rfl, rfl, rfl, rfl⟩
      simp only [State.send, hf, Option.some_bind]
    | some f =>
      obtain ⟨fc, hfc⟩ := Option.isSome_iff_exists.mp (hflive f hf)
      obtain ⟨s1, hs1, h1, h2, h3, h4, h5, h6⟩ := setunfocus_spec
        (s.send [Request.borderPixel c.id (if c.fixed then s.conf.fixedcol else s.conf.focuscol)])
        fc.id (fun g hg => hflive g hg)
      refine ⟨{ s1.send [Request.inputFocus (some c.id), Request.flush] with focuswin := some p },
        ?_, rfl, h2, h3, h4, h5, h6⟩
      have hfc1 : (s.send [Request.borderPixel c.id
          (if c.fixed then s.conf.fixedcol else s.conf.focuscol)]).client? f = some fc := hfc
      have hf1 : (s.send [Request.borderPixel c.id
          (if c.fixed then s.conf.fixedcol else s.conf.focuscol)]).focuswin = some f := hf
      simp only [hf1, hfc1, hs1, Option.bind_eq_bind, Option.some_bind]

theorem beginTabbing_fields (s : State) :
    (beginTabbing s).focuswin = s.focuswin ∧ (beginTabbing s).winlist = s.winlist ∧
    (beginTabbing s).wslist = s.wslist ∧ (beginTabbing s).curws = s.curws ∧
    (beginTabbing s).mode = MCWM_TABBING ∧ (beginTabbing s).screen = s.screen := by
  unfold beginTabbing
  split
  · exact ⟨rfl, rfl, rfl, rfl, rfl, rfl⟩
  · rename_i h
    exact ⟨rfl, rfl, rfl, rfl, (not_not.mp h).symm, rfl⟩

/-- The scenario of C7: with the entries of windows 7, 8 and 9 in this order and
the focus on 7, the tab key moves the focus to 8, then 9, then 7 again, and the
back-tab key moves it from 7 to 9; the order of the list stays 7, 8, 9. -/
theorem focusnext_order_example :
    exThree.focuswin = some 1 ∧
    (exThree.wslist exThree.curws).map Item.data = [1, 3, 5] ∧
    (focusnext exThree false).map (fun s => s.focuswin) = some (some 3) ∧
    ((focusnext exThree false).bind (fun s => focusnext s false)).map (fun s => s.focuswin)
      = some (some 5) ∧
    (((focusnext exThree false).bind (fun s => focusnext s false)).bind
      (fun s => focusnext s false)).map (fun s => s.focuswin) = some (some 1) ∧
    (focusnext exThree true).map (fun s => s.focuswin) = some (some 5) ∧
    (((focusnext exThree false).bind (fun s => focusnext s false)).bind
      (fun s => focusnext s false)).map (fun s => (s.wslist s.curws).map Item.data)
      = some [1, 3, 5] := by
  refine ⟨by decide, by decide, by decide, by decide, by decide, by decide, by decide⟩

/-- The scenario of C8: tabbing from window 7 to window 8 and releasing the
modifier leaves the list of the current workspace in the order 8, 7, 9. -/
theorem finishtabbing_order_example :
    (exTabbing.wslist exTabbing.curws).map Item.data = [1, 3, 5] ∧
    (finishtabbing exTabbing).map (fun s => (s.wslist s.curws).map Item.data)
      = some [3, 1, 5] := by
  refine ⟨by decide, by decide⟩

/-! ## Monitors going away -/

theorem client?_of_mem_nodup {s : State} (hnd : (s.winlist.map Client.ptr).Nodup) {d : Client}
    (hd : d ∈ s.winlist) : s.client? d.ptr = some d := by
  unfold State.client?
  generalize s.winlist = l at hnd hd
  induction l with
  | nil => cases hd
  | cons a l ih =>
    rw [List.map_cons, List.nodup_cons] at hnd
    rw [List.find?_cons]
    by_cases ha : a.ptr = d.ptr
    · simp only [ha, decide_True]
      rcases List.mem_cons.mp hd with h | h
      · rw [h]
      · exact absurd (ha ▸ List.mem_map_of_mem Client.ptr h) hnd.1
    · simp only [ha, decide_False]
      rcases List.mem_cons.mp hd with h | h
      · exact absurd (h ▸ rfl) ha
      · exact ih hnd.2 h

/-- What `fitonscreen` keeps of a client record. -/
theorem fitonscreen_keeps (conf : Conf) (screen : Screen) (mon : Option Monitor) (c : Client) :
    (fitonscreen conf screen mon c).1.ptr = c.ptr ∧
    (fitonscreen conf screen mon c).1.monitor = c.monitor ∧
    (fitonscreen conf screen mon c).1.id = c.id ∧
    (fitonscreen conf screen mon c).1.fixed = c.fixed ∧
    (fitonscreen conf screen mon c).1.wsitem = c.wsitem := by
  rw [fitonscreen_client]
  exact ⟨rfl, rfl, rfl, rfl, rfl⟩

theorem movedClient_ptr (s : State) (mon : Monitor) (t : Option Nat) (r : Option Monitor)
    (d : Client) : (movedClient s mon t r d).ptr = d.ptr := by
  unfold movedClient
  split
  · exact (fitonscreen_keeps _ _ _ _).1
  · rfl

theorem moveClients_spec (mon : Monitor) (t : Option Nat) (r : Option Monitor)
    (s0 : State) (clients : List Client) :
    ∀ s : State, s.conf = s0.conf → s.screen = s0.screen → s.monlist = s0.monlist →
      moveTarget mon s0.monlist = t → s0.resolveMonitor t = some r →
      (s.winlist.map Client.ptr).Nodup → (clients.map Client.ptr).Nodup →
      (∀ x ∈ clients, ∃ d ∈ s.winlist, d.ptr = x.ptr) →
      ∃ s1, moveClients mon s clients = some s1 ∧
        s1.winlist = s.winlist.map (fun d =>
          if d.ptr ∈ clients.map Client.ptr then movedClient s0 mon t r d else d) ∧
        s1.monlist = s.monlist ∧ s1.wslist = s.wslist ∧ s1.curws = s.curws ∧
        s1.focuswin = s.focuswin := by
  induction clients with
  | nil =>
    intro s _ _ _ _ _ _ _ _
    exact ⟨s, rfl, by simp, rfl, rfl, rfl, rfl⟩
  | cons item rest ih =>
    intro s hconf hscreen hmonl ht hr hnd hndc hlive
    rw [List.map_cons, List.nodup_cons] at hndc
    obtain ⟨d, hd, hdp⟩ := hlive item (List.mem_cons_self _ _)
    have hcl : s.client? item.ptr = some d := hdp ▸ client?_of_mem_nodup hnd hd
    have hrest : ∀ (s2 : State), s2.winlist.map Client.ptr = s.winlist.map Client.ptr →
        ∀ x ∈ rest, ∃ e ∈ s2.winlist, e.ptr = x.ptr := by
      intro s2 hs2 x hx
      obtain ⟨e, he, hep⟩ := hlive x (List.mem_cons_of_mem _ hx)
      have : x.ptr ∈ s2.winlist.map Client.ptr := by
        rw [hs2]; exact hep ▸ List.mem_map_of_mem Client.ptr he
      obtain ⟨e2, he2, hep2⟩ := List.mem_map.mp this
      exact ⟨e2, he2, hep2⟩
    unfold moveClients
    simp only [hcl, Option.bind_eq_bind, Option.some_bind]
    by_cases hm : d.monitor = some mon.ptr
    · simp only [hm, if_true]
      -- the state after the assignment and `fitonscreen`
      have hc1 : (s.setClient { d with monitor := moveTarget mon s.monlist }).client? item.ptr
          = some { d with monitor := t } := by
        rw [client?_setClient, hcl, hmonl, ht]
        simp [hdp]
      have hres : (s.setClient { d with monitor := moveTarget mon s.monlist }).resolveMonitor t
          = some r := by
        rw [← hr]
        unfold State.resolveMonitor State.monitor?
        simp only [State.setClient, hmonl]
      obtain ⟨s2, hs2, hw2, hm2, hwl2, hcur2, hf2, hconf2, hscreen2⟩ :
          ∃ s2, fitonscreenAt (s.setClient { d with monitor := moveTarget mon s.monlist })
            item.ptr = some s2 ∧
          s2.winlist = s.winlist.map (fun e => if e.ptr = item.ptr then
            (fitonscreen s0.conf s0.screen r { d with monitor := t }).1 else e) ∧
          s2.monlist = s.monlist ∧ s2.wslist = s.wslist ∧ s2.curws = s.curws ∧
          s2.focuswin = s.focuswin ∧ s2.conf = s.conf ∧ s2.screen = s.screen := by
        unfold fitonscreenAt
        simp only [hc1, hres, Option.bind_eq_bind, Option.some_bind, Option.pure_def]
        refine ⟨_, rfl, ?_, rfl, rfl, rfl, rfl, rfl, rfl⟩
        simp only [State.send, State.setClient, List.map_map, hconf, hscreen]
        apply List.map_congr_left
        intro e _
        simp only [Function.comp, (fitonscreen_keeps _ _ _ _).1, hdp]
        by_cases he : e.ptr = item.ptr <;> simp [he, hdp]
      have hptr2 : s2.winlist.map Client.ptr = s.winlist.map Client.ptr := by
        rw [hw2, List.map_map]
        apply List.map_congr_left
        intro e _
        simp only [Function.comp]
        split
        · rename_i he; rw [(fitonscreen_keeps _ _ _ _).1]; exact hdp.trans he.symm
        · rfl
      obtain ⟨s1, hs1, hw1, hm1, hwl1, hcur1, hf1⟩ := ih s2 (hconf2.trans hconf)
        (hscreen2.trans hscreen) (hm2.trans hmonl) ht hr (hptr2 ▸ hnd) hndc.2 (hrest s2 hptr2)
      refine ⟨s1, ?_, ?_, hm1.trans hm2, hwl1.trans hwl2, hcur1.trans hcur2, hf1.trans hf2⟩
      · rw [hs2]; exact hs1
      · rw [hw1, hw2, List.map_map]
        apply List.map_congr_left
        intro e he
        have hFp : (fitonscreen s0.conf s0.screen r { d with monitor := t }).1.ptr = item.ptr :=
          (fitonscreen_keeps _ _ _ _).1.trans hdp
        show (if (if e.ptr = item.ptr then
              (fitonscreen s0.conf s0.screen r { d with monitor := t }).1 else e).ptr
              ∈ rest.map Client.ptr
            then movedClient s0 mon t r (if e.ptr = item.ptr then
              (fitonscreen s0.conf s0.screen r { d with monitor := t }).1 else e)
            else (if e.ptr = item.ptr then
              (fitonscreen s0.conf s0.screen r { d with monitor := t }).1 else e)) =
          if e.ptr ∈ (item :: rest).map Client.ptr then movedClient s0 mon t r e else e
        by_cases hep : e.ptr = item.ptr
        · have hed : e = d := by
            have h1 := client?_of_mem_nodup hnd he
            rw [hep, hcl] at h1
            exact (Option.some.inj h1).symm
          rw [if_pos hep, if_neg (hFp ▸ hndc.1),
            if_pos (by rw [List.map_cons, hep]; exact List.mem_cons_self _ _), hed]
          unfold movedClient
          rw [if_pos hm]
        · rw [if_neg hep]
          simp only [List.map_cons, List.mem_cons, hep, false_or]
    · simp only [hm, if_false]
      obtain ⟨s1, hs1, hw1, hm1, hwl1, hcur1, hf1⟩ := ih s hconf hscreen hmonl ht hr hnd
        hndc.2 (hrest s rfl)
      refine ⟨s1, hs1, ?_, hm1, hwl1, hcur1, hf1⟩
      rw [hw1]
      apply List.map_congr_left
      intro e he
      show (if e.ptr ∈ rest.map Client.ptr then movedClient s0 mon t r e else e) =
        if e.ptr ∈ (item :: rest).map Client.ptr then movedClient s0 mon t r e else e
      by_cases hep : e.ptr = item.ptr
      · have hed : e = d := by
          have h1 := client?_of_mem_nodup hnd he
          rw [hep, hcl] at h1
          exact (Option.some.inj h1).symm
        rw [if_neg (hep ▸ hndc.1),
          if_pos (by rw [List.map_cons, hep]; exact List.mem_cons_self _ _), hed]
        unfold movedClient
        rw [if_neg hm]
      · simp only [List.map_cons, List.mem_cons, hep, false_or]

theorem nextMonitor_getElem? (l : List Monitor) (hnd : (l.map Monitor.ptr).Nodup) :
    ∀ (i : Nat) (m : Monitor), l[i]? = some m → nextMonitor m.ptr l = l[i + 1]? := by
  induction l with
  | nil => intro i m h; simp at h
  | cons a rest ih =>
    intro i m h
    rw [List.map_cons, List.nodup_cons] at hnd
    unfold nextMonitor
    cases i with
    | zero =>
      simp only [List.getElem?_cons_zero, Option.some.injEq] at h
      subst h
      simp only [if_true, List.getElem?_cons_succ]
      exact List.head?_eq_getElem? rest
    | succ j =>
      simp only [List.getElem?_cons_succ] at h
      have hmem : m ∈ rest := List.getElem?_mem h
      have hne : a.ptr ≠ m.ptr := fun h' => hnd.1 (h' ▸ List.mem_map_of_mem Monitor.ptr hmem)
      simp only [hne, if_false, List.getElem?_cons_succ]
      exact ih hnd.2 j m h

theorem monitor?_of_mem_nodup {s : State} (hnd : (s.monlist.map Monitor.ptr).Nodup)
    {m : Monitor} (hm : m ∈ s.monlist) : s.monitor? m.ptr = some m := by
  unfold State.monitor?
  generalize s.monlist = l at hnd hm
  induction l with
  | nil => cases hm
  | cons a l ih =>
    rw [List.map_cons, List.nodup_cons] at hnd
    rw [List.find?_cons]
    by_cases ha : a.ptr = m.ptr
    · simp only [ha, decide_True]
      rcases List.mem_cons.mp hm with h | h
      · rw [h]
      · exact absurd (ha ▸ List.mem_map_of_mem Monitor.ptr h) hnd.1
    · simp only [ha, decide_False]
      rcases List.mem_cons.mp hm with h | h
      · exact absurd (h ▸ rfl) ha
      · exact ih hnd.2 h

theorem ptr_ne_of_index_ne {l : List Monitor} (hnd : (l.map Monitor.ptr).Nodup) {i j : Nat}
    {a b : Monitor} (ha : l[i]? = some a) (hb : l[j]? = some b) (hij : i ≠ j) :
    a.ptr ≠ b.ptr := by
  intro h
  have hi : i < (l.map Monitor.ptr).length := by
    rw [List.length_map]; exact (List.getElem?_eq_some.mp ha).1
  have h1 : (l.map Monitor.ptr)[i]? = some a.ptr := by rw [List.getElem?_map, ha]; rfl
  have h2 : (l.map Monitor.ptr)[j]? = some a.ptr := by rw [List.getElem?_map, hb, h]; rfl
  exact hij (List.getElem?_inj hi hnd (h1.trans h2.symm))

/-- C10: when `getoutputs` meets an output without CRTC whose monitor `mon` is in
a monitor list of at least two monitors, every client on `mon` gets the
monitor after `mon` in the list or, when `mon` is the last one, the first
monitor of the list; `mon` is then removed from the list.  Afterwards no client
refers to `mon`, every monitor reference is `NULL` or a monitor of the list,
and the clients of other monitors keep their reference. -/
theorem getoutputs_removes_monitor (s : State) (o : OutputReply) (crtcinfo : Option CrtcInfo)
    (mon : Monitor)
    (hinfo : o.info = some (0, crtcinfo))
    (hmon : findmonitor s o.id = some mon)
    (hlen : 2 ≤ s.monlist.length)
    (hndm : (s.monlist.map Monitor.ptr).Nodup)
    (hndw : (s.winlist.map Client.ptr).Nodup)
    (hrefs : ∀ c ∈ s.winlist, ∀ m, c.monitor = some m → ∃ mm ∈ s.monlist, mm.ptr = m) :
    ∃ s1 i target, getoutputsStep s o = some (s1, true) ∧
      s.monlist[i]? = some mon ∧
      s.monlist[if i + 1 < s.monlist.length then i + 1 else 0]? = some target ∧
      target.ptr ≠ mon.ptr ∧
      s1.monlist = s.monlist.filter (fun m => m.ptr ≠ mon.ptr) ∧
      s1.winlist.map Client.ptr = s.winlist.map Client.ptr ∧
      (∀ c ∈ s.winlist, ∃ c1 ∈ s1.winlist, c1.ptr = c.ptr ∧
        c1.monitor = if c.monitor = some mon.ptr then some target.ptr else c.monitor) ∧
      (∀ c1 ∈ s1.winlist, c1.monitor ≠ some mon.ptr ∧
        (c1.monitor = none ∨ ∃ m ∈ s1.monlist, c1.monitor = some m.ptr)) := by
  have hmem : mon ∈ s.monlist := List.mem_of_find?_eq_some hmon
  obtain ⟨i, hi⟩ := List.mem_iff_getElem?.mp hmem
  have hilt : i < s.monlist.length := (List.getElem?_eq_some.mp hi).1
  have hjlt : (if i + 1 < s.monlist.length then i + 1 else 0) < s.monlist.length := by
    split <;> omega
  have hij : i ≠ (if i + 1 < s.monlist.length then i + 1 else 0) := by
    split <;> omega
  obtain ⟨target, htarget⟩ : ∃ target,
      s.monlist[if i + 1 < s.monlist.length then i + 1 else 0]? = some target :=
    ⟨_, List.getElem?_eq_getElem hjlt⟩
  have htmem : target ∈ s.monlist := List.getElem?_mem htarget
  have htne : target.ptr ≠ mon.ptr := (ptr_ne_of_index_ne hndm hi htarget hij).symm
  have ht : moveTarget mon s.monlist = some target.ptr := by
    unfold moveTarget
    rw [nextMonitor_getElem? _ hndm i mon hi]
    by_cases h : i + 1 < s.monlist.length
    · rw [if_pos h] at htarget
      rw [htarget]
    · rw [if_neg h] at htarget
      rw [List.getElem?_eq_none (by omega)]
      cases hl : s.monlist with
      | nil => rw [hl] at hlen; simp at hlen
      | cons first rest =>
        rw [hl] at htarget
        simp only [List.getElem?_cons_zero, Option.some.injEq] at htarget
        rw [htarget]
  have hr : s.resolveMonitor (some target.ptr) = some (some target) := by
    unfold State.resolveMonitor
    simp only [monitor?_of_mem_nodup hndm htmem, Option.map_some']
  obtain ⟨s1, hs1, hw1, hm1, -, -, -⟩ := moveClients_spec mon (some target.ptr) (some target) s
    s.winlist s rfl rfl rfl ht hr hndw hndw (fun x hx => ⟨x, hx, rfl⟩)
  have hw1' : s1.winlist = s.winlist.map (movedClient s mon (some target.ptr) (some target)) := by
    rw [hw1]
    apply List.map_congr_left
    intro e he
    rw [if_pos (List.mem_map_of_mem Client.ptr he)]
  have hmoved : ∀ d, (movedClient s mon (some target.ptr) (some target) d).monitor =
      if d.monitor = some mon.ptr then some target.ptr else d.monitor := by
    intro d
    unfold movedClient
    split
    · exact (fitonscreen_keeps _ _ _ _).2.1
    · rfl
  refine ⟨delmonitor s1 mon, i, target, ?_, hi, htarget, htne, ?_, ?_, ?_, ?_⟩
  · unfold getoutputsStep
    simp only [hinfo, hmon, hs1, ne_eq, not_true_eq_false, if_false, Option.bind_eq_bind,
      Option.some_bind, Option.pure_def]
  · show freeitem s1.monlist mon.ptr = _
    rw [hm1]; rfl
  · show s1.winlist.map Client.ptr = _
    rw [hw1', List.map_map]
    apply List.map_congr_left
    intro e _
    exact movedClient_ptr _ _ _ _ _
  · intro c hc
    refine ⟨movedClient s mon (some target.ptr) (some target) c, ?_, movedClient_ptr _ _ _ _ _,
      hmoved c⟩
    show _ ∈ s1.winlist
    rw [hw1']
    exact List.mem_map_of_mem _ hc
  · intro c1 hc1
    have hc1' : c1 ∈ s1.winlist := hc1
    rw [hw1'] at hc1'
    obtain ⟨d, hd, hdc⟩ := List.mem_map.mp hc1'
    have hmd := hmoved d
    rw [hdc] at hmd
    have hfilter : ∀ m ∈ s.monlist, m.ptr ≠ mon.ptr → m ∈ (delmonitor s1 mon).monlist := by
      intro m hm hne
      show m ∈ freeitem s1.monlist mon.ptr
      rw [hm1]
      exact List.mem_filter.mpr ⟨hm, by simp [hne]⟩
    by_cases hdm : d.monitor = some mon.ptr
    · rw [if_pos hdm] at hmd
      refine ⟨?_, Or.inr ⟨target, hfilter target htmem htne, hmd⟩⟩
      rw [hmd]
      exact fun h => htne (Option.some.inj h)
    · rw [if_neg hdm] at hmd
      refine ⟨by rw [hmd]; exact hdm, ?_⟩
      cases hdmon : d.monitor with
      | none => left; rw [hmd, hdmon]
      | some m =>
        right
        obtain ⟨mm, hmm, hmp⟩ := hrefs d hd m hdmon
        refine ⟨mm, hfilter mm hmm ?_, by rw [hmd, hdmon, hmp]⟩
        intro h
        exact hdm (by rw [hdmon, ← hmp, h])

/-- C9 (the code at the failing input): the only monitor (output 1) holds window
7; when `getoutputs` finds output 1 without CRTC, the monitor list becomes
empty, but the monitor pointer of the client is not `NULL`: it still holds the
address of the removed monitor, and a following `fitonscreen` dereferences
it. -/
theorem getoutputs_last_monitor_dangling :
    exOneMonitor.monlist.map (fun m => (m.ptr, m.id)) = [(1, 1)] ∧
    exOneMonitor.winlist.map (fun c => (c.id, c.monitor)) = [(7, some 1)] ∧
    (getoutputs exOneMonitor [⟨1, some (0, none)⟩]).map
      (fun s => (s.monlist.map (fun m => m.ptr), s.winlist.map (fun c => (c.id, c.monitor))))
      = some ([], [(7, some 1)]) ∧
    ((getoutputs exOneMonitor [⟨1, some (0, none)⟩]).bind
      (fun s => fitonscreenAt s 2)).isNone = true := by
  refine ⟨by decide, by decide, by decide, by decide⟩

theorem getoutputs_removes_monitor_witness :
    ∃ s1 i target, getoutputsStep exTwoMonitors ⟨1, some (0, none)⟩ = some (s1, true) ∧
      exTwoMonitors.monlist[i]? = some ⟨1, 1, 0, 0, 1920, 1080⟩ ∧
      exTwoMonitors.monlist[if i + 1 < exTwoMonitors.monlist.length then i + 1 else 0]?
        = some target ∧
      target.ptr ≠ (⟨1, 1, 0, 0, 1920, 1080⟩ : Monitor).ptr ∧
      s1.monlist = exTwoMonitors.monlist.filter
        (fun m => m.ptr ≠ (⟨1, 1, 0, 0, 1920, 1080⟩ : Monitor).ptr) ∧
      s1.winlist.map Client.ptr = exTwoMonitors.winlist.map Client.ptr ∧
      (∀ c ∈ exTwoMonitors.winlist, ∃ c1 ∈ s1.winlist, c1.ptr = c.ptr ∧
        c1.monitor = if c.monitor = some (⟨1, 1, 0, 0, 1920, 1080⟩ : Monitor).ptr
          then some target.ptr else c.monitor) ∧
      (∀ c1 ∈ s1.winlist, c1.monitor ≠ some (⟨1, 1, 0, 0, 1920, 1080⟩ : Monitor).ptr ∧
        (c1.monitor = none ∨ ∃ m ∈ s1.monlist, c1.monitor = some m.ptr)) :=
  getoutputs_removes_monitor exTwoMonitors ⟨1, some (0, none)⟩ none ⟨1, 1, 0, 0, 1920, 1080⟩
    (by decide) (by decide) (by decide) (by decide) (by decide) (by decide)

/-- The scenario of C10: with monitors 1 and 2 in the list and window 7 on
monitor 1, the removal of monitor 1 leaves monitor 2 alone in the list and
window 7 on it. -/
theorem getoutputs_removes_monitor_example :
    (getoutputs exTwoMonitors [⟨1, some (0, none)⟩]).map
      (fun s => (s.monlist.map (fun m => m.ptr), s.winlist.map (fun c => (c.id, c.monitor))))
      = some ([2], [(7, some 2)]) := by
  decide

/-! ## The initial screen scan -/

/-- The value of `ws` in `setupscreen` in terms of the hint. -/
theorem toUInt32_getwmdesktop (child : ChildReply) :
    toUInt32 (getwmdesktop child.desktop) =
      match child.hint with
      | none => (MCWM_NOWS : Int)
      | some v => (v : Int) := by
  unfold ChildReply.hint getwmdesktop
  cases hd : child.desktop with
  | none => simp only []; decide
  | some r =>
    simp only []
    by_cases hl : r.length = 0
    · simp only [hl, if_true]; decide
    · have hl' : ¬ (0 = r.length) := fun h => hl h.symm
      simp only [hl, hl', if_false]
      unfold toUInt32 toInt32
      push_cast
      omega

theorem storeGeom_keeps (geom : Option Sizepos) (c : Client) :
    c.sameLinks (storeGeom geom c) := by
  unfold storeGeom; cases geom <;> exact ⟨rfl, rfl, rfl, rfl, rfl⟩

theorem hintUserPosition_keeps (hints : Hints) (c : Client) :
    c.sameLinks (hintUserPosition hints c) := by
  unfold hintUserPosition; split <;> exact ⟨rfl, rfl, rfl, rfl, rfl⟩

theorem hintMinSize_keeps (hints : Hints) (c : Client) :
    c.sameLinks (hintMinSize hints c) := by
  unfold hintMinSize; split <;> exact ⟨rfl, rfl, rfl, rfl, rfl⟩

theorem hintMaxSize_keeps (hints : Hints) (c : Client) :
    c.sameLinks (hintMaxSize hints c) := by
  unfold hintMaxSize; split <;> exact ⟨rfl, rfl, rfl, rfl, rfl⟩

theorem hintResizeInc_keeps (hints : Hints) (c : Client) :
    c.sameLinks (hintResizeInc hints c) := by
  unfold hintResizeInc; split <;> exact ⟨rfl, rfl, rfl, rfl, rfl⟩

theorem hintBaseSize_keeps (hints : Hints) (c : Client) :
    c.sameLinks (hintBaseSize hints c) := by
  unfold hintBaseSize; split <;> exact ⟨rfl, rfl, rfl, rfl, rfl⟩

theorem sameLinks_trans {a b c : Client} (h1 : a.sameLinks b) (h2 : b.sameLinks c) :
    a.sameLinks c :=
  ⟨h2.1.trans h1.1, h2.2.1.trans h1.2.1, h2.2.2.1.trans h1.2.2.1, h2.2.2.2.1.trans h1.2.2.2.1,
    h2.2.2.2.2.trans h1.2.2.2.2⟩

theorem setupwin_spec (s : State) (win : Nat) (geom : Option Sizepos) (hints : Hints)
    (hfresh : s.client? s.nextptr = none) :
    (setupwin s win geom hints).2 = s.nextptr ∧
    (∃ c0, (setupwin s win geom hints).1.client? s.nextptr = some c0 ∧ c0.id = win ∧
      c0.fixed = false ∧ c0.monitor = none) ∧
    (∀ q, q ≠ s.nextptr → (setupwin s win geom hints).1.client? q = s.client? q) ∧
    (setupwin s win geom hints).1.wslist = s.wslist ∧
    (setupwin s win geom hints).1.curws = s.curws ∧
    (setupwin s win geom hints).1.nextptr = s.nextptr + 1 ∧
    (setupwin s win geom hints).1.monlist = s.monlist ∧
    (setupwin s win geom hints).1.randrbase = s.randrbase := by
  have hk : (initClient s.screen s.nextptr win).sameLinks
      (hintBaseSize hints (hintResizeInc hints (hintMaxSize hints (hintMinSize hints
        (hintUserPosition hints (storeGeom geom (initClient s.screen s.nextptr win))))))) :=
    sameLinks_trans (storeGeom_keeps _ _) (sameLinks_trans (hintUserPosition_keeps _ _)
      (sameLinks_trans (hintMinSize_keeps _ _) (sameLinks_trans (hintMaxSize_keeps _ _)
        (sameLinks_trans (hintResizeInc_keeps _ _) (hintBaseSize_keeps _ _)))))
  obtain ⟨k1, k2, k3, k4, -⟩ := hk
  have key : ∀ (c0 : Client) (out : List Request), c0.ptr = s.nextptr →
      (({ s with winlist := additem s.winlist c0, nextptr := s.nextptr + 1, out := out } :
        State).client? s.nextptr = some c0) ∧
      (∀ q, q ≠ s.nextptr →
        ({ s with winlist := additem s.winlist c0, nextptr := s.nextptr + 1, out := out } :
          State).client? q = s.client? q) := by
    intro c0 out hc0
    unfold State.client? at hfresh ⊢
    simp only [additem, List.find?_append, hfresh, Option.none_or]
    refine ⟨by simp [List.find?, hc0], fun q hq => ?_⟩
    have : ¬ c0.ptr = q := fun h => hq (by rw [← h, hc0])
    simp [List.find?, this]
  refine ⟨rfl, ⟨_, (key _ _ k1).1, k2, k3, k4⟩, (key _ _ k1).2, rfl, rfl, rfl, rfl, rfl⟩

theorem fitonscreenAt_spec (s : State) (p : Nat) (c : Client) (r : Option Monitor)
    (hc : s.client? p = some c) (hr : s.resolveMonitor c.monitor = some r) :
    ∃ s1 c1, fitonscreenAt s p = some s1 ∧ s1.client? p = some c1 ∧ c.sameLinks c1 ∧
      (∀ q, q ≠ p → s1.client? q = s.client? q) ∧ s1.wslist = s.wslist ∧
      s1.curws = s.curws ∧ s1.nextptr = s.nextptr ∧ s1.monlist = s.monlist := by
  have hp := client?_ptr hc
  obtain ⟨k1, k2, k3, k4, k5⟩ := fitonscreen_keeps s.conf s.screen r c
  obtain ⟨h1, h2⟩ := client?_of_winlist_replace
    ((s.setClient (fitonscreen s.conf s.screen r c).1).send (fitonscreen s.conf s.screen r c).2)
    (fitonscreen s.conf s.screen r c).1 hc (k1.trans hp)
    (by simp [State.send, State.setClient, k1, hp])
  refine ⟨_, _, ?_, h1, ⟨k1, k3, k4, k2, k5⟩, h2, rfl, rfl, rfl, rfl⟩
  unfold fitonscreenAt
  simp only [hc, hr, Option.bind_eq_bind, Option.some_bind, Option.pure_def]

theorem resolveMonitor_findmonbycoord (s : State) (x y : Int) :
    ∃ r, s.resolveMonitor ((findmonbycoord s x y).map (fun m => m.ptr)) = some r := by
  unfold State.resolveMonitor
  cases h : findmonbycoord s x y with
  | none => exact ⟨none, rfl⟩
  | some m =>
    have hm : m ∈ s.monlist := List.mem_of_find?_eq_some h
    have : (s.monitor? m.ptr).isSome := by
      unfold State.monitor?
      rw [List.find?_isSome]
      exact ⟨m, hm, by simp⟩
    obtain ⟨m1, hm1⟩ := Option.isSome_iff_exists.mp this
    exact ⟨some m1, by simp [hm1]⟩

theorem memberCount_add {s s1 : State} {ws p n : Nat}
    (hw : s1.wslist = upd s.wslist ws (s.wslist ws ++ [⟨n, p⟩])) (q k : Nat) :
    s1.memberCount q k = s.memberCount q k + if q = p ∧ k = ws then 1 else 0 := by
  rw [memberCount_of_wslist hw q k]
  by_cases hk : k = ws
  · subst hk
    by_cases hq : q = p
    · subst hq
      simp [List.filter_append, State.memberCount]
    · have : ¬ p = q := fun h => hq h.symm
      simp [hq, this, List.filter_append, State.memberCount]
  · simp [hk]

/-- The part of `setupscreen` that enters a new client, not fixed and without
entries, into the workspace lists according to the hint. -/
theorem setupscreenWorkspace_spec (s : State) (p : Nat) (c : Client) (child : ChildReply)
    (hc : s.client? p = some c) (hfix : c.fixed = false)
    (hzero : ∀ ws, s.memberCount p ws = 0) :
    ∃ s1 c1, setupscreenWorkspace s p child = some s1 ∧ s.nextptr < s1.nextptr ∧
      s1.curws = s.curws ∧ s1.client? p = some c1 ∧ c1.id = c.id ∧
      (∀ q, q ≠ p → s1.client? q = s.client? q) ∧
      (∀ q, q ≠ p → ∀ ws, s1.memberCount q ws = s.memberCount q ws) ∧
      (child.hint = some NET_WM_FIXED →
        c1.fixed = true ∧ ∀ ws, ws < WORKSPACES → s1.memberCount p ws = 1) ∧
      (∀ v, child.hint = some v → v < WORKSPACES →
        c1.fixed = false ∧ ∀ ws, s1.memberCount p ws = if ws = v then 1 else 0) ∧
      ((child.hint = none ∨ ∃ v, child.hint = some v ∧ WORKSPACES ≤ v ∧ v ≠ NET_WM_FIXED) →
        c1.fixed = false ∧ ∀ ws, s1.memberCount p ws = if ws = s.curws then 1 else 0) := by
  have hp : c.ptr = p := client?_ptr hc
  -- what one `addtoworkspace` does here
  have hadd : ∀ k, ∃ s1 c1, addtoworkspace s p k = some s1 ∧ s1.nextptr = s.nextptr + 1 ∧
      s1.curws = s.curws ∧ s1.client? p = some c1 ∧ c1.id = c.id ∧ c1.fixed = false ∧
      (∀ q, q ≠ p → s1.client? q = s.client? q) ∧
      (∀ q, q ≠ p → ∀ ws, s1.memberCount q ws = s.memberCount q ws) ∧
      (∀ ws, s1.memberCount p ws = if ws = k then 1 else 0) := by
    intro k
    obtain ⟨s1, hs1, hwl, hwin, hnext, henv⟩ := addtoworkspace_spec k hc
    obtain ⟨hc1, hother⟩ := client?_of_winlist_replace s1
      { c with wsitem := upd c.wsitem k (some s.nextptr) } hc hp hwin
    refine ⟨s1, _, hs1, hnext, henv.2.2.2.1, hc1, rfl, hfix, hother, ?_, ?_⟩
    · intro q hq ws
      rw [memberCount_add hwl q ws]
      simp [hq]
    · intro ws
      rw [memberCount_add hwl p ws, hzero ws]
      by_cases hk : ws = k <;> simp [hk]
  have hW := toUInt32_getwmdesktop child
  unfold setupscreenWorkspace
  simp only []
  cases hh : child.hint with
  | none =>
    rw [hh] at hW
    simp only [] at hW
    obtain ⟨s1, c1, hs1, hnext, hcur, hc1, hid, hfx, ho, hoc, hcount⟩ := hadd s.curws
    refine ⟨s1, c1, ?_, by omega, hcur, hc1, hid, ho, hoc, ?_, ?_, ?_⟩
    · rw [hW, if_neg (by decide), if_neg (by simp)]
      exact hs1
    · intro h; cases h
    · intro v h; cases h
    · intro _; exact ⟨hfx, hcount⟩
  | some v =>
    rw [hh] at hW
    simp only [] at hW
    by_cases hv : v = NET_WM_FIXED
    · obtain ⟨s1, c1, hs1, hnext, hcur, hc1, hid, hfx, ho, hoc, hcount⟩ := hadd s.curws
      obtain ⟨s2, c2, hs2, hc2, hfx2, hcount2, hoc2, ho2, hcur2, hnext2, hid2⟩ :=
        fixwindow_fix s1 p c1 false hc1 hfx (fun ws _ => by rw [hcount ws, hcur])
      refine ⟨s2, c2, ?_, by omega, hcur2.trans hcur, hc2, hid2.trans hid, ?_, ?_, ?_, ?_, ?_⟩
      · rw [hW, if_pos (by rw [hv]), hs1]
        exact hs2
      · intro q hq; rw [ho2 q hq, ho q hq]
      · intro q hq ws; rw [hoc2 q hq ws, hoc q hq ws]
      · intro _; exact ⟨hfx2, hcount2⟩
      · intro w hw hlt
        have : w = v := (Option.some.inj hw).symm
        rw [this, hv] at hlt
        exact absurd hlt (by decide)
      · rintro (h | ⟨w, hw, -, hne⟩)
        · cases h
        · exact absurd ((Option.some.inj hw).symm.trans hv) hne
    · have hne : ¬ ((v : Int) = (NET_WM_FIXED : Int)) := by
        intro h; exact hv (by exact_mod_cast h)
      by_cases hlt : v < WORKSPACES
      · obtain ⟨s1, c1, hs1, hnext, hcur, hc1, hid, hfx, ho, hoc, hcount⟩ := hadd v
        have hcond : (MCWM_NOWS : Int) ≠ (v : Int) ∧ (v : Int) < (WORKSPACES : Int) := by
          refine ⟨?_, by exact_mod_cast hlt⟩
          intro h
          have : MCWM_NOWS = v := by exact_mod_cast h
          rw [← this] at hlt
          exact absurd hlt (by decide)
        refine ⟨if v ≠ s1.curws then s1.send [Request.unmapWindow child.win] else s1, c1,
          ?_, ?_, ?_, ?_, hid, ?_, ?_, ?_, ?_, ?_⟩
        · rw [hW, if_neg hne, if_pos hcond]
          simp only [Int.toNat_ofNat, hs1, Option.bind_eq_bind, Option.some_bind, Option.pure_def]
        · split <;> (show s.nextptr < s1.nextptr; omega)
        · split <;> exact hcur
        · split <;> exact hc1
        · intro q hq; split <;> exact ho q hq
        · intro q hq ws; split <;> exact hoc q hq ws
        · intro h; exact absurd (Option.some.inj h) hv
        · intro w hw _
          have : w = v := (Option.some.inj hw).symm
          subst this
          refine ⟨hfx, fun ws => ?_⟩
          split <;> exact hcount ws
        · rintro (h | ⟨w, hw, hge, -⟩)
          · cases h
          · have : w = v := (Option.some.inj hw).symm
            subst this
            exact absurd hlt (by omega)
      · obtain ⟨s1, c1, hs1, hnext, hcur, hc1, hid, hfx, ho, hoc, hcount⟩ := hadd s.curws
        have hcond : ¬ ((MCWM_NOWS : Int) ≠ (v : Int) ∧ (v : Int) < (WORKSPACES : Int)) := by
          intro h
          exact hlt (by exact_mod_cast h.2)
        refine ⟨s1, c1, ?_, by omega, hcur, hc1, hid, ho, hoc, ?_, ?_, ?_⟩
        · rw [hW, if_neg hne, if_neg hcond]
          exact hs1
        · intro h; exact absurd (Option.some.inj h) hv
        · intro w hw hwlt
          have : w = v := (Option.some.inj hw).symm
          subst this
          exact absurd hwlt hlt
        · intro _; exact ⟨hfx, hcount⟩

theorem assignMonitor_spec (s : State) (p : Nat) (c : Client) (hc : s.client? p = some c)
    (hmon : c.monitor = none) :
    ∃ cb r, (assignMonitor s c).client? p = some cb ∧ cb.id = c.id ∧ cb.fixed = c.fixed ∧
      (assignMonitor s c).resolveMonitor cb.monitor = some r ∧
      (∀ q, q ≠ p → (assignMonitor s c).client? q = s.client? q) ∧
      (assignMonitor s c).wslist = s.wslist ∧ (assignMonitor s c).curws = s.curws ∧
      (assignMonitor s c).nextptr = s.nextptr := by
  have hp : c.ptr = p := client?_ptr hc
  unfold assignMonitor
  split
  · obtain ⟨r, hr⟩ := resolveMonitor_findmonbycoord s c.x c.y
    obtain ⟨h1, h2⟩ := client?_of_winlist_replace
      (s.setClient { c with monitor := (findmonbycoord s c.x c.y).map (fun m => m.ptr) })
      { c with monitor := (findmonbycoord s c.x c.y).map (fun m => m.ptr) } hc hp
      (by simp [State.setClient, hp])
    exact ⟨_, r, h1, rfl, rfl, hr, h2, rfl, rfl, rfl⟩
  · exact ⟨c, none, hc, rfl, rfl, by rw [hmon]; rfl, fun _ _ => rfl, rfl, rfl, rfl⟩

/-- One round of the loop of `setupscreen` for a child that is set up. -/
theorem setupscreenStep_spec (s : State) (child : ChildReply) (hf : s.fresh)
    (hm : child.managed = true) :
    ∃ s1 c, setupscreenStep s child = some s1 ∧ s.nextptr < s1.nextptr ∧
      s1.curws = s.curws ∧ s1.client? s.nextptr = some c ∧ c.id = child.win ∧
      (∀ q, q ≠ s.nextptr → s1.client? q = s.client? q) ∧
      (∀ q, q ≠ s.nextptr → ∀ ws, s1.memberCount q ws = s.memberCount q ws) ∧
      (child.hint = some NET_WM_FIXED →
        c.fixed = true ∧ ∀ ws, ws < WORKSPACES → s1.memberCount s.nextptr ws = 1) ∧
      (∀ v, child.hint = some v → v < WORKSPACES →
        c.fixed = false ∧ ∀ ws, s1.memberCount s.nextptr ws = if ws = v then 1 else 0) ∧
      ((child.hint = none ∨ ∃ v, child.hint = some v ∧ WORKSPACES ≤ v ∧ v ≠ NET_WM_FIXED) →
        c.fixed = false ∧
        ∀ ws, s1.memberCount s.nextptr ws = if ws = s.curws then 1 else 0) := by
  obtain ⟨hfc, hfm⟩ := hf
  obtain ⟨ha2, ⟨c0, hc0, hid0, hfix0, hmon0⟩, hao, hawl, hacur, hanext, -, -⟩ :=
    setupwin_spec s child.win child.geom child.hints (hfc _ (Nat.le_refl _))
  obtain ⟨cb, r, hcb, hidb, hfixb, hres, hbo, hbwl, hbcur, hbnext⟩ :=
    assignMonitor_spec _ _ c0 hc0 hmon0
  obtain ⟨sc, cc, hsc, hcc, hlinks, hco, hcwl, hccur, hcnext, -⟩ :=
    fitonscreenAt_spec _ _ cb r hcb hres
  have hzero : ∀ ws, sc.memberCount s.nextptr ws = 0 := by
    intro ws
    have : sc.memberCount s.nextptr ws = s.memberCount s.nextptr ws := by
      unfold State.memberCount
      rw [hcwl, hbwl, hawl]
    rw [this]
    exact hfm _ (Nat.le_refl _) ws
  obtain ⟨s1, c1, hs1, hnext1, hcur1, hc1, hid1, ho1, hoc1, hA, hB, hC⟩ :=
    setupscreenWorkspace_spec sc s.nextptr cc child hcc
      (hlinks.2.2.1.trans (hfixb.trans hfix0)) hzero
  have hcurs : sc.curws = s.curws := hccur.trans (hbcur.trans hacur)
  refine ⟨s1, c1, ?_, ?_, hcur1.trans hcurs, hc1, ?_, ?_, ?_, hA, hB, ?_⟩
  · unfold setupscreenStep
    rw [if_pos hm]
    have hpair : setupwin s child.win child.geom child.hints =
        ((setupwin s child.win child.geom child.hints).1, s.nextptr) := by
      rw [← ha2]
    rw [hpair]
    simp only [hc0, hsc, Option.bind_eq_bind, Option.some_bind]
    exact hs1
  · have : sc.nextptr = s.nextptr + 1 := hcnext.trans (hbnext.trans hanext)
    omega
  · rw [hid1, hlinks.2.1, hidb, hid0]
  · intro q hq
    rw [ho1 q hq, hco q hq, hbo q hq, hao q hq]
  · intro q hq ws
    rw [hoc1 q hq ws]
    unfold State.memberCount
    rw [hcwl, hbwl, hawl]
  · intro h
    have := hC h
    rw [hcurs] at this
    exact this

theorem setupscreenStep_fresh (s s1 : State) (hf : s.fresh) (hnext : s.nextptr < s1.nextptr)
    (ho : ∀ q, q ≠ s.nextptr → s1.client? q = s.client? q)
    (hoc : ∀ q, q ≠ s.nextptr → ∀ ws, s1.memberCount q ws = s.memberCount q ws) :
    s1.fresh := by
  refine ⟨fun q hq => ?_, fun q hq ws => ?_⟩
  · rw [ho q (by omega)]
    exact hf.1 q (by omega)
  · rw [hoc q (by omega) ws]
    exact hf.2 q (by omega) ws

/-- The loop of `setupscreen` from a state whose unused addresses are fresh. -/
theorem setupscreenLoop_spec (children : List ChildReply) :
    ∀ s : State, s.fresh →
    ∃ s1, setupscreenLoop s children = some s1 ∧ s1.fresh ∧ s.nextptr ≤ s1.nextptr ∧
      s1.curws = s.curws ∧
      (∀ q, q < s.nextptr → s1.client? q = s.client? q ∧
        ∀ ws, s1.memberCount q ws = s.memberCount q ws) ∧
      ∀ child ∈ children, child.managed = true →
        ∃ p c, s1.client? p = some c ∧ c.id = child.win ∧
          hintMembership s.curws child.hint c.fixed (s1.memberCount p) := by
  induction children with
  | nil =>
    intro s hf
    exact ⟨s, rfl, hf, Nat.le_refl _, rfl, fun _ _ => ⟨rfl, fun _ => rfl⟩,
      fun _ h => by cases h⟩
  | cons child rest ih =>
    intro s hf
    unfold setupscreenLoop
    by_cases hm : child.managed = true
    · obtain ⟨s1, c, hs1, hnext, hcur, hc, hid, ho, hoc, hA, hB, hC⟩ :=
        setupscreenStep_spec s child hf hm
      have hf1 := setupscreenStep_fresh s s1 hf hnext ho hoc
      obtain ⟨s2, hs2, hf2, hnext2, hcur2, hkeep, hall⟩ := ih s1 hf1
      refine ⟨s2, ?_, hf2, by omega, hcur2.trans hcur, ?_, ?_⟩
      · rw [hs1]; exact hs2
      · intro q hq
        obtain ⟨k1, k2⟩ := hkeep q (by omega)
        exact ⟨k1.trans (ho q (by omega)), fun ws => (k2 ws).trans (hoc q (by omega) ws)⟩
      · intro ch hch hmch
        rcases List.mem_cons.mp hch with h | h
        · subst h
          obtain ⟨k1, k2⟩ := hkeep s.nextptr hnext
          refine ⟨s.nextptr, c, k1.trans hc, hid, ?_, ?_, ?_⟩
          · intro hh
            obtain ⟨a, b⟩ := hA hh
            exact ⟨a, fun ws hws => (k2 ws).trans (b ws hws)⟩
          · intro v hv hlt
            obtain ⟨a, b⟩ := hB v hv hlt
            exact ⟨a, fun ws => (k2 ws).trans (b ws)⟩
          · intro hh
            obtain ⟨a, b⟩ := hC hh
            exact ⟨a, fun ws => (k2 ws).trans (b ws)⟩
        · obtain ⟨p, c2, hp2, hid2, hmem2⟩ := hall ch h hmch
          rw [hcur] at hmem2
          exact ⟨p, c2, hp2, hid2, hmem2⟩
    · have hstep : setupscreenStep s child = some s := by
        unfold setupscreenStep
        rw [if_neg hm]
      obtain ⟨s2, hs2, hf2, hnext2, hcur2, hkeep, hall⟩ := ih s hf
      refine ⟨s2, ?_, hf2, hnext2, hcur2, hkeep, ?_⟩
      · rw [hstep]; exact hs2
      · intro ch hch hmch
        rcases List.mem_cons.mp hch with h | h
        · subst h; exact absurd hmch hm
        · exact hall ch h hmch

/-- C4: the loop of `setupscreen` over the children of the root, started with an
empty registry and empty workspace lists, returns, and for every child that is
viewable and not in override redirect mode there is a client record for its
window such that: with the hint 0xffffffff the client is fixed and has exactly
one entry in each of the 10 lists; with a hint `v` in 0..9 it is not fixed and
has exactly one entry in list `v` and none elsewhere; with no hint, or one out
of range, it is not fixed and has exactly one entry in the list of the current
workspace and none elsewhere. -/
theorem setupscreen_membership (s : State) (children : List ChildReply)
    (hw : s.winlist = []) (hl : ∀ ws, s.wslist ws = []) :
    ∃ s1, setupscreenLoop s children = some s1 ∧ s1.curws = s.curws ∧
      ∀ child ∈ children, child.managed = true →
        ∃ p c, s1.client? p = some c ∧ c.id = child.win ∧
          (child.hint = some NET_WM_FIXED →
            c.fixed = true ∧ ∀ ws, ws < WORKSPACES → s1.memberCount p ws = 1) ∧
          (∀ v, child.hint = some v → v < WORKSPACES →
            c.fixed = false ∧ ∀ ws, s1.memberCount p ws = if ws = v then 1 else 0) ∧
          ((child.hint = none ∨
              ∃ v, child.hint = some v ∧ WORKSPACES ≤ v ∧ v ≠ NET_WM_FIXED) →
            c.fixed = false ∧ ∀ ws, s1.memberCount p ws = if ws = s.curws then 1 else 0) := by
  have hf : s.fresh := by
    refine ⟨fun q _ => ?_, fun q _ ws => ?_⟩
    · unfold State.client?; rw [hw]; rfl
    · unfold State.memberCount; rw [hl ws]; rfl
  obtain ⟨s1, hs1, -, -, hcur, -, hall⟩ := setupscreenLoop_spec children s hf
  exact ⟨s1, hs1, hcur, hall⟩

theorem setupscreen_membership_witness :
    ∃ s1, setupscreenLoop exInit exChildren = some s1 ∧ s1.curws = exInit.curws ∧
      ∀ child ∈ exChildren, child.managed = true →
        ∃ p c, s1.client? p = some c ∧ c.id = child.win ∧
          (child.hint = some NET_WM_FIXED →
            c.fixed = true ∧ ∀ ws, ws < WORKSPACES → s1.memberCount p ws = 1) ∧
          (∀ v, child.hint = some v → v < WORKSPACES →
            c.fixed = false ∧ ∀ ws, s1.memberCount p ws = if ws = v then 1 else 0) ∧
          ((child.hint = none ∨
              ∃ v, child.hint = some v ∧ WORKSPACES ≤ v ∧ v ≠ NET_WM_FIXED) →
            c.fixed = false ∧
            ∀ ws, s1.memberCount p ws = if ws = exInit.curws then 1 else 0) :=
  setupscreen_membership exInit exChildren rfl (fun _ => rfl)

/-- The scenario of C4: after the scan of `exChildren`, window 7 (hint 3) has its
one entry in list 3, window 8 (hint 0xffffffff) is fixed with one entry in every
list, windows 9 (no hint) and 10 (hint 12) have their one entry in list 0, the
current workspace, and window 11 is not managed. -/
theorem setupscreen_membership_example :
    (setupscreenLoop exInit exChildren).map (fun s => s.winlist.map (fun c =>
      (c.id, c.fixed, (List.range WORKSPACES).map (s.memberCount c.ptr)))) =
    some [(7, false, [0, 0, 0, 1, 0, 0, 0, 0, 0, 0]),
      (8, true, [1, 1, 1, 1, 1, 1, 1, 1, 1, 1]),
      (9, false, [1, 0, 0, 0, 0, 0, 0, 0, 0, 0]),
      (10, false, [1, 0, 0, 0, 0, 0, 0, 0, 0, 0])] := by
  decide

/-! ## The membership invariant -/

/-- C3 (the code at the failing input): from the state at program start, a map
request for window 7, the key for workspace 2, an enter notify for window 7
(sent before the window was unmapped) and the key that fixes the focused window
lead to a state in which the fixed client of window 7 has two entries in the
list of workspace 0 and none in the list of workspace 1, the current one. -/
theorem membership_broken_by_enter :
    (run exInit [Event.mapRequest 7 exReply, Event.keyPress (Key.KEY_WS 1) false,
      Event.enterNotify true 7, Event.keyPress Key.KEY_F false]).map
        (fun s => (s.curws, membership s)) =
    some (1, [(7, true, [2, 0, 1, 1, 1, 1, 1, 1, 1, 1])]) := by
  decide

/-! ## Clones of outputs -/

theorem toInt16_toUInt32 (v : Int) : toInt16 (toUInt32 v) = toInt16 v := by
  unfold toInt16 toUInt32
  omega

theorem moveTarget_resolves (s : State) (mon : Monitor) :
    ∃ r, s.resolveMonitor (moveTarget mon s.monlist) = some r := by
  have key : ∀ m ∈ s.monlist, ∃ r, s.resolveMonitor (some m.ptr) = some r := by
    intro m hm
    unfold State.resolveMonitor State.monitor?
    cases hf : s.monlist.find? (fun x => x.ptr = m.ptr) with
    | none =>
      have := List.find?_eq_none.mp hf m hm
      simp at this
    | some r => exact ⟨some r, by show Option.map some (List.find? (fun x => decide (x.ptr = m.ptr)) s.monlist) = _; rw [hf]; rfl⟩
  unfold moveTarget
  cases hn : nextMonitor mon.ptr s.monlist with
  | none =>
    cases hl : s.monlist with
    | nil => exact ⟨none, rfl⟩
    | cons first rest =>
      have := key first (by rw [hl]; exact List.mem_cons_self _ _)
      simpa using this
  | some next =>
    have hmem : ∀ (l : List Monitor), nextMonitor mon.ptr l = some next → next ∈ l := by
      intro l
      induction l with
      | nil => intro h; simp [nextMonitor] at h
      | cons a rest ih =>
        intro h
        unfold nextMonitor at h
        split at h
        · exact List.mem_cons_of_mem _ (List.mem_of_mem_head? h)
        · exact List.mem_cons_of_mem _ (ih h)
    have := key next (hmem _ hn)
    simpa using this

theorem getoutputsStep_inactive (t : State) (o : Nat) (ci : Option CrtcInfo) (mon : Monitor)
    (hmon : findmonitor t o = some mon) (hnd : (t.winlist.map Client.ptr).Nodup) :
    ∃ t1, getoutputsStep t ⟨o, some (0, ci)⟩ = some (t1, true) ∧
      t1.monlist = freeitem t.monlist mon.ptr ∧
      t1.winlist.map Client.ptr = t.winlist.map Client.ptr := by
  obtain ⟨r, hr⟩ := moveTarget_resolves t mon
  obtain ⟨s1, hs1, hw1, hm1, -, -, -⟩ := moveClients_spec mon _ r t
    t.winlist t rfl rfl rfl rfl hr hnd hnd (fun x hx => ⟨x, hx, rfl⟩)
  refine ⟨delmonitor s1 mon, ?_, ?_, ?_⟩
  · unfold getoutputsStep
    simp only [hmon, hs1, ne_eq, not_true_eq_false, if_false, Option.bind_eq_bind,
      Option.some_bind, Option.pure_def]
  · show freeitem s1.monlist mon.ptr = _
    rw [hm1]
  · show s1.winlist.map Client.ptr = _
    rw [hw1, List.map_map]
    apply List.map_congr_left
    intro e he
    simp only [Function.comp]
    split
    · exact movedClient_ptr _ _ _ _ _
    · rfl

theorem getoutputsStep_add (t : State) (o k : Nat) (ci : CrtcInfo) (hk : k ≠ 0)
    (hclone : findclones t o (toInt16 ci.x) (toInt16 ci.y) = none)
    (hmon : findmonitor t o = none) :
    getoutputsStep t ⟨o, some (k, some ci)⟩ =
      some (addmonitor t o ci.x ci.y ci.width ci.height, true) := by
  unfold getoutputsStep
  simp only [hclone, hmon, ne_eq, hk.symm, not_false_eq_true, if_true]

theorem getoutputsStep_clone (t : State) (o k : Nat) (ci : CrtcInfo) (hk : k ≠ 0)
    (clonemon : Monitor)
    (hclone : findclones t o (toInt16 ci.x) (toInt16 ci.y) = some clonemon) :
    getoutputsStep t ⟨o, some (k, some ci)⟩ = some (t, true) := by
  unfold getoutputsStep
  simp only [hclone, ne_eq, hk.symm, not_false_eq_true, if_true]

theorem getoutputsStep_unknown (t : State) (o : Nat) (ci : Option CrtcInfo)
    (hmon : findmonitor t o = none) :
    getoutputsStep t ⟨o, some (0, ci)⟩ = some (t, true) := by
  unfold getoutputsStep
  simp only [hmon, ne_eq, not_true_eq_false, if_false]

theorem findmonitor_nil (t : State) (o : Nat) (h : t.monlist = []) : findmonitor t o = none := by
  unfold findmonitor; rw [h]; rfl

theorem findclones_nil (t : State) (o : Nat) (x y : Int) (h : t.monlist = []) :
    findclones t o x y = none := by
  unfold findclones; rw [h]; rfl

theorem addmonitor_monlist (t : State) (o : Nat) (x y w h : Int) :
    ∃ m, (addmonitor t o x y w h).monlist = t.monlist ++ [m] ∧ m.id = o ∧
      m.x = toInt16 x ∧ m.y = toInt16 y ∧
      (addmonitor t o x y w h).winlist = t.winlist :=
  ⟨_, rfl, rfl, toInt16_toUInt32 x, toInt16_toUInt32 y, rfl⟩

/-- Two refreshes with the report `[o2 active, o1 inactive]`, or
`[o1 inactive, o2 active]`, from an empty monitor list leave the monitor of
`o2` alone in the list. -/
theorem getoutputs_from_nil (t : State) (o1 o2 k : Nat) (ci : CrtcInfo) (co : Option CrtcInfo)
    (hne : o1 ≠ o2) (hk : k ≠ 0) (hnil : t.monlist = []) :
    (∃ t2 m2, getoutputs t [⟨o2, some (k, some ci)⟩, ⟨o1, some (0, co)⟩] = some t2 ∧
      t2.monlist = [m2] ∧ m2.id = o2) ∧
    (∃ t2 m2, getoutputs t [⟨o1, some (0, co)⟩, ⟨o2, some (k, some ci)⟩] = some t2 ∧
      t2.monlist = [m2] ∧ m2.id = o2) := by
  obtain ⟨m2, hm2, hid, -, -, -⟩ := addmonitor_monlist t o2 ci.x ci.y ci.width ci.height
  rw [hnil, List.nil_append] at hm2
  have e1 := getoutputsStep_add t o2 k ci hk (findclones_nil t _ _ _ hnil)
    (findmonitor_nil t _ hnil)
  have e0 := getoutputsStep_unknown t o1 co (findmonitor_nil t _ hnil)
  have e2 : getoutputsStep (addmonitor t o2 ci.x ci.y ci.width ci.height) ⟨o1, some (0, co)⟩ =
      some (addmonitor t o2 ci.x ci.y ci.width ci.height, true) := by
    apply getoutputsStep_unknown
    unfold findmonitor
    rw [hm2]
    simp [hid, hne]
  constructor
  · refine ⟨_, m2, ?_, hm2, hid⟩
    simp [getoutputs, e1, e2]
  · refine ⟨_, m2, ?_, hm2, hid⟩
    simp [getoutputs, e1, e0]

/-- C11: from an empty monitor list, a refresh that reports the outputs `o1` and
`o2` active with the same origin, whatever their widths and heights, returns
with exactly one monitor, the one of `o1`.  In every later state `t` that still
has this monitor list, a refresh that reports `o1` without CRTC and `o2` active
(in either order) returns, and either the list then holds exactly one monitor,
the one of `o2`, or it does so after one further refresh with the same
report. -/
theorem getoutputs_clones (s : State) (o1 o2 k1 k2 : Nat) (c1 c2 : CrtcInfo)
    (hempty : s.monlist = []) (hne : o1 ≠ o2) (hk1 : k1 ≠ 0) (hk2 : k2 ≠ 0)
    (hx : c2.x = c1.x) (hy : c2.y = c1.y) :
    ∃ s1 m, getoutputs s [⟨o1, some (k1, some c1)⟩, ⟨o2, some (k2, some c2)⟩] = some s1 ∧
      s1.monlist = [m] ∧ m.id = o1 ∧
      ∀ (t : State) (k3 : Nat) (c3 : CrtcInfo) (report : List OutputReply),
        t.monlist = s1.monlist → (t.winlist.map Client.ptr).Nodup → k3 ≠ 0 →
        (report = [⟨o1, some (0, none)⟩, ⟨o2, some (k3, some c3)⟩] ∨
          report = [⟨o2, some (k3, some c3)⟩, ⟨o1, some (0, none)⟩]) →
        ∃ t1, getoutputs t report = some t1 ∧
          ((∃ m2, t1.monlist = [m2] ∧ m2.id = o2) ∨
            ∃ t2 m2, getoutputs t1 report = some t2 ∧ t2.monlist = [m2] ∧ m2.id = o2) := by
  obtain ⟨m, hm, hid, hmx, hmy, -⟩ := addmonitor_monlist s o1 c1.x c1.y c1.width c1.height
  rw [hempty, List.nil_append] at hm
  have e1 := getoutputsStep_add s o1 k1 c1 hk1 (findclones_nil s _ _ _ hempty)
    (findmonitor_nil s _ hempty)
  have e2 := getoutputsStep_clone (addmonitor s o1 c1.x c1.y c1.width c1.height) o2 k2 c2 hk2 m
    (by unfold findclones; rw [hm]; simp [hid, hmx, hmy, hx, hy, Ne.symm hne])
  refine ⟨_, m, by simp [getoutputs, e1, e2], hm, hid, ?_⟩
  intro t k3 c3 report ht hnd hk3 hrep
  rw [hm] at ht
  have hfm : ∀ (u : State) (rest : List Monitor), u.monlist = m :: rest →
      findmonitor u o1 = some m := by
    intro u rest hu
    unfold findmonitor
    rw [hu]
    simp [hid]
  rcases hrep with hrep | hrep
  · -- the surviving output comes first in the report
    obtain ⟨t1, ht1, hml, -⟩ := getoutputsStep_inactive t o1 none m (hfm t [] ht) hnd
    have hnil : t1.monlist = [] := by
      rw [hml, ht]; simp [freeitem]
    obtain ⟨m2, hm2, hid2, -, -, -⟩ := addmonitor_monlist t1 o2 c3.x c3.y c3.width c3.height
    rw [hnil, List.nil_append] at hm2
    have e3 := getoutputsStep_add t1 o2 k3 c3 hk3 (findclones_nil t1 _ _ _ hnil)
      (findmonitor_nil t1 _ hnil)
    refine ⟨_, ?_, Or.inl ⟨m2, hm2, hid2⟩⟩
    rw [hrep]
    simp [getoutputs, ht1, e3]
  · -- the other output comes first in the report
    cases hcl : findclones t o2 (toInt16 c3.x) (toInt16 c3.y) with
    | some cm =>
      have e3 := getoutputsStep_clone t o2 k3 c3 hk3 cm hcl
      obtain ⟨t1, ht1, hml, -⟩ := getoutputsStep_inactive t o1 none m (hfm t [] ht) hnd
      have hnil : t1.monlist = [] := by
        rw [hml, ht]; simp [freeitem]
      obtain ⟨t2, m2, ht2, hm2, hid2⟩ := (getoutputs_from_nil t1 o1 o2 k3 c3 none hne hk3 hnil).1
      refine ⟨t1, ?_, Or.inr ⟨t2, m2, ?_, hm2, hid2⟩⟩
      · rw [hrep]
        simp [getoutputs, ht1, e3]
      · rw [hrep]; exact ht2
    | none =>
      have hfm2 : findmonitor t o2 = none := by
        unfold findmonitor
        rw [ht]
        simp [hid, Ne.symm hne]
      have e3 := getoutputsStep_add t o2 k3 c3 hk3 hcl hfm2
      obtain ⟨m2, hm2, hid2, -, -, hw2⟩ := addmonitor_monlist t o2 c3.x c3.y c3.width c3.height
      rw [ht] at hm2
      obtain ⟨t1, ht1, hml, -⟩ := getoutputsStep_inactive
        (addmonitor t o2 c3.x c3.y c3.width c3.height) o1 none m (hfm _ [m2] hm2)
        (by rw [hw2]; exact hnd)
      have hrun : getoutputs t report = some t1 := by
        rw [hrep]
        simp [getoutputs, ht1, e3]
      by_cases hp : m2.ptr = m.ptr
      · have hnil : t1.monlist = [] := by
          rw [hml, hm2]; simp [freeitem, hp]
        obtain ⟨t2, m3, ht2, hm3, hid3⟩ :=
          (getoutputs_from_nil t1 o1 o2 k3 c3 none hne hk3 hnil).1
        exact ⟨t1, hrun, Or.inr ⟨t2, m3, by rw [hrep]; exact ht2, hm3, hid3⟩⟩
      · have hone : t1.monlist = [m2] := by
          rw [hml, hm2]; simp [freeitem, hp]
        exact ⟨t1, hrun, Or.inl ⟨m2, hone, hid2⟩⟩

theorem getoutputs_clones_witness :
    ∃ s1 m, getoutputs exInitRandr [⟨1, some (11, some ⟨0, 0, 1920, 1080⟩)⟩,
        ⟨2, some (12, some ⟨0, 0, 1280, 1024⟩)⟩] = some s1 ∧
      s1.monlist = [m] ∧ m.id = 1 ∧
      ∀ (t : State) (k3 : Nat) (c3 : CrtcInfo) (report : List OutputReply),
        t.monlist = s1.monlist → (t.winlist.map Client.ptr).Nodup → k3 ≠ 0 →
        (report = [⟨1, some (0, none)⟩, ⟨2, some (k3, some c3)⟩] ∨
          report = [⟨2, some (k3, some c3)⟩, ⟨1, some (0, none)⟩]) →
        ∃ t1, getoutputs t report = some t1 ∧
          ((∃ m2, t1.monlist = [m2] ∧ m2.id = 2) ∨
            ∃ t2 m2, getoutputs t1 report = some t2 ∧ t2.monlist = [m2] ∧ m2.id = 2) :=
  getoutputs_clones exInitRandr 1 2 11 12 ⟨0, 0, 1920, 1080⟩ ⟨0, 0, 1280, 1024⟩ rfl
    (by decide) (by decide) (by decide) rfl rfl

/-- The scenario of C11: outputs 1 (1920 x 1080) and 2 (1280 x 1024) both at
(0, 0) give one monitor, for output 1; window 7 is mapped on it; when output 1
is then reported without CRTC after output 2, the first refresh empties the
monitor list and the second one enters the monitor of output 2. -/
theorem getoutputs_clones_example :
    (exClones.monlist.map (fun m => (m.id, m.width, m.height)) = [(1, 1920, 1080)]) ∧
    ((getoutputs exClones [⟨2, some (12, some ⟨0, 0, 1280, 1024⟩)⟩,
        ⟨1, some (0, none)⟩]).map (fun s => s.monlist.map (fun m => m.id)) = some []) ∧
    (((getoutputs exClones [⟨2, some (12, some ⟨0, 0, 1280, 1024⟩)⟩,
        ⟨1, some (0, none)⟩]).bind (fun s => getoutputs s
          [⟨2, some (12, some ⟨0, 0, 1280, 1024⟩)⟩, ⟨1, some (0, none)⟩])).map
      (fun s => s.monlist.map (fun m => (m.id, m.width, m.height))) = some [(2, 1280, 1024)]) ∧
    ((getoutputs exClones [⟨1, some (0, none)⟩,
        ⟨2, some (12, some ⟨0, 0, 1280, 1024⟩)⟩]).map
      (fun s => s.monlist.map (fun m => (m.id, m.width, m.height))) = some [(2, 1280, 1024)]) := by
  decide

/-! ## Snapping to another window -/

theorem toInt16_of_isInt16 {v : Int} (h : isInt16 v) : toInt16 v = v := by
  unfold isInt16 at h
  unfold toInt16
  omega

theorem toUInt16_of_isUInt16 {v : Int} (h : isUInt16 v) : toUInt16 v = v := by
  unfold isUInt16 at h
  unfold toUInt16
  omega

theorem snapLoop_filter (s : State) (p : Nat) (snap_mode : Nat) (l : List Item) :
    ∀ client, snapLoop s p snap_mode client l =
      snapLoop s p snap_mode client (l.filter (fun it => it.data ≠ p)) := by
  induction l with
  | nil => intro client; rfl
  | cons item rest ih =>
    intro client
    by_cases h : p = item.data
    · rw [List.filter_cons_of_neg (by simp [h])]
      simp only [snapLoop, if_pos h]
      exact ih client
    · rw [List.filter_cons_of_pos (by simp [Ne.symm h])]
      simp only [snapLoop, if_neg h]
      split
      · cases s.client? item.data with
        | none => rfl
        | some win => exact ih _
      · exact ih client

theorem setClient_client? (s : State) (p : Nat) (c c1 : Client) (hc : s.client? p = some c)
    (hp : c1.ptr = p) : (s.setClient c1).client? p = some c1 := by
  rw [client?_setClient, hc]
  simp [client?_ptr hc, hp]

theorem snapWin_move_right_of (conf : Conf) (a b : Client)
    (hga : a.geomOk) (hgb : b.geomOk) (hbw : 0 ≤ conf.borderwidth)
    (hnear : absInt ((a.x + a.width) - b.x) < conf.snapmargin)
    (hover : b.y + b.height > a.y ∧ b.y < a.y + a.height)
    (hfar : conf.snapmargin ≤ a.width + b.width + 2 * conf.borderwidth)
    (hrange : a.x + a.width + 2 * conf.borderwidth ≤ 32767) :
    snapWin conf MCWM_MOVE a b = { b with x := a.x + a.width + 2 * conf.borderwidth } := by
  obtain ⟨hax, -, haw, -, -, -⟩ := hga
  obtain ⟨-, -, hbw', -, -, -⟩ := hgb
  unfold isInt16 at hax
  unfold isUInt16 at haw hbw'
  have hx : toInt16 ((a.x + a.width) + (2 * conf.borderwidth)) =
      a.x + a.width + 2 * conf.borderwidth := toInt16_of_isInt16 ⟨by omega, by omega⟩
  have h1 : snapMoveRightOf conf a b = { b with x := a.x + a.width + 2 * conf.borderwidth } := by
    unfold snapMoveRightOf
    rw [if_pos hnear, if_pos hover, hx]
  have h2 : snapMoveBelow conf a { b with x := a.x + a.width + 2 * conf.borderwidth } =
      { b with x := a.x + a.width + 2 * conf.borderwidth } := by
    unfold snapMoveBelow
    split
    · rw [if_neg]
      simp only [not_and, not_lt]
      intro _
      omega
    · rfl
  have h3 : snapMoveLeftOf conf a { b with x := a.x + a.width + 2 * conf.borderwidth } =
      { b with x := a.x + a.width + 2 * conf.borderwidth } := by
    unfold snapMoveLeftOf
    rw [if_neg]
    unfold absInt
    simp only
    split <;> omega
  have h4 : snapMoveAbove conf a { b with x := a.x + a.width + 2 * conf.borderwidth } =
      { b with x := a.x + a.width + 2 * conf.borderwidth } := by
    unfold snapMoveAbove
    split
    · rw [if_neg]
      simp only [not_and, not_lt]
      intro _
      omega
    · rfl
  unfold snapWin
  rw [if_pos rfl, h1, h2, h3, h4]

/-- C12 (as amended): let `b` be the client that is moved and `a` the only other
client with an entry in the list of the current workspace, the border width be
at least 0, the left edge of `b` be within the snap margin of the right edge of
`a`, and the vertical extents of the two overlap.  If moreover the two widths
and the two borders add up to at least the snap margin (so that, once snapped,
the right edge of `b` is not within the margin of the left edge of `a`), the
snapped position is at most 32767, and none of the four tests against the
borders of the monitor holds at the snapped position, then `snapwindow` in move
mode returns and leaves `b` at `x = a.x + a.width + 2 * borderwidth` with `y`,
width and height unchanged. -/
theorem snapwindow_move_snaps (s : State) (p q : Nat) (a b : Client) (ia : Item)
    (mon : Option Monitor)
    (hb : s.client? p = some b) (ha : s.client? q = some a) (hqp : q ≠ p)
    (hmon : s.resolveMonitor b.monitor = some mon)
    (hlist : (s.wslist s.curws).filter (fun it => it.data ≠ p) = [ia]) (hia : ia.data = q)
    (hga : a.geomOk) (hgb : b.geomOk) (hbw : 0 ≤ s.conf.borderwidth)
    (hnear : absInt ((a.x + a.width) - b.x) < s.conf.snapmargin)
    (hover : b.y + b.height > a.y ∧ b.y < a.y + a.height)
    (hfar : s.conf.snapmargin ≤ a.width + b.width + 2 * s.conf.borderwidth)
    (hrange : a.x + a.width + 2 * s.conf.borderwidth ≤ 32767)
    (hml : ¬ absInt ((a.x + a.width + 2 * s.conf.borderwidth) - (monrect s.screen mon).x)
      < s.conf.snapmargin)
    (hmt : ¬ absInt (b.y - (monrect s.screen mon).y) < s.conf.snapmargin)
    (hmr : ¬ absInt (((a.x + a.width + 2 * s.conf.borderwidth) + b.width)
      - (monrect s.screen mon).width) < s.conf.snapmargin)
    (hmb : ¬ absInt ((b.y + b.height) - (monrect s.screen mon).height) < s.conf.snapmargin) :
    ∃ s1 b1, snapwindow s p MCWM_MOVE = some s1 ∧ s1.client? p = some b1 ∧
      b1.x = a.x + a.width + 2 * s.conf.borderwidth ∧
      b1.y = b.y ∧ b1.width = b.width ∧ b1.height = b.height := by
  have hloop : snapLoop s p MCWM_MOVE b (s.wslist s.curws) =
      some { b with x := a.x + a.width + 2 * s.conf.borderwidth } := by
    rw [snapLoop_filter, hlist]
    simp only [snapLoop, hia, if_neg (Ne.symm hqp), ha, true_or, if_true, Option.bind_eq_bind,
      Option.some_bind]
    rw [snapWin_move_right_of s.conf a b hga hgb hbw hnear hover hfar hrange]
  have hmonitor : snapMonitor s.conf MCWM_MOVE (monrect s.screen mon)
      { b with x := a.x + a.width + 2 * s.conf.borderwidth } =
      { b with x := a.x + a.width + 2 * s.conf.borderwidth } := by
    unfold snapMonitor
    rw [if_pos rfl]
    have e1 : snapMonLeft s.conf (monrect s.screen mon).x
        { b with x := a.x + a.width + 2 * s.conf.borderwidth } =
        { b with x := a.x + a.width + 2 * s.conf.borderwidth } := by
      unfold snapMonLeft; rw [if_neg hml]
    have e2 : snapMonTop s.conf (monrect s.screen mon).y
        { b with x := a.x + a.width + 2 * s.conf.borderwidth } =
        { b with x := a.x + a.width + 2 * s.conf.borderwidth } := by
      unfold snapMonTop; rw [if_neg hmt]
    have e3 : snapMonRight s.conf (monrect s.screen mon).width
        { b with x := a.x + a.width + 2 * s.conf.borderwidth } =
        { b with x := a.x + a.width + 2 * s.conf.borderwidth } := by
      unfold snapMonRight; rw [if_neg hmr]
    have e4 : snapMonBottom s.conf (monrect s.screen mon).height
        { b with x := a.x + a.width + 2 * s.conf.borderwidth } =
        { b with x := a.x + a.width + 2 * s.conf.borderwidth } := by
      unfold snapMonBottom; rw [if_neg hmb]
    rw [e1, e2, e3, e4]
  refine ⟨s.setClient { b with x := a.x + a.width + 2 * s.conf.borderwidth }, _, ?_,
    setClient_client? s p b _ hb (client?_ptr (c := b) hb), rfl, rfl, rfl, rfl⟩
  unfold snapwindow
  simp only [hb, hmon, hloop, hmonitor, Option.bind_eq_bind, Option.some_bind, Option.pure_def]

set_option maxRecDepth 2000 in
theorem snapwindow_move_snaps_witness :
    ∃ s1 b1, snapwindow exSnap 3 MCWM_MOVE = some s1 ∧ s1.client? 3 = some b1 ∧
      b1.x = 102 ∧ b1.y = 200 ∧ b1.width = 100 ∧ b1.height = 100 :=
  snapwindow_move_snaps exSnap 3 1 ((exSnap.client? 1).get (by decide))
    ((exSnap.client? 3).get (by decide)) ⟨2, 1⟩ none
    (Option.some_get _).symm (Option.some_get _).symm (by decide) (by decide)
    (by decide) (by decide) (by decide) (by decide) (by decide) (by decide) (by decide)
    (by decide) (by decide) (by decide) (by decide) (by decide) (by decide)

set_option maxRecDepth 2000 in
/-- C12 (counterexamples).  Margin 10, border width 1, window 7 at x = 100 and
window 8 at x = 105, both 3 wide and 100 high at y = 200 on a root of
1920 x 1080: the left edge of window 8 is within the margin of the right edge
103 of window 7 and the two overlap vertically, no border of the monitor is
near, yet `snapwindow` leaves window 8 at x = 95 and not at 103 + 2 = 105,
because its right edge, once snapped, is within the margin of the left edge of
window 7.  With border width -5 (windows 100 x 100 at (0, 200) and (105, 295))
the snapped window is moved to y = 290 as well.  With border width 2 on a root
of 40000 x 1080 (window 7 of width 765 at x = 32000, window 8 at x = 32767) the
position 32765 + 4 does not fit into the `int16_t` field and becomes -32767. -/
theorem snapwindow_move_snaps_counterexample :
    (geometry (exPair (exSnapConf 1) (exScreen 1920 1080) ⟨100, 200, 3, 100⟩ ⟨105, 200, 3, 100⟩) 1
        = some ⟨100, 200, 3, 100⟩ ∧
      geometry (exPair (exSnapConf 1) (exScreen 1920 1080) ⟨100, 200, 3, 100⟩ ⟨105, 200, 3, 100⟩) 3
        = some ⟨105, 200, 3, 100⟩ ∧
      (snapwindow (exPair (exSnapConf 1) (exScreen 1920 1080) ⟨100, 200, 3, 100⟩
          ⟨105, 200, 3, 100⟩) 3 MCWM_MOVE).bind (fun s => geometry s 3)
        = some ⟨95, 200, 3, 100⟩) ∧
    (geometry (exPair (exSnapConf (-5)) (exScreen 1920 1080) ⟨0, 200, 100, 100⟩
          ⟨105, 295, 100, 100⟩) 1 = some ⟨0, 200, 100, 100⟩ ∧
      geometry (exPair (exSnapConf (-5)) (exScreen 1920 1080) ⟨0, 200, 100, 100⟩
          ⟨105, 295, 100, 100⟩) 3 = some ⟨105, 295, 100, 100⟩ ∧
      (snapwindow (exPair (exSnapConf (-5)) (exScreen 1920 1080) ⟨0, 200, 100, 100⟩
          ⟨105, 295, 100, 100⟩) 3 MCWM_MOVE).bind (fun s => geometry s 3)
        = some ⟨90, 290, 100, 100⟩) ∧
    (geometry (exPair (exSnapConf 2) (exScreen 40000 1080) ⟨32000, 200, 765, 100⟩
          ⟨32767, 200, 100, 100⟩) 1 = some ⟨32000, 200, 765, 100⟩ ∧
      geometry (exPair (exSnapConf 2) (exScreen 40000 1080) ⟨32000, 200, 765, 100⟩
          ⟨32767, 200, 100, 100⟩) 3 = some ⟨32767, 200, 100, 100⟩ ∧
      (snapwindow (exPair (exSnapConf 2) (exScreen 40000 1080) ⟨32000, 200, 765, 100⟩
          ⟨32767, 200, 100, 100⟩) 3 MCWM_MOVE).bind (fun s => geometry s 3)
        = some ⟨-32767, 200, 100, 100⟩) := by
  refine ⟨⟨?_, ?_, ?_⟩, ⟨?_, ?_, ?_⟩, ⟨?_, ?_, ?_⟩⟩
  · decide
  · decide
  · decide
  · decide
  · decide
  · decide
  · decide
  · decide
  · decide

/-! ## Snapping to the borders of the monitor -/

set_option maxRecDepth 2000 in
/-- C13 (the code at the failing input): window 7 (100 x 100, border width 1,
snap margin 10) is on the monitor of output 2 at (1920, 0), 1280 x 1024, whose
right edge is at 3200.  Moved to x = 3095, its right edge 3195 is within the
margin of 3200, but `mousemove` leaves it at x = 3095, the right edge with the
border at 3197: `snapwindow` compares with `mon_width` = 1280 instead of
`mon_x + mon_width`.  The left edge (x = 1925 goes to 1920) and, as `mon_y`
is 0, the lower edge (y = 919 goes to 922 = 1024 - 100 - 2) do snap, and so
does the right edge on the monitor at the origin: window 8 moved to x = 1815
ends at 1818 = 1920 - 100 - 2. -/
theorem mousemove_right_edge_not_snapped :
    (exSnapMonitors.client? 3).map (fun c => (c.id, c.monitor)) = some (7, some 2) ∧
    exSnapMonitors.monitor? 2 = some ⟨2, 2, 1920, 0, 1280, 1024⟩ ∧
    (mousemove exSnapMonitors 3 3095 100).bind (fun s => geometry s 3)
      = some ⟨3095, 100, 100, 100⟩ ∧
    (mousemove exSnapMonitors 3 1925 100).bind (fun s => geometry s 3)
      = some ⟨1920, 100, 100, 100⟩ ∧
    (mousemove exSnapMonitors 3 3000 919).bind (fun s => geometry s 3)
      = some ⟨3000, 922, 100, 100⟩ ∧
    (exSnapMonitors.client? 5).map (fun c => (c.id, c.monitor)) = some (8, some 1) ∧
    exSnapMonitors.monitor? 1 = some ⟨1, 1, 0, 0, 1920, 1080⟩ ∧
    (mousemove exSnapMonitors 5 1815 600).bind (fun s => geometry s 5)
      = some ⟨1818, 600, 100, 100⟩ := by
  decide

/-! ## What `snapwindow` leaves alone -/

theorem snapWin_move (conf : Conf) (win c : Client) :
    ∃ x y, snapWin conf MCWM_MOVE win c = { c with x := x, y := y } := by
  have h1 : ∀ d : Client, ∃ x, snapMoveRightOf conf win d = { d with x := x } := by
    intro d; unfold snapMoveRightOf; split_ifs <;> exact ⟨_, rfl⟩
  have h2 : ∀ d : Client, ∃ y, snapMoveBelow conf win d = { d with y := y } := by
    intro d; unfold snapMoveBelow; split_ifs <;> exact ⟨_, rfl⟩
  have h3 : ∀ d : Client, ∃ x, snapMoveLeftOf conf win d = { d with x := x } := by
    intro d; unfold snapMoveLeftOf; split_ifs <;> exact ⟨_, rfl⟩
  have h4 : ∀ d : Client, ∃ y, snapMoveAbove conf win d = { d with y := y } := by
    intro d; unfold snapMoveAbove; split_ifs <;> exact ⟨_, rfl⟩
  unfold snapWin
  rw [if_pos rfl]
  obtain ⟨x1, e1⟩ := h1 c
  obtain ⟨y2, e2⟩ := h2 { c with x := x1 }
  obtain ⟨x3, e3⟩ := h3 { c with x := x1, y := y2 }
  obtain ⟨y4, e4⟩ := h4 { c with x := x3, y := y2 }
  exact ⟨x3, y4, by rw [e1, e2, e3, e4]⟩

theorem snapWin_resize (conf : Conf) (win c : Client) :
    ∃ w h, snapWin conf MCWM_RESIZE win c = { c with width := w, height := h } := by
  have h1 : ∀ d : Client, ∃ w, snapResizeWidth conf win d = { d with width := w } := by
    intro d; unfold snapResizeWidth; split_ifs <;> exact ⟨_, rfl⟩
  have h2 : ∀ d : Client, ∃ h, snapResizeHeight conf win d = { d with height := h } := by
    intro d; unfold snapResizeHeight; split_ifs <;> exact ⟨_, rfl⟩
  unfold snapWin
  rw [if_neg (by decide), if_pos rfl]
  obtain ⟨w1, e1⟩ := h1 c
  obtain ⟨h2, e2⟩ := h2 { c with width := w1 }
  exact ⟨w1, h2, by rw [e1, e2]⟩

theorem snapMonitor_move (conf : Conf) (r : Sizepos) (c : Client) :
    ∃ x y, snapMonitor conf MCWM_MOVE r c = { c with x := x, y := y } := by
  have h1 : ∀ d : Client, ∃ x, snapMonLeft conf r.x d = { d with x := x } := by
    intro d; unfold snapMonLeft; split_ifs <;> exact ⟨_, rfl⟩
  have h2 : ∀ d : Client, ∃ y, snapMonTop conf r.y d = { d with y := y } := by
    intro d; unfold snapMonTop; split_ifs <;> exact ⟨_, rfl⟩
  have h3 : ∀ d : Client, ∃ x, snapMonRight conf r.width d = { d with x := x } := by
    intro d; unfold snapMonRight; split_ifs <;> exact ⟨_, rfl⟩
  have h4 : ∀ d : Client, ∃ y, snapMonBottom conf r.height d = { d with y := y } := by
    intro d; unfold snapMonBottom; split_ifs <;> exact ⟨_, rfl⟩
  unfold snapMonitor
  rw [if_pos rfl]
  obtain ⟨x1, e1⟩ := h1 c
  obtain ⟨y2, e2⟩ := h2 { c with x := x1 }
  obtain ⟨x3, e3⟩ := h3 { c with x := x1, y := y2 }
  obtain ⟨y4, e4⟩ := h4 { c with x := x3, y := y2 }
  exact ⟨x3, y4, by rw [e1, e2, e3, e4]⟩

theorem snapMonitor_resize (conf : Conf) (r : Sizepos) (c : Client) :
    ∃ w h, snapMonitor conf MCWM_RESIZE r c = { c with width := w, height := h } := by
  have h1 : ∀ d : Client, ∃ w, snapMonWidth conf r.width d = { d with width := w } := by
    intro d; unfold snapMonWidth; split_ifs <;> exact ⟨_, rfl⟩
  have h2 : ∀ d : Client, ∃ h, snapMonHeight conf r.height d = { d with height := h } := by
    intro d; unfold snapMonHeight; split_ifs <;> exact ⟨_, rfl⟩
  unfold snapMonitor
  rw [if_neg (by decide), if_pos rfl]
  obtain ⟨w1, e1⟩ := h1 c
  obtain ⟨h2, e2⟩ := h2 { c with width := w1 }
  exact ⟨w1, h2, by rw [e1, e2]⟩

theorem snapLoop_move (s : State) (p : Nat) (l : List Item)
    (hlive : ∀ it ∈ l, (s.client? it.data).isSome) :
    ∀ c : Client, ∃ x y, snapLoop s p MCWM_MOVE c l = some { c with x := x, y := y } := by
  induction l with
  | nil => intro c; exact ⟨_, _, rfl⟩
  | cons item rest ih =>
    intro c
    have ih := ih (fun it h => hlive it (List.mem_cons_of_mem _ h))
    by_cases h : p = item.data
    · simp only [snapLoop, if_pos h]
      exact ih c
    · obtain ⟨win, hwin⟩ := Option.isSome_iff_exists.mp (hlive item (List.mem_cons_self _ _))
      obtain ⟨x1, y1, e1⟩ := snapWin_move s.conf win c
      obtain ⟨x2, y2, e2⟩ := ih { c with x := x1, y := y1 }
      refine ⟨x2, y2, ?_⟩
      simp only [snapLoop, if_neg h, true_or, if_true, hwin, Option.bind_eq_bind,
        Option.some_bind, e1, e2]

theorem snapLoop_resize (s : State) (p : Nat) (l : List Item)
    (hlive : ∀ it ∈ l, (s.client? it.data).isSome) :
    ∀ c : Client, ∃ w h,
      snapLoop s p MCWM_RESIZE c l = some { c with width := w, height := h } := by
  induction l with
  | nil => intro c; exact ⟨_, _, rfl⟩
  | cons item rest ih =>
    intro c
    have ih := ih (fun it h => hlive it (List.mem_cons_of_mem _ h))
    by_cases h : p = item.data
    · simp only [snapLoop, if_pos h]
      exact ih c
    · obtain ⟨win, hwin⟩ := Option.isSome_iff_exists.mp (hlive item (List.mem_cons_self _ _))
      obtain ⟨w1, h1, e1⟩ := snapWin_resize s.conf win c
      obtain ⟨w2, h2, e2⟩ := ih { c with width := w1, height := h1 }
      refine ⟨w2, h2, ?_⟩
      simp only [snapLoop, if_neg h, or_true, if_true, hwin, Option.bind_eq_bind,
        Option.some_bind, e1, e2]

theorem snapLoop_other (s : State) (p : Nat) (snap_mode : Nat) (l : List Item)
    (h1 : snap_mode ≠ MCWM_MOVE) (h2 : snap_mode ≠ MCWM_RESIZE) :
    ∀ c : Client, snapLoop s p snap_mode c l = some c := by
  induction l with
  | nil => intro c; rfl
  | cons item rest ih =>
    intro c
    simp only [snapLoop, h1, h2, or_self, if_false, ih, ite_self]

theorem setClient_others (s : State) (c1 : Client) (q : Nat) (hq : q ≠ c1.ptr) :
    (s.setClient c1).client? q = s.client? q := by
  rw [client?_setClient]
  cases h : s.client? q with
  | none => rfl
  | some d =>
    have hd : d.ptr = q := client?_ptr h
    simp only [Option.map_some', hd, if_neg hq]

theorem snapMonitor_other (conf : Conf) (snap_mode : Nat) (r : Sizepos) (c : Client)
    (h1 : snap_mode ≠ MCWM_MOVE) (h2 : snap_mode ≠ MCWM_RESIZE) :
    snapMonitor conf snap_mode r c = c := by
  unfold snapMonitor
  rw [if_neg h1, if_neg h2]

/-- C14: `snapwindow` on a live client whose monitor pointer is valid, in a state
where the entries of the list of the current workspace stand for live clients,
returns; in move mode the client keeps its width and height, in resize mode it
keeps its x and y, in any other mode it is unchanged; apart from x, y, width
and height no field of the client changes, and in every mode the record of
every other client, the lists and the requests sent are what they were. -/
theorem snapwindow_frame (s : State) (p : Nat) (snap_mode : Nat) (c : Client)
    (mon : Option Monitor)
    (hc : s.client? p = some c) (hmon : s.resolveMonitor c.monitor = some mon)
    (hlive : ∀ it ∈ s.wslist s.curws, (s.client? it.data).isSome) :
    ∃ s1 c1, snapwindow s p snap_mode = some s1 ∧ s1.client? p = some c1 ∧
      (snap_mode = MCWM_MOVE → c1.width = c.width ∧ c1.height = c.height) ∧
      (snap_mode = MCWM_RESIZE → c1.x = c.x ∧ c1.y = c.y) ∧
      c1 = { c with x := c1.x, y := c1.y, width := c1.width, height := c1.height } ∧
      (∀ q, q ≠ p → s1.client? q = s.client? q) ∧
      s1.winlist = s.winlist.map (fun d => if d.ptr = p then c1 else d) ∧
      s1.wslist = s.wslist ∧ s1.monlist = s.monlist ∧ s1.out = s.out := by
  have hp : c.ptr = p := client?_ptr hc
  have fin : ∀ c2 : Client, c2.ptr = p →
      snapLoop s p snap_mode c (s.wslist s.curws) >>= (fun c1 =>
        some (s.setClient (snapMonitor s.conf snap_mode (monrect s.screen mon) c1)))
        = some (s.setClient c2) →
      snapwindow s p snap_mode = some (s.setClient c2) ∧
        (s.setClient c2).client? p = some c2 ∧
        (∀ q, q ≠ p → (s.setClient c2).client? q = s.client? q) ∧
        (s.setClient c2).winlist = s.winlist.map (fun d => if d.ptr = p then c2 else d) := by
    intro c2 hp2 hrun
    refine ⟨?_, setClient_client? s p c c2 hc hp2, ?_, ?_⟩
    · unfold snapwindow
      simp only [hc, hmon, Option.bind_eq_bind, Option.some_bind, Option.pure_def]
      exact hrun
    · intro q hq
      exact setClient_others s c2 q (by rw [hp2]; exact hq)
    · show s.winlist.map (fun d => if d.ptr = c2.ptr then c2 else d) = _
      rw [hp2]
  by_cases hm : snap_mode = MCWM_MOVE
  · subst hm
    obtain ⟨x1, y1, e1⟩ := snapLoop_move s p (s.wslist s.curws) hlive c
    obtain ⟨x2, y2, e2⟩ := snapMonitor_move s.conf (monrect s.screen mon)
      { c with x := x1, y := y1 }
    obtain ⟨h1, h2, h3, h4⟩ := fin { c with x := x2, y := y2 } hp
      (by rw [e1]; simp only [Option.bind_eq_bind, Option.some_bind, e2])
    exact ⟨_, _, h1, h2, fun _ => ⟨rfl, rfl⟩, fun h => absurd h (by decide), rfl, h3, h4,
      rfl, rfl, rfl⟩
  · by_cases hr : snap_mode = MCWM_RESIZE
    · subst hr
      obtain ⟨w1, ht1, e1⟩ := snapLoop_resize s p (s.wslist s.curws) hlive c
      obtain ⟨w2, ht2, e2⟩ := snapMonitor_resize s.conf (monrect s.screen mon)
        { c with width := w1, height := ht1 }
      obtain ⟨h1, h2, h3, h4⟩ := fin { c with width := w2, height := ht2 } hp
        (by rw [e1]; simp only [Option.bind_eq_bind, Option.some_bind, e2])
      exact ⟨_, _, h1, h2, fun h => absurd h (by decide), fun _ => ⟨rfl, rfl⟩, rfl, h3, h4,
        rfl, rfl, rfl⟩
    · have e1 := snapLoop_other s p snap_mode (s.wslist s.curws) hm hr c
      have e2 := snapMonitor_other s.conf snap_mode (monrect s.screen mon) c hm hr
      obtain ⟨h1, h2, h3, h4⟩ := fin c hp
        (by rw [e1]; simp only [Option.bind_eq_bind, Option.some_bind, e2])
      exact ⟨_, _, h1, h2, fun h => absurd h hm, fun h => absurd h hr, rfl, h3, h4,
        rfl, rfl, rfl⟩

set_option maxRecDepth 2000 in
theorem snapwindow_frame_witness :
    ∃ s1 c1, snapwindow exSnap 3 MCWM_RESIZE = some s1 ∧ s1.client? 3 = some c1 ∧
      (MCWM_RESIZE = MCWM_MOVE → c1.width = ((exSnap.client? 3).get (by decide)).width ∧
        c1.height = ((exSnap.client? 3).get (by decide)).height) ∧
      (MCWM_RESIZE = MCWM_RESIZE → c1.x = ((exSnap.client? 3).get (by decide)).x ∧
        c1.y = ((exSnap.client? 3).get (by decide)).y) ∧
      c1 = { (exSnap.client? 3).get (by decide) with
        x := c1.x, y := c1.y, width := c1.width, height := c1.height } ∧
      (∀ q, q ≠ 3 → s1.client? q = exSnap.client? q) ∧
      s1.winlist = exSnap.winlist.map (fun d => if d.ptr = 3 then c1 else d) ∧
      s1.wslist = exSnap.wslist ∧ s1.monlist = exSnap.monlist ∧ s1.out = exSnap.out :=
  snapwindow_frame exSnap 3 MCWM_RESIZE ((exSnap.client? 3).get (by decide)) none
    (Option.some_get _).symm (by decide) (by decide)

set_option maxRecDepth 2000 in
/-- The scenario of C14: in `exSnap` window 8 (at (105, 200), 100 x 100) is
snapped to window 7 in move mode and keeps its size; window 7 is moved so that
its right edge at 98 is near the left edge of window 8: in resize mode its
width becomes 105 - 0 - 2 = 103 and its position stays. -/
theorem snapwindow_frame_example :
    (snapwindow exSnap 3 MCWM_MOVE).bind (fun s => geometry s 3)
      = some ⟨102, 200, 100, 100⟩ ∧
    (snapwindow exSnap 3 MCWM_MOVE).bind (fun s => geometry s 1)
      = some ⟨0, 200, 100, 100⟩ ∧
    ((resizestep 2 exSnap (some 1) 'h').bind
        (fun s => snapwindow s 1 MCWM_RESIZE)).bind (fun s => geometry s 1)
      = some ⟨0, 200, 103, 100⟩ := by
  decide

/-! ## Size increments in `mouseresize` -/

theorem tmod_bounds (d inc : Int) (hinc : 0 < inc) :
    (0 ≤ d → 0 ≤ d.tmod inc ∧ d.tmod inc ≤ d) ∧ (d < 0 → d ≤ d.tmod inc ∧ d.tmod inc ≤ 0) := by
  obtain ⟨m, rfl⟩ := Int.eq_ofNat_of_zero_le (le_of_lt hinc)
  cases d with
  | ofNat n =>
    refine ⟨fun _ => ?_, fun h => absurd h (by simp)⟩
    show 0 ≤ ((n % m : Nat) : Int) ∧ ((n % m : Nat) : Int) ≤ (n : Int)
    exact ⟨Int.ofNat_nonneg _, Int.ofNat_le.mpr (Nat.mod_le n m)⟩
  | negSucc n =>
    refine ⟨fun h => absurd h (by simp), fun _ => ?_⟩
    show Int.negSucc n ≤ -(((n + 1) % m : Nat) : Int) ∧ -(((n + 1) % m : Nat) : Int) ≤ 0
    have h1 : ((n + 1) % m : Nat) ≤ n + 1 := Nat.mod_le _ _
    have h2 : Int.negSucc n = -((n : Int) + 1) := Int.negSucc_eq n
    omega

theorem toUInt16_isUInt16 (v : Int) : isUInt16 (toUInt16 v) := by
  unfold isUInt16 toUInt16
  omega

/-- The increment arithmetic on one dimension: for a size `w` in the range of
`uint16_t`, an increment of at least 1 and a base size from 0 to 65535, the
new size `w - (w - base) % inc` of C is again in the range of `uint16_t` and
differs from the base by a multiple of the increment. -/
theorem incsize_spec (w base inc : Int) (hw : isUInt16 w) (hinc : 1 ≤ inc)
    (hb0 : 0 ≤ base) (hb1 : base ≤ 65535) :
    isInt32 (w - base) ∧ toUInt16 (w - Int.tmod (w - base) inc) = w - Int.tmod (w - base) inc ∧
    isUInt16 (w - Int.tmod (w - base) inc) ∧ (w - Int.tmod (w - base) inc - base) % inc = 0 := by
  unfold isUInt16 at hw
  obtain ⟨hpos, hneg⟩ := tmod_bounds (w - base) inc (by omega)
  have hr : 0 ≤ w - Int.tmod (w - base) inc ∧ w - Int.tmod (w - base) inc ≤ 65535 := by
    by_cases hd : 0 ≤ w - base
    · have := hpos hd; omega
    · have := hneg (by omega); omega
  refine ⟨⟨by omega, by omega⟩, toUInt16_of_isUInt16 hr, hr, ?_⟩
  have e : w - Int.tmod (w - base) inc - base = inc * (w - base).tdiv inc := by
    have := Int.tmod_add_tdiv (w - base) inc
    omega
  rw [e]
  exact Int.mul_emod_right _ _

theorem mouseresizeSize_spec (c : Client) (rel_x rel_y : Int)
    (hwi : 1 ≤ c.width_inc) (hhi : 1 ≤ c.height_inc)
    (hbw : 0 ≤ c.base_width ∧ c.base_width ≤ 65535)
    (hbh : 0 ≤ c.base_height ∧ c.base_height ≤ 65535) :
    ∃ w h, mouseresizeSize c rel_x rel_y = some { c with width := w, height := h } ∧
      isUInt16 w ∧ isUInt16 h ∧
      (w - c.base_width) % c.width_inc = 0 ∧ (h - c.base_height) % c.height_inc = 0 := by
  obtain ⟨a1, a2, a3, a4⟩ := incsize_spec (toUInt16 (absInt (rel_x - c.x))) c.base_width
    c.width_inc (toUInt16_isUInt16 _) hwi hbw.1 hbw.2
  obtain ⟨b1, b2, b3, b4⟩ := incsize_spec (toUInt16 (absInt (rel_y - c.y))) c.base_height
    c.height_inc (toUInt16_isUInt16 _) hhi hbh.1 hbh.2
  refine ⟨_, _, ?_, a3, b3, a4, b4⟩
  unfold mouseresizeSize incWidth incHeight
  have n1 : c.width_inc ≠ 0 := by omega
  have n2 : c.height_inc ≠ 0 := by omega
  simp only [n1, n2, a1, b1, a2, b2, not_true_eq_false, or_self, if_false, Option.bind_eq_bind,
    Option.some_bind, Option.pure_def]

theorem resizelimGeom_id (bw : Int) (r : Sizepos) (c : Client)
    (h1 : ¬ (0 ≠ c.min_height ∧ c.height < c.min_height))
    (h2 : ¬ (0 ≠ c.min_width ∧ c.width < c.min_width))
    (h3 : ¬ (c.x + c.width + bw * 2 > r.x + r.width))
    (h4 : ¬ (c.y + c.height + bw * 2 > r.y + r.height)) :
    resizelimGeom bw r c = c := by
  have e1 : resizelimMinHeight c = c := by unfold resizelimMinHeight; rw [if_neg h1]
  have e2 : resizelimMinWidth c = c := by unfold resizelimMinWidth; rw [if_neg h2]
  have e3 : resizelimWidth bw r.x r.width c = c := by unfold resizelimWidth; rw [if_neg h3]
  have e4 : resizelimHeight bw r.y r.height c = c := by unfold resizelimHeight; rw [if_neg h4]
  unfold resizelimGeom
  rw [e1, e2, e3, e4]

theorem resizelimGeom_keeps (bw : Int) (r : Sizepos) (c : Client) :
    ∃ w h, resizelimGeom bw r c = { c with width := w, height := h } := by
  have h1 : ∀ d : Client, ∃ h, resizelimMinHeight d = { d with height := h } := by
    intro d; unfold resizelimMinHeight; split_ifs <;> exact ⟨_, rfl⟩
  have h2 : ∀ d : Client, ∃ w, resizelimMinWidth d = { d with width := w } := by
    intro d; unfold resizelimMinWidth; split_ifs <;> exact ⟨_, rfl⟩
  have h3 : ∀ d : Client, ∃ w, resizelimWidth bw r.x r.width d = { d with width := w } := by
    intro d; unfold resizelimWidth; split_ifs <;> exact ⟨_, rfl⟩
  have h4 : ∀ d : Client, ∃ h, resizelimHeight bw r.y r.height d = { d with height := h } := by
    intro d; unfold resizelimHeight; split_ifs <;> exact ⟨_, rfl⟩
  unfold resizelimGeom
  obtain ⟨a1, e1⟩ := h1 c
  obtain ⟨a2, e2⟩ := h2 { c with height := a1 }
  obtain ⟨a3, e3⟩ := h3 { c with height := a1, width := a2 }
  obtain ⟨a4, e4⟩ := h4 { c with height := a1, width := a3 }
  exact ⟨a3, a4, by rw [e1, e2, e3, e4]⟩

theorem resizelim_spec (s : State) (p : Nat) (c : Client) (mon : Option Monitor)
    (hc : s.client? p = some c) (hmon : s.resolveMonitor c.monitor = some mon) :
    ∃ s1, resizelim s p = some s1 ∧
      s1.client? p = some (resizelimGeom s.conf.borderwidth (monrect s.screen mon) c) ∧
      (∀ q, q ≠ p → s1.client? q = s.client? q) ∧
      s1.conf = s.conf ∧ s1.screen = s.screen ∧ s1.monlist = s.monlist ∧
      s1.wslist = s.wslist ∧ s1.curws = s.curws := by
  obtain ⟨w, h, e⟩ := resizelimGeom_keeps s.conf.borderwidth (monrect s.screen mon) c
  have hp : (resizelimGeom s.conf.borderwidth (monrect s.screen mon) c).ptr = p := by
    rw [e]; exact client?_ptr (c := c) hc
  refine ⟨(s.setClient (resizelimGeom s.conf.borderwidth (monrect s.screen mon) c)).send
    (resize s.screen (resizelimGeom s.conf.borderwidth (monrect s.screen mon) c).id
      (resizelimGeom s.conf.borderwidth (monrect s.screen mon) c).width
      (resizelimGeom s.conf.borderwidth (monrect s.screen mon) c).height),
    ?_, setClient_client? s p c _ hc hp, ?_, rfl, rfl, rfl, rfl, rfl⟩
  · unfold resizelim
    simp only [hc, hmon, Option.bind_eq_bind, Option.some_bind, Option.pure_def]
  · intro q hq
    exact setClient_others s _ q (by rw [hp]; exact hq)

theorem clearVertmaxed_spec (s : State) (p : Nat) (c : Client) (hc : s.client? p = some c) :
    ∃ s1, clearVertmaxed s p = some s1 ∧ s1.client? p = some { c with vertmaxed := false } ∧
      (∀ q, q ≠ p → s1.client? q = s.client? q) ∧ s1.out = s.out ∧
      s1.conf = s.conf ∧ s1.screen = s.screen ∧ s1.monlist = s.monlist ∧
      s1.wslist = s.wslist ∧ s1.curws = s.curws := by
  unfold clearVertmaxed
  simp only [hc, Option.bind_eq_bind, Option.some_bind, Option.pure_def]
  have hp : ({ c with vertmaxed := false } : Client).ptr = p := client?_ptr (c := c) hc
  by_cases hv : c.vertmaxed = true
  · rw [if_pos hv]
    refine ⟨_, rfl, setClient_client? s p c _ hc hp, ?_, rfl, rfl, rfl, rfl, rfl, rfl⟩
    intro q hq
    exact setClient_others s _ q (by rw [hp]; exact hq)
  · rw [if_neg hv]
    refine ⟨_, rfl, ?_, fun _ _ => rfl, rfl, rfl, rfl, rfl, rfl, rfl⟩
    rw [hc]
    have : c.vertmaxed = false := by simpa using hv
    cases c
    simp only at this
    simp only [this]

theorem resizelimGeom_width (bw : Int) (r : Sizepos) (c : Client)
    (h2 : ¬ (0 ≠ c.min_width ∧ c.width < c.min_width))
    (h3 : ¬ (c.x + c.width + bw * 2 > r.x + r.width)) :
    (resizelimGeom bw r c).width = c.width := by
  unfold resizelimGeom resizelimHeight resizelimWidth resizelimMinWidth resizelimMinHeight
  split_ifs <;> rfl

theorem resizelimGeom_height (bw : Int) (r : Sizepos) (c : Client)
    (h1 : ¬ (0 ≠ c.min_height ∧ c.height < c.min_height))
    (h4 : ¬ (c.y + c.height + bw * 2 > r.y + r.height)) :
    (resizelimGeom bw r c).height = c.height := by
  unfold resizelimGeom resizelimHeight resizelimWidth resizelimMinWidth resizelimMinHeight
  split_ifs <;> rfl

/-- C15 (as amended): for a live client with increments of at least 1 and base
sizes from 0 to 65535 and every pointer position, the size that `mouseresize`
computes from the pointer position by its increment arithmetic satisfies
`(width - base_width) % width_inc = 0` and `(height - base_height) %
height_inc = 0`.  When the snap margin is not positive, `mouseresize` returns,
does not move the client, and the client ends with that width if the width
satisfies the declared minimum and fits into the monitor from the position of
the client on, and likewise with that height; otherwise `resizelim` replaces
the size. -/
theorem mouseresize_increments (s : State) (p : Nat) (c : Client) (mon : Option Monitor)
    (rel_x rel_y : Int)
    (hc : s.client? p = some c) (hmon : s.resolveMonitor c.monitor = some mon)
    (hwi : 1 ≤ c.width_inc) (hhi : 1 ≤ c.height_inc)
    (hbw : 0 ≤ c.base_width ∧ c.base_width ≤ 65535)
    (hbh : 0 ≤ c.base_height ∧ c.base_height ≤ 65535) :
    ∃ c0, mouseresizeSize c rel_x rel_y = some c0 ∧
      (c0.width - c.base_width) % c.width_inc = 0 ∧
      (c0.height - c.base_height) % c.height_inc = 0 ∧
      (s.conf.snapmargin ≤ 0 →
        ∃ s1 c1, mouseresize s p rel_x rel_y = some s1 ∧ s1.client? p = some c1 ∧
          c1.x = c.x ∧ c1.y = c.y ∧
          (¬ (0 ≠ c.min_width ∧ c0.width < c.min_width) →
            ¬ (c.x + c0.width + s.conf.borderwidth * 2
              > (monrect s.screen mon).x + (monrect s.screen mon).width) →
            c1.width = c0.width) ∧
          (¬ (0 ≠ c.min_height ∧ c0.height < c.min_height) →
            ¬ (c.y + c0.height + s.conf.borderwidth * 2
              > (monrect s.screen mon).y + (monrect s.screen mon).height) →
            c1.height = c0.height)) := by
  obtain ⟨w, h, e0, -, -, hcw, hch⟩ := mouseresizeSize_spec c rel_x rel_y hwi hhi hbw hbh
  refine ⟨_, e0, hcw, hch, ?_⟩
  intro hsnap
  have hp : ({ c with width := w, height := h } : Client).ptr = p := client?_ptr (c := c) hc
  have hc0 := setClient_client? s p c { c with width := w, height := h } hc hp
  obtain ⟨s2, hs2, hc2, -, hconf2, hscreen2, -, -, -⟩ := resizelim_spec
    (s.setClient { c with width := w, height := h }) p { c with width := w, height := h } mon
    hc0 hmon
  obtain ⟨s3, hs3, hc3, -⟩ := clearVertmaxed_spec s2 p _ hc2
  obtain ⟨w1, h1, ek⟩ := resizelimGeom_keeps s.conf.borderwidth (monrect s.screen mon)
    { c with width := w, height := h }
  refine ⟨s3, _, ?_, hc3, ?_, ?_, ?_, ?_⟩
  · unfold mouseresize
    have hn : ¬ (s.setClient { c with width := w, height := h }).conf.snapmargin > 0 := by
      show ¬ s.conf.snapmargin > 0
      omega
    simp only [hc, e0, Option.bind_eq_bind, Option.some_bind, if_neg hn, hs2, hs3]
  · show (resizelimGeom _ _ _).x = c.x
    rw [show (s.setClient { c with width := w, height := h }).conf = s.conf from rfl,
      show (s.setClient { c with width := w, height := h }).screen = s.screen from rfl, ek]
  · show (resizelimGeom _ _ _).y = c.y
    rw [show (s.setClient { c with width := w, height := h }).conf = s.conf from rfl,
      show (s.setClient { c with width := w, height := h }).screen = s.screen from rfl, ek]
  · intro hmin hfit
    exact resizelimGeom_width s.conf.borderwidth (monrect s.screen mon)
      { c with width := w, height := h } hmin hfit
  · intro hmin hfit
    exact resizelimGeom_height s.conf.borderwidth (monrect s.screen mon)
      { c with width := w, height := h } hmin hfit

set_option maxRecDepth 2000 in
theorem mouseresize_increments_witness :
    ∃ c0, mouseresizeSize (((exInc 1920 10 0).client? 1).get (by decide)) 1234 567 = some c0 ∧
      (c0.width - (((exInc 1920 10 0).client? 1).get (by decide)).base_width)
        % (((exInc 1920 10 0).client? 1).get (by decide)).width_inc = 0 ∧
      (c0.height - (((exInc 1920 10 0).client? 1).get (by decide)).base_height)
        % (((exInc 1920 10 0).client? 1).get (by decide)).height_inc = 0 ∧
      ((exInc 1920 10 0).conf.snapmargin ≤ 0 →
        ∃ s1 c1, mouseresize (exInc 1920 10 0) 1 1234 567 = some s1 ∧ s1.client? 1 = some c1 ∧
          c1.x = (((exInc 1920 10 0).client? 1).get (by decide)).x ∧
          c1.y = (((exInc 1920 10 0).client? 1).get (by decide)).y ∧
          (¬ (0 ≠ (((exInc 1920 10 0).client? 1).get (by decide)).min_width ∧
              c0.width < (((exInc 1920 10 0).client? 1).get (by decide)).min_width) →
            ¬ ((((exInc 1920 10 0).client? 1).get (by decide)).x + c0.width
                + (exInc 1920 10 0).conf.borderwidth * 2
              > (monrect (exInc 1920 10 0).screen none).x
                + (monrect (exInc 1920 10 0).screen none).width) →
            c1.width = c0.width) ∧
          (¬ (0 ≠ (((exInc 1920 10 0).client? 1).get (by decide)).min_height ∧
              c0.height < (((exInc 1920 10 0).client? 1).get (by decide)).min_height) →
            ¬ ((((exInc 1920 10 0).client? 1).get (by decide)).y + c0.height
                + (exInc 1920 10 0).conf.borderwidth * 2
              > (monrect (exInc 1920 10 0).screen none).y
                + (monrect (exInc 1920 10 0).screen none).height) →
            c1.height = c0.height)) :=
  mouseresize_increments (exInc 1920 10 0) 1 (((exInc 1920 10 0).client? 1).get (by decide)) none
    1234 567 (Option.some_get _).symm (by decide) (by decide) (by decide) (by decide) (by decide)

set_option maxRecDepth 2000 in
/-- C15 (counterexamples).  Window 7 at the origin of a root of 1920 x 1080 with
border width 1, increments 10 and base sizes 0: with the pointer at (3000, 500)
the increment arithmetic gives the width 3000, which `resizelim` replaces by
1920 - 2 = 1918, and 1918 is not a multiple of 10; with the pointer at
(1234, 567) the client ends with 1230 x 560.  On a root 65535 wide, with
increment 1000 and base size -100 and the pointer at (5, 5), the arithmetic
gives 5 - 105 = -100, stored as 65436, and 65436 + 100 is not a multiple of
1000; with increment 100000 and base size 70000 it gives 5 + 69995 = 70000,
stored as 4464. -/
theorem mouseresize_increments_counterexample :
    ((exInc 1920 10 0).client? 1).map
        (fun c => (c.width_inc, c.height_inc, c.base_width, c.base_height)) = some (10, 10, 0, 0) ∧
    (mouseresize (exInc 1920 10 0) 1 3000 500).bind (fun s => geometry s 1)
      = some ⟨0, 0, 1918, 500⟩ ∧
    (1918 - 0) % 10 ≠ (0 : Int) ∧
    (mouseresize (exInc 1920 10 0) 1 1234 567).bind (fun s => geometry s 1)
      = some ⟨0, 0, 1230, 560⟩ ∧
    ((exInc 65535 1000 (-100)).client? 1).map
        (fun c => (c.width_inc, c.height_inc, c.base_width, c.base_height))
      = some (1000, 1000, -100, -100) ∧
    (mouseresize (exInc 65535 1000 (-100)) 1 5 5).bind (fun s => geometry s 1)
      = some ⟨0, 0, 65436, 1078⟩ ∧
    (65436 - -100) % 1000 ≠ (0 : Int) ∧
    (mouseresize (exInc 65535 100000 70000) 1 5 5).bind (fun s => geometry s 1)
      = some ⟨0, 0, 4464, 1078⟩ ∧
    (4464 - 70000) % 100000 ≠ (0 : Int) := by
  decide

/-! ## Steps with the keyboard -/

theorem raisewindow_env (s : State) (win : Nat) :
    (raisewindow s win).conf = s.conf ∧ (raisewindow s win).screen = s.screen ∧
    (raisewindow s win).monlist = s.monlist ∧
    ∀ q, (raisewindow s win).client? q = s.client? q := by
  unfold raisewindow
  split <;> exact ⟨rfl, rfl, rfl, fun _ => rfl⟩

theorem resolveMonitor_congr (s s1 : State) (h : s1.monlist = s.monlist) (m : Option Nat) :
    s1.resolveMonitor m = s.resolveMonitor m := by
  unfold State.resolveMonitor State.monitor?
  rw [h]

theorem resizestepSwitch_spec (step_x step_y : Int) (direction : Char) (c : Client) :
    ∃ w1 h1, resizestepSwitch step_x step_y direction c = { c with width := w1, height := h1 } ∧
      ∀ w h,
        ((direction = 'h' ∧ w = c.width - step_x ∧ h = c.height) ∨
          (direction = 'j' ∧ w = c.width ∧ h = c.height + step_y) ∨
          (direction = 'k' ∧ w = c.width ∧ h = c.height - step_y) ∨
          (direction = 'l' ∧ w = c.width + step_x ∧ h = c.height)) →
        isUInt16 w → isUInt16 h → w1 = w ∧ h1 = h := by
  unfold resizestepSwitch
  split_ifs with h1 h2 h3 h4
  · refine ⟨_, _, rfl, ?_⟩
    intro w h hd hw _
    subst h1
    rcases hd with ⟨-, rfl, rfl⟩ | ⟨hx, -⟩ | ⟨hx, -⟩ | ⟨hx, -⟩
    · exact ⟨toUInt16_of_isUInt16 hw, rfl⟩
    all_goals exact absurd hx (by decide)
  · refine ⟨_, _, rfl, ?_⟩
    intro w h hd _ hh
    subst h2
    rcases hd with ⟨hx, -⟩ | ⟨-, rfl, rfl⟩ | ⟨hx, -⟩ | ⟨hx, -⟩
    · exact absurd hx (by decide)
    · exact ⟨rfl, toUInt16_of_isUInt16 hh⟩
    all_goals exact absurd hx (by decide)
  · refine ⟨_, _, rfl, ?_⟩
    intro w h hd _ hh
    subst h3
    rcases hd with ⟨hx, -⟩ | ⟨hx, -⟩ | ⟨-, rfl, rfl⟩ | ⟨hx, -⟩
    · exact absurd hx (by decide)
    · exact absurd hx (by decide)
    · exact ⟨rfl, toUInt16_of_isUInt16 hh⟩
    · exact absurd hx (by decide)
  · refine ⟨_, _, rfl, ?_⟩
    intro w h hd hw _
    subst h4
    rcases hd with ⟨hx, -⟩ | ⟨hx, -⟩ | ⟨hx, -⟩ | ⟨-, rfl, rfl⟩
    · exact absurd hx (by decide)
    · exact absurd hx (by decide)
    · exact absurd hx (by decide)
    · exact ⟨toUInt16_of_isUInt16 hw, rfl⟩
  · refine ⟨_, _, rfl, ?_⟩
    intro w h hd _ _
    rcases hd with ⟨hx, -⟩ | ⟨hx, -⟩ | ⟨hx, -⟩ | ⟨hx, -⟩
    · exact absurd hx h1
    · exact absurd hx h2
    · exact absurd hx h3
    · exact absurd hx h4

/-- C16 (as amended): `resizestep` returns a fully maximized client, and the
state with it, unchanged.  For a live client that is not fully maximized it
returns, never changes x and y, and changes nothing of any other client.  Let
`step_x` be `width_inc` if that is greater than 1 and `MOVE_STEP` otherwise,
`step_y` likewise for the height, and `w` x `h` the stepped size: the size of the
client with the dimension named by the direction changed by one step (`h`:
width - step_x, `l`: width + step_x, `j`: height + step_y, `k`: height -
step_y).  If `w` and `h` are in the range of the size fields (0 to 65535),
satisfy the declared minimum and fit into the monitor from the position of the
client on, the client ends with exactly the size `w` x `h`. -/
theorem resizestep_steps (MOVE_STEP : Int) (s : State) (p : Nat) (c : Client)
    (mon : Option Monitor) (direction : Char) (step_x step_y w h : Int)
    (hc : s.client? p = some c) (hmon : s.resolveMonitor c.monitor = some mon)
    (hsx : step_x = if c.width_inc > 1 then c.width_inc else MOVE_STEP)
    (hsy : step_y = if c.height_inc > 1 then c.height_inc else MOVE_STEP)
    (hd : (direction = 'h' ∧ w = c.width - step_x ∧ h = c.height) ∨
      (direction = 'j' ∧ w = c.width ∧ h = c.height + step_y) ∨
      (direction = 'k' ∧ w = c.width ∧ h = c.height - step_y) ∨
      (direction = 'l' ∧ w = c.width + step_x ∧ h = c.height)) :
    (c.maxed = true → resizestep MOVE_STEP s (some p) direction = some s) ∧
    (c.maxed = false →
      ∃ s1 c1, resizestep MOVE_STEP s (some p) direction = some s1 ∧
        s1.client? p = some c1 ∧ c1.x = c.x ∧ c1.y = c.y ∧
        (∀ q, q ≠ p → s1.client? q = s.client? q) ∧
        (isUInt16 w → isUInt16 h →
          ¬ (0 ≠ c.min_width ∧ w < c.min_width) → ¬ (0 ≠ c.min_height ∧ h < c.min_height) →
          ¬ (c.x + w + s.conf.borderwidth * 2
            > (monrect s.screen mon).x + (monrect s.screen mon).width) →
          ¬ (c.y + h + s.conf.borderwidth * 2
            > (monrect s.screen mon).y + (monrect s.screen mon).height) →
          c1.width = w ∧ c1.height = h)) := by
  constructor
  · intro hmax
    unfold resizestep
    simp only [hc, hmax, Option.bind_eq_bind, Option.some_bind, if_true, Option.pure_def]
  · intro hmax
    obtain ⟨hconf, hscreen, hmonl, hcl⟩ := raisewindow_env s c.id
    obtain ⟨w1, h1, esw, hsw⟩ := resizestepSwitch_spec step_x step_y direction c
    have hp : ({ c with width := w1, height := h1 } : Client).ptr = p := client?_ptr (c := c) hc
    have hc1 := setClient_client? (raisewindow s c.id) p c { c with width := w1, height := h1 }
      (by rw [hcl]; exact hc) hp
    have hmon1 : ((raisewindow s c.id).setClient { c with width := w1, height := h1
        }).resolveMonitor ({ c with width := w1, height := h1 } : Client).monitor = some mon := by
      rw [resolveMonitor_congr s _ (show ((raisewindow s c.id).setClient
        { c with width := w1, height := h1 }).monlist = s.monlist from hmonl)]
      exact hmon
    obtain ⟨s2, hs2, hc2, ho2, hconf2, hscreen2, -⟩ := resizelim_spec _ p _ mon hc1 hmon1
    obtain ⟨s3, hs3, hc3, ho3, -⟩ := clearVertmaxed_spec s2 p _ hc2
    obtain ⟨w2, h2, ek⟩ := resizelimGeom_keeps s.conf.borderwidth (monrect s.screen mon)
      { c with width := w1, height := h1 }
    have hgeom : resizelimGeom
        ((raisewindow s c.id).setClient { c with width := w1, height := h1 }).conf.borderwidth
        (monrect ((raisewindow s c.id).setClient { c with width := w1, height := h1 }).screen
          mon) { c with width := w1, height := h1 } =
        resizelimGeom s.conf.borderwidth (monrect s.screen mon)
          { c with width := w1, height := h1 } := by
      show resizelimGeom (raisewindow s c.id).conf.borderwidth
        (monrect (raisewindow s c.id).screen mon) _ = _
      rw [hconf, hscreen]
    rw [hgeom] at hc2 hc3
    have hgx : (resizelimGeom s.conf.borderwidth (monrect s.screen mon)
        { c with width := w1, height := h1 }).x = c.x := by rw [ek]
    have hgy : (resizelimGeom s.conf.borderwidth (monrect s.screen mon)
        { c with width := w1, height := h1 }).y = c.y := by rw [ek]
    have hgsize : isUInt16 w → isUInt16 h →
        ¬ (0 ≠ c.min_width ∧ w < c.min_width) → ¬ (0 ≠ c.min_height ∧ h < c.min_height) →
        ¬ (c.x + w + s.conf.borderwidth * 2
          > (monrect s.screen mon).x + (monrect s.screen mon).width) →
        ¬ (c.y + h + s.conf.borderwidth * 2
          > (monrect s.screen mon).y + (monrect s.screen mon).height) →
        (resizelimGeom s.conf.borderwidth (monrect s.screen mon)
          { c with width := w1, height := h1 }).width = w ∧
        (resizelimGeom s.conf.borderwidth (monrect s.screen mon)
          { c with width := w1, height := h1 }).height = h := by
      intro hw hh hminw hminh hfitw hfith
      obtain ⟨rfl, rfl⟩ := hsw w h hd hw hh
      exact ⟨resizelimGeom_width _ _ { c with width := w1, height := h1 } hminw hfitw,
        resizelimGeom_height _ _ { c with width := w1, height := h1 } hminh hfith⟩
    generalize resizelimGeom s.conf.borderwidth (monrect s.screen mon)
      { c with width := w1, height := h1 } = g at hc2 hc3 hgx hgy hgsize
    refine ⟨s3.send [Request.warpPointer g.id (g.width / 2) (g.height / 2), Request.flush],
      { g with vertmaxed := false }, ?_, hc3, hgx, hgy, ?_, hgsize⟩
    · unfold resizestep
      simp only [hc, Option.bind_eq_bind, Option.some_bind]
      rw [if_neg (by rw [hmax]; decide)]
      simp only [← hsx, ← hsy, esw, hs2, hs3, hc3, Option.bind_eq_bind, Option.some_bind,
        Option.pure_def]
    · intro q hq
      show s3.client? q = _
      rw [ho3 q hq, ho2 q hq, setClient_others _ _ q (by rw [hp]; exact hq), hcl]

set_option maxRecDepth 2000 in
theorem resizestep_steps_witness :
    (((exOne.client? 1).get (by decide)).maxed = true →
      resizestep 32 exOne (some 1) 'l' = some exOne) ∧
    (((exOne.client? 1).get (by decide)).maxed = false →
      ∃ s1 c1, resizestep 32 exOne (some 1) 'l' = some s1 ∧
        s1.client? 1 = some c1 ∧ c1.x = ((exOne.client? 1).get (by decide)).x ∧
        c1.y = ((exOne.client? 1).get (by decide)).y ∧
        (∀ q, q ≠ 1 → s1.client? q = exOne.client? q) ∧
        (isUInt16 132 → isUInt16 100 →
          ¬ (0 ≠ ((exOne.client? 1).get (by decide)).min_width ∧
            132 < ((exOne.client? 1).get (by decide)).min_width) →
          ¬ (0 ≠ ((exOne.client? 1).get (by decide)).min_height ∧
            100 < ((exOne.client? 1).get (by decide)).min_height) →
          ¬ (((exOne.client? 1).get (by decide)).x + 132 + exOne.conf.borderwidth * 2
            > (monrect exOne.screen none).x + (monrect exOne.screen none).width) →
          ¬ (((exOne.client? 1).get (by decide)).y + 100 + exOne.conf.borderwidth * 2
            > (monrect exOne.screen none).y + (monrect exOne.screen none).height) →
          c1.width = 132 ∧ c1.height = 100)) :=
  resizestep_steps 32 exOne 1 ((exOne.client? 1).get (by decide)) none 'l' 32 32 132 100
    (Option.some_get _).symm (by decide) (by decide) (by decide) (by decide)

set_option maxRecDepth 2000 in
/-- C16 (counterexamples).  Window 7 is 20 wide, without size hints (no declared
minimum, increments 1), at the origin of a root of 1920 x 1080 with border
width 1; with `MOVE_STEP` 32 the stepped width in direction `h` is -12, which
is below no declared minimum and does not reach over the right edge of the
root; `resizestep` stores it as 65524 and `resizelim` then makes the window
1918 wide.  With border width -10 on a root 65535 wide, a window 65530 wide
and `MOVE_STEP` 10, the stepped width 65540 in direction `l` fits (65540 - 20 is
at most 65535), but it is stored as 4. -/
theorem resizestep_steps_counterexample :
    geometry (exWidth 1 (exScreen 1920 1080) 20) 1 = some ⟨0, 0, 20, 100⟩ ∧
    ((exWidth 1 (exScreen 1920 1080) 20).client? 1).map
        (fun c => (c.min_width, c.min_height, c.width_inc)) = some (0, 0, 1) ∧
    ((exWidth 1 (exScreen 1920 1080) 20).client? 1).map (fun c => c.maxed) = some false ∧
    (resizestep 32 (exWidth 1 (exScreen 1920 1080) 20) (some 1) 'h').bind
        (fun s => geometry s 1) = some ⟨0, 0, 1918, 100⟩ ∧
    geometry (exWidth (-10) (exScreen 65535 1080) 65530) 1 = some ⟨0, 0, 65530, 100⟩ ∧
    ((exWidth (-10) (exScreen 65535 1080) 65530).client? 1).map
        (fun c => (c.min_width, c.min_height, c.width_inc)) = some (0, 0, 1) ∧
    ((exWidth (-10) (exScreen 65535 1080) 65530).client? 1).map (fun c => c.maxed)
      = some false ∧
    (resizestep 10 (exWidth (-10) (exScreen 65535 1080) 65530) (some 1) 'l').bind
        (fun s => geometry s 1) = some ⟨0, 0, 4, 100⟩ := by
  decide

theorem movelimGeom_keeps (bw : Int) (r : Sizepos) (c : Client) :
    ∃ x y, movelimGeom bw r c = { c with x := x, y := y } := by
  have h1 : ∀ d : Client, ∃ x, movelimLeft r.x d = { d with x := x } := by
    intro d; unfold movelimLeft; split_ifs <;> exact ⟨_, rfl⟩
  have h2 : ∀ d : Client, ∃ y, movelimTop r.y d = { d with y := y } := by
    intro d; unfold movelimTop; split_ifs <;> exact ⟨_, rfl⟩
  have h3 : ∀ d : Client, ∃ x, movelimRight bw r.x r.width d = { d with x := x } := by
    intro d; unfold movelimRight; split_ifs <;> exact ⟨_, rfl⟩
  have h4 : ∀ d : Client, ∃ y, movelimBottom bw r.y r.height d = { d with y := y } := by
    intro d; unfold movelimBottom; split_ifs <;> exact ⟨_, rfl⟩
  unfold movelimGeom
  obtain ⟨a1, e1⟩ := h1 c
  obtain ⟨a2, e2⟩ := h2 { c with x := a1 }
  obtain ⟨a3, e3⟩ := h3 { c with x := a1, y := a2 }
  obtain ⟨a4, e4⟩ := h4 { c with x := a3, y := a2 }
  exact ⟨a3, a4, by rw [e1, e2, e3, e4]⟩

theorem movelimGeom_id (bw : Int) (r : Sizepos) (c : Client)
    (h1 : ¬ c.x < r.x) (h2 : ¬ c.y < r.y)
    (h3 : ¬ (c.x + c.width > r.x + r.width - bw * 2))
    (h4 : ¬ (c.y + c.height > r.y + r.height - bw * 2)) :
    movelimGeom bw r c = c := by
  have e1 : movelimLeft r.x c = c := by unfold movelimLeft; rw [if_neg h1]
  have e2 : movelimTop r.y c = c := by unfold movelimTop; rw [if_neg h2]
  have e3 : movelimRight bw r.x r.width c = c := by unfold movelimRight; rw [if_neg h3]
  have e4 : movelimBottom bw r.y r.height c = c := by unfold movelimBottom; rw [if_neg h4]
  unfold movelimGeom
  rw [e1, e2, e3, e4]

theorem movelim_spec (s : State) (p : Nat) (c : Client) (mon : Option Monitor)
    (hc : s.client? p = some c) (hmon : s.resolveMonitor c.monitor = some mon) :
    ∃ s1, movelim s p = some s1 ∧
      s1.client? p = some (movelimGeom s.conf.borderwidth (monrect s.screen mon) c) ∧
      (∀ q, q ≠ p → s1.client? q = s.client? q) ∧
      s1.conf = s.conf ∧ s1.screen = s.screen ∧ s1.monlist = s.monlist ∧
      s1.wslist = s.wslist ∧ s1.curws = s.curws := by
  obtain ⟨x, y, e⟩ := movelimGeom_keeps s.conf.borderwidth (monrect s.screen mon) c
  have hp : (movelimGeom s.conf.borderwidth (monrect s.screen mon) c).ptr = p := by
    rw [e]; exact client?_ptr (c := c) hc
  refine ⟨(s.setClient (movelimGeom s.conf.borderwidth (monrect s.screen mon) c)).send
    (movewindow s.screen (movelimGeom s.conf.borderwidth (monrect s.screen mon) c).id
      (movelimGeom s.conf.borderwidth (monrect s.screen mon) c).x
      (movelimGeom s.conf.borderwidth (monrect s.screen mon) c).y),
    ?_, setClient_client? s p c _ hc hp, ?_, rfl, rfl, rfl, rfl, rfl⟩
  · unfold movelim
    simp only [hc, hmon, Option.bind_eq_bind, Option.some_bind, Option.pure_def]
  · intro q hq
    exact setClient_others s _ q (by rw [hp]; exact hq)

theorem movestepSwitch_spec (MOVE_STEP : Int) (direction : Char) (c : Client) :
    ∃ x1 y1, movestepSwitch MOVE_STEP direction c = { c with x := x1, y := y1 } ∧
      ∀ x y,
        ((direction = 'h' ∧ x = c.x - MOVE_STEP ∧ y = c.y) ∨
          (direction = 'j' ∧ x = c.x ∧ y = c.y + MOVE_STEP) ∨
          (direction = 'k' ∧ x = c.x ∧ y = c.y - MOVE_STEP) ∨
          (direction = 'l' ∧ x = c.x + MOVE_STEP ∧ y = c.y)) →
        isInt16 x → isInt16 y → x1 = x ∧ y1 = y := by
  unfold movestepSwitch
  split_ifs with h1 h2 h3 h4
  · refine ⟨_, _, rfl, ?_⟩
    intro x y hd hx _
    subst h1
    rcases hd with ⟨-, rfl, rfl⟩ | ⟨hh, -⟩ | ⟨hh, -⟩ | ⟨hh, -⟩
    · exact ⟨toInt16_of_isInt16 hx, rfl⟩
    all_goals exact absurd hh (by decide)
  · refine ⟨_, _, rfl, ?_⟩
    intro x y hd _ hy
    subst h2
    rcases hd with ⟨hh, -⟩ | ⟨-, rfl, rfl⟩ | ⟨hh, -⟩ | ⟨hh, -⟩
    · exact absurd hh (by decide)
    · exact ⟨rfl, toInt16_of_isInt16 hy⟩
    all_goals exact absurd hh (by decide)
  · refine ⟨_, _, rfl, ?_⟩
    intro x y hd _ hy
    subst h3
    rcases hd with ⟨hh, -⟩ | ⟨hh, -⟩ | ⟨-, rfl, rfl⟩ | ⟨hh, -⟩
    · exact absurd hh (by decide)
    · exact absurd hh (by decide)
    · exact ⟨rfl, toInt16_of_isInt16 hy⟩
    · exact absurd hh (by decide)
  · refine ⟨_, _, rfl, ?_⟩
    intro x y hd hx _
    subst h4
    rcases hd with ⟨hh, -⟩ | ⟨hh, -⟩ | ⟨hh, -⟩ | ⟨-, rfl, rfl⟩
    · exact absurd hh (by decide)
    · exact absurd hh (by decide)
    · exact absurd hh (by decide)
    · exact ⟨toInt16_of_isInt16 hx, rfl⟩
  · refine ⟨_, _, rfl, ?_⟩
    intro x y hd _ _
    rcases hd with ⟨hh, -⟩ | ⟨hh, -⟩ | ⟨hh, -⟩ | ⟨hh, -⟩
    · exact absurd hh h1
    · exact absurd hh h2
    · exact absurd hh h3
    · exact absurd hh h4

theorem movestepWarp_spec (s : State) (p : Nat) (c : Client) (start_x start_y : Int)
    (hc : s.client? p = some c) :
    ∃ s1, movestepWarp s p start_x start_y = some s1 ∧ ∀ q, s1.client? q = s.client? q := by
  unfold movestepWarp
  simp only [hc, Option.bind_eq_bind, Option.some_bind, Option.pure_def]
  split
  · exact ⟨_, rfl, fun _ => rfl⟩
  · exact ⟨_, rfl, fun _ => rfl⟩

/-- C17 (as amended): `movestep` returns a fully maximized client, and the state
with it, unchanged, and changes nothing either when the pointer query fails.
Otherwise, for a live client, it returns, never changes width or height and
changes nothing of any other client; the client ends at the position that
`movelim` makes of the stepped position, which is the position of the client
moved along the axis named by the direction by the fixed step `MOVE_STEP` (`h`:
x - MOVE_STEP, `l`: x + MOVE_STEP, `j`: y + MOVE_STEP, `k`: y - MOVE_STEP),
whatever the size increments of the client are, provided that position is in
the range of `int16_t`; where `movelim` has nothing to limit, the client ends
exactly at the stepped position. -/
theorem movestep_steps (MOVE_STEP : Int) (s : State) (p : Nat) (c : Client)
    (mon : Option Monitor) (direction : Char) (x y : Int)
    (hc : s.client? p = some c) (hmon : s.resolveMonitor c.monitor = some mon)
    (hd : (direction = 'h' ∧ x = c.x - MOVE_STEP ∧ y = c.y) ∨
      (direction = 'j' ∧ x = c.x ∧ y = c.y + MOVE_STEP) ∨
      (direction = 'k' ∧ x = c.x ∧ y = c.y - MOVE_STEP) ∨
      (direction = 'l' ∧ x = c.x + MOVE_STEP ∧ y = c.y)) :
    (∀ pointer, c.maxed = true → movestep MOVE_STEP s (some p) direction pointer = some s) ∧
    movestep MOVE_STEP s (some p) direction none = some s ∧
    (c.maxed = false → ∀ start_x start_y,
      ∃ s1 c1, movestep MOVE_STEP s (some p) direction (some (start_x, start_y)) = some s1 ∧
        s1.client? p = some c1 ∧ c1.width = c.width ∧ c1.height = c.height ∧
        (∀ q, q ≠ p → s1.client? q = s.client? q) ∧
        (isInt16 x → isInt16 y →
          c1 = movelimGeom s.conf.borderwidth (monrect s.screen mon) { c with x := x, y := y } ∧
          (¬ x < (monrect s.screen mon).x → ¬ y < (monrect s.screen mon).y →
            ¬ (x + c.width > (monrect s.screen mon).x + (monrect s.screen mon).width
              - s.conf.borderwidth * 2) →
            ¬ (y + c.height > (monrect s.screen mon).y + (monrect s.screen mon).height
              - s.conf.borderwidth * 2) →
            c1.x = x ∧ c1.y = y))) := by
  refine ⟨?_, ?_, ?_⟩
  · intro pointer hmax
    unfold movestep
    simp only [hc, hmax, Option.bind_eq_bind, Option.some_bind, if_true, Option.pure_def]
  · unfold movestep
    simp only [hc, Option.bind_eq_bind, Option.some_bind, Option.pure_def, ite_self]
  · intro hmax start_x start_y
    obtain ⟨hconf, hscreen, hmonl, hcl⟩ := raisewindow_env s c.id
    obtain ⟨x1, y1, esw, hsw⟩ := movestepSwitch_spec MOVE_STEP direction c
    have hp : ({ c with x := x1, y := y1 } : Client).ptr = p := client?_ptr (c := c) hc
    have hc1 := setClient_client? (raisewindow s c.id) p c { c with x := x1, y := y1 }
      (by rw [hcl]; exact hc) hp
    have hmon1 : ((raisewindow s c.id).setClient { c with x := x1, y := y1
        }).resolveMonitor ({ c with x := x1, y := y1 } : Client).monitor = some mon := by
      rw [resolveMonitor_congr s _ (show ((raisewindow s c.id).setClient
        { c with x := x1, y := y1 }).monlist = s.monlist from hmonl)]
      exact hmon
    obtain ⟨s2, hs2, hc2, ho2, -⟩ := movelim_spec _ p _ mon hc1 hmon1
    obtain ⟨s3, hs3, ho3⟩ := movestepWarp_spec s2 p _ start_x start_y hc2
    have hgeom : movelimGeom
        ((raisewindow s c.id).setClient { c with x := x1, y := y1 }).conf.borderwidth
        (monrect ((raisewindow s c.id).setClient { c with x := x1, y := y1 }).screen
          mon) { c with x := x1, y := y1 } =
        movelimGeom s.conf.borderwidth (monrect s.screen mon) { c with x := x1, y := y1 } := by
      show movelimGeom (raisewindow s c.id).conf.borderwidth
        (monrect (raisewindow s c.id).screen mon) _ = _
      rw [hconf, hscreen]
    rw [hgeom] at hc2
    obtain ⟨x2, y2, ek⟩ := movelimGeom_keeps s.conf.borderwidth (monrect s.screen mon)
      { c with x := x1, y := y1 }
    refine ⟨s3, _, ?_, (ho3 p).trans hc2, by rw [ek], by rw [ek], ?_, ?_⟩
    · unfold movestep
      simp only [hc, Option.bind_eq_bind, Option.some_bind]
      rw [if_neg (by rw [hmax]; decide)]
      simp only [esw, hs2, hs3, Option.bind_eq_bind, Option.some_bind]
    · intro q hq
      rw [ho3 q, ho2 q hq, setClient_others _ _ q (by rw [hp]; exact hq), hcl]
    · intro hx hy
      obtain ⟨rfl, rfl⟩ := hsw x y hd hx hy
      refine ⟨rfl, ?_⟩
      intro h1 h2 h3 h4
      rw [movelimGeom_id _ _ { c with x := x1, y := y1 } h1 h2 h3 h4]
      exact ⟨rfl, rfl⟩

set_option maxRecDepth 2000 in
theorem movestep_steps_witness :
    (∀ pointer, (((exInc 1920 10 0).client? 1).get (by decide)).maxed = true →
      movestep 32 (exInc 1920 10 0) (some 1) 'l' pointer = some (exInc 1920 10 0)) ∧
    movestep 32 (exInc 1920 10 0) (some 1) 'l' none = some (exInc 1920 10 0) ∧
    ((((exInc 1920 10 0).client? 1).get (by decide)).maxed = false → ∀ start_x start_y,
      ∃ s1 c1, movestep 32 (exInc 1920 10 0) (some 1) 'l' (some (start_x, start_y)) = some s1 ∧
        s1.client? 1 = some c1 ∧
        c1.width = (((exInc 1920 10 0).client? 1).get (by decide)).width ∧
        c1.height = (((exInc 1920 10 0).client? 1).get (by decide)).height ∧
        (∀ q, q ≠ 1 → s1.client? q = (exInc 1920 10 0).client? q) ∧
        (isInt16 32 → isInt16 0 →
          c1 = movelimGeom (exInc 1920 10 0).conf.borderwidth
            (monrect (exInc 1920 10 0).screen none)
            { ((exInc 1920 10 0).client? 1).get (by decide) with x := 32, y := 0 } ∧
          (¬ 32 < (monrect (exInc 1920 10 0).screen none).x →
            ¬ 0 < (monrect (exInc 1920 10 0).screen none).y →
            ¬ (32 + (((exInc 1920 10 0).client? 1).get (by decide)).width
              > (monrect (exInc 1920 10 0).screen none).x
                + (monrect (exInc 1920 10 0).screen none).width
                - (exInc 1920 10 0).conf.borderwidth * 2) →
            ¬ (0 + (((exInc 1920 10 0).client? 1).get (by decide)).height
              > (monrect (exInc 1920 10 0).screen none).y
                + (monrect (exInc 1920 10 0).screen none).height
                - (exInc 1920 10 0).conf.borderwidth * 2) →
            c1.x = 32 ∧ c1.y = 0))) :=
  movestep_steps 32 (exInc 1920 10 0) 1 (((exInc 1920 10 0).client? 1).get (by decide)) none 'l'
    32 0 (Option.some_get _).symm (by decide) (by decide)

set_option maxRecDepth 2000 in
/-- C17 (counterexamples).  Window 7 (100 x 100 at the origin, root 1920 x 1080,
border width 1) declares the size increments 10 and 10; with `MOVE_STEP` 32,
`movestep` in direction `l` moves it to x = 32, not to x = 10, and in direction
`j` to y = 32; when the pointer query fails it is not moved at all.  On a root
40000 wide, a window at x = 32760 stepped in direction `l` would come to
32792, which the `int16_t` field holds as -32744, and `movelim` puts the
window at x = 0. -/
theorem movestep_steps_counterexample :
    ((exInc 1920 10 0).client? 1).map (fun c => (c.width_inc, c.height_inc))
      = some (10, 10) ∧
    geometry (exInc 1920 10 0) 1 = some ⟨0, 0, 100, 100⟩ ∧
    (movestep 32 (exInc 1920 10 0) (some 1) 'l' (some (5, 5))).bind (fun s => geometry s 1)
      = some ⟨32, 0, 100, 100⟩ ∧
    (movestep 32 (exInc 1920 10 0) (some 1) 'j' (some (5, 5))).bind (fun s => geometry s 1)
      = some ⟨0, 32, 100, 100⟩ ∧
    (movestep 32 (exInc 1920 10 0) (some 1) 'l' none).bind (fun s => geometry s 1)
      = some ⟨0, 0, 100, 100⟩ ∧
    geometry (exPair (exConf 1) (exScreen 40000 1080) ⟨32760, 200, 100, 100⟩
      ⟨0, 0, 100, 100⟩) 1 = some ⟨32760, 200, 100, 100⟩ ∧
    (movestep 32 (exPair (exConf 1) (exScreen 40000 1080) ⟨32760, 200, 100, 100⟩
        ⟨0, 0, 100, 100⟩) (some 1) 'l' (some (5, 5))).bind (fun s => geometry s 1)
      = some ⟨0, 200, 100, 100⟩ := by
  decide

/-! ## Focus on entering a window -/

/-- C18 (as amended): an enter-notify event whose crossing mode is neither normal
nor ungrab leaves the state unchanged, whatever the interaction mode is, and so
does a normal one for a window that is not in the registry.  A normal or ungrab
enter-notify for a registered window other than the root and other than the
focused one gives the focus to that window in every interaction mode, idle,
moving, resizing or tabbing alike; the interaction mode stays what it is, and
in tabbing mode the workspace lists and the last focused window are left
alone. -/
theorem enterNotify_focus (s : State) (event : Nat) :
    enterNotify s false event = some s ∧
    ((∀ f, s.focuswin = some f → (s.client? f).isSome) → findclient s event = none →
      enterNotify s true event = some s) ∧
    (∀ client, findclient s event = some client → s.client? client.ptr = some client →
      client.id ≠ s.screen.root →
      (∀ f, s.focuswin = some f → ∃ fc, s.client? f = some fc ∧ fc.id ≠ event) →
      ∃ s1, enterNotify s true event = some s1 ∧ s1.focuswin = some client.ptr ∧
        s1.mode = s.mode ∧ s1.winlist = s.winlist ∧
        (s.mode = MCWM_TABBING → s1.wslist = s.wslist ∧ s1.lastfocuswin = s.lastfocuswin)) := by
  refine ⟨rfl, ?_, ?_⟩
  · intro hlive hnone
    unfold enterNotify
    cases hf : s.focuswin with
    | none => simp [hnone]
    | some f =>
      obtain ⟨fc, hfc⟩ := Option.isSome_iff_exists.mp (hlive f hf)
      simp [hfc, hnone]
  · intro client hfind hcl hroot hfocus
    have key : ∀ t : State, t.winlist = s.winlist → t.focuswin = s.focuswin →
        t.mode = s.mode → t.screen = s.screen →
        (s.mode = MCWM_TABBING → t.wslist = s.wslist ∧ t.lastfocuswin = s.lastfocuswin) →
        ∃ s1, setfocus t (some client.ptr) = some s1 ∧ s1.focuswin = some client.ptr ∧
          s1.mode = s.mode ∧ s1.winlist = s.winlist ∧
          (s.mode = MCWM_TABBING → s1.wslist = s.wslist ∧ s1.lastfocuswin = s.lastfocuswin) := by
      intro t hw hfw hmode hscr htab
      have hcl1 : ∀ q, t.client? q = s.client? q := by
        intro q; unfold State.client?; rw [hw]
      obtain ⟨s1, h1, h2, h3, -, h4, h6, h5⟩ := setfocus_spec t client.ptr client
        (by rw [hcl1]; exact hcl) (by rw [hscr]; exact hroot)
        (by
          intro f hf
          rw [hfw] at hf
          obtain ⟨fc, hfc, -⟩ := hfocus f hf
          rw [hcl1, hfc]; rfl)
      refine ⟨s1, h1, h2, h4.trans hmode, h5.trans hw, fun h => ?_⟩
      obtain ⟨e1, e2⟩ := htab h
      exact ⟨h3.trans e1, h6.trans e2⟩
    unfold enterNotify
    cases hf : s.focuswin with
    | none =>
      by_cases hm : MCWM_TABBING ≠ s.mode
      · simp only [hfind, if_pos hm, true_or, ↓reduceIte, Option.bind_eq_bind,
          Option.some_bind, Option.pure_def]
        exact key _ rfl rfl rfl rfl (fun h => absurd h.symm hm)
      · simp only [hfind, if_neg hm, true_or, ↓reduceIte, Option.bind_eq_bind,
          Option.some_bind, Option.pure_def]
        exact key _ rfl rfl rfl rfl (fun _ => ⟨rfl, rfl⟩)
    | some f =>
      obtain ⟨fc, hfc, hne⟩ := hfocus f hf
      have hcond : (some (fc.id) : Option Nat) = none ∨ some event ≠ some fc.id :=
        Or.inr (fun h => hne (Option.some.inj h).symm)
      by_cases hm : MCWM_TABBING ≠ s.mode
      · simp only [hfind, hfc, Option.map_some', if_pos hm, if_pos hcond, ↓reduceIte,
          Option.bind_eq_bind, Option.some_bind, Option.pure_def]
        exact key _ rfl hf.symm rfl rfl (fun h => absurd h.symm hm)
      · simp only [hfind, hfc, Option.map_some', if_neg hm, if_pos hcond, ↓reduceIte,
          Option.bind_eq_bind, Option.some_bind, Option.pure_def]
        exact key _ rfl rfl rfl rfl (fun _ => ⟨rfl, rfl⟩)

set_option maxRecDepth 2000 in
theorem enterNotify_focus_witness :
    ∃ s1, enterNotify exTabbing true 9 = some s1 ∧
      s1.focuswin = some ((findclient exTabbing 9).get (by decide)).ptr ∧
      s1.mode = exTabbing.mode ∧ s1.winlist = exTabbing.winlist ∧
      (exTabbing.mode = MCWM_TABBING →
        s1.wslist = exTabbing.wslist ∧ s1.lastfocuswin = exTabbing.lastfocuswin) :=
  (enterNotify_focus exTabbing 9).2.2 ((findclient exTabbing 9).get (by decide))
    (Option.some_get _).symm rfl (by decide)
    (by
      intro f hf
      have h3 : f = 3 := Option.some.inj (hf.symm.trans (by decide))
      subst h3
      exact ⟨(exTabbing.client? 3).get (by decide), (Option.some_get _).symm, by decide⟩)

set_option maxRecDepth 2000 in
/-- C18 (counterexample): after map requests of the windows 7, 8 and 9, the
pointer entering window 7 and one press of the tab key, the mode is tabbing and
the focus is on window 8 (the client at address 3); a normal enter-notify
event for window 9 then moves the focus to window 9 (the client at address 5)
while the mode stays tabbing.  Likewise with the mode set to moving or
resizing in the state before the tab key: the focus goes from window 7 to
window 8. -/
theorem enterNotify_focus_counterexample :
    exTabbing.mode = MCWM_TABBING ∧ exTabbing.focuswin = some 3 ∧
    (findclient exTabbing 9).map (fun c => c.ptr) = some 5 ∧
    (enterNotify exTabbing true 9).map (fun s => (s.focuswin, s.mode))
      = some (some 5, MCWM_TABBING) ∧
    exThree.focuswin = some 1 ∧
    (enterNotify { exThree with mode := MCWM_MOVE } true 8).map (fun s => (s.focuswin, s.mode))
      = some (some 3, MCWM_MOVE) ∧
    (enterNotify { exThree with mode := MCWM_RESIZE } true 8).map
      (fun s => (s.focuswin, s.mode)) = some (some 3, MCWM_RESIZE) := by
  decide

/-! ## Configure requests -/

/-- C19 (the code at the failing input): window 9 is not in the registry.  A
configure request for x = 5 and border width 3 (value mask 1 + 16) is passed
on with the value mask 17, the bit of the border width still set, and the one
value 5; a request with all seven bits set (mask 127) is passed on with mask
127 and the six values x, y, width, height, sibling and stack mode, so that
the value list is one short of the bits of the mask and the sibling stands
where the protocol expects the border width.  Without the bit of the border
width the mask and the values are passed on as they are, and a request for the
border width alone sends nothing. -/
theorem configurerequest_keeps_border_bit :
    (findclient exInit 9).isNone = true ∧
    (configurerequest exInit ⟨9, 17, 5, 6, 100, 100, 3, 8, 1⟩).map (fun s => s.out)
      = some [Request.configureWindow 9 17 [5], Request.flush] ∧
    (configurerequest exInit ⟨9, 127, 5, 6, 100, 100, 3, 8, 1⟩).map (fun s => s.out)
      = some [Request.configureWindow 9 127 [5, 6, 100, 100, 8, 1], Request.flush] ∧
    (configurerequest exInit ⟨9, 111, 5, 6, 100, 100, 3, 8, 1⟩).map (fun s => s.out)
      = some [Request.configureWindow 9 111 [5, 6, 100, 100, 8, 1], Request.flush] ∧
    (configurerequest exInit ⟨9, 16, 5, 6, 100, 100, 3, 8, 1⟩).map (fun s => s.out)
      = some [] ∧
    (configurerequest exInit ⟨9, 17, 5, 6, 100, 100, 3, 8, 1⟩).map
      (fun s => (s.winlist.length, s.curws, s.focuswin)) = some (0, 0, none) := by
  decide

set_option maxRecDepth 2000 in
/-- C20 (the code at the failing input): window 7 is registered, not maximized,
at (0, 0) with size 100 x 100 on a root of 1920 x 1080 with border width 1.
A configure request for the width 40000 leaves the client at x = 27454 with
width 40000, far outside the root, and sends this geometry: the position
1920 - 40002 = -38082 that the code computes does not fit into the `int16_t`
field and arrives there as 27454, so the test `client->x < mon_x` that should
bring the window back does not hold.  A request for the width 3000 is fitted as
the comments of the code say (x = 0, width 1918), and one for the width 500 is
granted. -/
theorem configurerequest_wide_request_escapes :
    geometry exOne 1 = some ⟨0, 0, 100, 100⟩ ∧
    (exOne.client? 1).map (fun c => (c.id, c.monitor)) = some (7, none) ∧
    (exOne.client? 1).map (fun c => (c.maxed, c.vertmaxed)) = some (false, false) ∧
    (configurerequest exOne ⟨7, 4, 0, 0, 40000, 0, 0, 0, 0⟩).bind (fun s => geometry s 1)
      = some ⟨27454, 0, 40000, 100⟩ ∧
    (configurerequest exOne ⟨7, 4, 0, 0, 40000, 0, 0, 0, 0⟩).map
        (fun s => s.out.drop exOne.out.length)
      = some [Request.configureWindow 7 15 [27454, 0, 40000, 100], Request.flush] ∧
    (configurerequest exOne ⟨7, 4, 0, 0, 3000, 0, 0, 0, 0⟩).bind (fun s => geometry s 1)
      = some ⟨0, 0, 1918, 100⟩ ∧
    (configurerequest exOne ⟨7, 4, 0, 0, 500, 0, 0, 0, 0⟩).bind (fun s => geometry s 1)
      = some ⟨0, 0, 500, 100⟩ := by
  decide

/-! ## The registry: map requests, forgetting, unknown windows -/

theorem replace_append (l : List Client) (c c1 : Client) (p : Nat)
    (hl : ∀ d ∈ l, d.ptr ≠ p) (hp : c.ptr = p) :
    (l ++ [c]).map (fun d => if d.ptr = p then c1 else d) = l ++ [c1] := by
  rw [List.map_append]
  congr 1
  · conv_rhs => rw [← List.map_id l]
    apply List.map_congr_left
    intro d hd
    simp [hl d hd]
  · simp [hp]

theorem client?_last (s : State) (l : List Client) (c : Client) (p : Nat)
    (hw : s.winlist = l ++ [c]) (hl : ∀ d ∈ l, d.ptr ≠ p) (hp : c.ptr = p) :
    s.client? p = some c := by
  unfold State.client?
  rw [hw, List.find?_append]
  have : l.find? (fun c => decide (c.ptr = p)) = none := by
    rw [List.find?_eq_none]
    intro d hd
    simpa using hl d hd
  rw [this]
  simp [hp]

theorem setClient_last (s : State) (l : List Client) (c c1 : Client) (p : Nat)
    (hw : s.winlist = l ++ [c]) (hl : ∀ d ∈ l, d.ptr ≠ p) (hp : c.ptr = p)
    (hp1 : c1.ptr = p) : (s.setClient c1).winlist = l ++ [c1] := by
  unfold State.setClient
  simp only [hw, hp1]
  exact replace_append l c c1 p hl hp

/-- The statement of `newwin` that puts the window where the pointer is keeps
the registry but for the position of the last client. -/
theorem newwinPointer_last (s : State) (l : List Client) (c : Client) (p : Nat)
    (reply : WinReply) (hw : s.winlist = l ++ [c]) (hl : ∀ d ∈ l, d.ptr ≠ p)
    (hp : c.ptr = p) :
    ∃ s1 c1, newwinPointer s p reply = some s1 ∧ s1.winlist = l ++ [c1] ∧ c1.ptr = p ∧
      c1.id = c.id ∧ c1.monitor = c.monitor ∧ s1.monlist = s.monlist ∧
      s1.nextptr = s.nextptr ∧ s1.wslist = s.wslist ∧ s.sameEnv s1 := by
  have h0 := client?_last s l c p hw hl hp
  unfold newwinPointer
  simp only [h0, Option.bind_eq_bind, Option.some_bind, Option.pure_def]
  by_cases hu : (!c.usercoord) = true
  · rw [if_pos hu]
    refine ⟨_, { c with x := (reply.pointer.getD (0, 0)).1, y := (reply.pointer.getD (0, 0)).2 },
      rfl, ?_, hp, rfl, rfl, rfl, rfl, rfl, ?_⟩
    · exact setClient_last s l c _ p hw hl hp hp
    · exact ⟨rfl, rfl, rfl, rfl, rfl, rfl, rfl, rfl, rfl⟩
  · rw [if_neg hu]
    exact ⟨s, c, rfl, hw, hp, rfl, rfl, rfl, rfl, rfl, sameEnv_refl s⟩

/-- The statement of `newwin` that chooses the monitor keeps the registry but
for the monitor of the last client, which is `NULL` or in the list. -/
theorem newwinMonitor_last (s : State) (l : List Client) (c : Client) (p : Nat)
    (hw : s.winlist = l ++ [c]) (hl : ∀ d ∈ l, d.ptr ≠ p) (hp : c.ptr = p)
    (hmon : c.monitor = none) :
    ∃ s1 c1 r, newwinMonitor s p = some s1 ∧ s1.winlist = l ++ [c1] ∧ c1.ptr = p ∧
      c1.id = c.id ∧ s1.resolveMonitor c1.monitor = some r ∧
      s1.nextptr = s.nextptr ∧ s1.wslist = s.wslist ∧ s.sameEnv s1 := by
  have h0 := client?_last s l c p hw hl hp
  have henv : ∀ c1 : Client, s.sameEnv (s.setClient c1) :=
    fun _ => ⟨rfl, rfl, rfl, rfl, rfl, rfl, rfl, rfl, rfl⟩
  have hres : ∀ (c1 : Client) (m : Monitor), m ∈ s.monlist →
      ∃ r, (s.setClient c1).resolveMonitor (some m.ptr) = some r := by
    intro c1 m hm
    have : (s.monlist.find? (fun k => k.ptr = m.ptr)).isSome := by
      rw [List.find?_isSome]
      exact ⟨m, hm, by simp⟩
    obtain ⟨k, hk⟩ := Option.isSome_iff_exists.mp this
    refine ⟨some k, ?_⟩
    show ((s.setClient c1).monitor? m.ptr).map some = _
    unfold State.monitor?
    show (s.monlist.find? _).map some = _
    rw [hk]
    rfl
  unfold newwinMonitor
  simp only [h0, Option.bind_eq_bind, Option.some_bind, Option.pure_def]
  by_cases hr : -1 ≠ s.randrbase
  · rw [if_pos hr]
    cases hf : findmonbycoord s c.x c.y with
    | some mon =>
      have hm : mon ∈ s.monlist := List.mem_of_find?_eq_some hf
      obtain ⟨r, hr1⟩ := hres { c with monitor := some mon.ptr } mon hm
      exact ⟨_, { c with monitor := some mon.ptr }, r, rfl,
        setClient_last s l c _ p hw hl hp hp, hp, rfl, hr1, rfl, rfl, henv _⟩
    | none =>
      cases hml : s.monlist with
      | nil =>
        exact ⟨_, { c with monitor := none }, none, rfl,
          setClient_last s l c _ p hw hl hp hp, hp, rfl, rfl, rfl, rfl, henv _⟩
      | cons first rest =>
        obtain ⟨r, hr1⟩ := hres { c with monitor := some first.ptr } first
          (by rw [hml]; exact List.mem_cons_self _ _)
        exact ⟨_, { c with monitor := some first.ptr }, r, rfl,
          setClient_last s l c _ p hw hl hp hp, hp, rfl, hr1, rfl, rfl, henv _⟩
  · rw [if_neg hr]
    refine ⟨s, c, none, rfl, hw, hp, rfl, ?_, rfl, rfl, sameEnv_refl s⟩
    rw [hmon]
    rfl

theorem fitonscreenAt_last (s : State) (l : List Client) (c : Client) (p : Nat)
    (r : Option Monitor) (hw : s.winlist = l ++ [c]) (hl : ∀ d ∈ l, d.ptr ≠ p)
    (hp : c.ptr = p) (hres : s.resolveMonitor c.monitor = some r) :
    ∃ s1 c1, fitonscreenAt s p = some s1 ∧ s1.winlist = l ++ [c1] ∧ c1.ptr = p ∧
      c1.id = c.id ∧ s1.nextptr = s.nextptr ∧ s1.wslist = s.wslist ∧ s.sameEnv s1 := by
  have h0 := client?_last s l c p hw hl hp
  obtain ⟨k1, -, k3, -⟩ := fitonscreen_keeps s.conf s.screen r c
  refine ⟨(s.setClient (fitonscreen s.conf s.screen r c).1).send
      (fitonscreen s.conf s.screen r c).2, (fitonscreen s.conf s.screen r c).1, ?_, ?_,
    k1.trans hp, k3, rfl, rfl, ⟨rfl, rfl, rfl, rfl, rfl, rfl, rfl, rfl, rfl⟩⟩
  · unfold fitonscreenAt
    simp only [h0, hres, Option.bind_eq_bind, Option.some_bind, Option.pure_def]
  · exact setClient_last s l c _ p hw hl hp (k1.trans hp)

/-- The statements of `newwin` after `addtoworkspace` return and keep the
registry but for the record of the new client, which is the last one. -/
theorem newwinPlace_last (s : State) (l : List Client) (c : Client) (p win : Nat)
    (reply : WinReply) (hw : s.winlist = l ++ [c]) (hl : ∀ d ∈ l, d.ptr ≠ p)
    (hp : c.ptr = p) (hmon : c.monitor = none) :
    ∃ s1 c1, newwinPlace s p win reply = some s1 ∧ s1.winlist = l ++ [c1] ∧ c1.ptr = p ∧
      c1.id = c.id ∧ s1.nextptr = s.nextptr ∧ s1.wslist = s.wslist ∧ s.sameEnv s1 := by
  obtain ⟨s1, c1, h1, w1, p1, i1, m1, -, n1, l1, e1⟩ := newwinPointer_last s l c p reply hw hl hp
  obtain ⟨s2, c2, r, h2, w2, p2, i2, res2, n2, l2, e2⟩ :=
    newwinMonitor_last s1 l c1 p w1 hl p1 (m1.trans hmon)
  obtain ⟨s3, c3, h3, w3, p3, i3, n3, l3, e3⟩ := fitonscreenAt_last s2 l c2 p r w2 hl p2 res2
  have h4 := client?_last s3 l c3 p w3 hl p3
  refine ⟨s3.send [Request.mapWindow c3.id, Request.wmStateNormal c3.id,
    Request.warpPointer win (c3.width / 2) (c3.height / 2), Request.flush], c3, ?_, w3, p3,
    i3.trans (i2.trans i1), n3.trans (n2.trans n1), l3.trans (l2.trans l1),
    sameEnv_trans e1 (sameEnv_trans e2 (sameEnv_trans e3
      ⟨rfl, rfl, rfl, rfl, rfl, rfl, rfl, rfl, rfl⟩))⟩
  unfold newwinPlace
  simp only [h1, h2, h3, h4, Option.bind_eq_bind, Option.some_bind, Option.pure_def]

theorem newwin_eq (s : State) (win : Nat) (reply : WinReply) (h : findclient s win = none) :
    newwin s win reply =
      (addtoworkspace (setupwin s win reply.geom reply.hints).1
        (setupwin s win reply.geom reply.hints).2
        (setupwin s win reply.geom reply.hints).1.curws).bind
        (fun t => newwinPlace t (setupwin s win reply.geom reply.hints).2 win reply) := by
  unfold newwin newwinPlace newwinPointer newwinMonitor
  simp only [h, Option.bind_eq_bind, Option.pure_def, Option.bind_assoc, Option.some_bind]

/-- A map request for a window that no client of the registry has: `newwin`
returns, and the registry is the old one with one new client, for that
window, at its end. -/
theorem newwin_new (s : State) (win : Nat) (reply : WinReply)
    (hnew : findclient s win = none) (hfresh : ∀ d ∈ s.winlist, d.ptr ≠ s.nextptr) :
    ∃ s1 c, newwin s win reply = some s1 ∧ s1.winlist = s.winlist ++ [c] ∧
      c.ptr = s.nextptr ∧ c.id = win ∧ s1.nextptr = s.nextptr + 2 := by
  have hk : (initClient s.screen s.nextptr win).sameLinks
      (hintBaseSize reply.hints (hintResizeInc reply.hints (hintMaxSize reply.hints
        (hintMinSize reply.hints (hintUserPosition reply.hints
          (storeGeom reply.geom (initClient s.screen s.nextptr win))))))) :=
    sameLinks_trans (storeGeom_keeps _ _) (sameLinks_trans (hintUserPosition_keeps _ _)
      (sameLinks_trans (hintMinSize_keeps _ _) (sameLinks_trans (hintMaxSize_keeps _ _)
        (sameLinks_trans (hintResizeInc_keeps _ _) (hintBaseSize_keeps _ _)))))
  obtain ⟨k1, k2, -, k4, -⟩ := hk
  obtain ⟨c0, hw0, q1, q2, q4⟩ : ∃ c0, (setupwin s win reply.geom reply.hints).1.winlist
      = s.winlist ++ [c0] ∧ c0.ptr = s.nextptr ∧ c0.id = win ∧ c0.monitor = none :=
    ⟨_, rfl, k1, k2, k4⟩
  have h0 := client?_last _ s.winlist c0 s.nextptr hw0 hfresh q1
  obtain ⟨sb, hsb, -, hwb, hnb, -⟩ :=
    addtoworkspace_spec (setupwin s win reply.geom reply.hints).1.curws h0
  rw [hw0, replace_append s.winlist c0 _ s.nextptr hfresh q1] at hwb
  obtain ⟨s1, c1, h1, w1, p1, i1, n1, -⟩ := newwinPlace_last sb s.winlist _ s.nextptr win reply
    hwb hfresh q1 q4
  refine ⟨s1, c1, ?_, w1, p1, i1.trans q2, ?_⟩
  · rw [newwin_eq s win reply hnew]
    show (addtoworkspace _ s.nextptr _).bind (fun t => newwinPlace t s.nextptr win reply) = _
    rw [hsb, Option.some_bind]
    exact h1
  · rw [n1, hnb]
    rfl

/-- Map requests one after the other: each returns, no two clients of the
registry get the same window, and the addresses of the clients stay below the
next free address. -/
theorem run_mapRequests (reqs : List (Nat × WinReply)) :
    ∀ s : State, (s.winlist.map Client.id).Nodup → (∀ d ∈ s.winlist, d.ptr < s.nextptr) →
      ∃ s1, run s (reqs.map (fun r => Event.mapRequest r.1 r.2)) = some s1 ∧
        (s1.winlist.map Client.id).Nodup ∧ (∀ d ∈ s1.winlist, d.ptr < s1.nextptr) := by
  induction reqs with
  | nil => intro s hnd hf; exact ⟨s, rfl, hnd, hf⟩
  | cons r rest ih =>
    intro s hnd hf
    rw [List.map_cons]
    unfold run
    show ∃ s1, (newwin s r.1 r.2).bind _ = some s1 ∧ _
    cases hfind : findclient s r.1 with
    | some c =>
      have : newwin s r.1 r.2 = some s := by unfold newwin; rw [hfind]
      rw [this, Option.some_bind]
      exact ih s hnd hf
    | none =>
      obtain ⟨s1, c, h1, w1, p1, i1, n1⟩ := newwin_new s r.1 r.2 hfind
        (fun d hd => Nat.ne_of_lt (hf d hd))
      rw [h1, Option.some_bind]
      apply ih s1
      · rw [w1, List.map_append, List.map_singleton, i1]
        rw [List.nodup_append]
        refine ⟨hnd, List.nodup_singleton _, ?_⟩
        intro a ha hb
        rw [List.mem_singleton] at hb
        subst hb
        obtain ⟨d, hd, hid⟩ := List.mem_map.mp ha
        unfold findclient at hfind
        rw [List.find?_eq_none] at hfind
        exact hfind d hd (by simpa using hid)
      · intro d hd
        rw [w1, List.mem_append, List.mem_singleton] at hd
        rw [n1]
        rcases hd with hd | hd
        · have := hf d hd
          omega
        · rw [hd, p1]
          omega

/-- C21: registration is idempotent.  A map request for a window that a client
of the registry has already returns the state as it was: registry, workspace
lists, every record, focus and mode are the same and no request is sent.  And
in a state in which no two clients have the same window (and the addresses of
the clients are below the next free address), every sequence of map requests
returns, and no two clients of the registry have the same window
afterwards. -/
theorem newwin_idempotent (s : State) (hnd : (s.winlist.map Client.id).Nodup)
    (hfresh : ∀ d ∈ s.winlist, d.ptr < s.nextptr) :
    (∀ (win : Nat) (reply : WinReply), (findclient s win).isSome →
      newwin s win reply = some s) ∧
    (∀ reqs : List (Nat × WinReply),
      ∃ s1, run s (reqs.map (fun r => Event.mapRequest r.1 r.2)) = some s1 ∧
        (s1.winlist.map Client.id).Nodup) := by
  constructor
  · intro win reply h
    obtain ⟨c, hc⟩ := Option.isSome_iff_exists.mp h
    unfold newwin
    rw [hc]
  · intro reqs
    obtain ⟨s1, h1, h2, -⟩ := run_mapRequests reqs s hnd hfresh
    exact ⟨s1, h1, h2⟩

set_option maxRecDepth 4000 in
theorem newwin_idempotent_witness :
    (∀ (win : Nat) (reply : WinReply), (findclient exOne win).isSome →
      newwin exOne win reply = some exOne) ∧
    (∀ reqs : List (Nat × WinReply),
      ∃ s1, run exOne (reqs.map (fun r => Event.mapRequest r.1 r.2)) = some s1 ∧
        (s1.winlist.map Client.id).Nodup) :=
  newwin_idempotent exOne (by decide) (by decide)

theorem filter_replace (l : List Client) (c1 : Client) (p : Nat) (hp : c1.ptr = p) :
    (l.map (fun d => if d.ptr = p then c1 else d)).filter (fun d => d.ptr ≠ p) =
      l.filter (fun d => d.ptr ≠ p) := by
  induction l with
  | nil => rfl
  | cons a l ih =>
    rw [List.map_cons, List.filter_cons, List.filter_cons, ih]
    by_cases ha : a.ptr = p
    · simp [ha, hp]
    · simp [ha]

theorem findclient_of_mem_nodup {s : State} (hnd : (s.winlist.map Client.id).Nodup)
    {d : Client} (hd : d ∈ s.winlist) : findclient s d.id = some d := by
  unfold findclient
  generalize s.winlist = l at hnd hd
  induction l with
  | nil => cases hd
  | cons a l ih =>
    rw [List.map_cons, List.nodup_cons] at hnd
    rw [List.find?_cons]
    by_cases ha : a.id = d.id
    · simp only [ha, decide_True]
      rcases List.mem_cons.mp hd with h | h
      · rw [h]
      · exact absurd (ha ▸ List.mem_map_of_mem Client.id h) hnd.1
    · simp only [ha, decide_False]
      rcases List.mem_cons.mp hd with h | h
      · exact absurd (h ▸ rfl) ha
      · exact ih hnd.2 h

/-- The loop of `forgetclient` and `forgetwin` over the workspaces `wss`: the
entries of the client at address `p` leave the lists of these workspaces. -/
theorem wsloop_forget (p : Nat) (wss : List Nat) (hnd : wss.Nodup) :
    ∀ (s : State) (c : Client), s.client? p = some c →
    (∀ ws ∈ wss, c.tracked (s.wslist ws) ws) →
    ∃ s1 c1, wsloop (fun s ws => do
        let c ← s.client? p
        if (c.wsitem ws).isSome then delfromworkspace s p ws else pure s) s wss = some s1 ∧
      s1.client? p = some c1 ∧
      s1.winlist.filter (fun d => d.ptr ≠ p) = s.winlist.filter (fun d => d.ptr ≠ p) ∧
      (∀ ws, s1.wslist ws =
        if ws ∈ wss then (s.wslist ws).filter (fun it => it.data ≠ p) else s.wslist ws) ∧
      s.sameEnv s1 ∧ s1.out = s.out ∧ s1.nextptr = s.nextptr := by
  induction wss with
  | nil =>
    intro s c h _
    exact ⟨s, c, rfl, h, rfl, fun ws => by simp, sameEnv_refl s, rfl, rfl⟩
  | cons ws wss ih =>
    intro s c h ht
    have hnd' := (List.nodup_cons.mp hnd)
    have hp : c.ptr = p := client?_ptr h
    have htr := ht ws (List.mem_cons_self ws wss)
    unfold wsloop
    simp only [h, Option.bind_eq_bind, Option.some_bind]
    cases hw : c.wsitem ws with
    | none =>
      obtain ⟨s2, c2, hs2, hc2, hwin2, hws2, henv2, hout2, hnext2⟩ :=
        ih hnd'.2 s c h (fun k hk => ht k (List.mem_cons_of_mem ws hk))
      refine ⟨s2, c2, ?_, hc2, hwin2, ?_, henv2, hout2, hnext2⟩
      · simp only [Option.isSome_none, Bool.false_eq_true, if_false, Option.pure_def,
          Option.some_bind]
        exact hs2
      · intro k
        rw [hws2 k]
        by_cases hk : k = ws
        · subst hk
          rw [if_neg hnd'.1, if_pos (List.mem_cons_self _ _)]
          unfold Client.tracked at htr
          rw [hw] at htr
          symm
          rw [List.filter_eq_self]
          intro it hit
          simpa [hp] using htr it hit
        · simp [hk]
    | some ip =>
      obtain ⟨s1, hs1, hwl, hwin, hnext, hout, henv⟩ := delfromworkspace_spec ws h
      obtain ⟨hc1, -⟩ := client?_of_winlist_replace s1
        { c with wsitem := upd c.wsitem ws none } h hp hwin
      have hlink : c.linked (s.wslist ws) ws := by
        unfold Client.tracked at htr
        unfold Client.linked
        rw [hw] at htr ⊢
        exact htr
      have ht1 : ∀ k ∈ wss,
          Client.tracked { c with wsitem := upd c.wsitem ws none } (s1.wslist k) k := by
        intro k hk
        have hkws : k ≠ ws := fun h' => hnd'.1 (h' ▸ hk)
        have := ht k (List.mem_cons_of_mem ws hk)
        unfold Client.tracked at this ⊢
        simp only [upd, hkws, if_false, hwl] at this ⊢
        exact this
      obtain ⟨s2, c2, hs2, hc2, hwin2, hws2, henv2, hout2, hnext2⟩ := ih hnd'.2 s1 _ hc1 ht1
      refine ⟨s2, c2, ?_, hc2, ?_, ?_, sameEnv_trans henv henv2, hout2.trans hout,
        hnext2.trans hnext⟩
      · simp only [Option.isSome_some, if_true, hs1, Option.some_bind]
        exact hs2
      · rw [hwin2, hwin, filter_replace s.winlist { c with wsitem := upd c.wsitem ws none } p hp]
      · intro k
        rw [hws2 k, hwl, delitem_linked hlink, hp]
        by_cases hk : k = ws
        · subst hk
          simp [upd, hnd'.1]
        · by_cases hk2 : k ∈ wss
          · simp [upd, hk, hk2]
          · simp [upd, hk, hk2]

/-- Forgetting a client whose entries are all recorded.  Let `c` be the client
at address `p` of the registry, fixed or not, whose entries in the 10 workspace
lists agree with its `wsitem` fields (with `NULL` in `wsitem[ws]` list `ws` has
no entry for the client, otherwise its entries are those at the address in the
field).  Then `forgetclient` returns, and so does `forgetwin` on the window of
`c` when no two clients of the registry have the same window; afterwards the
registry is the old one without the client and each of the 10 workspace lists
is the old list without the entries of the client, the other clients and
entries being the same and in the same order. -/
theorem forget_removes (s : State) (p : Nat) (c : Client)
    (hc : s.client? p = some c)
    (ht : ∀ ws, ws < WORKSPACES → c.tracked (s.wslist ws) ws) :
    (∃ s1, forgetclient s (some p) = some s1 ∧
      s1.winlist = s.winlist.filter (fun d => d.ptr ≠ p) ∧
      (∀ ws, ws < WORKSPACES →
        s1.wslist ws = (s.wslist ws).filter (fun it => it.data ≠ p))) ∧
    ((s.winlist.map Client.id).Nodup →
      ∃ s1, forgetwin s c.id = some s1 ∧
        s1.winlist = s.winlist.filter (fun d => d.ptr ≠ p) ∧
        (∀ ws, ws < WORKSPACES →
          s1.wslist ws = (s.wslist ws).filter (fun it => it.data ≠ p))) := by
  have hp : c.ptr = p := client?_ptr hc
  obtain ⟨s1, c1, hs1, hc1, hwin, hws, -⟩ := wsloop_forget p (List.range WORKSPACES)
    (List.nodup_range _) s c hc (fun ws hw => ht ws (List.mem_range.mp hw))
  have hlists : ∀ ws, ws < WORKSPACES →
      s1.wslist ws = (s.wslist ws).filter (fun it => it.data ≠ p) := by
    intro ws hw
    rw [hws ws, if_pos (List.mem_range.mpr hw)]
  constructor
  · refine ⟨{ s1 with winlist := s1.winlist.filter (fun d => d.ptr ≠ p) }, ?_, hwin, hlists⟩
    unfold forgetclient
    simp only [Option.bind_eq_bind, Option.pure_def] at hs1 ⊢
    rw [hs1]
    simp only [Option.some_bind, hc1]
  · intro hnd
    refine ⟨{ s1 with winlist := s1.winlist.filter (fun d => d.ptr ≠ p) }, ?_, hwin, hlists⟩
    unfold forgetwin
    rw [findclient_of_mem_nodup hnd (client?_mem hc)]
    simp only [Option.bind_eq_bind, Option.pure_def, hp] at hs1 ⊢
    rw [hs1]
    simp only [Option.some_bind]

set_option maxRecDepth 8000 in
theorem forget_removes_witness :
    (∃ s1, forgetclient exFixed (some 1) = some s1 ∧
      s1.winlist = exFixed.winlist.filter (fun d => d.ptr ≠ 1) ∧
      (∀ ws, ws < WORKSPACES →
        s1.wslist ws = (exFixed.wslist ws).filter (fun it => it.data ≠ 1))) ∧
    ((exFixed.winlist.map Client.id).Nodup →
      ∃ s1, forgetwin exFixed ((exFixed.client? 1).get (by decide)).id = some s1 ∧
        s1.winlist = exFixed.winlist.filter (fun d => d.ptr ≠ 1) ∧
        (∀ ws, ws < WORKSPACES →
          s1.wslist ws = (exFixed.wslist ws).filter (fun it => it.data ≠ 1))) :=
  forget_removes exFixed 1 ((exFixed.client? 1).get (by decide)) (Option.some_get _).symm
    (by decide)

set_option maxRecDepth 8000 in
/-- C22 (the code at the failing input): a client with an entry that its
`wsitem` fields do not record.  From the state at program start, a map request
for window 7, the key for workspace 2, an enter notify for window 7 and the key
that fixes the focused window lead to a registry with the one client of window
7, at address 1, which has the two entries 2 and 3 in the list of workspace 0
while `wsitem[0]` holds the address 3.  A destroy notification for window 7
(`forgetwin`) then returns with an empty registry and with the entry 2, whose
data is the address of the freed client, still in the list of workspace 0.  So
does an unmap notification for window 7 (`forgetclient`) after the key for
workspace 1 has made workspace 0 the current one. -/
theorem forget_leaves_entry :
    (run exInit [Event.mapRequest 7 exReply, Event.keyPress (Key.KEY_WS 1) false,
      Event.enterNotify true 7, Event.keyPress Key.KEY_F false]).map
        (fun s => (s.winlist.map (fun c => (c.id, c.ptr, c.wsitem 0)), s.wslist 0)) =
      some ([(7, 1, some 3)], [⟨2, 1⟩, ⟨3, 1⟩]) ∧
    (run exInit [Event.mapRequest 7 exReply, Event.keyPress (Key.KEY_WS 1) false,
      Event.enterNotify true 7, Event.keyPress Key.KEY_F false,
      Event.destroyNotify 7]).map
        (fun s => (s.winlist.map Client.id, (List.range WORKSPACES).map s.wslist)) =
      some ([], [[⟨2, 1⟩], [], [], [], [], [], [], [], [], []]) ∧
    (run exInit [Event.mapRequest 7 exReply, Event.keyPress (Key.KEY_WS 1) false,
      Event.enterNotify true 7, Event.keyPress Key.KEY_F false,
      Event.keyPress (Key.KEY_WS 0) false, Event.unmapNotify 7]).map
        (fun s => (s.winlist.map Client.id, (List.range WORKSPACES).map s.wslist)) =
      some ([], [[⟨2, 1⟩], [], [], [], [], [], [], [], [], []]) := by
  refine ⟨by decide, by decide, by decide⟩

theorem findclient_unknown (s : State) (window : Nat) (h : ∀ c ∈ s.winlist, c.id ≠ window) :
    findclient s window = none := by
  unfold findclient
  rw [List.find?_eq_none]
  intro c hc
  simpa using h c hc

theorem unmapLoop_unknown (s : State) (window : Nat) :
    ∀ l : List Item, (∀ it ∈ l, ∃ c, s.client? it.data = some c ∧ c.id ≠ window) →
      unmapLoop s window l = some s := by
  intro l
  induction l with
  | nil => intro _; rfl
  | cons it rest ih =>
    intro h
    obtain ⟨c, hc, hid⟩ := h it (List.mem_cons_self it rest)
    unfold unmapLoop
    simp only [hc, Option.bind_eq_bind, Option.some_bind, if_neg hid]
    exact ih (fun jt hj => h jt (List.mem_cons_of_mem it hj))

/-- C23: events about unknown windows are ignored.  In every state in which
the focused and the last focused window, if there is one, are in the registry:
if no client of the registry has the window `window`, `forgetwin` and the
destroy notification return the state as it was (registry, workspace lists,
focus, mode and everything else, and no request is sent); and if every entry
of the list of the current workspace stands for a client of the registry
whose window is not `window`, the unmap notification returns the state as it
was. -/
theorem unknown_window_ignored (s : State) (window : Nat)
    (hf : ∀ f, s.focuswin = some f → (s.client? f).isSome)
    (hl : ∀ l, s.lastfocuswin = some l → (s.client? l).isSome) :
    ((∀ c ∈ s.winlist, c.id ≠ window) →
      forgetwin s window = some s ∧ destroyNotify s window = some s) ∧
    ((∀ it ∈ s.wslist s.curws, ∃ c, s.client? it.data = some c ∧ c.id ≠ window) →
      unmapNotify s window = some s) := by
  constructor
  · intro h
    have hfw : forgetwin s window = some s := by
      unfold forgetwin
      rw [findclient_unknown s window h]
    refine ⟨hfw, ?_⟩
    have e1 : ∀ f, s.focuswin = some f → ∃ fc, s.client? f = some fc ∧ ¬ fc.id = window := by
      intro f hfo
      obtain ⟨fc, hfc⟩ := Option.isSome_iff_exists.mp (hf f hfo)
      exact ⟨fc, hfc, h fc (client?_mem hfc)⟩
    have e2 : ∀ l, s.lastfocuswin = some l →
        ∃ lc, s.client? l = some lc ∧ ¬ lc.id = window := by
      intro l hlo
      obtain ⟨lc, hlc⟩ := Option.isSome_iff_exists.mp (hl l hlo)
      exact ⟨lc, hlc, h lc (client?_mem hlc)⟩
    unfold destroyNotify
    cases hfo : s.focuswin with
    | none =>
      cases hlo : s.lastfocuswin with
      | none =>
        simp only [Option.bind_eq_bind, Option.some_bind, hlo]
        exact hfw
      | some l =>
        obtain ⟨lc, hlc, hne⟩ := e2 l hlo
        simp only [Option.bind_eq_bind, Option.some_bind, hlc, Option.pure_def, if_neg hne, hlo]
        exact hfw
    | some f =>
      obtain ⟨fc, hfc, hnf⟩ := e1 f hfo
      cases hlo : s.lastfocuswin with
      | none =>
        simp only [Option.bind_eq_bind, Option.some_bind, hfc, Option.pure_def, if_neg hnf, hlo]
        exact hfw
      | some l =>
        obtain ⟨lc, hlc, hne⟩ := e2 l hlo
        simp only [Option.bind_eq_bind, Option.some_bind, hfc, hlc, Option.pure_def, if_neg hnf,
          if_neg hne, hlo]
        exact hfw
  · intro h
    exact unmapLoop_unknown s window _ h

set_option maxRecDepth 4000 in
theorem unknown_window_ignored_witness :
    ((∀ c ∈ exTabbing.winlist, c.id ≠ 12) →
      forgetwin exTabbing 12 = some exTabbing ∧ destroyNotify exTabbing 12 = some exTabbing) ∧
    ((∀ it ∈ exTabbing.wslist exTabbing.curws,
        ∃ c, exTabbing.client? it.data = some c ∧ c.id ≠ 12) →
      unmapNotify exTabbing 12 = some exTabbing) :=
  unknown_window_ignored exTabbing 12 (by decide) (by decide)

set_option maxRecDepth 4000 in
/-- C24: what `newwin` leaves behind when an allocation fails.  In every state
`setupwin` returns `NULL` when `malloc` fails for the client after `additem`
has returned an item, and `winlist` then has one more item, without a client
(the item is not taken out again).  At program start (empty registry) a map
request of window 7 during which that `malloc` fails sends the three requests
for the window and leaves `winlist` with one item that has no client; when
`additem` fails, `winlist` is as before; and when `additem` fails in
`addtoworkspace`, the state is as before the call. -/
theorem newwin_alloc_failure_leaves_item :
    (∀ (s : State) (win : Nat) (geom : Option Sizepos) (hints : Hints),
      (setupwinAlloc s win geom hints true false).2 = (none, s.winitems ++ [none])) ∧
    exInit.winitems = [] ∧
    (newwinAlloc exInit 7 exReply true false true).map
      (fun r => (r.2, r.1.winlist.length, r.1.wslist 0, r.1.out))
      = some ([none], 0, [], [Request.borderPixel 7 2, Request.eventMask 7, Request.saveSet 7,
          Request.flush]) ∧
    (newwinAlloc exInit 7 exReply false true true).map
      (fun r => (r.2, r.1.winlist.length, r.1.wslist 0)) = some ([], 0, []) ∧
    (∀ (s : State) (p ws : Nat), addtoworkspaceAlloc s p ws false = some s) := by
  refine ⟨fun _ _ _ _ => rfl, by decide, by decide, by decide, fun _ _ _ => rfl⟩

/-! ## Changing the screen, limits of moving and resizing -/

theorem prevMonitor_not_mem (p : Nat) (rest : List Monitor) :
    ∀ a : Monitor, p ∉ rest.map Monitor.ptr → prevMonitor p (a :: rest) = none := by
  induction rest with
  | nil => intro a _; rfl
  | cons b rest ih =>
    intro a h
    simp only [List.map_cons, List.mem_cons, not_or] at h
    unfold prevMonitor
    rw [if_neg (fun h' => h.1 (Eq.symm h'))]
    exact ih b h.2

theorem prevMonitor_getElem? (l : List Monitor) (hnd : (l.map Monitor.ptr).Nodup) :
    ∀ (i : Nat) (m : Monitor), l[i]? = some m →
      prevMonitor m.ptr l = if i = 0 then none else l[i - 1]? := by
  induction l with
  | nil => intro i m h; simp at h
  | cons a rest ih =>
    intro i m h
    have hnd' := hnd
    rw [List.map_cons, List.nodup_cons] at hnd'
    cases i with
    | zero =>
      simp only [List.getElem?_cons_zero, Option.some.injEq] at h
      subst h
      simp only [if_true]
      exact prevMonitor_not_mem _ _ _ hnd'.1
    | succ j =>
      simp only [List.getElem?_cons_succ] at h
      rw [if_neg (Nat.succ_ne_zero j), Nat.add_sub_cancel]
      cases rest with
      | nil => simp at h
      | cons b rest2 =>
        unfold prevMonitor
        cases j with
        | zero =>
          simp only [List.getElem?_cons_zero, Option.some.injEq] at h
          subst h
          simp
        | succ k =>
          have hnd2 := hnd'.2
          rw [List.map_cons, List.nodup_cons] at hnd2
          simp only [List.getElem?_cons_succ] at h
          have hmem : m ∈ rest2 := List.getElem?_mem h
          have hne : b.ptr ≠ m.ptr :=
            fun h' => hnd2.1 (h' ▸ List.mem_map_of_mem Monitor.ptr hmem)
          simp only [hne, if_false]
          have := ih hnd'.2 (k + 1) m (by simpa using h)
          rw [this]
          simp

/-- The statements that `prevscreen` and `nextscreen` share: the focused
window gets the monitor `mon` of the list and is fitted to it by `fitonscreen`
and `movelim`. -/
theorem toscreen_spec (s : State) (f : Nat) (fc : Client) (mon : Monitor)
    (hfc : s.client? f = some fc) (hmon : s.monitor? mon.ptr = some mon) :
    ∃ s1, toscreen s f mon = some s1 ∧
      s1.client? f = some (movelimGeom s.conf.borderwidth (monrect s.screen (some mon))
        (fitonscreen s.conf s.screen (some mon) { fc with monitor := some mon.ptr }).1) ∧
      (∀ q, q ≠ f → s1.client? q = s.client? q) ∧ s1.monlist = s.monlist ∧
      s1.focuswin = s.focuswin := by
  have hp : fc.ptr = f := client?_ptr hfc
  have hpa : ({ fc with monitor := some mon.ptr } : Client).ptr = f := hp
  have hca := setClient_client? s f fc { fc with monitor := some mon.ptr } hfc hpa
  obtain ⟨rconf, rscreen, rmon, rcl⟩ :=
    raisewindow_env (s.setClient { fc with monitor := some mon.ptr }) fc.id
  have hfoc : (raisewindow (s.setClient { fc with monitor := some mon.ptr }) fc.id).focuswin
      = s.focuswin := by
    unfold raisewindow
    split <;> rfl
  generalize hsb : raisewindow (s.setClient { fc with monitor := some mon.ptr }) fc.id = sb
    at rconf rscreen rmon rcl hfoc
  have hconf : sb.conf = s.conf := rconf
  have hscreen : sb.screen = s.screen := rscreen
  have hmonl : sb.monlist = s.monlist := rmon
  have hcb : sb.client? f = some { fc with monitor := some mon.ptr } := by rw [rcl]; exact hca
  have hres : sb.resolveMonitor ({ fc with monitor := some mon.ptr } : Client).monitor
      = some (some mon) := by
    rw [resolveMonitor_congr s sb hmonl]
    show (s.monitor? mon.ptr).map some = _
    rw [hmon]
    rfl
  obtain ⟨k1, k2, -⟩ := fitonscreen_keeps sb.conf sb.screen (some mon)
    { fc with monitor := some mon.ptr }
  have hfit : fitonscreenAt sb f = some ((sb.setClient
      (fitonscreen sb.conf sb.screen (some mon) { fc with monitor := some mon.ptr }).1).send
      (fitonscreen sb.conf sb.screen (some mon) { fc with monitor := some mon.ptr }).2) := by
    unfold fitonscreenAt
    simp only [hcb, hres, Option.bind_eq_bind, Option.some_bind, Option.pure_def]
  have hcc := setClient_client? sb f _
    (fitonscreen sb.conf sb.screen (some mon) { fc with monitor := some mon.ptr }).1 hcb
    (k1.trans hpa)
  generalize hg : (fitonscreen sb.conf sb.screen (some mon)
    { fc with monitor := some mon.ptr }) = r at hfit hcc k1 k2
  have hresc : ((sb.setClient r.1).send r.2).resolveMonitor r.1.monitor = some (some mon) := by
    rw [resolveMonitor_congr sb _ (show ((sb.setClient r.1).send r.2).monlist = sb.monlist
      from rfl), k2]
    exact hres
  obtain ⟨sd, hsd, hcd, hod, -, -, hmd, -⟩ :=
    movelim_spec ((sb.setClient r.1).send r.2) f r.1 (some mon) hcc hresc
  have hcc2 : ((sb.setClient r.1).send r.2).client? f = some r.1 := hcc
  have hfd : sd.focuswin = s.focuswin := by
    unfold movelim at hsd
    simp only [hcc2, hresc, Option.bind_eq_bind, Option.some_bind, Option.pure_def,
      Option.some.injEq] at hsd
    rw [← hsd]
    exact hfoc
  have hgeom : movelimGeom ((sb.setClient r.1).send r.2).conf.borderwidth
      (monrect ((sb.setClient r.1).send r.2).screen (some mon)) r.1 =
      movelimGeom s.conf.borderwidth (monrect s.screen (some mon))
        (fitonscreen s.conf s.screen (some mon) { fc with monitor := some mon.ptr }).1 := by
    show movelimGeom sb.conf.borderwidth (monrect sb.screen (some mon)) r.1 = _
    rw [← hg, hconf, hscreen]
  refine ⟨sd.send [Request.warpPointer fc.id 0 0, Request.flush], ?_, ?_, ?_, ?_, hfd⟩
  · unfold toscreen
    simp only [hfc, Option.bind_eq_bind, Option.some_bind, Option.pure_def, hsb]
    rw [hfit, Option.some_bind, hsd, Option.some_bind]
  · show sd.client? f = _
    rw [hcd, hgeom]
  · intro q hq
    show sd.client? q = _
    rw [hod q hq]
    show (sb.setClient r.1).client? q = _
    rw [setClient_others sb r.1 q (by rw [k1.trans hpa]; exact hq), rcl,
      setClient_others s _ q (by rw [hpa]; exact hq)]
  · show sd.monlist = _
    rw [hmd]
    exact hmonl

/-- After `fitonscreen` for a rectangle that has room for the two borders the
window with its border is inside the rectangle, and `movelim` leaves it
there. -/
theorem movelim_after_fit (conf : Conf) (screen : Screen) (mon : Monitor) (c : Client)
    (hg : c.geomOk) (hr : rectOk (monrect screen (some mon)))
    (hbw : 0 ≤ conf.borderwidth) (hw : conf.borderwidth * 2 ≤ mon.width)
    (hh : conf.borderwidth * 2 ≤ mon.height) :
    movelimGeom conf.borderwidth (monrect screen (some mon)) (fitonscreen conf screen (some mon) c).1
      = (fitonscreen conf screen (some mon) c).1 ∧
    mon.x ≤ (fitonscreen conf screen (some mon) c).1.x ∧
    mon.y ≤ (fitonscreen conf screen (some mon) c).1.y ∧
    (fitonscreen conf screen (some mon) c).1.x + (fitonscreen conf screen (some mon) c).1.width
      + 2 * conf.borderwidth ≤ mon.x + mon.width ∧
    (fitonscreen conf screen (some mon) c).1.y + (fitonscreen conf screen (some mon) c).1.height
      + 2 * conf.borderwidth ≤ mon.y + mon.height := by
  have hcl := fitonscreen_client conf screen (some mon) c
  have ax := fitaxis_inside conf.borderwidth mon.x mon.width c.x c.width c.min_width
    hg.1 hg.2.2.1 hg.2.2.2.2.1 hr.1 hr.2.2.1 hbw hw
  have ay := fitaxis_inside conf.borderwidth mon.y mon.height c.y c.height c.min_height
    hg.2.1 hg.2.2.2.1 hg.2.2.2.2.2 hr.2.1 hr.2.2.2 hbw hh
  have ex : (fitonscreen conf screen (some mon) c).1.x =
      (fitaxis conf.borderwidth mon.x mon.width c.x c.width c.min_width).1 := by
    rw [hcl]; rfl
  have ew : (fitonscreen conf screen (some mon) c).1.width =
      (fitaxis conf.borderwidth mon.x mon.width c.x c.width c.min_width).2 := by
    rw [hcl]; rfl
  have ey : (fitonscreen conf screen (some mon) c).1.y =
      (fitaxis conf.borderwidth mon.y mon.height c.y c.height c.min_height).1 := by
    rw [hcl]; rfl
  have eh : (fitonscreen conf screen (some mon) c).1.height =
      (fitaxis conf.borderwidth mon.y mon.height c.y c.height c.min_height).2 := by
    rw [hcl]; rfl
  rw [← ex, ← ew] at ax
  rw [← ey, ← eh] at ay
  refine ⟨?_, ax.1, ay.1, ax.2.1, ay.2.1⟩
  apply movelimGeom_id
  · show ¬ _ < mon.x
    omega
  · show ¬ _ < mon.y
    omega
  · show ¬ (_ > mon.x + mon.width - conf.borderwidth * 2)
    omega
  · show ¬ (_ > mon.y + mon.height - conf.borderwidth * 2)
    omega

/-- The focused window put on the monitor `mon` of the list by `prevscreen`
or `nextscreen`. -/
theorem toscreen_fitted (s : State) (f : Nat) (fc : Client) (mon : Monitor)
    (hfc : s.client? f = some fc) (hnd : (s.monlist.map Monitor.ptr).Nodup)
    (hmem : mon ∈ s.monlist) (hg : fc.geomOk) (hr : rectOk (monrect s.screen (some mon))) :
    ∃ s1 c1, toscreen s f mon = some s1 ∧ s1.client? f = some c1 ∧
      c1.monitor = some mon.ptr ∧ s1.focuswin = s.focuswin ∧
      (∀ q, q ≠ f → s1.client? q = s.client? q) ∧
      (0 ≤ s.conf.borderwidth → s.conf.borderwidth * 2 ≤ mon.width →
        s.conf.borderwidth * 2 ≤ mon.height →
        mon.x ≤ c1.x ∧ mon.y ≤ c1.y ∧
        c1.x + c1.width + 2 * s.conf.borderwidth ≤ mon.x + mon.width ∧
        c1.y + c1.height + 2 * s.conf.borderwidth ≤ mon.y + mon.height) := by
  obtain ⟨s1, h1, hc1, ho, -, hfo⟩ := toscreen_spec s f fc mon hfc (monitor?_of_mem_nodup hnd hmem)
  obtain ⟨x, y, ek⟩ := movelimGeom_keeps s.conf.borderwidth (monrect s.screen (some mon))
    (fitonscreen s.conf s.screen (some mon) { fc with monitor := some mon.ptr }).1
  obtain ⟨-, k2, -⟩ := fitonscreen_keeps s.conf s.screen (some mon)
    { fc with monitor := some mon.ptr }
  refine ⟨s1, _, h1, hc1, ?_, hfo, ho, ?_⟩
  · rw [ek]
    exact k2
  · intro hbw hw hh
    obtain ⟨e, i1, i2, i3, i4⟩ := movelim_after_fit s.conf s.screen mon
      { fc with monitor := some mon.ptr } hg hr hbw hw hh
    rw [e]
    exact ⟨i1, i2, i3, i4⟩

/-- C25: changing the screen of the focused window.  Let the focused window be
on the monitor at index `i` of the monitor list (whose entries have distinct
addresses; the fields of the window and of the monitors are in the range of
their C types).  `nextscreen` gives the window the monitor at index `i + 1` if
there is one and returns the state as it was if the monitor is the last of
the list; `prevscreen` gives it the monitor at index `i - 1` if `i` is at least
1 and returns the state as it was if the monitor is the first of the list.
In the new state the window is the focused one still, the other clients are
as before, and with a border width b >= 0 and a new monitor at least 2 * b
wide and high the window with its border lies inside the new monitor. -/
theorem screen_cycling (s : State) (f i : Nat) (fc : Client) (m : Monitor)
    (hf : s.focuswin = some f) (hfc : s.client? f = some fc)
    (hnd : (s.monlist.map Monitor.ptr).Nodup)
    (hm : s.monlist[i]? = some m) (hmon : fc.monitor = some m.ptr)
    (hg : fc.geomOk) (hr : ∀ k ∈ s.monlist, rectOk (monrect s.screen (some k))) :
    (s.monlist[i + 1]? = none → nextscreen s = some s) ∧
    (∀ m2, s.monlist[i + 1]? = some m2 →
      ∃ s1 c1, nextscreen s = some s1 ∧ s1.client? f = some c1 ∧
        c1.monitor = some m2.ptr ∧ s1.focuswin = some f ∧
        (∀ q, q ≠ f → s1.client? q = s.client? q) ∧
        (0 ≤ s.conf.borderwidth → s.conf.borderwidth * 2 ≤ m2.width →
          s.conf.borderwidth * 2 ≤ m2.height →
          m2.x ≤ c1.x ∧ m2.y ≤ c1.y ∧
          c1.x + c1.width + 2 * s.conf.borderwidth ≤ m2.x + m2.width ∧
          c1.y + c1.height + 2 * s.conf.borderwidth ≤ m2.y + m2.height)) ∧
    (i = 0 → prevscreen s = some s) ∧
    (∀ j m2, i = j + 1 → s.monlist[j]? = some m2 →
      ∃ s1 c1, prevscreen s = some s1 ∧ s1.client? f = some c1 ∧
        c1.monitor = some m2.ptr ∧ s1.focuswin = some f ∧
        (∀ q, q ≠ f → s1.client? q = s.client? q) ∧
        (0 ≤ s.conf.borderwidth → s.conf.borderwidth * 2 ≤ m2.width →
          s.conf.borderwidth * 2 ≤ m2.height →
          m2.x ≤ c1.x ∧ m2.y ≤ c1.y ∧
          c1.x + c1.width + 2 * s.conf.borderwidth ≤ m2.x + m2.width ∧
          c1.y + c1.height + 2 * s.conf.borderwidth ≤ m2.y + m2.height)) := by
  have hlive : s.monitor? m.ptr = some m := monitor?_of_mem_nodup hnd (List.getElem?_mem hm)
  have hnext := nextMonitor_getElem? s.monlist hnd i m hm
  have hprev := prevMonitor_getElem? s.monlist hnd i m hm
  have en : nextscreen s = match nextMonitor m.ptr s.monlist with
      | none => some s
      | some mon => toscreen s f mon := by
    unfold nextscreen
    simp only [hf, hfc, hmon, hlive, Option.bind_eq_bind, Option.some_bind, Option.pure_def]
  have ep : prevscreen s = match prevMonitor m.ptr s.monlist with
      | none => some s
      | some mon => toscreen s f mon := by
    unfold prevscreen
    simp only [hf, hfc, hmon, hlive, Option.bind_eq_bind, Option.some_bind, Option.pure_def]
  refine ⟨?_, ?_, ?_, ?_⟩
  · intro h
    rw [en, hnext, h]
  · intro m2 h
    have hmem : m2 ∈ s.monlist := List.getElem?_mem h
    obtain ⟨s1, c1, h1, hc1, hm1, hf1, ho1, hin⟩ :=
      toscreen_fitted s f fc m2 hfc hnd hmem hg (hr m2 hmem)
    refine ⟨s1, c1, ?_, hc1, hm1, hf1.trans hf, ho1, hin⟩
    rw [en, hnext, h]
    exact h1
  · intro h
    rw [ep, hprev, if_pos h]
  · intro j m2 hj h
    have hmem : m2 ∈ s.monlist := List.getElem?_mem h
    obtain ⟨s1, c1, h1, hc1, hm1, hf1, ho1, hin⟩ :=
      toscreen_fitted s f fc m2 hfc hnd hmem hg (hr m2 hmem)
    refine ⟨s1, c1, ?_, hc1, hm1, hf1.trans hf, ho1, hin⟩
    rw [ep, hprev, if_neg (by omega), hj, Nat.add_sub_cancel, h]
    exact h1

set_option maxRecDepth 4000 in
theorem screen_cycling_witness :
    (exTwoFocused.monlist[0 + 1]? = none → nextscreen exTwoFocused = some exTwoFocused) ∧
    (∀ m2, exTwoFocused.monlist[0 + 1]? = some m2 →
      ∃ s1 c1, nextscreen exTwoFocused = some s1 ∧ s1.client? 3 = some c1 ∧
        c1.monitor = some m2.ptr ∧ s1.focuswin = some 3 ∧
        (∀ q, q ≠ 3 → s1.client? q = exTwoFocused.client? q) ∧
        (0 ≤ exTwoFocused.conf.borderwidth → exTwoFocused.conf.borderwidth * 2 ≤ m2.width →
          exTwoFocused.conf.borderwidth * 2 ≤ m2.height →
          m2.x ≤ c1.x ∧ m2.y ≤ c1.y ∧
          c1.x + c1.width + 2 * exTwoFocused.conf.borderwidth ≤ m2.x + m2.width ∧
          c1.y + c1.height + 2 * exTwoFocused.conf.borderwidth ≤ m2.y + m2.height)) ∧
    (0 = 0 → prevscreen exTwoFocused = some exTwoFocused) ∧
    (∀ j m2, 0 = j + 1 → exTwoFocused.monlist[j]? = some m2 →
      ∃ s1 c1, prevscreen exTwoFocused = some s1 ∧ s1.client? 3 = some c1 ∧
        c1.monitor = some m2.ptr ∧ s1.focuswin = some 3 ∧
        (∀ q, q ≠ 3 → s1.client? q = exTwoFocused.client? q) ∧
        (0 ≤ exTwoFocused.conf.borderwidth → exTwoFocused.conf.borderwidth * 2 ≤ m2.width →
          exTwoFocused.conf.borderwidth * 2 ≤ m2.height →
          m2.x ≤ c1.x ∧ m2.y ≤ c1.y ∧
          c1.x + c1.width + 2 * exTwoFocused.conf.borderwidth ≤ m2.x + m2.width ∧
          c1.y + c1.height + 2 * exTwoFocused.conf.borderwidth ≤ m2.y + m2.height)) :=
  screen_cycling exTwoFocused 3 0 ((exTwoFocused.client? 3).get (by decide))
    ⟨1, 1, 0, 0, 1920, 1080⟩ (by decide) (Option.some_get _).symm (by decide) (by decide)
    (by decide) (by decide) (by decide)

set_option maxRecDepth 4000 in
/-- C25 (counterexamples).  Two monitors, at the addresses 1 and 2 in this
order, and the focused window 7 on the first: `nextscreen` puts the window on
the second monitor, a second `nextscreen` leaves it there (not on the first
monitor), and `prevscreen` on the first monitor leaves the window on it (not on
the last monitor).  With a second monitor of 1 x 1 pixels and border width 1,
`nextscreen` makes the window 65535 x 65535 pixels at (1920, 0), which is not
inside the monitor. -/
theorem screen_cycling_counterexample :
    exTwoFocused.monlist.map Monitor.ptr = [1, 2] ∧ exTwoFocused.focuswin = some 3 ∧
    (exTwoFocused.client? 3).map (fun c => c.monitor) = some (some 1) ∧
    (nextscreen exTwoFocused).bind (fun s => (s.client? 3).map (fun c => c.monitor))
      = some (some 2) ∧
    ((nextscreen exTwoFocused).bind nextscreen).bind
      (fun s => (s.client? 3).map (fun c => c.monitor)) = some (some 2) ∧
    (prevscreen exTwoFocused).bind (fun s => (s.client? 3).map (fun c => c.monitor))
      = some (some 1) ∧
    exTinyMonitor.monlist = [⟨1, 1, 0, 0, 1920, 1080⟩, ⟨2, 2, 1920, 0, 1, 1⟩] ∧
    exTinyMonitor.conf.borderwidth = 1 ∧
    (nextscreen exTinyMonitor).bind (fun s => geometry s 3)
      = some ⟨1920, 0, 65535, 65535⟩ := by
  decide

theorem resizelimGeom_size (bw : Int) (r : Sizepos) (c : Client) :
    (resizelimGeom bw r c).width =
      (if c.x + (if 0 ≠ c.min_width ∧ c.width < c.min_width then c.min_width else c.width)
          + bw * 2 > r.x + r.width then
        toUInt16 (r.width - ((c.x - r.x) + bw * 2))
      else (if 0 ≠ c.min_width ∧ c.width < c.min_width then c.min_width else c.width)) ∧
    (resizelimGeom bw r c).height =
      (if c.y + (if 0 ≠ c.min_height ∧ c.height < c.min_height then c.min_height
          else c.height) + bw * 2 > r.y + r.height then
        toUInt16 (r.height - ((c.y - r.y) + bw * 2))
      else (if 0 ≠ c.min_height ∧ c.height < c.min_height then c.min_height
        else c.height)) := by
  unfold resizelimGeom resizelimHeight resizelimWidth resizelimMinWidth resizelimMinHeight
  constructor <;> split_ifs <;> rfl

theorem resizelim_axis (bw mpos msize pos size min : Int) (hsize : isUInt16 size)
    (hmin : isUInt16 min) (hfit : pos + 2 * bw ≤ mpos + msize) :
    pos + (if pos + (if 0 ≠ min ∧ size < min then min else size) + bw * 2 > mpos + msize then
        toUInt16 (msize - ((pos - mpos) + bw * 2))
      else (if 0 ≠ min ∧ size < min then min else size)) + 2 * bw ≤ mpos + msize ∧
    (min ≤ (if pos + (if 0 ≠ min ∧ size < min then min else size) + bw * 2 > mpos + msize then
        toUInt16 (msize - ((pos - mpos) + bw * 2))
      else (if 0 ≠ min ∧ size < min then min else size)) ∨
     pos + (if pos + (if 0 ≠ min ∧ size < min then min else size) + bw * 2 > mpos + msize then
        toUInt16 (msize - ((pos - mpos) + bw * 2))
      else (if 0 ≠ min ∧ size < min then min else size)) + 2 * bw = mpos + msize) := by
  unfold isUInt16 at hsize hmin
  split_ifs with h1 h2 h2
  · rw [toUInt16_of_isUInt16 (by unfold isUInt16; constructor <;> omega)]
    constructor
    · omega
    · right; omega
  · constructor
    · omega
    · left; omega
  · rw [toUInt16_of_isUInt16 (by unfold isUInt16; constructor <;> omega)]
    constructor
    · omega
    · right; omega
  · constructor
    · omega
    · left
      by_cases h0 : min = 0
      · omega
      · have : ¬ size < min := fun h => h1 ⟨fun e => h0 e.symm, h⟩
        omega

/-- C27: `resizelim` limits the size only.  For every client whose fields and
whose governing rectangle (its monitor, or the root window without one) are in
the range of their C types and whose position leaves room for the two borders
before the far edges (x + 2 * borderwidth <= mon_x + mon_width and y + 2 *
borderwidth <= mon_y + mon_height), `resizelim` returns and leaves every field
of the client but width and height as it was, x and y in particular;
afterwards x + width + 2 * borderwidth <= mon_x + mon_width and y + height + 2 *
borderwidth <= mon_y + mon_height; and the width is at least the declared
minimum width or the window reaches exactly to the far edge (likewise the
height). -/
theorem resizelim_clamps_size (s : State) (p : Nat) (c : Client) (mon : Option Monitor)
    (hc : s.client? p = some c) (hmon : s.resolveMonitor c.monitor = some mon)
    (hg : c.geomOk)
    (hx : c.x + 2 * s.conf.borderwidth ≤ (monrect s.screen mon).x + (monrect s.screen mon).width)
    (hy : c.y + 2 * s.conf.borderwidth
      ≤ (monrect s.screen mon).y + (monrect s.screen mon).height) :
    ∃ s1 c1, resizelim s p = some s1 ∧ s1.client? p = some c1 ∧
      c1 = { c with width := c1.width, height := c1.height } ∧ c1.x = c.x ∧ c1.y = c.y ∧
      c1.x + c1.width + 2 * s.conf.borderwidth
        ≤ (monrect s.screen mon).x + (monrect s.screen mon).width ∧
      c1.y + c1.height + 2 * s.conf.borderwidth
        ≤ (monrect s.screen mon).y + (monrect s.screen mon).height ∧
      (c.min_width ≤ c1.width ∨ c1.x + c1.width + 2 * s.conf.borderwidth
        = (monrect s.screen mon).x + (monrect s.screen mon).width) ∧
      (c.min_height ≤ c1.height ∨ c1.y + c1.height + 2 * s.conf.borderwidth
        = (monrect s.screen mon).y + (monrect s.screen mon).height) := by
  obtain ⟨s1, hs1, hc1, -⟩ := resizelim_spec s p c mon hc hmon
  obtain ⟨w, h, ek⟩ := resizelimGeom_keeps s.conf.borderwidth (monrect s.screen mon) c
  obtain ⟨ew, eh⟩ := resizelimGeom_size s.conf.borderwidth (monrect s.screen mon) c
  have ax := resizelim_axis s.conf.borderwidth (monrect s.screen mon).x
    (monrect s.screen mon).width c.x c.width c.min_width hg.2.2.1 hg.2.2.2.2.1 hx
  have ay := resizelim_axis s.conf.borderwidth (monrect s.screen mon).y
    (monrect s.screen mon).height c.y c.height c.min_height hg.2.2.2.1 hg.2.2.2.2.2 hy
  rw [← ew] at ax
  rw [← eh] at ay
  have e1 : (resizelimGeom s.conf.borderwidth (monrect s.screen mon) c).x = c.x := by rw [ek]
  have e2 : (resizelimGeom s.conf.borderwidth (monrect s.screen mon) c).y = c.y := by rw [ek]
  refine ⟨s1, _, hs1, hc1, ?_, e1, e2, ?_, ?_, ?_, ?_⟩
  · rw [ek]
  · rw [e1]; exact ax.1
  · rw [e2]; exact ay.1
  · rw [e1]; exact ax.2
  · rw [e2]; exact ay.2

set_option maxRecDepth 2000 in
theorem resizelim_clamps_size_witness :
    ∃ s1 c1, resizelim (exAt 1900 1000) 1 = some s1 ∧ s1.client? 1 = some c1 ∧
      c1 = { ((exAt 1900 1000).client? 1).get (by decide) with
        width := c1.width, height := c1.height } ∧
      c1.x = (((exAt 1900 1000).client? 1).get (by decide)).x ∧
      c1.y = (((exAt 1900 1000).client? 1).get (by decide)).y ∧
      c1.x + c1.width + 2 * (exAt 1900 1000).conf.borderwidth
        ≤ (monrect (exAt 1900 1000).screen none).x
          + (monrect (exAt 1900 1000).screen none).width ∧
      c1.y + c1.height + 2 * (exAt 1900 1000).conf.borderwidth
        ≤ (monrect (exAt 1900 1000).screen none).y
          + (monrect (exAt 1900 1000).screen none).height ∧
      ((((exAt 1900 1000).client? 1).get (by decide)).min_width ≤ c1.width ∨
        c1.x + c1.width + 2 * (exAt 1900 1000).conf.borderwidth
          = (monrect (exAt 1900 1000).screen none).x
            + (monrect (exAt 1900 1000).screen none).width) ∧
      ((((exAt 1900 1000).client? 1).get (by decide)).min_height ≤ c1.height ∨
        c1.y + c1.height + 2 * (exAt 1900 1000).conf.borderwidth
          = (monrect (exAt 1900 1000).screen none).y
            + (monrect (exAt 1900 1000).screen none).height) :=
  resizelim_clamps_size (exAt 1900 1000) 1 (((exAt 1900 1000).client? 1).get (by decide)) none
    (Option.some_get _).symm (by decide) (by decide) (by decide) (by decide)

set_option maxRecDepth 2000 in
/-- C27 (counterexample).  On a root of 1920 x 1080 with border width 1, window 7
of 100 x 100 pixels at (1919, 0) is inside the root, but its two borders do not
fit before the right edge; `resizelim` stores 1920 - (1919 + 2) = -1 in the
`uint16_t` width, which is 65535, so that x + width + 2 * borderwidth = 67456 is
beyond the right edge 1920.  At (1918, 0) the width becomes 0 and the window
with its borders ends at the edge. -/
theorem resizelim_clamps_size_counterexample :
    geometry (exAt 1919 0) 1 = some ⟨1919, 0, 100, 100⟩ ∧
    (exAt 1919 0).conf.borderwidth = 1 ∧
    monrect (exAt 1919 0).screen none = ⟨0, 0, 1920, 1080⟩ ∧
    (resizelim (exAt 1919 0) 1).bind (fun s => geometry s 1) = some ⟨1919, 0, 65535, 100⟩ ∧
    (resizelim (exAt 1918 0) 1).bind (fun s => geometry s 1) = some ⟨1918, 0, 0, 100⟩ := by
  decide

/-! ## Mouse buttons, tabbing, maximized windows -/

set_option maxRecDepth 4000 in
/-- C28: the pointer after a move that began on the border.  Window 7 (100 x
100 pixels, border width 1) has the focus; button 1 is pressed over it while
the pointer is on its left border, at (-1, 10) relative to the window.  The
press stores that position and begins a move; the release warps the pointer to
(-1, 10), whose x is below 0, and resets the mode.  The release tests the
stored position against the width and the height only: 150 with a width of
100 becomes 50, and -1 is kept. -/
theorem buttonRelease_keeps_negative_offset :
    exFocused.focuswin = some 1 ∧ geometry exFocused 1 = some ⟨0, 0, 100, 100⟩ ∧
    (exFocused.client? 1).map (fun c => c.id) = some 7 ∧
    (buttonPress exFocused ⟨0, 0⟩ 1 7 (some (-1, 10))).map (fun r => (r.1.mode, r.2))
      = some (MCWM_MOVE, ⟨-1, 10⟩) ∧
    ((buttonPress exFocused ⟨0, 0⟩ 1 7 (some (-1, 10))).bind
      (fun r => buttonRelease r.1 r.2)).map (fun s => (s.mode, lastWarp s.out))
      = some (0, some (-1, 10)) ∧
    releaseCoord 150 100 = 50 ∧ releaseCoord (-1) 100 = -1 := by
  decide

theorem prevItem_mem (p : Nat) : ∀ (l : List Item) (a : Item), prevItem p l = some a → a ∈ l
  | [], a, h => by simp [prevItem] at h
  | [_], a, h => by simp [prevItem] at h
  | x :: y :: rest, a, h => by
    unfold prevItem at h
    split_ifs at h with hb
    · simp only [Option.some.injEq] at h
      subst h
      exact List.mem_cons_self _ _
    · exact List.mem_cons_of_mem _ (prevItem_mem p (y :: rest) a h)

theorem nextItem_mem (p : Nat) : ∀ (l : List Item) (a : Item), nextItem p l = some a → a ∈ l
  | [], a, h => by simp [nextItem] at h
  | x :: rest, a, h => by
    unfold nextItem at h
    split_ifs at h with hb
    · exact List.mem_cons_of_mem _ (List.mem_of_mem_head? h)
    · exact List.mem_cons_of_mem _ (nextItem_mem p rest a h)

/-- The choice of `focusnext` is defined when the pointers it follows are
live, and a client it chooses is the one of an entry of the list. -/
theorem focusCandidate_total (s : State) (reverse : Bool) (head : Item) (tail : List Item)
    (hf : ∀ f, s.focuswin = some f → ∃ fc, s.client? f = some fc ∧
      ∀ ip, fc.wsitem s.curws = some ip → ∃ it ∈ head :: tail, it.ptr = ip) :
    ∃ cand, focusCandidate s reverse head tail = some cand ∧
      ∀ p, cand = some p → ∃ it ∈ head :: tail, it.data = p := by
  have hhead : ∃ it ∈ head :: tail, it.data = head.data := ⟨head, List.mem_cons_self _ _, rfl⟩
  have hnone : ∃ cand, some (some head.data) = some cand ∧
      ∀ p, cand = some p → ∃ it ∈ head :: tail, it.data = p := by
    refine ⟨some head.data, rfl, fun p hp => ?_⟩
    simp only [Option.some.injEq] at hp
    subst hp
    exact hhead
  unfold focusCandidate
  cases hfo : s.focuswin with
  | none =>
    simp only [Option.bind_eq_bind, Option.some_bind]
    exact hnone
  | some f =>
    obtain ⟨fc, hfc, hitem⟩ := hf f hfo
    simp only [Option.bind_eq_bind, hfc, Option.map_some', Option.some_bind]
    cases hw : fc.wsitem s.curws with
    | none => exact hnone
    | some item =>
      obtain ⟨it, hit, hptr⟩ := hitem item hw
      have hany : (head :: tail).any (fun it => decide (it.ptr = item)) = true :=
        List.any_eq_true.mpr ⟨it, hit, by simpa using hptr⟩
      simp only [hany, if_true]
      cases reverse with
      | true =>
        simp only [if_true]
        cases hprev : prevItem item (head :: tail) with
        | none =>
          refine ⟨_, rfl, fun p hp => ?_⟩
          split_ifs at hp with hne
          simp only [Option.some.injEq] at hp
          exact ⟨_, List.getLast_mem _, hp⟩
        | some prev =>
          refine ⟨_, rfl, fun p hp => ?_⟩
          simp only [Option.some.injEq] at hp
          exact ⟨prev, prevItem_mem _ _ _ hprev, hp⟩
      | false =>
        simp only [Bool.false_eq_true, if_false]
        cases hnext : nextItem item (head :: tail) with
        | none =>
          refine ⟨_, rfl, fun p hp => ?_⟩
          split_ifs at hp with hne
          simp only [Option.some.injEq] at hp
          subst hp
          exact hhead
        | some next =>
          refine ⟨_, rfl, fun p hp => ?_⟩
          simp only [Option.some.injEq] at hp
          exact ⟨next, nextItem_mem _ _ _ hnext, hp⟩

/-- The function `setfocus` returns when the pointers it follows are live, and
it changes neither the mode nor the last focused window. -/
theorem setfocus_frame (s : State) (p : Nat) (c : Client) (hc : s.client? p = some c)
    (hflive : ∀ f, s.focuswin = some f → (s.client? f).isSome) :
    ∃ s1, setfocus s (some p) = some s1 ∧ s1.mode = s.mode ∧
      s1.lastfocuswin = s.lastfocuswin := by
  by_cases hroot : c.id = s.screen.root ∨ some p = s.focuswin
  · refine ⟨s, ?_, rfl, rfl⟩
    unfold setfocus
    simp only [hc, Option.bind_eq_bind, Option.some_bind, if_pos hroot, Option.pure_def]
  · have hr : c.id ≠ s.screen.root := fun h => hroot (Or.inl h)
    obtain ⟨s1, h1, -, -, -, hm, hl, -⟩ := setfocus_spec s p c hc hr hflive
    exact ⟨s1, h1, hm, hl⟩

/-- C29: starting a focus cycle.  In every state in which the pointers that
`focusnext` follows are live (the focused window and the clients of the
current workspace list are in the registry, and the entry of the focused
window for the current workspace, if it has one, is in that list):
with an empty list of the current workspace `focusnext` returns the state as it
was; with a non-empty list it returns, the mode is then `MCWM_TABBING`, the last
focused window is the window that had the focus before the call if the mode
was not `MCWM_TABBING`, and it is what it was if the mode was `MCWM_TABBING`
already. -/
theorem focusnext_begins (s : State) (reverse : Bool) (hok : s.tabOk) :
    (s.wslist s.curws = [] → focusnext s reverse = some s) ∧
    (s.wslist s.curws ≠ [] →
      ∃ s1, focusnext s reverse = some s1 ∧ s1.mode = MCWM_TABBING ∧
        (s.mode ≠ MCWM_TABBING → s1.lastfocuswin = s.focuswin) ∧
        (s.mode = MCWM_TABBING → s1.lastfocuswin = s.lastfocuswin)) := by
  constructor
  · intro h
    unfold focusnext
    rw [h]
  · intro h
    obtain ⟨hfo, hli⟩ := hok
    cases hl : s.wslist s.curws with
    | nil => exact absurd hl h
    | cons head tail =>
      obtain ⟨bf, bw, bl, bc, bm, -⟩ := beginTabbing_fields s
      have hcl : ∀ q, (beginTabbing s).client? q = s.client? q := by
        intro q; unfold State.client?; rw [bw]
      have hlast : (s.mode ≠ MCWM_TABBING → (beginTabbing s).lastfocuswin = s.focuswin) ∧
          (s.mode = MCWM_TABBING → (beginTabbing s).lastfocuswin = s.lastfocuswin) := by
        unfold beginTabbing
        constructor
        · intro hm
          rw [if_pos (fun e => hm e.symm)]
        · intro hm
          rw [if_neg (fun e => e hm.symm)]
      obtain ⟨cand, hcand, hmem⟩ := focusCandidate_total (beginTabbing s) reverse head tail
        (by
          intro f hf
          rw [bf] at hf
          obtain ⟨fc, hfc, hitem⟩ := hfo f hf
          refine ⟨fc, by rw [hcl]; exact hfc, fun ip hip => ?_⟩
          rw [bc] at hip
          rw [← hl]
          exact hitem ip hip)
      unfold focusnext
      simp only [hl, Option.bind_eq_bind, hcand, Option.some_bind]
      cases cand with
      | none => exact ⟨beginTabbing s, rfl, bm, hlast⟩
      | some p =>
        obtain ⟨it, hit, hdata⟩ := hmem p rfl
        rw [← hl] at hit
        obtain ⟨c, hc⟩ := Option.isSome_iff_exists.mp (hli it hit)
        rw [hdata] at hc
        have hc1 : (beginTabbing s).client? p = some c := by rw [hcl]; exact hc
        obtain ⟨s1, hs1, hm1, hl1⟩ := setfocus_frame
          ((beginTabbing s).send [Request.stackTopIf c.id,
            Request.warpPointer c.id (c.width / 2) (c.height / 2)]) p c hc1
          (by
            intro f hf
            have hf2 : s.focuswin = some f := by rw [← bf]; exact hf
            obtain ⟨fc, hfc, -⟩ := hfo f hf2
            show ((beginTabbing s).client? f).isSome
            rw [hcl, hfc]; rfl)
        refine ⟨s1, ?_, hm1.trans bm, fun hm => hl1.trans (hlast.1 hm),
          fun hm => hl1.trans (hlast.2 hm)⟩
        simp only [hc1, Option.some_bind]
        exact hs1

set_option maxRecDepth 4000 in
theorem focusnext_begins_witness :
    (exThree.wslist exThree.curws = [] → focusnext exThree false = some exThree) ∧
    (exThree.wslist exThree.curws ≠ [] →
      ∃ s1, focusnext exThree false = some s1 ∧ s1.mode = MCWM_TABBING ∧
        (exThree.mode ≠ MCWM_TABBING → s1.lastfocuswin = exThree.focuswin) ∧
        (exThree.mode = MCWM_TABBING → s1.lastfocuswin = exThree.lastfocuswin)) :=
  focusnext_begins exThree false (by decide)

set_option maxRecDepth 4000 in
/-- C30: a configure request for a maximized window.  Window 7 on a root of
1920 x 1080 pixels with border width 1 is maximized by `maximize`: its
geometry is the root rectangle and `maxed` is set.  A configure request for
the window that asks for a stack mode only (value mask 64) makes the window
1918 x 1078 pixels, and so does a request for the size 300 x 200 (value mask
12).  For the window maximized vertically by `maxvert` (height 1078) a request
for the size 300 x 200 changes the width and leaves the height. -/
theorem configurerequest_shrinks_maximized :
    geometry exMaxed 1 = some ⟨0, 0, 1920, 1080⟩ ∧
    (exMaxed.client? 1).map (fun c => (c.id, c.maxed, c.monitor)) = some (7, true, none) ∧
    monrect exMaxed.screen none = ⟨0, 0, 1920, 1080⟩ ∧ exMaxed.conf.borderwidth = 1 ∧
    (configurerequest exMaxed ⟨7, 64, 0, 0, 0, 0, 0, 0, 0⟩).bind (fun s => geometry s 1)
      = some ⟨0, 0, 1918, 1078⟩ ∧
    (configurerequest exMaxed ⟨7, 12, 0, 0, 300, 200, 0, 0, 0⟩).bind (fun s => geometry s 1)
      = some ⟨0, 0, 1918, 1078⟩ ∧
    (configurerequest exMaxed ⟨7, 64, 0, 0, 0, 0, 0, 0, 0⟩).bind
      (fun s => (s.client? 1).map (fun c => c.maxed)) = some true ∧
    geometry exVertmaxed 1 = some ⟨0, 0, 100, 1078⟩ ∧
    (exVertmaxed.client? 1).map (fun c => c.vertmaxed) = some true ∧
    (configurerequest exVertmaxed ⟨7, 12, 0, 0, 300, 200, 0, 0, 0⟩).bind
      (fun s => geometry s 1) = some ⟨0, 0, 300, 1078⟩ := by
  decide

/-! ## Maximizing, and the size arithmetic -/

/-- The function `unmax` puts the saved geometry back. -/
theorem unmax_spec (s : State) (p : Nat) (c : Client) (hc : s.client? p = some c) :
    ∃ s1, unmax s p = some s1 ∧
      s1.client? p = some { c with
        x := c.origsize.x, y := c.origsize.y,
        width := c.origsize.width, height := c.origsize.height } ∧
      (∀ q, q ≠ p → s1.client? q = s.client? q) ∧ s1.conf = s.conf ∧
      s1.screen = s.screen ∧ s1.monlist = s.monlist := by
  have hp : c.ptr = p := client?_ptr hc
  unfold unmax
  simp only [hc, Option.bind_eq_bind, Option.some_bind, Option.pure_def]
  refine ⟨_, rfl, ?_, ?_, rfl, rfl, rfl⟩
  · exact setClient_client? s p c _ hc hp
  · intro q hq
    exact setClient_others s _ q (by show q ≠ c.ptr; rw [hp]; exact hq)

/-- The function `maximize` on a client that is not maximized. -/
theorem maximize_on (s : State) (p : Nat) (c : Client) (mon : Option Monitor)
    (hc : s.client? p = some c) (hmon : s.resolveMonitor c.monitor = some mon)
    (hm : c.maxed = false) :
    ∃ s1, maximize s (some p) = some s1 ∧
      s1.client? p = some { c with
        origsize := ⟨c.x, c.y, c.width, c.height⟩,
        x := (monrect s.screen mon).x, y := (monrect s.screen mon).y,
        width := (monrect s.screen mon).width, height := (monrect s.screen mon).height,
        maxed := true } ∧
      (∀ q, q ≠ p → s1.client? q = s.client? q) ∧ s1.conf = s.conf ∧
      s1.screen = s.screen ∧ s1.monlist = s.monlist := by
  have hp : c.ptr = p := client?_ptr hc
  obtain ⟨rconf, rscreen, rmon, rcl⟩ := raisewindow_env s c.id
  unfold maximize
  simp only [hc, hmon, hm, Option.bind_eq_bind, Option.some_bind, Option.pure_def,
    Bool.false_eq_true, if_false]
  refine ⟨_, rfl, ?_, ?_, rconf, rscreen, rmon⟩
  · exact setClient_client? _ p c _ (by show (raisewindow s c.id).client? p = _; rw [rcl]; exact hc) hp
  · intro q hq
    rw [setClient_others _ _ q (by show q ≠ c.ptr; rw [hp]; exact hq)]
    show (raisewindow s c.id).client? q = _
    rw [rcl]

/-- The function `maximize` on a maximized client. -/
theorem maximize_off (s : State) (p : Nat) (c : Client) (mon : Option Monitor)
    (hc : s.client? p = some c) (hmon : s.resolveMonitor c.monitor = some mon)
    (hm : c.maxed = true) :
    ∃ s1, maximize s (some p) = some s1 ∧
      s1.client? p = some { c with
        x := c.origsize.x, y := c.origsize.y,
        width := c.origsize.width, height := c.origsize.height, maxed := false } ∧
      (∀ q, q ≠ p → s1.client? q = s.client? q) ∧ s1.conf = s.conf ∧
      s1.screen = s.screen ∧ s1.monlist = s.monlist := by
  have hp : c.ptr = p := client?_ptr hc
  obtain ⟨s1, h1, hc1, ho1, e1, e2, e3⟩ := unmax_spec s p c hc
  unfold maximize
  simp only [hc, hmon, hm, Option.bind_eq_bind, Option.some_bind, Option.pure_def, if_true,
    h1, hc1]
  refine ⟨_, rfl, ?_, ?_, e1, e2, e3⟩
  · exact setClient_client? s1 p _ _ hc1 hp
  · intro q hq
    rw [setClient_others _ _ q (by show q ≠ c.ptr; rw [hp]; exact hq)]
    exact ho1 q hq

/-- The function `maxvert` on a client that is not maximized vertically, when
the increment arithmetic is defined. -/
theorem maxvert_on (s : State) (p : Nat) (c : Client) (mon : Option Monitor)
    (hc : s.client? p = some c) (hmon : s.resolveMonitor c.monitor = some mon)
    (hv : c.vertmaxed = false) (hinc : c.height_inc ≠ 0)
    (h32 : isInt32 (toUInt16 ((monrect s.screen mon).height - s.conf.borderwidth * 2)
      - c.base_height)) :
    ∃ s1, maxvert s (some p) = some s1 ∧
      s1.client? p = some { c with
        origsize := ⟨c.x, c.y, c.width, c.height⟩,
        y := (monrect s.screen mon).y,
        height := toUInt16 (toUInt16 ((monrect s.screen mon).height - s.conf.borderwidth * 2)
          - Int.tmod (toUInt16 ((monrect s.screen mon).height - s.conf.borderwidth * 2)
            - c.base_height) c.height_inc),
        vertmaxed := true } ∧
      (∀ q, q ≠ p → s1.client? q = s.client? q) ∧ s1.conf = s.conf ∧
      s1.screen = s.screen ∧ s1.monlist = s.monlist := by
  have hp : c.ptr = p := client?_ptr hc
  obtain ⟨rconf, rscreen, rmon, rcl⟩ := raisewindow_env s c.id
  have hcond : ¬ (c.height_inc = 0 ∨ ¬ isInt32 (toUInt16 ((monrect s.screen mon).height
      - s.conf.borderwidth * 2) - c.base_height)) := by
    rintro (h | h)
    · exact hinc h
    · exact h h32
  unfold maxvert
  simp only [hc, hmon, hv, Option.bind_eq_bind, Option.some_bind, Option.pure_def,
    Bool.false_eq_true, if_false, incHeight, rconf, rscreen, if_neg hcond]
  refine ⟨_, rfl, ?_, ?_, rconf, rscreen, rmon⟩
  · exact setClient_client? _ p c _ (by show (raisewindow s c.id).client? p = _; rw [rcl]; exact hc) hp
  · intro q hq
    rw [setClient_others _ _ q (by show q ≠ c.ptr; rw [hp]; exact hq)]
    show (raisewindow s c.id).client? q = _
    rw [rcl]

/-- The function `maxvert` on a client that is maximized vertically. -/
theorem maxvert_off (s : State) (p : Nat) (c : Client) (mon : Option Monitor)
    (hc : s.client? p = some c) (hmon : s.resolveMonitor c.monitor = some mon)
    (hv : c.vertmaxed = true) :
    ∃ s1, maxvert s (some p) = some s1 ∧
      s1.client? p = some { c with
        x := c.origsize.x, y := c.origsize.y,
        width := c.origsize.width, height := c.origsize.height, vertmaxed := false } ∧
      (∀ q, q ≠ p → s1.client? q = s.client? q) ∧ s1.conf = s.conf ∧
      s1.screen = s.screen ∧ s1.monlist = s.monlist := by
  have hp : c.ptr = p := client?_ptr hc
  obtain ⟨s1, h1, hc1, ho1, e1, e2, e3⟩ := unmax_spec s p c hc
  unfold maxvert
  simp only [hc, hmon, hv, Option.bind_eq_bind, Option.some_bind, Option.pure_def, if_true,
    h1, hc1]
  refine ⟨_, rfl, ?_, ?_, e1, e2, e3⟩
  · exact setClient_client? s1 p _ _ hc1 hp
  · intro q hq
    rw [setClient_others _ _ q (by show q ≠ c.ptr; rw [hp]; exact hq)]
    exact ho1 q hq

theorem incsize_largest (w base inc h : Int) (hinc : 1 ≤ inc) (hd : base ≤ w) (hh : h ≤ w)
    (hmod : (h - base) % inc = 0) : h ≤ w - Int.tmod (w - base) inc := by
  have e : Int.tmod (w - base) inc = (w - base) % inc :=
    Int.tmod_eq_emod (by omega) (by omega)
  rw [e, Int.emod_def]
  obtain ⟨k, hk⟩ := Int.dvd_of_emod_eq_zero hmod
  have hpos : 0 < inc := by omega
  have hle : k * inc ≤ w - base := by
    rw [Int.mul_comm, ← hk]
    omega
  have hkq : k ≤ (w - base) / inc := Int.le_ediv_of_mul_le hpos hle
  have := Int.mul_le_mul_of_nonneg_left hkq (Int.le_of_lt hpos)
  omega

/-- C31: the height after `maxvert`.  Let the client at address `p` be live
and not maximized vertically, with `height_inc` at least 1 and a base height of
at least 0 that is not above mon_height - 2 * borderwidth, the border width
being at least 0 and the governing rectangle (of the monitor of the client, or
of the root window) in the range of its C types and at least 2 * borderwidth
high.  Then `maxvert` returns; y is the top of the rectangle; the height is the
largest value h <= mon_height - 2 * borderwidth with (h - base_height) mod
height_inc = 0; the saved geometry is the geometry before the call; the
client is maximized vertically; and no other field of the client, x and width
in particular, and no other client changes. -/
theorem maxvert_height (s : State) (p : Nat) (c : Client) (mon : Option Monitor)
    (hc : s.client? p = some c) (hmon : s.resolveMonitor c.monitor = some mon)
    (hr : rectOk (monrect s.screen mon)) (hv : c.vertmaxed = false)
    (hinc : 1 ≤ c.height_inc) (hbw : 0 ≤ s.conf.borderwidth)
    (hfit : s.conf.borderwidth * 2 ≤ (monrect s.screen mon).height)
    (hb0 : 0 ≤ c.base_height)
    (hb1 : c.base_height ≤ (monrect s.screen mon).height - s.conf.borderwidth * 2) :
    ∃ s1 c1, maxvert s (some p) = some s1 ∧ s1.client? p = some c1 ∧
      c1.y = (monrect s.screen mon).y ∧
      c1.height ≤ (monrect s.screen mon).height - s.conf.borderwidth * 2 ∧
      (c1.height - c.base_height) % c.height_inc = 0 ∧
      (∀ h, h ≤ (monrect s.screen mon).height - s.conf.borderwidth * 2 →
        (h - c.base_height) % c.height_inc = 0 → h ≤ c1.height) ∧
      c1.x = c.x ∧ c1.width = c.width ∧
      c1.origsize = ⟨c.x, c.y, c.width, c.height⟩ ∧ c1.vertmaxed = true ∧
      c1 = { c with origsize := c1.origsize, y := c1.y, height := c1.height,
                    vertmaxed := c1.vertmaxed } ∧
      (∀ q, q ≠ p → s1.client? q = s.client? q) := by
  have hH : isUInt16 ((monrect s.screen mon).height - s.conf.borderwidth * 2) := by
    have := hr.2.2.2
    unfold isUInt16 at this ⊢
    constructor <;> omega
  have eH : toUInt16 ((monrect s.screen mon).height - s.conf.borderwidth * 2)
      = (monrect s.screen mon).height - s.conf.borderwidth * 2 := toUInt16_of_isUInt16 hH
  obtain ⟨h32, e16, -, hmod⟩ := incsize_spec
    ((monrect s.screen mon).height - s.conf.borderwidth * 2) c.base_height c.height_inc hH hinc
    hb0 (by unfold isUInt16 at hH; omega)
  obtain ⟨s1, h1, hc1, ho1, -⟩ := maxvert_on s p c mon hc hmon hv (by omega)
    (by rw [eH]; exact h32)
  rw [eH, e16] at hc1
  have hb := (tmod_bounds ((monrect s.screen mon).height - s.conf.borderwidth * 2
    - c.base_height) c.height_inc (by omega)).1 (by omega)
  refine ⟨s1, _, h1, hc1, rfl, ?_, hmod, ?_, rfl, rfl, rfl, rfl, rfl, ho1⟩
  · show _ - Int.tmod _ _ ≤ _
    omega
  · intro h hle hm
    exact incsize_largest _ _ _ h hinc hb1 hle hm

set_option maxRecDepth 4000 in
theorem maxvert_height_witness :
    ∃ s1 c1, maxvert exFocused (some 1) = some s1 ∧ s1.client? 1 = some c1 ∧
      c1.y = (monrect exFocused.screen none).y ∧
      c1.height ≤ (monrect exFocused.screen none).height - exFocused.conf.borderwidth * 2 ∧
      (c1.height - ((exFocused.client? 1).get (by decide)).base_height)
        % ((exFocused.client? 1).get (by decide)).height_inc = 0 ∧
      (∀ h, h ≤ (monrect exFocused.screen none).height - exFocused.conf.borderwidth * 2 →
        (h - ((exFocused.client? 1).get (by decide)).base_height)
          % ((exFocused.client? 1).get (by decide)).height_inc = 0 → h ≤ c1.height) ∧
      c1.x = ((exFocused.client? 1).get (by decide)).x ∧
      c1.width = ((exFocused.client? 1).get (by decide)).width ∧
      c1.origsize = ⟨((exFocused.client? 1).get (by decide)).x,
        ((exFocused.client? 1).get (by decide)).y,
        ((exFocused.client? 1).get (by decide)).width,
        ((exFocused.client? 1).get (by decide)).height⟩ ∧ c1.vertmaxed = true ∧
      c1 = { (exFocused.client? 1).get (by decide) with
        origsize := c1.origsize, y := c1.y, height := c1.height,
        vertmaxed := c1.vertmaxed } ∧
      (∀ q, q ≠ 1 → s1.client? q = exFocused.client? q) :=
  maxvert_height exFocused 1 ((exFocused.client? 1).get (by decide)) none
    (Option.some_get _).symm (by decide) (by decide) (by decide) (by decide) (by decide)
    (by decide) (by decide) (by decide)

set_option maxRecDepth 4000 in
/-- C31 (counterexamples).  On a root of 1920 x 1080 with border width 1 (mon_height
- 2 * borderwidth = 1078): with base height 2000 and increment 7 `maxvert`
makes a window 1083 high, above 1078; with base height -100 and increment
2000 the height -100 is stored as 65436.  With border width -1 on a root 65535
high the height 65537 is stored as 1. -/
theorem maxvert_height_counterexample :
    ((exInc 1920 7 2000).client? 1).map
        (fun c => (c.vertmaxed, c.height_inc, c.base_height)) = some (false, 7, 2000) ∧
    (maxvert (exInc 1920 7 2000) (some 1)).bind (fun s => geometry s 1)
      = some ⟨0, 0, 100, 1083⟩ ∧
    ((exInc 1920 2000 (-100)).client? 1).map
        (fun c => (c.vertmaxed, c.height_inc, c.base_height)) = some (false, 2000, -100) ∧
    (maxvert (exInc 1920 2000 (-100)) (some 1)).bind (fun s => geometry s 1)
      = some ⟨0, 0, 100, 65436⟩ ∧
    ((exWidth (-1) (exScreen 1920 65535) 100).client? 1).map
        (fun c => (c.vertmaxed, c.height_inc, c.base_height)) = some (false, 1, 0) ∧
    (maxvert (exWidth (-1) (exScreen 1920 65535) 100) (some 1)).bind (fun s => geometry s 1)
      = some ⟨0, 0, 100, 1⟩ := by
  decide

set_option maxRecDepth 4000 in
/-- C32: shrinking a window that is smaller than the step.  Window 7 is 20 x 20
pixels, not maximized, without size hints, on a root of 1920 x 1080 with border
width 1.  With `MOVE_STEP` 32, `resizestep` in direction `h` makes it 1918 wide
and in direction `k` 1078 high: 20 - 32 is stored as 65524 in the `uint16_t`
field and `resizelim` then limits it to the root. -/
theorem resizestep_shrink_grows :
    geometry exSmall 1 = some ⟨0, 0, 20, 20⟩ ∧
    (exSmall.client? 1).map (fun c => (c.maxed, c.width_inc, c.height_inc))
      = some (false, 1, 1) ∧
    toUInt16 (20 - 32) = 65524 ∧
    (resizestep 32 exSmall (some 1) 'h').bind (fun s => geometry s 1)
      = some ⟨0, 0, 1918, 20⟩ ∧
    (resizestep 32 exSmall (some 1) 'k').bind (fun s => geometry s 1)
      = some ⟨0, 0, 20, 1078⟩ := by
  decide

set_option maxRecDepth 4000 in
/-- C33: a resize increment of 0.  `setupwin` copies the increments of the size
hints as they are: for a window whose hints have the flag for resize increments
and the increments 0 and 0, the client of `newwin` has `width_inc` and
`height_inc` 0.  For this client the statement `client->width -= (client->width
- client->base_width) % client->width_inc` of `mouseresize` and the one for the
height in `maxvert` divide by 0, so that neither function has a defined
result. -/
theorem setupwin_zero_increment :
    (∀ (hints : Hints) (c : Client),
      (hintResizeInc { hints with p_resize_inc := true } c).width_inc = hints.width_inc ∧
      (hintResizeInc { hints with p_resize_inc := true } c).height_inc = hints.height_inc) ∧
    ((exInc 1920 0 0).client? 1).map (fun c => (c.width_inc, c.height_inc)) = some (0, 0) ∧
    ((exInc 1920 0 0).client? 1).map (fun c => ((incWidth c).isNone, (incHeight c).isNone))
      = some (true, true) ∧
    (mouseresize (exInc 1920 0 0) 1 50 50).isNone = true ∧
    (maxvert (exInc 1920 0 0) (some 1)).isNone = true := by
  refine ⟨fun _ _ => ⟨rfl, rfl⟩, by decide, by decide, by decide, by decide⟩

/-! ## Focus references, the workspace index, and leaving the tabbing mode -/

set_option maxRecDepth 4000 in
/-- C34: `finishtabbing` after the focused window is gone.  In the tabbing mode
with the focus on window 8 (client at address 3) and the last focus on window 7,
a destroy notification for window 8, and likewise an unmap notification, sets
`focuswin` to `NULL` and leaves the mode.  The release of the modifier key (key
code 64) and the next-workspace key then run `finishtabbing`, which dereferences
`focuswin`: the step has no defined result. -/
theorem finishtabbing_without_focus :
    (exTabbing.focuswin, exTabbing.lastfocuswin, exTabbing.mode) = (some 3, some 1, 4) ∧
    (exTabbing.client? 3).map (fun c => c.id) = some 8 ∧
    (run exTabbing [Event.destroyNotify 8]).map
      (fun s => (s.focuswin, s.lastfocuswin, s.mode)) = some (none, some 1, 4) ∧
    ((run exTabbing [Event.destroyNotify 8]).bind finishtabbing).isNone = true ∧
    (run exTabbing [Event.destroyNotify 8, Event.keyRelease 64]).isNone = true ∧
    (run exTabbing [Event.destroyNotify 8, Event.keyPress Key.KEY_NEXTWS false]).isNone
      = true ∧
    (run exTabbing [Event.unmapNotify 8]).map
      (fun s => (s.focuswin, s.lastfocuswin, s.mode)) = some (none, some 1, 4) ∧
    (run exTabbing [Event.unmapNotify 8, Event.keyRelease 64]).isNone = true := by
  decide

set_option maxRecDepth 4000 in
/-- C35: the last focused window after an unmap notification.  In the tabbing
mode with the focus on window 8 and the last focus on window 7 (client at
address 1), an unmap notification for window 7 takes the client out of the
registry and leaves `lastfocuswin` pointing to it; a destroy notification for
window 7 sets `lastfocuswin` to `NULL`.  After the unmap notification the
release of the modifier key runs `finishtabbing`, which dereferences
`lastfocuswin`. -/
theorem unmap_leaves_lastfocuswin :
    (exTabbing.focuswin, exTabbing.lastfocuswin, exTabbing.mode) = (some 3, some 1, 4) ∧
    (exTabbing.client? 1).map (fun c => c.id) = some 7 ∧
    (run exTabbing [Event.unmapNotify 7]).map
      (fun s => (s.focuswin, s.lastfocuswin, (s.client? 1).isNone,
        s.winlist.map (fun c => c.id))) = some (some 3, some 1, true, [8, 9]) ∧
    (run exTabbing [Event.destroyNotify 7]).map
      (fun s => (s.focuswin, s.lastfocuswin, (s.client? 1).isNone,
        s.winlist.map (fun c => c.id))) = some (some 3, none, true, [8, 9]) ∧
    (run exTabbing [Event.unmapNotify 7, Event.keyRelease 64]).isNone = true ∧
    (run exTabbing [Event.destroyNotify 7, Event.keyRelease 64]).map
      (fun s => (s.focuswin, s.lastfocuswin, s.mode)) = some (some 3, none, 0) := by
  decide

theorem movetohead_subset (l : List Item) (x : Option Nat) :
    ∀ it ∈ movetohead l x, it ∈ l := by
  intro it hit
  unfold movetohead at hit
  cases x with
  | none => exact hit
  | some p =>
    simp only at hit
    cases hf : l.find? (fun it => it.ptr = p) with
    | none =>
      rw [hf] at hit
      exact hit
    | some jt =>
      rw [hf] at hit
      rcases List.mem_cons.mp hit with h | h
      · rw [h]
        exact List.mem_of_find?_eq_some hf
      · exact (List.mem_filter.mp h).1

/-- The first statement of `changeworkspace` returns when the focused window
is live; it changes the focus at most. -/
theorem loseFocus_total (s : State)
    (hfocus : ∀ f, s.focuswin = some f → (s.client? f).isSome) :
    ∃ s0, loseFocus s = some s0 ∧ s0.curws = s.curws ∧ s0.winlist = s.winlist ∧
      s0.wslist = s.wslist ∧ s0.mode = s.mode ∧ s0.lastfocuswin = s.lastfocuswin ∧
      (s0.focuswin = s.focuswin ∨ s0.focuswin = none) := by
  unfold loseFocus
  cases hf : s.focuswin with
  | none => exact ⟨s, rfl, rfl, rfl, rfl, rfl, rfl, Or.inl hf⟩
  | some f =>
    obtain ⟨fc, hfc⟩ := Option.isSome_iff_exists.mp (hfocus f hf)
    obtain ⟨s1, h1, -, e2, e3, e4, e5, e6⟩ := setunfocus_spec s fc.id hfocus
    simp only [hfc, Option.bind_eq_bind, Option.some_bind, Option.pure_def]
    cases hfx : fc.fixed with
    | true => exact ⟨s, by simp, rfl, rfl, rfl, rfl, rfl, Or.inl hf⟩
    | false =>
      refine ⟨{ s1 with focuswin := none }, ?_, e3, e6, e2, e4, e5, Or.inr rfl⟩
      simp only [Bool.not_false, if_true, h1, Option.some_bind]

/-- The function `changeworkspace` returns when the pointers it follows are
live, and the current workspace is then the one asked for. -/
theorem changeworkspace_total (s : State) (ws : Nat)
    (hcur : ∀ it ∈ s.wslist s.curws, (s.client? it.data).isSome)
    (hnew : ∀ it ∈ s.wslist ws, (s.client? it.data).isSome)
    (hfocus : ∀ f, s.focuswin = some f → (s.client? f).isSome) :
    ∃ s1, changeworkspace s ws = some s1 ∧ s1.curws = ws ∧ s1.winlist = s.winlist ∧
      s1.wslist = s.wslist ∧ s1.mode = s.mode ∧ s1.lastfocuswin = s.lastfocuswin ∧
      (s1.focuswin = s.focuswin ∨ s1.focuswin = none) := by
  by_cases h : ws = s.curws
  · refine ⟨s, ?_, h.symm, rfl, rfl, rfl, rfl, Or.inl rfl⟩
    unfold changeworkspace
    rw [if_pos h]
  · obtain ⟨s0, h0, e1, e2, e3, e4, e5, e6⟩ := loseFocus_total s hfocus
    refine ⟨{ s0.send ((nonFixedIds s (s.wslist s.curws)).map Request.unmapWindow
      ++ (nonFixedIds s (s.wslist ws)).map Request.mapWindow ++ [Request.flush]) with
      curws := ws }, ?_, rfl, e2, e3, e4, e5, e6⟩
    unfold changeworkspace
    rw [if_neg h]
    simp only [h0, Option.bind_eq_bind, Option.some_bind]
    rw [e1, e3, wsRequests_eq s s0 _ e2 _ hcur, wsRequests_eq s s0 _ e2 _ hnew]
    simp only [Option.some_bind, Option.pure_def]

/-- The function `finishtabbing` returns when there is a focused window and it
and the last focused window are live; the workspace lists keep their
entries. -/
theorem finishtabbing_total (s : State) (f : Nat) (hf : s.focuswin = some f)
    (hflive : (s.client? f).isSome)
    (hl : ∀ l, s.lastfocuswin = some l → (s.client? l).isSome) :
    ∃ t, finishtabbing s = some t ∧ t.mode = 0 ∧ t.curws = s.curws ∧
      t.winlist = s.winlist ∧ t.focuswin = s.focuswin ∧ t.lastfocuswin = none ∧
      (∀ ws, ∀ it ∈ t.wslist ws, it ∈ s.wslist ws) := by
  obtain ⟨fc, hfc⟩ := Option.isSome_iff_exists.mp hflive
  have hupd : ∀ (w : Nat → List Item) (k : Nat) (x : Option Nat),
      (∀ ws, ∀ it ∈ w ws, it ∈ s.wslist ws) → s.curws = k →
      ∀ ws, ∀ it ∈ upd w k (movetohead (w k) x) ws, it ∈ s.wslist ws := by
    intro w k x hw hk ws it hit
    unfold upd at hit
    by_cases hws : ws = k
    · rw [if_pos hws] at hit
      rw [hws]
      exact hw k it (movetohead_subset _ _ it hit)
    · rw [if_neg hws] at hit
      exact hw ws it hit
  unfold finishtabbing
  cases hlo : s.lastfocuswin with
  | none =>
    simp only [State.client?] at hfc
    simp only [Option.bind_eq_bind, Option.some_bind, hlo, hf, Option.pure_def,
      State.client?, hfc]
    exact ⟨_, rfl, rfl, rfl, rfl, rfl, rfl, hupd s.wslist s.curws _ (fun _ _ h => h) rfl⟩
  | some l =>
    obtain ⟨lc, hlc⟩ := Option.isSome_iff_exists.mp (hl l hlo)
    simp only [State.client?] at hfc hlc
    simp only [Option.bind_eq_bind, Option.some_bind, hlo, hf, Option.pure_def,
      State.client?, hlc, hfc]
    refine ⟨_, rfl, rfl, rfl, rfl, rfl, rfl, ?_⟩
    exact hupd _ s.curws _ (hupd s.wslist s.curws _ (fun _ _ h => h) rfl) rfl

theorem setunfocus_curws (s : State) (win : Nat) (t : State)
    (h : setunfocus s win = some t) : t.curws = s.curws := by
  unfold setunfocus at h
  cases hf : s.focuswin with
  | none =>
    rw [hf] at h
    simp only [Option.some.injEq] at h
    rw [← h]
  | some f =>
    rw [hf] at h
    simp only [Option.bind_eq_bind, Option.bind_eq_some, Option.pure_def] at h
    obtain ⟨fc, -, h2⟩ := h
    split_ifs at h2 <;> simp only [Option.some.injEq] at h2 <;> rw [← h2]
    rfl

theorem setfocus_curws (s : State) (client : Option Nat) (t : State)
    (h : setfocus s client = some t) : t.curws = s.curws := by
  have key : ∀ u : State, u.curws = s.curws → ∀ v, (match u.focuswin with
      | none => some u
      | some f => do
        let fc ← u.client? f
        setunfocus u fc.id) = some v → v.curws = s.curws := by
    intro u hu v hv
    cases hfo : u.focuswin with
    | none =>
      rw [hfo] at hv
      simp only [Option.some.injEq] at hv
      rw [← hv]
      exact hu
    | some f =>
      rw [hfo] at hv
      simp only [Option.bind_eq_bind, Option.bind_eq_some] at hv
      obtain ⟨fc, -, hv2⟩ := hv
      rw [setunfocus_curws u fc.id v hv2]
      exact hu
  unfold setfocus at h
  cases client with
  | none =>
    simp only [Option.some.injEq] at h
    rw [← h]
    rfl
  | some p =>
    simp only [Option.bind_eq_bind, Option.bind_eq_some, Option.pure_def] at h
    obtain ⟨c, -, h2⟩ := h
    by_cases hroot : c.id = s.screen.root ∨ some p = s.focuswin
    · rw [if_pos hroot] at h2
      simp only [Option.some.injEq] at h2
      rw [← h2]
    · rw [if_neg hroot] at h2
      simp only [Option.bind_eq_some, Option.some.injEq] at h2
      obtain ⟨s2, h3, h4⟩ := h2
      rw [← h4]
      show s2.curws = s.curws
      exact key (s.send [Request.borderPixel c.id (if c.fixed then s.conf.fixedcol
        else s.conf.focuscol)]) rfl s2 h3

theorem finishtabbing_curws (s t : State) (h : finishtabbing s = some t) :
    t.curws = s.curws := by
  unfold finishtabbing at h
  simp only [Option.bind_eq_bind, Option.bind_eq_some, Option.pure_def,
    Option.some.injEq] at h
  obtain ⟨u, hu, f, -, fc, -, ht⟩ := h
  rw [← ht]
  show u.curws = s.curws
  cases hl : s.lastfocuswin with
  | none =>
    rw [hl] at hu
    simp only [Option.some.injEq] at hu
    rw [← hu]
  | some l =>
    rw [hl] at hu
    simp only [Option.bind_eq_some, Option.some.injEq] at hu
    obtain ⟨lc, -, hu2⟩ := hu
    rw [← hu2]

theorem focusnext_curws (s : State) (reverse : Bool) (t : State)
    (h : focusnext s reverse = some t) : t.curws = s.curws := by
  have hb : (beginTabbing s).curws = s.curws := (beginTabbing_fields s).2.2.2.1
  unfold focusnext at h
  cases hl : s.wslist s.curws with
  | nil =>
    rw [hl] at h
    simp only [Option.some.injEq] at h
    rw [← h]
  | cons head tail =>
    rw [hl] at h
    simp only [Option.bind_eq_bind, Option.bind_eq_some, Option.pure_def] at h
    obtain ⟨cand, -, h2⟩ := h
    cases cand with
    | none =>
      simp only [Option.some.injEq] at h2
      rw [← h2]
      exact hb
    | some p =>
      simp only [Option.bind_eq_some] at h2
      obtain ⟨c, -, h3⟩ := h2
      rw [setfocus_curws _ _ t h3]
      exact hb

theorem wsloop_curws (body : State → Nat → Option State)
    (hbody : ∀ s ws t, body s ws = some t → t.curws = s.curws) :
    ∀ (wss : List Nat) (s t : State), wsloop body s wss = some t → t.curws = s.curws := by
  intro wss
  induction wss with
  | nil =>
    intro s t h
    unfold wsloop at h
    simp only [Option.some.injEq] at h
    rw [← h]
  | cons ws rest ih =>
    intro s t h
    unfold wsloop at h
    simp only [Option.bind_eq_some] at h
    obtain ⟨u, hu, ht⟩ := h
    rw [ih u t ht, hbody s ws u hu]

theorem addtoworkspace_curws (s : State) (p ws : Nat) (t : State)
    (h : addtoworkspace s p ws = some t) : t.curws = s.curws := by
  cases hc : s.client? p with
  | none =>
    unfold addtoworkspace at h
    simp [hc] at h
  | some c =>
    obtain ⟨s1, h1, -, -, -, henv⟩ := addtoworkspace_spec ws hc
    rw [h1] at h
    simp only [Option.some.injEq] at h
    rw [← h]
    exact henv.2.2.2.1

theorem delfromworkspace_curws (s : State) (p ws : Nat) (t : State)
    (h : delfromworkspace s p ws = some t) : t.curws = s.curws := by
  cases hc : s.client? p with
  | none =>
    unfold delfromworkspace at h
    simp [hc] at h
  | some c =>
    obtain ⟨s1, h1, -, -, -, -, henv⟩ := delfromworkspace_spec ws hc
    rw [h1] at h
    simp only [Option.some.injEq] at h
    rw [← h]
    exact henv.2.2.2.1

theorem fixwindow_curws (s : State) (client : Option Nat) (setcolour : Bool) (t : State)
    (h : fixwindow s client setcolour = some t) : t.curws = s.curws := by
  have hdel : ∀ (p : Nat) (s : State) (ws : Nat) (t : State),
      (if ws ≠ s.curws then delfromworkspace s p ws else some s) = some t →
      t.curws = s.curws := by
    intro p s ws t hb
    split_ifs at hb
    · exact delfromworkspace_curws s p ws t hb
    · simp only [Option.some.injEq] at hb
      rw [← hb]
  have hadd : ∀ (p : Nat) (s : State) (ws : Nat) (t : State),
      (if ws ≠ s.curws then addtoworkspace s p ws else some s) = some t →
      t.curws = s.curws := by
    intro p s ws t hb
    split_ifs at hb
    · exact addtoworkspace_curws s p ws t hb
    · simp only [Option.some.injEq] at hb
      rw [← hb]
  unfold fixwindow at h
  cases client with
  | none =>
    simp only [Option.some.injEq] at h
    rw [← h]
  | some p =>
    simp only [Option.bind_eq_bind, Option.bind_eq_some, Option.pure_def] at h
    obtain ⟨c, -, h2⟩ := h
    have hr : (raisewindow s c.id).curws = s.curws := (raisewindow_lists s c.id).2.2
    cases hfx : c.fixed with
    | true =>
      simp only [hfx, if_true, Option.bind_eq_some, Option.some.injEq] at h2
      obtain ⟨u, hu, ht⟩ := h2
      rw [← ht]
      show u.curws = s.curws
      rw [wsloop_curws _ (hdel p) _ _ u hu]
      cases setcolour <;> rfl
    | false =>
      simp only [hfx, Bool.false_eq_true, if_false, Option.bind_eq_some,
        Option.some.injEq] at h2
      obtain ⟨u, hu, ht⟩ := h2
      rw [← ht]
      have hu2 : u.curws = s.curws := by
        rw [wsloop_curws _ (hadd p) _ _ u hu]
        exact hr
      cases setcolour <;> exact hu2

theorem changeworkspace_curws (s : State) (ws : Nat) (t : State)
    (h : changeworkspace s ws = some t) : t.curws = ws := by
  unfold changeworkspace at h
  split_ifs at h with hws
  · simp only [Option.some.injEq] at h
    rw [← h, hws]
  · simp only [Option.bind_eq_bind, Option.bind_eq_some, Option.pure_def,
      Option.some.injEq] at h
    obtain ⟨s0, -, unmaps, -, maps, -, ht⟩ := h
    rw [← ht]

/-- A key press that returns leaves the current workspace index below
`WORKSPACES`. -/
theorem handle_keypress_curws (s : State) (key : Key) (shift : Bool) (t : State)
    (hcur : s.curws < WORKSPACES) (hkey : ∀ n, key = Key.KEY_WS n → n < WORKSPACES)
    (h : handle_keypress s key shift = some t) : t.curws < WORKSPACES := by
  unfold handle_keypress at h
  simp only [Option.bind_eq_bind, Option.bind_eq_some] at h
  obtain ⟨u, hu, h2⟩ := h
  have hucur : u.curws = s.curws := by
    split_ifs at hu
    · exact finishtabbing_curws s u hu
    · simp only [Option.some.injEq] at hu
      rw [← hu]
  have hub : u.curws < WORKSPACES := by rw [hucur]; exact hcur
  cases shift with
  | true =>
    simp only [if_true] at h2
    cases key <;> simp only [Option.pure_def, Option.some.injEq] at h2
    case KEY_TAB => rw [focusnext_curws u true t h2]; exact hub
    all_goals (rw [← h2]; exact hub)
  | false =>
    simp only [Bool.false_eq_true, if_false] at h2
    cases key with
    | KEY_F => rw [fixwindow_curws u _ _ t h2]; exact hub
    | KEY_TAB => rw [focusnext_curws u false t h2]; exact hub
    | KEY_BACKTAB => rw [focusnext_curws u true t h2]; exact hub
    | KEY_WS n => rw [changeworkspace_curws u n t h2]; exact hkey n rfl
    | KEY_PREVWS =>
      simp only at h2
      split_ifs at h2
      · rw [changeworkspace_curws u _ t h2]; omega
      · rw [changeworkspace_curws u _ t h2]; unfold WORKSPACES; omega
    | KEY_NEXTWS =>
      rw [changeworkspace_curws u _ t h2]
      exact Nat.mod_lt _ (by unfold WORKSPACES; omega)

/-- The statements that the workspace keys share: `finishtabbing` in the
tabbing mode, then `changeworkspace`.  With live pointers both return, the
current workspace is the one asked for, and the pointers are live still. -/
theorem keypress_changeworkspace (s : State) (hok : s.wsOk) (hcur : s.curws < WORKSPACES)
    (ws : Nat) (hws : ws < WORKSPACES) :
    ∃ u s1, (if MCWM_TABBING = s.mode then finishtabbing s else some s) = some u ∧
      u.curws = s.curws ∧ changeworkspace u ws = some s1 ∧ s1.curws = ws ∧ s1.wsOk := by
  obtain ⟨ok1, ok2, ok3, ok4⟩ := hok
  have hcl : ∀ (t : State) (q : Nat), t.winlist = s.winlist → t.client? q = s.client? q := by
    intro t q ht
    unfold State.client?
    rw [ht]
  -- the state before `changeworkspace`
  have hu : ∃ u, (if MCWM_TABBING = s.mode then finishtabbing s else some s) = some u ∧
      u.curws = s.curws ∧ u.winlist = s.winlist ∧ u.focuswin = s.focuswin ∧
      (u.lastfocuswin = s.lastfocuswin ∨ u.lastfocuswin = none) ∧
      (∀ k, ∀ it ∈ u.wslist k, it ∈ s.wslist k) ∧ MCWM_TABBING ≠ u.mode := by
    by_cases hm : MCWM_TABBING = s.mode
    · rw [if_pos hm]
      obtain ⟨f, hf⟩ := Option.isSome_iff_exists.mp (ok4 hm)
      obtain ⟨t, h1, e1, e2, e3, e4, e5, e6⟩ := finishtabbing_total s f hf (ok1 f hf)
        (fun l hl => ok2 l hl)
      exact ⟨t, h1, e2, e3, e4, Or.inr e5, e6, by rw [e1]; decide⟩
    · rw [if_neg hm]
      exact ⟨s, rfl, rfl, rfl, rfl, Or.inl rfl, fun _ _ h => h, hm⟩
  obtain ⟨u, h1, e1, e2, e3, e4, e5, e6⟩ := hu
  have hlist : ∀ k, k < WORKSPACES → ∀ it ∈ u.wslist k, (u.client? it.data).isSome := by
    intro k hk it hit
    rw [hcl u _ e2]
    exact ok3 k hk it (e5 k it hit)
  have hfoc : ∀ f, u.focuswin = some f → (u.client? f).isSome := by
    intro f hf
    rw [hcl u _ e2]
    exact ok1 f (by rw [← e3]; exact hf)
  obtain ⟨s1, h2, c1, c2, c3, c4, c5, c6⟩ := changeworkspace_total u ws
    (hlist u.curws (by rw [e1]; exact hcur)) (hlist ws hws) hfoc
  refine ⟨u, s1, h1, e1, h2, c1, ?_, ?_, ?_, ?_⟩
  · intro f hf
    rw [hcl s1 f (c2.trans e2)]
    rcases c6 with h | h
    · exact ok1 f (by rw [← e3, ← h]; exact hf)
    · rw [h] at hf
      cases hf
  · intro l hl
    rw [hcl s1 l (c2.trans e2)]
    rcases e4 with h | h
    · exact ok2 l (by rw [← h, ← c5]; exact hl)
    · rw [c5, h] at hl
      cases hl
  · intro k hk it hit
    rw [hcl s1 _ (c2.trans e2)]
    rw [c3] at hit
    exact ok3 k hk it (e5 k it hit)
  · intro hm
    rw [c4] at hm
    exact absurd hm e6

/-- The next-workspace key with live pointers. -/
theorem keypress_nextws (s : State) (hok : s.wsOk) (hcur : s.curws < WORKSPACES) :
    ∃ s1, handle_keypress s Key.KEY_NEXTWS false = some s1 ∧
      s1.curws = (s.curws + 1) % WORKSPACES ∧ s1.wsOk := by
  obtain ⟨u, s1, h1, e1, h2, c1, ok⟩ := keypress_changeworkspace s hok hcur
    ((s.curws + 1) % WORKSPACES) (Nat.mod_lt _ (by unfold WORKSPACES; omega))
  refine ⟨s1, ?_, c1, ok⟩
  unfold handle_keypress
  have hc : (MCWM_TABBING = s.mode ∧ Key.KEY_NEXTWS ≠ Key.KEY_TAB ∧
      Key.KEY_NEXTWS ≠ Key.KEY_BACKTAB) ↔ MCWM_TABBING = s.mode := by
    constructor
    · exact fun h => h.1
    · exact fun h => ⟨h, by decide, by decide⟩
  simp only [hc, h1, Option.bind_eq_bind, Option.some_bind, Bool.false_eq_true, if_false, e1]
  exact h2

/-- The previous-workspace key with live pointers. -/
theorem keypress_prevws (s : State) (hok : s.wsOk) (hcur : s.curws < WORKSPACES) :
    ∃ s1, handle_keypress s Key.KEY_PREVWS false = some s1 ∧
      s1.curws = (s.curws + WORKSPACES - 1) % WORKSPACES ∧ s1.wsOk := by
  have htarget : (if s.curws > 0 then s.curws - 1 else WORKSPACES - 1)
      = (s.curws + WORKSPACES - 1) % WORKSPACES := by
    unfold WORKSPACES at hcur ⊢
    split_ifs <;> omega
  obtain ⟨u, s1, h1, e1, h2, c1, ok⟩ := keypress_changeworkspace s hok hcur
    ((s.curws + WORKSPACES - 1) % WORKSPACES) (Nat.mod_lt _ (by unfold WORKSPACES; omega))
  refine ⟨s1, ?_, c1, ok⟩
  unfold handle_keypress
  have hc : (MCWM_TABBING = s.mode ∧ Key.KEY_PREVWS ≠ Key.KEY_TAB ∧
      Key.KEY_PREVWS ≠ Key.KEY_BACKTAB) ↔ MCWM_TABBING = s.mode := by
    constructor
    · exact fun h => h.1
    · exact fun h => ⟨h, by decide, by decide⟩
  simp only [hc, h1, Option.bind_eq_bind, Option.some_bind, Bool.false_eq_true, if_false, e1]
  by_cases hpos : s.curws > 0
  · rw [if_pos hpos] at htarget
    rw [if_pos hpos, htarget]
    exact h2
  · rw [if_neg hpos] at htarget
    rw [if_neg hpos, htarget]
    exact h2

/-- Key presses one after the other leave the current workspace index below
`WORKSPACES`. -/
theorem run_keys_curws (keys : List (Key × Bool))
    (hkeys : ∀ k ∈ keys, ∀ n, k.1 = Key.KEY_WS n → n < WORKSPACES) :
    ∀ s t : State, s.curws < WORKSPACES →
      run s (keys.map (fun k => Event.keyPress k.1 k.2)) = some t → t.curws < WORKSPACES := by
  induction keys with
  | nil =>
    intro s t hs h
    simp only [List.map_nil, run, Option.some.injEq] at h
    rw [← h]
    exact hs
  | cons k rest ih =>
    intro s t hs h
    rw [List.map_cons] at h
    unfold run at h
    simp only [Option.bind_eq_some] at h
    obtain ⟨u, hu, ht⟩ := h
    exact ih (fun j hj => hkeys j (List.mem_cons_of_mem k hj)) u t
      (handle_keypress_curws s k.1 k.2 u hs (hkeys k (List.mem_cons_self k rest)) hu) ht

/-- C36: the current workspace index.  In a state with the index below 10 in
which the pointers that a workspace key follows are live: the next-workspace
key returns with the index (i + 1) mod 10, and the previous-workspace key
pressed then returns with the index i again; the previous-workspace key
returns with the index (i + 9) mod 10 (9 for i = 0), and the next-workspace key
pressed then returns with the index i again.  And whatever the pointers are:
after every sequence of key presses (of the keys for fixing, tabbing and the
workspaces, shifted or not) that returns, the index is below 10. -/
theorem workspace_stepping (s : State) (hcur : s.curws < WORKSPACES) (hok : s.wsOk) :
    (∃ s1 s2, handle_keypress s Key.KEY_NEXTWS false = some s1 ∧
      s1.curws = (s.curws + 1) % WORKSPACES ∧
      handle_keypress s1 Key.KEY_PREVWS false = some s2 ∧ s2.curws = s.curws) ∧
    (∃ s1 s2, handle_keypress s Key.KEY_PREVWS false = some s1 ∧
      s1.curws = (s.curws + WORKSPACES - 1) % WORKSPACES ∧
      handle_keypress s1 Key.KEY_NEXTWS false = some s2 ∧ s2.curws = s.curws) ∧
    (∀ keys : List (Key × Bool),
      (∀ k ∈ keys, ∀ n, k.1 = Key.KEY_WS n → n < WORKSPACES) →
      ∀ t, run s (keys.map (fun k => Event.keyPress k.1 k.2)) = some t →
        t.curws < WORKSPACES) := by
  refine ⟨?_, ?_, fun keys hkeys t h => run_keys_curws keys hkeys s t hcur h⟩
  · obtain ⟨s1, h1, c1, ok1⟩ := keypress_nextws s hok hcur
    obtain ⟨s2, h2, c2, -⟩ := keypress_prevws s1 ok1
      (by rw [c1]; exact Nat.mod_lt _ (by unfold WORKSPACES; omega))
    refine ⟨s1, s2, h1, c1, h2, ?_⟩
    rw [c2, c1]
    unfold WORKSPACES at hcur ⊢
    omega
  · obtain ⟨s1, h1, c1, ok1⟩ := keypress_prevws s hok hcur
    obtain ⟨s2, h2, c2, -⟩ := keypress_nextws s1 ok1
      (by rw [c1]; exact Nat.mod_lt _ (by unfold WORKSPACES; omega))
    refine ⟨s1, s2, h1, c1, h2, ?_⟩
    rw [c2, c1]
    unfold WORKSPACES at hcur ⊢
    omega

set_option maxRecDepth 8000 in
theorem workspace_stepping_witness :
    (∃ s1 s2, handle_keypress exTabbing Key.KEY_NEXTWS false = some s1 ∧
      s1.curws = (exTabbing.curws + 1) % WORKSPACES ∧
      handle_keypress s1 Key.KEY_PREVWS false = some s2 ∧ s2.curws = exTabbing.curws) ∧
    (∃ s1 s2, handle_keypress exTabbing Key.KEY_PREVWS false = some s1 ∧
      s1.curws = (exTabbing.curws + WORKSPACES - 1) % WORKSPACES ∧
      handle_keypress s1 Key.KEY_NEXTWS false = some s2 ∧ s2.curws = exTabbing.curws) ∧
    (∀ keys : List (Key × Bool),
      (∀ k ∈ keys, ∀ n, k.1 = Key.KEY_WS n → n < WORKSPACES) →
      ∀ t, run exTabbing (keys.map (fun k => Event.keyPress k.1 k.2)) = some t →
        t.curws < WORKSPACES) :=
  workspace_stepping exTabbing (by decide) (by decide)

/-- Toggling `maximize` and `maxvert`.  Let the client at address `p` be
live with a valid monitor pointer and neither maximized nor maximized
vertically.  `maximize` returns and makes the geometry of the client the
governing rectangle, with `maxed` set; a second `maximize` returns and
restores the x, y, width and height from before the first, with `maxed`
cleared.  When the increment arithmetic of `maxvert` is defined (`height_inc`
not 0, no overflow of `int`), `maxvert` returns and sets `vertmaxed`, and a
second `maxvert` restores the x, y, width and height from before the first and
clears `vertmaxed`; and the sequence `maxvert`, `maximize`, `maximize`,
`maxvert` returns and ends with both flags cleared and with the x, y, width
and height that the first `maxvert` has set. -/
theorem maximize_round_trip (s : State) (p : Nat) (c : Client) (mon : Option Monitor)
    (hc : s.client? p = some c) (hmon : s.resolveMonitor c.monitor = some mon)
    (hm : c.maxed = false) (hv : c.vertmaxed = false) :
    (∃ s1 c1 s2 c2, maximize s (some p) = some s1 ∧ s1.client? p = some c1 ∧
      c1.x = (monrect s.screen mon).x ∧ c1.y = (monrect s.screen mon).y ∧
      c1.width = (monrect s.screen mon).width ∧ c1.height = (monrect s.screen mon).height ∧
      c1.maxed = true ∧
      maximize s1 (some p) = some s2 ∧ s2.client? p = some c2 ∧
      c2.x = c.x ∧ c2.y = c.y ∧ c2.width = c.width ∧ c2.height = c.height ∧
      c2.maxed = false) ∧
    (c.height_inc ≠ 0 →
      isInt32 (toUInt16 ((monrect s.screen mon).height - s.conf.borderwidth * 2)
        - c.base_height) →
      (∃ s1 c1 s2 c2, maxvert s (some p) = some s1 ∧ s1.client? p = some c1 ∧
        c1.vertmaxed = true ∧
        maxvert s1 (some p) = some s2 ∧ s2.client? p = some c2 ∧
        c2.x = c.x ∧ c2.y = c.y ∧ c2.width = c.width ∧ c2.height = c.height ∧
        c2.vertmaxed = false) ∧
      (∃ s1 c1 s2 s3 s4 c4, maxvert s (some p) = some s1 ∧ s1.client? p = some c1 ∧
        maximize s1 (some p) = some s2 ∧ maximize s2 (some p) = some s3 ∧
        maxvert s3 (some p) = some s4 ∧ s4.client? p = some c4 ∧
        c4.x = c1.x ∧ c4.y = c1.y ∧ c4.width = c1.width ∧ c4.height = c1.height ∧
        c4.maxed = false ∧ c4.vertmaxed = false)) := by
  constructor
  · obtain ⟨s1, h1, hc1, -, -, -, e1⟩ := maximize_on s p c mon hc hmon hm
    obtain ⟨s2, h2, hc2, -⟩ := maximize_off s1 p _ mon hc1
      ((resolveMonitor_congr s s1 e1 _).trans hmon) rfl
    exact ⟨s1, _, s2, _, h1, hc1, rfl, rfl, rfl, rfl, rfl, h2, hc2, rfl, rfl, rfl, rfl, rfl⟩
  · intro hinc h32
    obtain ⟨s1, h1, hc1, -, -, -, e1⟩ := maxvert_on s p c mon hc hmon hv hinc h32
    constructor
    · obtain ⟨s2, h2, hc2, -⟩ := maxvert_off s1 p _ mon hc1
        ((resolveMonitor_congr s s1 e1 _).trans hmon) rfl
      exact ⟨s1, _, s2, _, h1, hc1, rfl, h2, hc2, rfl, rfl, rfl, rfl, rfl⟩
    · obtain ⟨s2, h2, hc2, -, -, -, e2⟩ := maximize_on s1 p _ mon hc1
        ((resolveMonitor_congr s s1 e1 _).trans hmon) hm
      obtain ⟨s3, h3, hc3, -, -, -, e3⟩ := maximize_off s2 p _ mon hc2
        ((resolveMonitor_congr s s2 (e2.trans e1) _).trans hmon) rfl
      obtain ⟨s4, h4, hc4, -⟩ := maxvert_off s3 p _ mon hc3
        ((resolveMonitor_congr s s3 (e3.trans (e2.trans e1)) _).trans hmon) rfl
      exact ⟨s1, _, s2, s3, s4, _, h1, hc1, h2, h3, h4, hc4, rfl, rfl, rfl, rfl, rfl, rfl⟩

set_option maxRecDepth 4000 in
theorem maximize_round_trip_witness :
    (∃ s1 c1 s2 c2, maximize exFocused (some 1) = some s1 ∧ s1.client? 1 = some c1 ∧
      c1.x = (monrect exFocused.screen none).x ∧ c1.y = (monrect exFocused.screen none).y ∧
      c1.width = (monrect exFocused.screen none).width ∧
      c1.height = (monrect exFocused.screen none).height ∧
      c1.maxed = true ∧
      maximize s1 (some 1) = some s2 ∧ s2.client? 1 = some c2 ∧
      c2.x = ((exFocused.client? 1).get (by decide)).x ∧
      c2.y = ((exFocused.client? 1).get (by decide)).y ∧
      c2.width = ((exFocused.client? 1).get (by decide)).width ∧
      c2.height = ((exFocused.client? 1).get (by decide)).height ∧
      c2.maxed = false) ∧
    (((exFocused.client? 1).get (by decide)).height_inc ≠ 0 →
      isInt32 (toUInt16 ((monrect exFocused.screen none).height
          - exFocused.conf.borderwidth * 2)
        - ((exFocused.client? 1).get (by decide)).base_height) →
      (∃ s1 c1 s2 c2, maxvert exFocused (some 1) = some s1 ∧ s1.client? 1 = some c1 ∧
        c1.vertmaxed = true ∧
        maxvert s1 (some 1) = some s2 ∧ s2.client? 1 = some c2 ∧
        c2.x = ((exFocused.client? 1).get (by decide)).x ∧
        c2.y = ((exFocused.client? 1).get (by decide)).y ∧
        c2.width = ((exFocused.client? 1).get (by decide)).width ∧
        c2.height = ((exFocused.client? 1).get (by decide)).height ∧
        c2.vertmaxed = false) ∧
      (∃ s1 c1 s2 s3 s4 c4, maxvert exFocused (some 1) = some s1 ∧ s1.client? 1 = some c1 ∧
        maximize s1 (some 1) = some s2 ∧ maximize s2 (some 1) = some s3 ∧
        maxvert s3 (some 1) = some s4 ∧ s4.client? 1 = some c4 ∧
        c4.x = c1.x ∧ c4.y = c1.y ∧ c4.width = c1.width ∧ c4.height = c1.height ∧
        c4.maxed = false ∧ c4.vertmaxed = false)) :=
  maximize_round_trip exFocused 1 ((exFocused.client? 1).get (by decide)) none
    (Option.some_get _).symm (by decide) (by decide) (by decide)

set_option maxRecDepth 8000 in
/-- C37 (the code at the failing input): `maximize` inside `maxvert`.  Window 7
of 100 x 100 pixels at the origin of a root of 1920 x 1080 with border width 1
is neither maximized nor maximized vertically.  `maxvert` saves 100 x 100 in
`origsize` and makes the window 100 x 1078; `maximize` then overwrites
`origsize` with 100 x 1078 and makes the window 1920 x 1080; the second
`maximize` restores 100 x 1078 and leaves `vertmaxed` set, with `origsize`
holding the geometry the window has at that moment and not the original one;
the second `maxvert` therefore ends with a window of 100 x 1078 and not of
100 x 100, both flags being cleared. -/
theorem nested_maximize_loses_geometry :
    (exFocused.client? 1).map (fun c => (c.maxed, c.vertmaxed, geometry exFocused 1)) =
      some (false, false, some ⟨0, 0, 100, 100⟩) ∧
    (maxvert exFocused (some 1)).bind (fun s => (s.client? 1).map
      (fun c => (c.maxed, c.vertmaxed, c.origsize, geometry s 1))) =
      some (false, true, ⟨0, 0, 100, 100⟩, some ⟨0, 0, 100, 1078⟩) ∧
    ((maxvert exFocused (some 1)).bind (fun s => maximize s (some 1))).bind
      (fun s => (s.client? 1).map
        (fun c => (c.maxed, c.vertmaxed, c.origsize, geometry s 1))) =
      some (true, true, ⟨0, 0, 100, 1078⟩, some ⟨0, 0, 1920, 1080⟩) ∧
    (((maxvert exFocused (some 1)).bind (fun s => maximize s (some 1))).bind
      (fun s => maximize s (some 1))).bind (fun s => (s.client? 1).map
        (fun c => (c.maxed, c.vertmaxed, c.origsize, geometry s 1))) =
      some (false, true, ⟨0, 0, 100, 1078⟩, some ⟨0, 0, 100, 1078⟩) ∧
    ((((maxvert exFocused (some 1)).bind (fun s => maximize s (some 1))).bind
      (fun s => maximize s (some 1))).bind (fun s => maxvert s (some 1))).bind
      (fun s => (s.client? 1).map (fun c => (c.maxed, c.vertmaxed, geometry s 1))) =
      some (false, false, some ⟨0, 0, 100, 1078⟩) := by
  refine ⟨by decide, by decide, by decide, by decide, by decide⟩

set_option maxRecDepth 4000 in
/-- C38: mouse buttons in the tabbing mode.  Windows 7, 8 and 9 are on the
current workspace and window 7 has the focus.  A button is pressed over the
root window (the state stays as it is), then the tab key is pressed: the mode
is `MCWM_TABBING`, the focus is on window 8 and the last focus on window 7.  The
release of the button sets the mode to 0 although `finishtabbing` has not run:
the last focused window is still set and the list of the workspace is in its
old order, whereas the release of the modifier key clears the last focus and
moves the entries of windows 8 and 7 to the head.  A press of button 1 over
the focused window in the tabbing mode sets the mode to `MCWM_MOVE`, one of
button 3 to `MCWM_RESIZE`. -/
theorem button_leaves_tabbing :
    ((buttonPress exThree ⟨0, 0⟩ 1 0 none).bind
      (fun r => handle_keypress r.1 Key.KEY_TAB false)).map
      (fun s => (s.mode, s.focuswin, s.lastfocuswin, s.wslist 0))
      = some (MCWM_TABBING, some 3, some 1, [⟨2, 1⟩, ⟨4, 3⟩, ⟨6, 5⟩]) ∧
    ((buttonPress exThree ⟨0, 0⟩ 1 0 none).bind
      (fun r => (handle_keypress r.1 Key.KEY_TAB false).bind
        (fun s => buttonRelease s r.2))).map
      (fun s => (s.mode, s.focuswin, s.lastfocuswin, s.wslist 0))
      = some (0, some 3, some 1, [⟨2, 1⟩, ⟨4, 3⟩, ⟨6, 5⟩]) ∧
    ((buttonPress exThree ⟨0, 0⟩ 1 0 none).bind
      (fun r => (handle_keypress r.1 Key.KEY_TAB false).bind
        (fun s => keyRelease s 64))).map
      (fun s => (s.mode, s.focuswin, s.lastfocuswin, s.wslist 0))
      = some (0, some 3, none, [⟨4, 3⟩, ⟨2, 1⟩, ⟨6, 5⟩]) ∧
    exTabbing.mode = MCWM_TABBING ∧
    (buttonPress exTabbing ⟨0, 0⟩ 1 8 (some (5, 5))).map
      (fun r => (r.1.mode, r.1.lastfocuswin)) = some (MCWM_MOVE, some 1) ∧
    (buttonPress exTabbing ⟨0, 0⟩ 3 8 (some (5, 5))).map
      (fun r => (r.1.mode, r.1.lastfocuswin)) = some (MCWM_RESIZE, some 1) := by
  refine ⟨by decide, by decide, by decide, by decide, by decide, by decide⟩

end Mcwm
